import Mathlib

/-!
# Multithreaded acquire-and-save pipeline (Arena SDK examples)

A shallow embedding of the producer/consumer pipeline of
`Cpp_Acquisition_MultithreadedAcquisitionAndSave.cpp` (namespace `ArenaCpp`) and of
`C_Acquisition_MultithreadedAcquisitionAndSave.c` (namespace `ArenaC`).

The camera, the image factory and the image writer are external: they are taken as a
record of functions (`SDK`), a call that fails returning `none` / `false`.
Each worker is a small-step machine over a program counter.  A step touches the shared
variables (queue, `isCompleted`, condition variable) at most once, and everything a
worker does between a lock and its unlock is inside one step, so the mutex is
modelled by the atomicity of steps.  Interleavings are lists of `Tick`s; every worker
keeps a log of the calls it made, in program order.  The function `main` of each
variant, and `Threads` of the C variant, are given on top of the runs of the workers.

Two further pieces of the repository are embedded on their own: `generateNewIp` and
`checkConnection` of the `IpConfig_Auto` examples (namespace `IpConfigAuto`), and the
class `CValuePolyContainer` of GenApi (namespace `GenApi`).
-/

/-- Valid (non-null) image handle, as handed out by the device or the image factory. -/
abbrev Handle := Nat

/-- Raw pixel bytes of an image. -/
abbrev Data := List Nat

/-- Pixel formats (`PfncFormat`); only the target format matters here. -/
inductive PixelFormat where
  | Mono8
  | RGB8
  | BGR8
  deriving DecidableEq, Repr

/-- One scheduling decision: the producer thread runs, the consumer thread runs, or
the condition variable wakes its waiter spuriously. -/
inductive Tick where
  | prod
  | cons
  | spurious
  deriving DecidableEq, Repr

/-- Names of the device nodes the producer touches. -/
inductive Node where
  | AcquisitionMode
  | StreamBufferHandlingMode
  | StreamAutoNegotiatePacketSize
  | StreamPacketResendEnable
  deriving DecidableEq, Repr

/-- Values of the device nodes the producer touches, and whether the stream runs. -/
structure Nodes where
  AcquisitionMode : String
  StreamBufferHandlingMode : String
  StreamAutoNegotiatePacketSize : Bool
  StreamPacketResendEnable : Bool
  streaming : Bool
  deriving DecidableEq, Repr

/-- One entry of a worker's log: a call with its arguments and its result (`none` or
`false`: the call failed), or an access to a shared variable.  A pointer argument is
an `Option Handle`, `none` being the null pointer. -/
inductive Event where
  | getNodeMap (ok : Bool)
  | getTLStreamNodeMap (ok : Bool)
  | getNode (n : Node) (r : Option String)
  | setNode (n : Node) (v : String) (ok : Bool)
  | setBool (n : Node) (v : Bool) (ok : Bool)
  | startStream (ok : Bool)
  | stopStream (ok : Bool)
  | getImage (i : Nat) (timeout : Nat) (r : Option Handle)
  | copy (src : Option Handle) (r : Option Handle)
  | requeue (h : Option Handle) (ok : Bool)
  | lock
  | unlock
  | enqueue (h : Option Handle) (ok : Bool)
  | setCompleted
  | wait
  | dequeue (h : Option Handle)
  | setLocalComplete
  | notify
  | convert (src : Option Handle) (fmt : PixelFormat) (r : Option Handle)
  | getWidth (h : Option Handle) (r : Option Nat)
  | getHeight (h : Option Handle) (r : Option Nat)
  | getBitsPerPixel (h : Option Handle) (r : Option Nat)
  | imageWriter (width height bpp : Nat) (path : String) (ok : Bool)
  | writerCreate (width height bpp : Nat) (ok : Bool)
  | setFileName (path : String) (ok : Bool)
  | getData (h : Option Handle) (r : Option Data)
  | save (path : Option String) (data : Option Data) (ok : Bool)
  | writerDestroy (ok : Bool)
  | destroy (h : Option Handle) (ok : Bool)
  | exitThreads
  deriving DecidableEq, Repr

namespace Event

/-- The call of this entry failed. -/
def failed : Event → Bool
  | getNodeMap ok => !ok
  | getTLStreamNodeMap ok => !ok
  | getNode _ r => r.isNone
  | setNode _ _ ok => !ok
  | setBool _ _ ok => !ok
  | startStream ok => !ok
  | stopStream ok => !ok
  | getImage _ _ r => r.isNone
  | copy _ r => r.isNone
  | requeue _ ok => !ok
  | enqueue _ ok => !ok
  | convert _ _ r => r.isNone
  | getWidth _ r => r.isNone
  | getHeight _ r => r.isNone
  | getBitsPerPixel _ r => r.isNone
  | imageWriter _ _ _ _ ok => !ok
  | writerCreate _ _ _ ok => !ok
  | setFileName _ ok => !ok
  | getData _ r => r.isNone
  | save _ _ ok => !ok
  | writerDestroy ok => !ok
  | destroy _ ok => !ok
  | _ => false

/-- The handle a successful enqueue put into the queue. -/
def pushed? : Event → Option (Option Handle)
  | enqueue h true => some h
  | _ => none

/-- The handle a dequeue took out of the queue. -/
def popped? : Event → Option (Option Handle)
  | dequeue h => some h
  | _ => none

/-- Path and data of a call of the image writer. -/
def saved? : Event → Option (Option String × Option Data)
  | save path data _ => some (path, data)
  | _ => none

/-- Path of a call of the image writer that succeeded: a file written. -/
def file? : Event → Option String
  | save (some path) _ true => some path
  | _ => none

/-- Index and result of a `GetImage` call. -/
def acquired? : Event → Option (Nat × Option Handle)
  | getImage i _ r => some (i, r)
  | _ => none

/-- Source of a `Copy` call. -/
def copied? : Event → Option (Option Handle)
  | copy src _ => some src
  | _ => none

end Event

/-- Effect of a logged call on the device nodes. -/
def Nodes.apply (nd : Nodes) : Event → Nodes
  | .setNode .AcquisitionMode v true => { nd with AcquisitionMode := v }
  | .setNode .StreamBufferHandlingMode v true => { nd with StreamBufferHandlingMode := v }
  | .setBool .StreamAutoNegotiatePacketSize v true =>
    { nd with StreamAutoNegotiatePacketSize := v }
  | .setBool .StreamPacketResendEnable v true => { nd with StreamPacketResendEnable := v }
  | .startStream true => { nd with streaming := true }
  | .stopStream true => { nd with streaming := false }
  | _ => nd

/-- Straight-line code whose calls throw on failure: the calls are made in order up to
and including the first one that fails. -/
def attempt : List Event → List Event
  | [] => []
  | e :: es => if e.failed then [e] else e :: attempt es

/-- `i == NUM_IMAGES - 1` on `int`s: with `NUM_IMAGES = 0` the right-hand side is
`-1`. -/
def isLast (i NUM_IMAGES : Nat) : Bool :=
  (i : Int) == (NUM_IMAGES : Int) - 1

/-! ## Reading a log -/

/-- The handles put into the queue, in order. -/
def pushed (log : List Event) : List (Option Handle) :=
  log.filterMap Event.pushed?

/-- The handles taken out of the queue, in order. -/
def popped (log : List Event) : List (Option Handle) :=
  log.filterMap Event.popped?

/-- Path and data of the calls of the image writer, in order. -/
def saves (log : List Event) : List (Option String × Option Data) :=
  log.filterMap Event.saved?

/-- The files written, in order. -/
def files (log : List Event) : List String :=
  log.filterMap Event.file?

/-- The `GetImage` calls, in order. -/
def acquisitions (log : List Event) : List (Nat × Option Handle) :=
  log.filterMap Event.acquired?

/-- The log without the entries of blocking on the condition variable. -/
def noWait (log : List Event) : List Event :=
  log.filter (fun e => !(e matches .wait))

/-- No call of the log failed. -/
def noFailure (log : List Event) : Bool :=
  log.all (fun e => !e.failed)

/-- The source handles of the `Convert` calls, in order. -/
def conversions (log : List Event) : List (Option Handle) :=
  log.filterMap (fun e => match e with
    | .convert src _ _ => some src
    | _ => none)

/-- An access to the queue, the completion flags, the lock or the condition variable,
as opposed to a call of the SDK. -/
def Event.isSync : Event → Bool
  | .lock => true
  | .unlock => true
  | .enqueue _ _ => true
  | .setCompleted => true
  | .wait => true
  | .dequeue _ => true
  | .setLocalComplete => true
  | .notify => true
  | _ => false

/-- The calls of a log: its entries other than the accesses to shared variables. -/
def calls (log : List Event) : List Event :=
  log.filter (fun e => !e.isSync)


/-! ## Reading a log: the handles of the image factory -/

/-- The handle a call of the image factory returned: the result of a `Copy` or of a
`Convert` that succeeded. -/
def Event.created? : Event → Option Handle
  | .copy _ (some r) => some r
  | .convert _ _ (some r) => some r
  | _ => none

/-- The argument of a `Destroy` call. -/
def Event.destroyed? : Event → Option (Option Handle)
  | .destroy h _ => some h
  | _ => none

/-- A call of the image writer or of `Destroy`. -/
def Event.disposal? : Event → Option Event
  | .save path data ok => some (.save path data ok)
  | .destroy h ok => some (.destroy h ok)
  | _ => none

/-- The handles the image factory handed out, in order. -/
def created (log : List Event) : List Handle :=
  log.filterMap Event.created?

/-- The arguments of the `Destroy` calls, in order. -/
def destroyed (log : List Event) : List (Option Handle) :=
  log.filterMap Event.destroyed?

/-- The calls of the image writer and of `Destroy`, in order. -/
def disposals (log : List Event) : List Event :=
  log.filterMap Event.disposal?

/-! ## Reading a log: critical sections, transfers of images, configuration -/

/-- Whether the thread holds the mutex after the entry, given whether it held it
before. -/
def Event.held (e : Event) (before : Bool) : Bool :=
  match e with
  | .lock => true
  | .unlock => false
  | _ => before

/-- Whether the thread holds the mutex at the end of the log. -/
def lockedAfter (before : Bool) (log : List Event) : Bool :=
  log.foldl (fun h e => e.held h) before

/-- The entries of the log made with the mutex held: what lies between a `lock` and
the next `unlock`. -/
def underLock : Bool → List Event → List Event
  | _, [] => []
  | before, e :: es =>
    (if before && e.held before then [e] else []) ++ underLock (e.held before) es

/-- What the producer does to the shared variables: it enqueues and sets
`isCompleted`. -/
def Event.isProducerShared : Event → Bool
  | .enqueue _ _ => true
  | .setCompleted => true
  | _ => false

/-- What the consumer does to the shared variables: it waits on the condition
variable, dequeues, and reads `isCompleted` into its local flag. -/
def Event.isConsumerShared : Event → Bool
  | .wait => true
  | .dequeue _ => true
  | .setLocalComplete => true
  | _ => false

/-- A step of the way of an image through the producer: `GetImage`, `Copy`, the
enqueue, `RequeueBuffer`. -/
def Event.isTransfer : Event → Bool
  | .getImage _ _ _ => true
  | .copy _ _ => true
  | .enqueue _ _ => true
  | .requeue _ _ => true
  | _ => false

/-- The steps of the images through the producer, in order. -/
def transfers (log : List Event) : List Event :=
  log.filter Event.isTransfer

/-- A `GetImage` call. -/
def Event.isGetImage : Event → Bool
  | .getImage _ _ _ => true
  | _ => false

/-- A `Copy` call. -/
def Event.isCopy : Event → Bool
  | .copy _ _ => true
  | _ => false

/-- An enqueue. -/
def Event.isEnqueue : Event → Bool
  | .enqueue _ _ => true
  | _ => false

/-- A `RequeueBuffer` call. -/
def Event.isRequeue : Event → Bool
  | .requeue _ _ => true
  | _ => false

/-- The images go through the producer one at a time: no more images were requeued
than copies enqueued, no more copies enqueued than made, no more copies made than
images fetched, and at most one image fetched is not yet requeued. -/
def OneAtATime (log : List Event) : Prop :=
  log.countP Event.isRequeue ≤ log.countP Event.isEnqueue ∧
  log.countP Event.isEnqueue ≤ log.countP Event.isCopy ∧
  log.countP Event.isCopy ≤ log.countP Event.isGetImage ∧
  log.countP Event.isGetImage ≤ log.countP Event.isRequeue + 1
namespace ArenaCpp

/-! ## Cpp variant: `Cpp_Acquisition_MultithreadedAcquisitionAndSave.cpp` -/

/-- Image timeout in milliseconds. -/
def TIMEOUT : Nat := 2000

/-- Number of images to acquire and save, as set in the source. -/
def NUM_IMAGES : Nat := 10

/-- Target pixel format. -/
def PIXEL_FORMAT : PixelFormat := .BGR8

/-- File name. -/
def FILE_NAME : String := "Images/Cpp_Acquisition_MultithreadedAcquisitionAndSave/image"

/-- File type. -/
def FILE_TYPE : String := ".png"

/-- The external collaborators (device, image factory, image writer).  `none` /
`false` is a call that throws. `GetImage k t` is the `k`-th call (from 0) of
`pDevice->GetImage(t)`. -/
structure SDK where
  GetNodeValue : Node → Bool
  SetNodeValue : Node → String → Bool
  SetNodeValueBool : Node → Bool → Bool
  StartStream : Bool
  StopStream : Bool
  GetImage : Nat → Nat → Option Handle
  Copy : Handle → Option Handle
  RequeueBuffer : Handle → Bool
  Convert : Handle → PixelFormat → Option Handle
  GetWidth : Handle → Nat
  GetHeight : Handle → Nat
  GetBitsPerPixel : Handle → Nat
  GetData : Handle → Data
  ImageWriter : Nat → Nat → Nat → String → Bool
  Save : String → Data → Bool
  Destroy : Handle → Bool

/-- Program counter of the producer `AcquireImages`. -/
inductive PPc where
  /-- Before line 82. -/
  | setup
  /-- Top of the body of loop iteration `i` (line 118). -/
  | acquire (i : Nat)
  /-- After the critical section of iteration `i` (line 142), `pImage` still held. -/
  | release (i : Nat) (pImage : Handle)
  /-- After the loop (line 150). -/
  | teardown
  /-- The function has returned. -/
  | returned
  /-- An exception left the function. -/
  | threw
  deriving DecidableEq, Repr

/-- Program counter of the consumer `SaveImages`. -/
inductive CPc where
  /-- Inside the loop, before the lock is taken (line 178). -/
  | lockWait
  /-- Blocked in `cv.wait`, the lock released. -/
  | waiting
  /-- Woken up inside `cv.wait`: the predicate is evaluated again. -/
  | woken
  /-- After the critical section (line 197), `pCopy` dequeued. -/
  | process (pCopy : Handle)
  /-- The function has returned. -/
  | returned
  /-- An exception left the function. -/
  | threw
  deriving DecidableEq, Repr

/-- Global state of the pipeline: shared variables, device, and the locals and log
of each worker. -/
structure State where
  /-- The queue `m_queue`, front first. -/
  m_queue : List Handle
  isCompleted : Bool
  nodes : Nodes
  ppc : PPc
  acquisitionModeInitial : String
  plog : List Event
  cpc : CPc
  i : Nat
  localComplete : Bool
  clog : List Event
  deriving DecidableEq, Repr

/-- State at the start of `main`'s example run: empty queue, `isCompleted = false`,
consumer at `int i = 0; bool localComplete = false;`. -/
def init (nodes : Nodes) : State :=
  { m_queue := [], isCompleted := false, nodes := nodes, ppc := .setup,
    acquisitionModeInitial := "", plog := [], cpc := .lockWait, i := 0,
    localComplete := false, clog := [] }

/-- The calls of lines 82-111, with the results the SDK gives them. -/
def setupCalls (sdk : SDK) (nd : Nodes) : List Event :=
  [ .getNode .AcquisitionMode
      (if sdk.GetNodeValue .AcquisitionMode then some nd.AcquisitionMode else none),
    .setNode .AcquisitionMode "Continuous" (sdk.SetNodeValue .AcquisitionMode "Continuous"),
    .setNode .StreamBufferHandlingMode "NewestOnly"
      (sdk.SetNodeValue .StreamBufferHandlingMode "NewestOnly"),
    .setBool .StreamAutoNegotiatePacketSize true
      (sdk.SetNodeValueBool .StreamAutoNegotiatePacketSize true),
    .setBool .StreamPacketResendEnable true
      (sdk.SetNodeValueBool .StreamPacketResendEnable true),
    .startStream sdk.StartStream ]

/-- The calls of lines 152-155. -/
def teardownCalls (sdk : SDK) (acquisitionModeInitial : String) : List Event :=
  [ .stopStream sdk.StopStream,
    .setNode .AcquisitionMode acquisitionModeInitial
      (sdk.SetNodeValue .AcquisitionMode acquisitionModeInitial) ]

/-- Lines 82-116: snapshot, configuration, `StartStream`, first loop test. -/
def AcquireImages.setup (sdk : SDK) (N : Nat) (s : State) : State :=
  { s with
    acquisitionModeInitial := s.nodes.AcquisitionMode
    nodes := (attempt (setupCalls sdk s.nodes)).foldl Nodes.apply s.nodes
    plog := s.plog ++ attempt (setupCalls sdk s.nodes)
    ppc := if (setupCalls sdk s.nodes).any Event.failed then .threw
      else if 0 < N then .acquire 0 else .teardown }

/-- Lines 118-141 of iteration `i`: `GetImage`, `Copy`, and the critical section
(push, and `isCompleted = true` in the last iteration). -/
def AcquireImages.acquire (sdk : SDK) (N : Nat) (i : Nat) (s : State) : State :=
  match sdk.GetImage i TIMEOUT with
  | none => { s with ppc := .threw, plog := s.plog ++ [.getImage i TIMEOUT none] }
  | some pImage =>
    match sdk.Copy pImage with
    | none =>
      { s with
        ppc := .threw
        plog := s.plog ++ [.getImage i TIMEOUT (some pImage), .copy (some pImage) none] }
    | some pCopy =>
      { s with
        m_queue := s.m_queue ++ [pCopy]
        isCompleted := if isLast i N then true else s.isCompleted
        ppc := .release i pImage
        plog := s.plog ++
          [.getImage i TIMEOUT (some pImage), .copy (some pImage) (some pCopy), .lock,
            .enqueue (some pCopy) true] ++
          (if isLast i N then [.setCompleted] else []) ++ [.unlock] }

/-- Lines 143-148 of iteration `i`: `cv.notify_one()`, `RequeueBuffer`, then `i++` and
the loop test. -/
def AcquireImages.release (sdk : SDK) (N : Nat) (i : Nat) (pImage : Handle)
    (s : State) : State :=
  { s with
    cpc := if s.cpc = .waiting then .woken else s.cpc
    plog := s.plog ++ [.notify, .requeue (some pImage) (sdk.RequeueBuffer pImage)]
    ppc := if !sdk.RequeueBuffer pImage then .threw
      else if i + 1 < N then .acquire (i + 1) else .teardown }

/-- Lines 150-156: `StopStream` and the restore of `AcquisitionMode`. -/
def AcquireImages.teardown (sdk : SDK) (s : State) : State :=
  { s with
    nodes := (attempt (teardownCalls sdk s.acquisitionModeInitial)).foldl Nodes.apply s.nodes
    plog := s.plog ++ attempt (teardownCalls sdk s.acquisitionModeInitial)
    ppc := if (teardownCalls sdk s.acquisitionModeInitial).any Event.failed then .threw
      else .returned }

/-- One step of the producer `AcquireImages(pDevice)` with `NUM_IMAGES = N`. -/
def AcquireImages (sdk : SDK) (N : Nat) (s : State) : State :=
  match s.ppc with
  | .setup => AcquireImages.setup sdk N s
  | .acquire i => AcquireImages.acquire sdk N i s
  | .release i pImage => AcquireImages.release sdk N i pImage s
  | .teardown => AcquireImages.teardown sdk s
  | .returned => s
  | .threw => s

/-- Lines 184-194, the lock held and the wait over: `front`, `pop`, and the test of
the new size and `isCompleted`.  `pre` is what the consumer logged on entry.  (On an
empty queue `front()` has no defined result; the step is then left out.) -/
def SaveImages.critical (pre : List Event) (s : State) : State :=
  match s.m_queue with
  | [] => s
  | pCopy :: rest =>
    { s with
      m_queue := rest
      localComplete :=
        if rest.length == 0 && s.isCompleted then s.isCompleted else s.localComplete
      cpc := .process pCopy
      clog := s.clog ++ pre ++ [.dequeue (some pCopy)] ++
        (if rest.length == 0 && s.isCompleted then [.setLocalComplete] else []) ++
        [.unlock] }

/-- The name of the `i`-th file (line 214). -/
def fileName (i : Nat) : String :=
  FILE_NAME ++ toString i ++ FILE_TYPE

/-- The calls of lines 199-227 for image number `i`. -/
def processCalls (sdk : SDK) (i : Nat) (pCopy : Handle) : List Event :=
  match sdk.Convert pCopy PIXEL_FORMAT with
  | none => [.convert (some pCopy) PIXEL_FORMAT none]
  | some pConverted =>
    [ .convert (some pCopy) PIXEL_FORMAT (some pConverted),
      .getWidth (some pConverted) (some (sdk.GetWidth pConverted)),
      .getHeight (some pConverted) (some (sdk.GetHeight pConverted)),
      .getBitsPerPixel (some pConverted) (some (sdk.GetBitsPerPixel pConverted)),
      .imageWriter (sdk.GetWidth pConverted) (sdk.GetHeight pConverted)
        (sdk.GetBitsPerPixel pConverted) (fileName i)
        (sdk.ImageWriter (sdk.GetWidth pConverted) (sdk.GetHeight pConverted)
          (sdk.GetBitsPerPixel pConverted) (fileName i)),
      .getData (some pConverted) (some (sdk.GetData pConverted)),
      .save (some (fileName i)) (some (sdk.GetData pConverted))
        (sdk.Save (fileName i) (sdk.GetData pConverted)),
      .destroy (some pConverted) (sdk.Destroy pConverted),
      .destroy (some pCopy) (sdk.Destroy pCopy) ]

/-- Lines 199-230: convert, save, destroy, `i++`, and the loop test. -/
def SaveImages.process (sdk : SDK) (pCopy : Handle) (s : State) : State :=
  { s with
    clog := s.clog ++ attempt (processCalls sdk s.i pCopy)
    i := if (processCalls sdk s.i pCopy).any Event.failed then s.i else s.i + 1
    cpc := if (processCalls sdk s.i pCopy).any Event.failed then .threw
      else if s.localComplete then .returned else .lockWait }

/-- One step of the consumer `SaveImages()`. -/
def SaveImages (sdk : SDK) (s : State) : State :=
  match s.cpc with
  | .lockWait =>
    if s.m_queue.length > 0 then SaveImages.critical [.lock] s
    else { s with cpc := .waiting, clog := s.clog ++ [.lock, .wait] }
  | .woken =>
    if s.m_queue.length > 0 then SaveImages.critical [] s
    else { s with cpc := .waiting, clog := s.clog ++ [.wait] }
  | .process pCopy => SaveImages.process sdk pCopy s
  | .waiting => s
  | .returned => s
  | .threw => s

/-- One step of the pipeline. -/
def step (sdk : SDK) (N : Nat) (t : Tick) (s : State) : State :=
  match t with
  | .prod => AcquireImages sdk N s
  | .cons => SaveImages sdk s
  | .spurious => if s.cpc = .waiting then { s with cpc := .woken } else s

/-- The state an interleaving leads to. -/
def run (sdk : SDK) (N : Nat) (sched : List Tick) (s : State) : State :=
  sched.foldl (fun s t => step sdk N t s) s

/-- Both workers have returned. -/
def State.finished (s : State) : Bool :=
  s.ppc = .returned && s.cpc = .returned

end ArenaCpp

namespace ArenaC

/-! ## C variant: `C_Acquisition_MultithreadedAcquisitionAndSave.c` -/

/-- Image timeout in milliseconds. -/
def IMAGE_TIMEOUT : Nat := 5000

/-- Number of images to grab, as set in the source. -/
def NUM_IMAGES : Nat := 25

/-- Maximum buffer length. -/
def MAX_BUF : Nat := 512

/-- File name. -/
def FILE_NAME : String := "Images/C_Acquisition_MultithreadedAcquisitionAndSave/image"

/-- File type. -/
def FILE_TYPE : String := ".png"

/-- Target pixel format (`PFNC_BGR8`). -/
def PIXEL_FORMAT : PixelFormat := .BGR8

/-- An `acBuffer` is a pointer: `none` is `NULL`. -/
abbrev acBuffer := Option Handle

/-- The null pointer. -/
def NULL : acBuffer := none

/-- The chain of `node_t` reachable from `head`: the `val` of each node, first node
first; `[]` is `head == NULL`. -/
abbrev node_t := List acBuffer

/-- `enqueue(&head, val)`: a new node is linked in front of the list; when `malloc`
fails the function returns without touching the list. -/
def enqueue (head : node_t) (val : acBuffer) (mallocOk : Bool) : node_t :=
  if !mallocOk then head else val :: head

/-- `dequeue(&head)`: `NULL` on an empty list; otherwise walks to the last node
(`while (current->next != NULL)`), returns its value and unlinks it. -/
def dequeue : node_t → acBuffer × node_t
  | [] => (NULL, [])
  | [v] => (v, [])
  | v :: w :: rest => ((dequeue (w :: rest)).1, v :: (dequeue (w :: rest)).2)

/-- `isEmpty(&head)`. -/
def isEmpty (head : node_t) : Bool :=
  head.isEmpty

/-- The values `xs` enqueued one after the other, every allocation succeeding. -/
def enqueueAll (head : node_t) (xs : List acBuffer) : node_t :=
  xs.foldl (fun h x => enqueue h x true) head

/-- The results of `n` successive `dequeue` calls, and the list they leave. -/
def dequeueN : Nat → node_t → List acBuffer × node_t
  | 0, head => ([], head)
  | n + 1, head =>
    ((dequeue head).1 :: (dequeueN n (dequeue head).2).1, (dequeueN n (dequeue head).2).2)

/-- Access modes of a node (`AC_ACCESS_MODE`). -/
inductive AccessMode where
  | NI
  | NA
  | WO
  | RO
  | RW
  deriving DecidableEq, Repr

/-- The external collaborators (allocator, device, image factory, image writer).
`none` / `false` is a call that returns an error code, its output parameter left as
it was.  `malloc k` is the `k`-th allocation of a queue node, `acDeviceGetBuffer k t`
the `k`-th call (from 0) with timeout `t`.  The functions take valid handles; a call
that is handed `NULL` fails. -/
structure SDK where
  malloc : Nat → Bool
  acDeviceGetNodeMap : Bool
  acDeviceGetTLStreamNodeMap : Bool
  acNodeMapGetNodeAndAccessMode : Node → Option AccessMode
  acValueToString : Node → Bool
  acValueFromString : Node → String → Bool
  acNodeMapSetBooleanValue : Node → Bool → Bool
  acDeviceStartStream : Bool
  acDeviceStopStream : Bool
  acDeviceGetBuffer : Nat → Nat → Option Handle
  acImageFactoryCopy : Handle → Option Handle
  acDeviceRequeueBuffer : Handle → Bool
  acImageFactoryConvert : Handle → PixelFormat → Option Handle
  acImageGetWidth : Handle → Nat
  acImageGetHeight : Handle → Nat
  acImageGetBitsPerPixel : Handle → Nat
  acImageGetData : Handle → Data
  saveWriterCreate : Nat → Nat → Nat → Bool
  saveWriterSetFileNamePattern : String → Bool
  saveWriterSave : Option String → Data → Bool
  saveWriterDestroy : Bool
  acImageFactoryDestroy : Handle → Bool

/-- `GetNodeValue(hNodeMap, nodeName, pValue, pLen)` (lines 132-151): the node and
its access mode are fetched, the mode must be `RO` or `RW`, the value is read.
`hNodeMap` tells whether the node map handle is valid, `cur` is the node's value. -/
def GetNodeValue (sdk : SDK) (hNodeMap : Bool) (n : Node) (cur : String) : Option String :=
  if !hNodeMap then none
  else
    match sdk.acNodeMapGetNodeAndAccessMode n with
    | none => none
    | some accessMode =>
      if accessMode ≠ .RO ∧ accessMode ≠ .RW then none
      else if sdk.acValueToString n then some cur else none

/-- `SetNodeValue(hNodeMap, nodeName, pValue)` (lines 157-176): the node and its
access mode are fetched, the mode must be `WO` or `RW`, the value is written. -/
def SetNodeValue (sdk : SDK) (hNodeMap : Bool) (n : Node) (v : String) : Bool :=
  if !hNodeMap then false
  else
    match sdk.acNodeMapGetNodeAndAccessMode n with
    | none => false
    | some accessMode =>
      if accessMode ≠ .WO ∧ accessMode ≠ .RW then false
      else sdk.acValueFromString n v

/-- `if (err != AC_ERR_SUCCESS) exitThreads(err);` after a call: `exitThreads` wakes
the condition variable and returns `err` to its caller, which goes on. -/
def checked (e : Event) : List Event :=
  if e.failed then [e, .exitThreads] else [e]

/-- Program counter of the producer `AcquireImages`. -/
inductive PPc where
  /-- Before line 195. -/
  | setup
  /-- Top of the body of loop iteration `i` (line 254). -/
  | acquire (i : Nat)
  /-- After the critical section of iteration `i` (line 284), `hBuffer` still held. -/
  | release (i : Nat) (hBuffer : acBuffer)
  /-- After the loop (line 294). -/
  | teardown
  /-- The thread function has returned. -/
  | returned
  deriving DecidableEq, Repr

/-- Program counter of the consumer `SaveImage`. -/
inductive CPc where
  /-- Top of the loop body (line 328). -/
  | top
  /-- Blocked in `acThreadConditionVariableSleep`, the lock released. -/
  | sleeping
  /-- Woken up inside `acThreadConditionVariableSleep`. -/
  | woken
  /-- After the critical section (line 357), `hCopyBuffer` as the dequeue left it. -/
  | process (hCopyBuffer : acBuffer)
  /-- The thread function has returned. -/
  | returned
  deriving DecidableEq, Repr

/-- Global state of the pipeline: shared variables, device, and the locals and log
of each worker. -/
structure State where
  /-- The list `head`: newest node first. -/
  head : node_t
  isCompleted : Bool
  nodes : Nodes
  ppc : PPc
  pAcquisitionModeInitial : String
  plog : List Event
  cpc : CPc
  i : Nat
  isComplete : Bool
  clog : List Event
  deriving DecidableEq, Repr

/-- State when `Threads` creates the two threads: `head = NULL`,
`isCompleted = false`, consumer at `bool isComplete = false; int i = 0;`. -/
def init (nodes : Nodes) : State :=
  { head := [], isCompleted := false, nodes := nodes, ppc := .setup,
    pAcquisitionModeInitial := "", plog := [], cpc := .top, i := 0,
    isComplete := false, clog := [] }

/-- `acThreadConditionVariableWake(&cv)`: a consumer asleep on `cv` is woken. -/
def wake (c : CPc) : CPc :=
  if c = .sleeping then .woken else c

/-- The calls of lines 195-246, with the results the SDK gives them. -/
def setupCalls (sdk : SDK) (nd : Nodes) : List Event :=
  [ .getNodeMap sdk.acDeviceGetNodeMap,
    .getNode .AcquisitionMode
      (GetNodeValue sdk sdk.acDeviceGetNodeMap .AcquisitionMode nd.AcquisitionMode),
    .setNode .AcquisitionMode "Continuous"
      (SetNodeValue sdk sdk.acDeviceGetNodeMap .AcquisitionMode "Continuous"),
    .getTLStreamNodeMap sdk.acDeviceGetTLStreamNodeMap,
    .setNode .StreamBufferHandlingMode "NewestOnly"
      (SetNodeValue sdk sdk.acDeviceGetTLStreamNodeMap .StreamBufferHandlingMode "NewestOnly"),
    .setBool .StreamAutoNegotiatePacketSize true
      (sdk.acDeviceGetTLStreamNodeMap &&
        sdk.acNodeMapSetBooleanValue .StreamAutoNegotiatePacketSize true),
    .setBool .StreamPacketResendEnable true
      (sdk.acDeviceGetTLStreamNodeMap &&
        sdk.acNodeMapSetBooleanValue .StreamPacketResendEnable true),
    .startStream sdk.acDeviceStartStream ]

/-- The calls of lines 297-305. -/
def teardownCalls (sdk : SDK) (pAcquisitionModeInitial : String) : List Event :=
  [ .stopStream sdk.acDeviceStopStream,
    .setNode .AcquisitionMode pAcquisitionModeInitial
      (SetNodeValue sdk sdk.acDeviceGetNodeMap .AcquisitionMode pAcquisitionModeInitial) ]

/-- Lines 189-252: node maps, snapshot, configuration, start of the stream, first
loop test.  The snapshot buffer keeps the value read, or what it held when the read
failed. -/
def AcquireImages.setup (sdk : SDK) (N : Nat) (s : State) : State :=
  { s with
    pAcquisitionModeInitial :=
      (GetNodeValue sdk sdk.acDeviceGetNodeMap .AcquisitionMode s.nodes.AcquisitionMode).getD
        s.pAcquisitionModeInitial
    nodes := (setupCalls sdk s.nodes).foldl Nodes.apply s.nodes
    plog := s.plog ++ (setupCalls sdk s.nodes).flatMap checked
    cpc := if (setupCalls sdk s.nodes).any Event.failed then wake s.cpc else s.cpc
    ppc := if 0 < N then .acquire 0 else .teardown }

/-- The calls of lines 254-283 of iteration `i`. -/
def acquireCalls (sdk : SDK) (N : Nat) (i : Nat) : List Event :=
  checked (.getImage i IMAGE_TIMEOUT (sdk.acDeviceGetBuffer i IMAGE_TIMEOUT)) ++
  checked (.copy (sdk.acDeviceGetBuffer i IMAGE_TIMEOUT)
    ((sdk.acDeviceGetBuffer i IMAGE_TIMEOUT).bind sdk.acImageFactoryCopy)) ++
  [.lock,
    .enqueue ((sdk.acDeviceGetBuffer i IMAGE_TIMEOUT).bind sdk.acImageFactoryCopy)
      (sdk.malloc i)] ++
  (if isLast i N then [.setCompleted] else []) ++ [.unlock]

/-- Lines 254-283 of iteration `i`: `acDeviceGetBuffer`, `acImageFactoryCopy`, and the
critical section (enqueue, and `isCompleted = true` in the last iteration). -/
def AcquireImages.acquire (sdk : SDK) (N : Nat) (i : Nat) (s : State) : State :=
  { s with
    head := enqueue s.head ((sdk.acDeviceGetBuffer i IMAGE_TIMEOUT).bind sdk.acImageFactoryCopy)
      (sdk.malloc i)
    isCompleted := if isLast i N then true else s.isCompleted
    plog := s.plog ++ acquireCalls sdk N i
    cpc := if ((sdk.acDeviceGetBuffer i IMAGE_TIMEOUT).bind sdk.acImageFactoryCopy).isNone
      then wake s.cpc else s.cpc
    ppc := .release i (sdk.acDeviceGetBuffer i IMAGE_TIMEOUT) }

/-- Lines 285-293 of iteration `i`: wake of the condition variable,
`acDeviceRequeueBuffer`, then `i++` and the loop test. -/
def AcquireImages.release (sdk : SDK) (N : Nat) (i : Nat) (hBuffer : acBuffer)
    (s : State) : State :=
  { s with
    cpc := wake s.cpc
    plog := s.plog ++ [.notify] ++
      checked (.requeue hBuffer (hBuffer.any sdk.acDeviceRequeueBuffer))
    ppc := if i + 1 < N then .acquire (i + 1) else .teardown }

/-- Lines 294-308: stop of the stream, restore of `AcquisitionMode`, return; the
result of the restore is the thread's return value, `exitThreads` is not called. -/
def AcquireImages.teardown (sdk : SDK) (s : State) : State :=
  { s with
    nodes := (teardownCalls sdk s.pAcquisitionModeInitial).foldl Nodes.apply s.nodes
    plog := s.plog ++ checked (.stopStream sdk.acDeviceStopStream) ++
      [.setNode .AcquisitionMode s.pAcquisitionModeInitial
        (SetNodeValue sdk sdk.acDeviceGetNodeMap .AcquisitionMode s.pAcquisitionModeInitial)]
    cpc := if sdk.acDeviceStopStream then s.cpc else wake s.cpc
    ppc := .returned }

/-- One step of the producer thread `AcquireImages` with `NUM_IMAGES = N`. -/
def AcquireImages (sdk : SDK) (N : Nat) (s : State) : State :=
  match s.ppc with
  | .setup => AcquireImages.setup sdk N s
  | .acquire i => AcquireImages.acquire sdk N i s
  | .release i hBuffer => AcquireImages.release sdk N i hBuffer s
  | .teardown => AcquireImages.teardown sdk s
  | .returned => s

/-- Lines 339-356, entered with `pre` already logged: dequeue when the queue is not
empty, then the test of the queue and `isCompleted`. -/
def SaveImage.critical (pre : List Event) (s : State) : State :=
  let hCopyBuffer := if !isEmpty s.head then (dequeue s.head).1 else NULL
  let head := if !isEmpty s.head then (dequeue s.head).2 else s.head
  { s with
    head := head
    isComplete := if isEmpty head && s.isCompleted then s.isCompleted else s.isComplete
    cpc := .process hCopyBuffer
    clog := s.clog ++ pre ++ [.lock] ++
      (if !isEmpty s.head then [.dequeue hCopyBuffer] else []) ++
      (if isEmpty head && s.isCompleted then [.setLocalComplete] else []) ++ [.unlock] }

/-- The name of the `i`-th file (line 398).  The buffer of `MAX_BUF` bytes is never
filled: `FILE_NAME` and `FILE_TYPE` take 62 characters. -/
def fileName (i : Nat) : String :=
  FILE_NAME ++ toString i ++ FILE_TYPE

/-- The calls of lines 358-430 for image number `i`, every failed one followed by
`exitThreads` / `exitSCThreads`. -/
def processCalls (sdk : SDK) (i : Nat) (hCopyBuffer : acBuffer) : List Event :=
  let hConverted := hCopyBuffer.bind (sdk.acImageFactoryConvert · PIXEL_FORMAT)
  let width := (hConverted.map sdk.acImageGetWidth).getD 0
  let height := (hConverted.map sdk.acImageGetHeight).getD 0
  let bpp := (hConverted.map sdk.acImageGetBitsPerPixel).getD 0
  let hWriter := sdk.saveWriterCreate width height bpp
  let named := hWriter && sdk.saveWriterSetFileNamePattern (fileName i)
  let pattern := if named then some (fileName i) else none
  let pData := hConverted.map sdk.acImageGetData
  checked (.convert hCopyBuffer PIXEL_FORMAT hConverted) ++
  checked (.getWidth hConverted (hConverted.map sdk.acImageGetWidth)) ++
  checked (.getHeight hConverted (hConverted.map sdk.acImageGetHeight)) ++
  checked (.getBitsPerPixel hConverted (hConverted.map sdk.acImageGetBitsPerPixel)) ++
  checked (.writerCreate width height bpp hWriter) ++
  checked (.setFileName (fileName i) named) ++
  checked (.getData hConverted pData) ++
  checked (.save pattern pData (hWriter && pData.any (sdk.saveWriterSave pattern))) ++
  checked (.writerDestroy (hWriter && sdk.saveWriterDestroy)) ++
  checked (.destroy hCopyBuffer (hCopyBuffer.any sdk.acImageFactoryDestroy)) ++
  checked (.destroy hConverted (hConverted.any sdk.acImageFactoryDestroy))

/-- Lines 358-437: convert, save, destroy, `i++`, and the test of `isComplete`. -/
def SaveImage.process (sdk : SDK) (hCopyBuffer : acBuffer) (s : State) : State :=
  { s with
    clog := s.clog ++ processCalls sdk s.i hCopyBuffer
    i := s.i + 1
    cpc := if s.isComplete then .returned else .top }

/-- One step of the consumer thread `SaveImage`.  At the top of the loop (lines
330-335) an empty queue sends the thread to sleep.  A queue that is not empty is only
read there, and the critical section of lines 338-356 is taken in the same step: a
step of the producer between the two lock regions would only link a node in front and
possibly set `isCompleted`, with the same outcome as when it runs just before. -/
def SaveImage (sdk : SDK) (s : State) : State :=
  match s.cpc with
  | .top =>
    if isEmpty s.head then { s with cpc := .sleeping, clog := s.clog ++ [.lock, .wait] }
    else SaveImage.critical [.lock, .unlock] s
  | .woken => SaveImage.critical [.unlock] s
  | .process hCopyBuffer => SaveImage.process sdk hCopyBuffer s
  | .sleeping => s
  | .returned => s

/-- One step of the pipeline. -/
def step (sdk : SDK) (N : Nat) (t : Tick) (s : State) : State :=
  match t with
  | .prod => AcquireImages sdk N s
  | .cons => SaveImage sdk s
  | .spurious => { s with cpc := wake s.cpc }

/-- The state an interleaving leads to. -/
def run (sdk : SDK) (N : Nat) (sched : List Tick) (s : State) : State :=
  sched.foldl (fun s t => step sdk N t s) s

/-- Both workers have returned. -/
def State.finished (s : State) : Bool :=
  s.ppc = .returned && s.cpc = .returned

end ArenaC


/-! ## The orchestrators: `main`, and `Threads` of the C variant -/

/-- How `main` ends. -/
inductive Exit where
  /-- The function returns this code. -/
  | returned (code : Int)
  /-- The program ends in `std::terminate`, `main` not returning. -/
  | terminated
  /-- At the end of the interleaving `main` still waits for a worker. -/
  | waiting
  deriving DecidableEq, Repr

/-- A call `main` makes on the system, with its result, or the start or the join of
the workers. -/
inductive Call where
  | openSystem (ok : Bool)
  | updateDevices (timeout : Nat) (ok : Bool)
  | getDevices (found : Option Nat)
  | createDevice (index : Nat) (ok : Bool)
  | startConsumer
  | startProducer
  | join
  | destroyDevice (ok : Bool)
  | closeSystem (ok : Bool)
  deriving DecidableEq, Repr

/-- What a run of `main` leaves: how it ends, the calls it made, and the state of the
pipeline when the workers were started. -/
structure Outcome (σ : Type) where
  exit : Exit
  calls : List Call
  pipeline : Option σ

namespace ArenaCpp

/-- The system `main` works on.  `false` / `none` is a call that throws;
`GetDevices` gives the number of devices found. -/
structure System where
  OpenSystem : Bool
  UpdateDevices : Nat → Bool
  GetDevices : Option Nat
  CreateDevice : Nat → Bool
  DestroyDevice : Bool
  CloseSystem : Bool

/-- Lines 261-275 of `main`, the workers having run through `sched`: `t1` runs
`SaveImages`, the main thread runs `AcquireImages`, then `t1.join()`,
`DestroyDevice`, `CloseSystem`.  An exception that leaves `SaveImages` leaves the
initial function of a thread, and one that leaves `AcquireImages` unwinds the `try`
block of `main` while `t1` is joinable: in both cases `std::terminate` is called and
no handler of `main` runs.  After the join, a throwing `DestroyDevice` or
`CloseSystem` is caught in `main`, which returns `-1`. -/
def main.example (sys : System) (pre : List Call) (s : State) : Outcome State :=
  if s.cpc = .threw ∨ s.ppc = .threw then
    { exit := .terminated, calls := pre ++ [.startConsumer, .startProducer], pipeline := some s }
  else if s.ppc = .returned ∧ s.cpc = .returned then
    if !sys.DestroyDevice then
      { exit := .returned (-1)
        calls := pre ++ [.startConsumer, .startProducer, .join, .destroyDevice false]
        pipeline := some s }
    else if !sys.CloseSystem then
      { exit := .returned (-1)
        calls := pre ++ [.startConsumer, .startProducer, .join, .destroyDevice true,
          .closeSystem false]
        pipeline := some s }
    else
      { exit := .returned 0
        calls := pre ++ [.startConsumer, .startProducer, .join, .destroyDevice true,
          .closeSystem true]
        pipeline := some s }
  else
    { exit := .waiting, calls := pre ++ [.startConsumer, .startProducer], pipeline := some s }

/-- The function `main` (lines 239-300) with `NUM_IMAGES = N`, on a device whose nodes
are `nodes0`, the workers interleaved as `sched`.  An exception of the preparation is
caught and gives `-1`; no device found gives `0` (line 256). -/
def main (sys : System) (sdk : SDK) (N : Nat) (nodes0 : Nodes) (sched : List Tick) :
    Outcome State :=
  if !sys.OpenSystem then
    { exit := .returned (-1), calls := [.openSystem false], pipeline := none }
  else if !sys.UpdateDevices 100 then
    { exit := .returned (-1), calls := [.openSystem true, .updateDevices 100 false],
      pipeline := none }
  else
    match sys.GetDevices with
    | none =>
      { exit := .returned (-1)
        calls := [.openSystem true, .updateDevices 100 true, .getDevices none]
        pipeline := none }
    | some 0 =>
      { exit := .returned 0
        calls := [.openSystem true, .updateDevices 100 true, .getDevices (some 0)]
        pipeline := none }
    | some (n + 1) =>
      if !sys.CreateDevice 0 then
        { exit := .returned (-1)
          calls := [.openSystem true, .updateDevices 100 true, .getDevices (some (n + 1)),
            .createDevice 0 false]
          pipeline := none }
      else
        main.example sys
          [.openSystem true, .updateDevices 100 true, .getDevices (some (n + 1)),
            .createDevice 0 true]
          (run sdk N sched (init nodes0))

end ArenaCpp

namespace ArenaC

/-- The system `main` works on.  `false` / `none` is a call that returns an error
code; `acSystemGetNumDevices` gives the number of devices found. -/
structure System where
  acOpenSystem : Bool
  acSystemUpdateDevices : Nat → Bool
  acSystemGetNumDevices : Option Nat
  acSystemCreateDevice : Nat → Bool
  acSystemDestroyDevice : Bool
  acCloseSystem : Bool

/-- Modelled from the spec: `acThreadDestroy` is declared in `ArenaCThreadLinux.h`,
which is not among the sources.  The orchestrator joins its workers: the call
returns once the thread has ended (`ended`), its return value dropped. -/
def acThreadDestroy (ended : Bool) : Bool :=
  ended

/-- The value `AcquireImages` returns (line 307): the result of the restore of
`AcquisitionMode`, `true` for `AC_ERR_SUCCESS`. -/
def AcquireImages.result (sdk : SDK) (s : State) : Bool :=
  SetNodeValue sdk sdk.acDeviceGetNodeMap .AcquisitionMode s.pAcquisitionModeInitial

/-- The function `Threads` (lines 441-462), the workers having run through `sched` to
the state `s`: both threads are created, then destroyed in the order of their
creation.  `err` is set to `AC_ERR_SUCCESS` in line 443 and not assigned again: the
function returns it (`some true`) once both workers have ended; `none` when one has
not ended. -/
def Threads (s : State) : Option Bool :=
  if acThreadDestroy (s.ppc = .returned) && acThreadDestroy (s.cpc = .returned) then some true
  else none

/-- The function `main` (lines 484-523) with `NUM_IMAGES = N`, on a device whose nodes
are `nodes0`, the workers interleaved as `sched`.  `CHECK_RETURN` returns `-1` after
a call that failed; no device found returns `-1` (line 505); the last statement is
`return -1` (line 522). -/
def main (sys : System) (sdk : SDK) (N : Nat) (nodes0 : Nodes) (sched : List Tick) :
    Outcome State :=
  if !sys.acOpenSystem then
    { exit := .returned (-1), calls := [.openSystem false], pipeline := none }
  else if !sys.acSystemUpdateDevices 100 then
    { exit := .returned (-1), calls := [.openSystem true, .updateDevices 100 false],
      pipeline := none }
  else
    match sys.acSystemGetNumDevices with
    | none =>
      { exit := .returned (-1)
        calls := [.openSystem true, .updateDevices 100 true, .getDevices none]
        pipeline := none }
    | some 0 =>
      { exit := .returned (-1)
        calls := [.openSystem true, .updateDevices 100 true, .getDevices (some 0)]
        pipeline := none }
    | some (n + 1) =>
      if !sys.acSystemCreateDevice 0 then
        { exit := .returned (-1)
          calls := [.openSystem true, .updateDevices 100 true, .getDevices (some (n + 1)),
            .createDevice 0 false]
          pipeline := none }
      else
        match Threads (run sdk N sched (init nodes0)) with
        | none =>
          { exit := .waiting
            calls := [.openSystem true, .updateDevices 100 true, .getDevices (some (n + 1)),
              .createDevice 0 true, .startProducer, .startConsumer]
            pipeline := some (run sdk N sched (init nodes0)) }
        | some err =>
          if !err then
            { exit := .returned (-1)
              calls := [.openSystem true, .updateDevices 100 true, .getDevices (some (n + 1)),
                .createDevice 0 true, .startProducer, .startConsumer, .join]
              pipeline := some (run sdk N sched (init nodes0)) }
          else if !sys.acSystemDestroyDevice then
            { exit := .returned (-1)
              calls := [.openSystem true, .updateDevices 100 true, .getDevices (some (n + 1)),
                .createDevice 0 true, .startProducer, .startConsumer, .join,
                .destroyDevice false]
              pipeline := some (run sdk N sched (init nodes0)) }
          else if !sys.acCloseSystem then
            { exit := .returned (-1)
              calls := [.openSystem true, .updateDevices 100 true, .getDevices (some (n + 1)),
                .createDevice 0 true, .startProducer, .startConsumer, .join,
                .destroyDevice true, .closeSystem false]
              pipeline := some (run sdk N sched (init nodes0)) }
          else
            { exit := .returned (-1)
              calls := [.openSystem true, .updateDevices 100 true, .getDevices (some (n + 1)),
                .createDevice 0 true, .startProducer, .startConsumer, .join,
                .destroyDevice true, .closeSystem true]
              pipeline := some (run sdk N sched (init nodes0)) }

end ArenaC

namespace ArenaC

/-! ## C variant: sequences of calls of the queue -/

/-- A call of `enqueue` (with the value and whether `malloc` gave a node) or of
`dequeue`. -/
inductive QueueCall where
  | enqueue (val : acBuffer) (mallocOk : Bool)
  | dequeue
  deriving DecidableEq, Repr

/-- The list after the calls `cs` made one after the other on `head`, and what the
`dequeue` calls among them returned, in the order of the calls. -/
def queueRun : node_t → List QueueCall → node_t × List acBuffer
  | head, [] => (head, [])
  | head, .enqueue val mallocOk :: cs => queueRun (enqueue head val mallocOk) cs
  | head, .dequeue :: cs =>
    ((queueRun (dequeue head).2 cs).1, (dequeue head).1 :: (queueRun (dequeue head).2 cs).2)

/-- The number of `enqueue` calls that linked a node. -/
def successfulEnqueues : List QueueCall → Nat
  | [] => 0
  | .enqueue _ mallocOk :: cs => (if mallocOk then 1 else 0) + successfulEnqueues cs
  | .dequeue :: cs => successfulEnqueues cs

/-- The number of results of `dequeue` that are not `NULL`. -/
def nonNullDequeues (results : List acBuffer) : Nat :=
  (results.filter (fun r => r != NULL)).length

/-- The number of `dequeue` calls among `cs` that found a node in the list. -/
def removals : node_t → List QueueCall → Nat
  | _, [] => 0
  | head, .enqueue val mallocOk :: cs => removals (enqueue head val mallocOk) cs
  | head, .dequeue :: cs => (if isEmpty head then 0 else 1) + removals (dequeue head).2 cs

/-- No `enqueue` call among `cs` is given `NULL`. -/
def noNullEnqueued : List QueueCall → Bool
  | [] => true
  | .enqueue val _ :: cs => val != NULL && noNullEnqueued cs
  | .dequeue :: cs => noNullEnqueued cs

end ArenaC

namespace GenApi

/-! ## `CValuePolyContainer` (`GenApi/impl/ConcatenatedWriteImpl.h`) -/

/-- The tag of the value a container was built from. -/
inductive VALUE_POLY_TYPE where
  | VALUE_POLY_TYPE_INT
  | VALUE_POLY_TYPE_DOUBLE
  | VALUE_POLY_TYPE_STR
  | VALUE_POLY_TYPE_BOOL
  deriving DecidableEq, Repr

/-- What the class uses and does not define: the type `D` of `double` with its cast
to `int64_t`, its cast from `int64_t` and its comparison with `0`, and the functions
`Value2String` and `String2Value`.  `String2Value(s, &x)` is given the old value of
`x` and gives the new one. -/
structure Conversions (D : Type) where
  toInt64 : D → Int
  ofInt64 : Int → D
  isZero : D → Bool
  Value2StringI : Int → String
  Value2StringD : D → String
  Value2StringB : Bool → String
  String2ValueI : String → Int → Int
  String2ValueD : String → D → D
  String2ValueB : String → Bool → Bool

/-- The data members of the class.  A constructor sets `m_type`, `m_nodeName` and
the member of its value; the other value members hold whatever they held. -/
structure CValuePolyContainer (D : Type) where
  m_type : VALUE_POLY_TYPE
  m_nodeName : String
  m_nodeValueS : String
  m_nodeValueI : Int
  m_nodeValueD : D
  m_nodeValueB : Bool

namespace CValuePolyContainer

variable {D : Type}

/-- The constructor from an `int64_t` (line 50); `d` and `b` are what the members it
does not set hold. -/
def ofInt (nodeName : String) (nodeValue : Int) (d : D) (b : Bool) : CValuePolyContainer D :=
  { m_type := .VALUE_POLY_TYPE_INT, m_nodeName := nodeName, m_nodeValueS := "",
    m_nodeValueI := nodeValue, m_nodeValueD := d, m_nodeValueB := b }

/-- The constructor from a `bool` (line 52); `i` and `d` are what the members it does
not set hold. -/
def ofBool (nodeName : String) (nodeValue : Bool) (i : Int) (d : D) : CValuePolyContainer D :=
  { m_type := .VALUE_POLY_TYPE_BOOL, m_nodeName := nodeName, m_nodeValueS := "",
    m_nodeValueI := i, m_nodeValueD := d, m_nodeValueB := nodeValue }

/-- The constructor from a `double` (line 51). -/
def ofDouble (nodeName : String) (nodeValue : D) (i : Int) (b : Bool) : CValuePolyContainer D :=
  { m_type := .VALUE_POLY_TYPE_DOUBLE, m_nodeName := nodeName, m_nodeValueS := "",
    m_nodeValueI := i, m_nodeValueD := nodeValue, m_nodeValueB := b }

/-- The constructor from a string (line 49). -/
def ofStr (nodeName : String) (nodeValue : String) (i : Int) (d : D) (b : Bool) :
    CValuePolyContainer D :=
  { m_type := .VALUE_POLY_TYPE_STR, m_nodeName := nodeName, m_nodeValueS := nodeValue,
    m_nodeValueI := i, m_nodeValueD := d, m_nodeValueB := b }

/-- `GetStr()` (lines 54-71): the value returned and the container afterwards. -/
def GetStr (cv : Conversions D) (c : CValuePolyContainer D) : String × CValuePolyContainer D :=
  match c.m_type with
  | .VALUE_POLY_TYPE_INT =>
    (cv.Value2StringI c.m_nodeValueI, { c with m_nodeValueS := cv.Value2StringI c.m_nodeValueI })
  | .VALUE_POLY_TYPE_DOUBLE =>
    (cv.Value2StringD c.m_nodeValueD, { c with m_nodeValueS := cv.Value2StringD c.m_nodeValueD })
  | .VALUE_POLY_TYPE_STR => (c.m_nodeValueS, c)
  | .VALUE_POLY_TYPE_BOOL =>
    (cv.Value2StringB c.m_nodeValueB, { c with m_nodeValueS := cv.Value2StringB c.m_nodeValueB })

/-- `GetInt()` (lines 72-89): the value returned and the container afterwards. -/
def GetInt (cv : Conversions D) (c : CValuePolyContainer D) : Int × CValuePolyContainer D :=
  match c.m_type with
  | .VALUE_POLY_TYPE_INT => (c.m_nodeValueI, c)
  | .VALUE_POLY_TYPE_DOUBLE =>
    (cv.toInt64 c.m_nodeValueD, { c with m_nodeValueI := cv.toInt64 c.m_nodeValueD })
  | .VALUE_POLY_TYPE_STR =>
    (cv.String2ValueI c.m_nodeValueS c.m_nodeValueI,
      { c with m_nodeValueI := cv.String2ValueI c.m_nodeValueS c.m_nodeValueI })
  | .VALUE_POLY_TYPE_BOOL =>
    ((if c.m_nodeValueB == true then 1 else 0),
      { c with m_nodeValueI := if c.m_nodeValueB == true then 1 else 0 })

/-- `GetFloat()` (lines 90-107): the value returned and the container afterwards. -/
def GetFloat (cv : Conversions D) (c : CValuePolyContainer D) : D × CValuePolyContainer D :=
  match c.m_type with
  | .VALUE_POLY_TYPE_INT =>
    (cv.ofInt64 c.m_nodeValueI, { c with m_nodeValueD := cv.ofInt64 c.m_nodeValueI })
  | .VALUE_POLY_TYPE_DOUBLE => (c.m_nodeValueD, c)
  | .VALUE_POLY_TYPE_STR =>
    (cv.String2ValueD c.m_nodeValueS c.m_nodeValueD,
      { c with m_nodeValueD := cv.String2ValueD c.m_nodeValueS c.m_nodeValueD })
  | .VALUE_POLY_TYPE_BOOL =>
    (cv.ofInt64 (if c.m_nodeValueB == true then 1 else 0),
      { c with m_nodeValueD := cv.ofInt64 (if c.m_nodeValueB == true then 1 else 0) })

/-- `GetBool()` (lines 108-125): the value returned and the container afterwards.  For
an integer the member is set to `m_nodeValueI == 0` (line 113), for a double to
`m_nodeValueD == 0` (line 116). -/
def GetBool (cv : Conversions D) (c : CValuePolyContainer D) : Bool × CValuePolyContainer D :=
  match c.m_type with
  | .VALUE_POLY_TYPE_INT =>
    (c.m_nodeValueI == 0, { c with m_nodeValueB := c.m_nodeValueI == 0 })
  | .VALUE_POLY_TYPE_DOUBLE =>
    (cv.isZero c.m_nodeValueD, { c with m_nodeValueB := cv.isZero c.m_nodeValueD })
  | .VALUE_POLY_TYPE_STR =>
    (cv.String2ValueB c.m_nodeValueS c.m_nodeValueB,
      { c with m_nodeValueB := cv.String2ValueB c.m_nodeValueS c.m_nodeValueB })
  | .VALUE_POLY_TYPE_BOOL => (c.m_nodeValueB, c)

end CValuePolyContainer

end GenApi

namespace IpConfigAuto

/-! ## `generateNewIp` (`C_IpConfig_Auto.c`) and `checkConnection` (`Cpp_IpConfig_Auto.cpp`)

A `uint32_t` is a natural number below `2 ^ 32`.  The results of `rand()` are a
parameter: `rand k` is what the call number `k` returns, and the cast to `uint32_t`
is the remainder modulo `2 ^ 32`. -/

/-- The number of values of a `uint32_t`. -/
def UINT32 : Nat := 2 ^ 32

/-- The complement `~x` of a `uint32_t`. -/
def not32 (x : Nat) : Nat := (UINT32 - 1) ^^^ (x % UINT32)

/-- The `while` loop of both functions (lines 46-50 of the C file, 45-49 of the Cpp
file), entered with the values of `randNum` and `newIp` after `k` calls of `rand()`.
The first argument bounds the number of times the condition is evaluated; `none`
says that the loop was still running then. -/
def newIpLoop (ifSubnet ifIp : Nat) (rand : Nat → Nat) : Nat → Nat → Nat → Nat → Option Nat
  | 0, _, _, _ => none
  | fuel + 1, k, randNum, newIp =>
    if randNum = 0 ∨ randNum = 0xFFFFFFFF ∨ newIp = 0 ∨ newIp = ifIp then
      newIpLoop ifSubnet ifIp rand fuel (k + 1) ((rand k % UINT32) &&& not32 ifSubnet)
        ((ifIp &&& ifSubnet) ||| ((rand k % UINT32) &&& not32 ifSubnet))
    else some newIp

/-- `generateNewIp(ifSubnet, ifIp)` (lines 42-53). -/
def generateNewIp (ifSubnet ifIp : Nat) (rand : Nat → Nat) (fuel : Nat) : Option Nat :=
  newIpLoop ifSubnet ifIp rand fuel 1 ((rand 0 % UINT32) &&& not32 ifSubnet) 0

/-- `checkConnection(ifSubnet, ifIp, ifNet, devNet)` (lines 36-58). -/
def checkConnection (ifSubnet ifIp ifNet devNet : Nat) (rand : Nat → Nat) (fuel : Nat) :
    Option Nat :=
  if devNet ≠ ifNet then
    newIpLoop ifSubnet ifIp rand fuel 1 ((rand 0 % UINT32) &&& not32 ifSubnet) 0
  else some 0

/-- The value `r` of `rand()` ends the loop: the host part it gives is neither `0`
nor all ones, and the address it gives is not the address of the interface. -/
def Accepted (ifSubnet ifIp r : Nat) : Prop :=
  (r % UINT32) &&& not32 ifSubnet ≠ 0 ∧ (r % UINT32) &&& not32 ifSubnet ≠ 0xFFFFFFFF ∧
    (ifIp &&& ifSubnet) ||| ((r % UINT32) &&& not32 ifSubnet) ≠ ifIp

instance (ifSubnet ifIp r : Nat) : Decidable (Accepted ifSubnet ifIp r) := by
  unfold Accepted; infer_instance

end IpConfigAuto
namespace ArenaCpp

/-! ## Cpp variant: the logs of a run without failure, and the invariant -/

/-- The copy made of the `i`-th image: `Copy(GetImage())` of iteration `i`. -/
def copyOf (sdk : SDK) (i : Nat) : Option Handle :=
  (sdk.GetImage i TIMEOUT).bind sdk.Copy

/-- The converted image of the `i`-th image: `Convert(Copy(GetImage()), PIXEL_FORMAT)`. -/
def convertedOf (sdk : SDK) (i : Nat) : Option Handle :=
  (copyOf sdk i).bind (sdk.Convert · PIXEL_FORMAT)

/-- What the producer logs in lines 118-141 of iteration `i`. -/
def acquireLog (sdk : SDK) (N i : Nat) : List Event :=
  [.getImage i TIMEOUT (sdk.GetImage i TIMEOUT), .copy (sdk.GetImage i TIMEOUT) (copyOf sdk i),
    .lock, .enqueue (copyOf sdk i) true] ++
  (if i + 1 = N then [.setCompleted] else []) ++ [.unlock]

/-- What the producer logs in lines 143-147 of iteration `i`. -/
def releaseLog (sdk : SDK) (i : Nat) : List Event :=
  [.notify,
    .requeue (sdk.GetImage i TIMEOUT) ((sdk.GetImage i TIMEOUT).any sdk.RequeueBuffer)]

/-- What the producer logs in iteration `i`. -/
def iterLog (sdk : SDK) (N i : Nat) : List Event :=
  acquireLog sdk N i ++ releaseLog sdk i

/-- The producer's log once `k` iterations are done. -/
def loopLog (sdk : SDK) (N : Nat) (nodes0 : Nodes) (k : Nat) : List Event :=
  setupCalls sdk nodes0 ++ (List.range k).flatMap (iterLog sdk N)

/-- The producer's log when no call fails. -/
def producerLog (sdk : SDK) (N : Nat) (nodes0 : Nodes) : List Event :=
  loopLog sdk N nodes0 N ++ teardownCalls sdk nodes0.AcquisitionMode

/-- The nodes after lines 82-111. -/
def configured : Nodes :=
  { AcquisitionMode := "Continuous", StreamBufferHandlingMode := "NewestOnly",
    StreamAutoNegotiatePacketSize := true, StreamPacketResendEnable := true,
    streaming := true }

/-- The nodes after lines 152-155. -/
def restored (nodes0 : Nodes) : Nodes :=
  { configured with AcquisitionMode := nodes0.AcquisitionMode, streaming := false }

/-- What the consumer logs in the critical section in which it dequeues image `j`,
the waits left out. -/
def critLog (sdk : SDK) (N j : Nat) : List Event :=
  [.lock, .dequeue (copyOf sdk j)] ++ (if j + 1 = N then [.setLocalComplete] else []) ++
  [.unlock]

/-- The calls the consumer makes for image `j` after the critical section. -/
def processLog (sdk : SDK) (j : Nat) : List Event :=
  match copyOf sdk j with
  | some pCopy => processCalls sdk j pCopy
  | none => []

/-- What the consumer logs in its iteration `j`, the waits left out. -/
def citerLog (sdk : SDK) (N j : Nat) : List Event :=
  critLog sdk N j ++ processLog sdk j

/-- The consumer's log when no call fails, the waits left out. -/
def consumerLog (sdk : SDK) (N : Nat) : List Event :=
  (List.range N).flatMap (citerLog sdk N)

/-- No call of the run fails: neither log of the run without failure has a failed
call. -/
def Reliable (sdk : SDK) (N : Nat) (nodes0 : Nodes) : Prop :=
  noFailure (producerLog sdk N nodes0) = true ∧ noFailure (consumerLog sdk N) = true

/-- The calls of iteration `j` of the consumer are made on a copy and none fails. -/
def IterOk (sdk : SDK) (j : Nat) : Prop :=
  ∃ pCopy, copyOf sdk j = some pCopy ∧ (processCalls sdk j pCopy).any Event.failed = false

/-- What holds of the producer at each of its program points. -/
def ProdInv (sdk : SDK) (N : Nat) (nodes0 : Nodes) (s : State) : Prop :=
  match s.ppc with
  | .setup => s.plog = [] ∧ s.nodes = nodes0
  | .acquire i =>
    i < N ∧ (pushed s.plog).length = i ∧ s.plog = loopLog sdk N nodes0 i ∧
      noFailure s.plog = true ∧
      s.nodes = configured ∧ s.acquisitionModeInitial = nodes0.AcquisitionMode
  | .release i pImage =>
    i < N ∧ (pushed s.plog).length = i + 1 ∧ sdk.GetImage i TIMEOUT = some pImage ∧
      s.plog = loopLog sdk N nodes0 i ++ acquireLog sdk N i ∧ noFailure s.plog = true ∧
      s.nodes = configured ∧ s.acquisitionModeInitial = nodes0.AcquisitionMode
  | .teardown =>
    (pushed s.plog).length = N ∧ s.plog = loopLog sdk N nodes0 N ∧
      noFailure s.plog = true ∧ s.nodes = configured ∧ s.acquisitionModeInitial = nodes0.AcquisitionMode
  | .returned =>
    (pushed s.plog).length = N ∧ s.plog = producerLog sdk N nodes0 ∧
      noFailure s.plog = true ∧ s.nodes = restored nodes0
  | .threw =>
    s.plog = attempt (producerLog sdk N nodes0) ∧
      (s.plog.getLast?.map Event.failed) = some true

/-- What holds of the consumer at each of its program points. -/
def ConsInv (sdk : SDK) (N : Nat) (s : State) : Prop :=
  match s.cpc with
  | .lockWait =>
    (popped s.clog).length = s.i ∧ s.localComplete = false ∧
      noWait s.clog = (List.range s.i).flatMap (citerLog sdk N)
  | .waiting =>
    (popped s.clog).length = s.i ∧ s.localComplete = false ∧
      noWait s.clog = (List.range s.i).flatMap (citerLog sdk N) ++ [.lock] ∧
      (s.m_queue = [] ∨ ∃ i pImage, s.ppc = .release i pImage)
  | .woken =>
    (popped s.clog).length = s.i ∧ s.localComplete = false ∧
      noWait s.clog = (List.range s.i).flatMap (citerLog sdk N) ++ [.lock]
  | .process pCopy =>
    (popped s.clog).length = s.i + 1 ∧ copyOf sdk s.i = some pCopy ∧
      noWait s.clog = (List.range s.i).flatMap (citerLog sdk N) ++ critLog sdk N s.i
  | .returned =>
    (popped s.clog).length = s.i ∧ s.localComplete = true ∧
      noWait s.clog = (List.range s.i).flatMap (citerLog sdk N)
  | .threw =>
    (popped s.clog).length = s.i + 1 ∧ (s.clog.getLast?.map Event.failed) = some true ∧
      ∃ pCopy, copyOf sdk s.i = some pCopy ∧
        (processCalls sdk s.i pCopy).any Event.failed = true ∧
        noWait s.clog = (List.range s.i).flatMap (citerLog sdk N) ++ critLog sdk N s.i ++
          attempt (processCalls sdk s.i pCopy)

/-- Steps the producer still takes from a program point, when no call fails. -/
def PPc.remaining (N : Nat) : PPc → Nat
  | .setup => 2 * N + 2
  | .acquire i => 2 * (N - i) + 1
  | .release i _ => 2 * (N - i)
  | .teardown => 1
  | .returned => 0
  | .threw => 0

/-- Steps the consumer still takes from a program point with `i` images saved, once
the producer has returned and when no call fails. -/
def CPc.remaining (N i : Nat) : CPc → Nat
  | .lockWait => 2 * (N - i)
  | .waiting => 2 * (N - i)
  | .woken => 2 * (N - i)
  | .process _ => 2 * (N - i) - 1
  | .returned => 0
  | .threw => 0

/-- The invariant of the pipeline run with `NUM_IMAGES = N` from `init nodes0`. -/
structure Inv (sdk : SDK) (N : Nat) (nodes0 : Nodes) (s : State) : Prop where
  prod : ProdInv sdk N nodes0 s
  cons : ConsInv sdk N s
  pushed_le : (pushed s.plog).length ≤ N
  popped_le : (popped s.clog).length ≤ (pushed s.plog).length
  completed : s.isCompleted = true ↔ ((pushed s.plog).length = N ∧ 0 < N)
  queue : s.m_queue.map some =
    (List.range' (popped s.clog).length
      ((pushed s.plog).length - (popped s.clog).length)).map (copyOf sdk)
  localDone : s.localComplete = true ↔ (s.m_queue = [] ∧ s.isCompleted = true)
  done : ∀ j, j < s.i → IterOk sdk j
  pushedOk : ∀ j, j < (pushed s.plog).length → (copyOf sdk j).isSome = true

end ArenaCpp

namespace ArenaCpp

/-- Path and data of the writer call for image `j` when no call fails: the `j`-th
file name, and the data of `Convert(Copy(GetImage()), PIXEL_FORMAT)` of the `j`-th
image. -/
def saveOf (sdk : SDK) (j : Nat) : Option String × Option Data :=
  (some (fileName j), (convertedOf sdk j).map sdk.GetData)

end ArenaCpp

namespace ArenaC

/-! ## C variant: the producer's log, and the invariant -/

/-- The copy made of the `i`-th image, `NULL` when a call failed. -/
def copyOf (sdk : SDK) (i : Nat) : acBuffer :=
  (sdk.acDeviceGetBuffer i IMAGE_TIMEOUT).bind sdk.acImageFactoryCopy

/-- The converted image of the `i`-th image, `NULL` when a call failed. -/
def convertedOf (sdk : SDK) (i : Nat) : acBuffer :=
  (copyOf sdk i).bind (sdk.acImageFactoryConvert · PIXEL_FORMAT)

/-- What the producer logs in lines 285-292 of iteration `i`. -/
def releaseLog (sdk : SDK) (i : Nat) : List Event :=
  [.notify] ++
  checked (.requeue (sdk.acDeviceGetBuffer i IMAGE_TIMEOUT)
    ((sdk.acDeviceGetBuffer i IMAGE_TIMEOUT).any sdk.acDeviceRequeueBuffer))

/-- What the producer logs in iteration `i`. -/
def iterLog (sdk : SDK) (N i : Nat) : List Event :=
  acquireCalls sdk N i ++ releaseLog sdk i

/-- The producer's log once `k` iterations are done. -/
def loopLog (sdk : SDK) (N : Nat) (nodes0 : Nodes) (k : Nat) : List Event :=
  (setupCalls sdk nodes0).flatMap checked ++ (List.range k).flatMap (iterLog sdk N)

/-- The snapshot of `AcquisitionMode` taken in line 204, the buffer holding `""`
before. -/
def snapshot (sdk : SDK) (nodes0 : Nodes) : String :=
  (GetNodeValue sdk sdk.acDeviceGetNodeMap .AcquisitionMode nodes0.AcquisitionMode).getD ""

/-- What the producer logs in lines 294-305. -/
def teardownLog (sdk : SDK) (nodes0 : Nodes) : List Event :=
  checked (.stopStream sdk.acDeviceStopStream) ++
  [.setNode .AcquisitionMode (snapshot sdk nodes0)
    (SetNodeValue sdk sdk.acDeviceGetNodeMap .AcquisitionMode (snapshot sdk nodes0))]

/-- The producer's log when it has returned. -/
def producerLog (sdk : SDK) (N : Nat) (nodes0 : Nodes) : List Event :=
  loopLog sdk N nodes0 N ++ teardownLog sdk nodes0

/-- The nodes after lines 195-246. -/
def configured (sdk : SDK) (nodes0 : Nodes) : Nodes :=
  (setupCalls sdk nodes0).foldl Nodes.apply nodes0

/-- The nodes after lines 297-305. -/
def restored (sdk : SDK) (nodes0 : Nodes) : Nodes :=
  (teardownCalls sdk (snapshot sdk nodes0)).foldl Nodes.apply (configured sdk nodes0)

/-- Critical sections the producer has been through at a program point. -/
def PPc.crit (N : Nat) : PPc → Nat
  | .setup => 0
  | .acquire i => i
  | .release i _ => i + 1
  | .teardown => N
  | .returned => N

/-- The handles the first `k` iterations of the producer put into the queue: the
copies whose queue node could be allocated. -/
def enqueued (sdk : SDK) (k : Nat) : List acBuffer :=
  (List.range k).filterMap (fun j => if sdk.malloc j then some (copyOf sdk j) else none)

/-- The calls the consumer makes in its iterations `k`, `k + 1`, ... on the handles
`hs`. -/
def callsFrom (sdk : SDK) : Nat → List acBuffer → List Event
  | _, [] => []
  | k, h :: hs => processCalls sdk k h ++ callsFrom sdk (k + 1) hs

/-- The handle the consumer is about to process, if it is past its critical section. -/
def CPc.pending : CPc → List acBuffer
  | .process h => [h]
  | _ => []

/-- No call of the run fails when the consumer is handed the copies in order:
the producer's log has no failed call, and neither have the calls the consumer
makes for image `j` on the copy of image `j`. -/
def Reliable (sdk : SDK) (N : Nat) (nodes0 : Nodes) : Prop :=
  noFailure (producerLog sdk N nodes0) = true ∧
    ∀ j, j < N → noFailure (processCalls sdk j (copyOf sdk j)) = true

/-- Steps the producer still takes from a program point. -/
def PPc.remaining (N : Nat) : PPc → Nat
  | .setup => 2 * N + 2
  | .acquire i => 2 * (N - i) + 1
  | .release i _ => 2 * (N - i)
  | .teardown => 1
  | .returned => 0

/-- Steps the consumer still takes from a program point with `n` handles in the
queue, once the producer has returned and when no call fails. -/
def CPc.remaining (n : Nat) : CPc → Nat
  | .top => 2 * n
  | .sleeping => 2 * n
  | .woken => 2 * n
  | .process _ => 2 * n + 1
  | .returned => 0

/-- What holds of the producer at each of its program points. -/
def ProdInv (sdk : SDK) (N : Nat) (nodes0 : Nodes) (s : State) : Prop :=
  match s.ppc with
  | .setup => s.plog = [] ∧ s.nodes = nodes0 ∧ s.pAcquisitionModeInitial = ""
  | .acquire i =>
    i < N ∧ s.plog = loopLog sdk N nodes0 i ∧ s.nodes = configured sdk nodes0 ∧
      s.pAcquisitionModeInitial = snapshot sdk nodes0
  | .release i hBuffer =>
    i < N ∧ hBuffer = sdk.acDeviceGetBuffer i IMAGE_TIMEOUT ∧
      s.plog = loopLog sdk N nodes0 i ++ acquireCalls sdk N i ∧
      s.nodes = configured sdk nodes0 ∧ s.pAcquisitionModeInitial = snapshot sdk nodes0
  | .teardown =>
    s.plog = loopLog sdk N nodes0 N ∧ s.nodes = configured sdk nodes0 ∧
      s.pAcquisitionModeInitial = snapshot sdk nodes0
  | .returned => s.plog = producerLog sdk N nodes0 ∧ s.nodes = restored sdk nodes0

/-- What holds of the consumer at each of its program points. -/
def ConsInv (sdk : SDK) (N : Nat) (s : State) : Prop :=
  match s.cpc with
  | .top => s.isComplete = false
  | .sleeping =>
    s.isComplete = false ∧
      ((∃ i hBuffer, s.ppc = .release i hBuffer) ∨
        (s.head = [] ∧ (s.isCompleted = true → sdk.malloc (N - 1) = false)))
  | .woken => s.isComplete = false
  | .process _ => True
  | .returned => s.isComplete = true

/-- The invariant of the pipeline run with `NUM_IMAGES = N` from `init nodes0`. -/
structure Inv (sdk : SDK) (N : Nat) (nodes0 : Nodes) (s : State) : Prop where
  prod : ProdInv sdk N nodes0 s
  cons : ConsInv sdk N s
  crit_le : s.ppc.crit N ≤ N
  pushedEq : pushed s.plog = enqueued sdk (s.ppc.crit N)
  completed : s.isCompleted = true ↔ (s.ppc.crit N = N ∧ 0 < N)
  queue : pushed s.plog = popped s.clog ++ s.head.reverse
  localDone : s.isComplete = true → (s.head = [] ∧ s.isCompleted = true)
  drained : s.isCompleted = true → s.head = [] →
    (s.isComplete = true ∨ sdk.malloc (N - 1) = false)
  count : (conversions s.clog).length = s.i
  callsEq : calls s.clog = callsFrom sdk 0 (conversions s.clog)
  handled : (conversions s.clog ++ s.cpc.pending).filter Option.isSome =
    (popped s.clog).filter Option.isSome

end ArenaC

namespace ArenaC

/-- Neither log has a failed call, and the consumer is at the top of its loop, or
about to process a handle that is not `NULL`, or has returned. -/
def Clean (s : State) : Prop :=
  noFailure s.plog = true ∧ noFailure s.clog = true ∧
    (s.cpc = .top ∨ (∃ h, s.cpc = .process h ∧ h.isSome = true) ∨ s.cpc = .returned)

/-- Path and data of the writer call for image `j` when no call fails: the `j`-th
file name, and the data of the converted copy of the `j`-th image. -/
def saveOf (sdk : SDK) (j : Nat) : Option String × Option Data :=
  (some (fileName j), (convertedOf sdk j).map sdk.acImageGetData)

end ArenaC


namespace ArenaCpp

/-- The writer call and the two `Destroy` calls of iteration `j` of the consumer when
no call fails: `Destroy(pConverted)`, then `Destroy(pCopy)` (lines 226-227). -/
def disposalsOf (sdk : SDK) (j : Nat) : List Event :=
  [.save (some (fileName j)) ((convertedOf sdk j).map sdk.GetData) true,
    .destroy (convertedOf sdk j) true, .destroy (copyOf sdk j) true]

end ArenaCpp

namespace ArenaC

/-- The calls of iteration `j` of the consumer when it works on the copy of image
`j`. -/
def processLog (sdk : SDK) (j : Nat) : List Event :=
  processCalls sdk j (copyOf sdk j)

/-- The writer call and the two `Destroy` calls of iteration `j` of the consumer when
no call fails: `acImageFactoryDestroy(hCopyBuffer)`, then
`acImageFactoryDestroy(hConverted)` (lines 423-429). -/
def disposalsOf (sdk : SDK) (j : Nat) : List Event :=
  [.save (some (fileName j)) ((convertedOf sdk j).map sdk.acImageGetData) true,
    .destroy (copyOf sdk j) true, .destroy (convertedOf sdk j) true]

end ArenaC

namespace ArenaCpp

/-- What the logs say of the mutex: with the mutex held the producer has only
enqueued and set `isCompleted`, and does not hold it between its steps; with the mutex
held the consumer has only waited, dequeued and read `isCompleted`, and is inside a
critical section exactly when it is in, or back from, `cv.wait`. -/
def LockInv (s : State) : Prop :=
  (underLock false s.plog).all Event.isProducerShared = true ∧
  lockedAfter false s.plog = false ∧
  (underLock false s.clog).all Event.isConsumerShared = true ∧
  lockedAfter false s.clog = decide (s.cpc = .waiting ∨ s.cpc = .woken)

/-- The way of image `i` through the producer: `GetImage`, `Copy` of the image, the
enqueue of the copy, `RequeueBuffer` of the image. -/
def transferLog (sdk : SDK) (i : Nat) : List Event :=
  [.getImage i TIMEOUT (sdk.GetImage i TIMEOUT),
    .copy (sdk.GetImage i TIMEOUT) (copyOf sdk i),
    .enqueue (copyOf sdk i) true,
    .requeue (sdk.GetImage i TIMEOUT) ((sdk.GetImage i TIMEOUT).any sdk.RequeueBuffer)]

end ArenaCpp

namespace ArenaC

/-- What the logs say of the mutex: with the mutex held the producer has only
enqueued and set `isCompleted`, and does not hold it between its steps; with the mutex
held the consumer has only slept on the condition variable, dequeued and read
`isCompleted`, and is inside a critical section exactly when it is in, or back from,
`acThreadConditionVariableSleep`. -/
def LockInv (s : State) : Prop :=
  (underLock false s.plog).all Event.isProducerShared = true ∧
  lockedAfter false s.plog = false ∧
  (underLock false s.clog).all Event.isConsumerShared = true ∧
  lockedAfter false s.clog = decide (s.cpc = .sleeping ∨ s.cpc = .woken)

/-- The way of image `i` through the producer: `acDeviceGetBuffer`,
`acImageFactoryCopy` of the image, the enqueue of the copy, `acDeviceRequeueBuffer` of
the image. -/
def transferLog (sdk : SDK) (i : Nat) : List Event :=
  [.getImage i IMAGE_TIMEOUT (sdk.acDeviceGetBuffer i IMAGE_TIMEOUT),
    .copy (sdk.acDeviceGetBuffer i IMAGE_TIMEOUT) (copyOf sdk i),
    .enqueue (copyOf sdk i) (sdk.malloc i),
    .requeue (sdk.acDeviceGetBuffer i IMAGE_TIMEOUT)
      ((sdk.acDeviceGetBuffer i IMAGE_TIMEOUT).any sdk.acDeviceRequeueBuffer)]

end ArenaC
/-! ## Concrete devices, used to evaluate the model -/

/-- Node values of a device before the example runs. -/
def sampleNodes : Nodes :=
  { AcquisitionMode := "SingleFrame", StreamBufferHandlingMode := "OldestFirst",
    StreamAutoNegotiatePacketSize := false, StreamPacketResendEnable := false,
    streaming := false }

namespace ArenaCpp

/-- A device, factory and writer whose calls all succeed: the `k`-th image is handle
`100 + k`, its copy `200 + k`, the converted copy `1200 + k`. -/
def sampleSDK : SDK :=
  { GetNodeValue := fun _ => true, SetNodeValue := fun _ _ => true,
    SetNodeValueBool := fun _ _ => true, StartStream := true, StopStream := true,
    GetImage := fun k _ => some (100 + k), Copy := fun h => some (h + 100),
    RequeueBuffer := fun _ => true, Convert := fun h _ => some (h + 1000),
    GetWidth := fun _ => 640, GetHeight := fun _ => 480, GetBitsPerPixel := fun _ => 24,
    GetData := fun h => [h], ImageWriter := fun _ _ _ _ => true, Save := fun _ _ => true,
    Destroy := fun _ => true }

/-- The same, but the third `GetImage` (call number 2) times out. -/
def failingSDK : SDK :=
  { sampleSDK with GetImage := fun k _ => if k = 2 then none else some (100 + k) }

/-- An interleaving of a run with three images. -/
def sampleSchedule : List Tick :=
  [.cons, .prod, .prod, .spurious, .cons, .prod, .cons, .cons, .prod, .prod, .prod, .prod,
    .cons, .cons, .prod, .cons, .cons]

/-- The state `sampleSchedule` leads to with three images on `sampleSDK`. -/
def sampleRun : State :=
  run sampleSDK 3 sampleSchedule (init sampleNodes)

/-- A run of one image: the producer has queued the only copy and set `isCompleted`,
the consumer has not started. -/
def lastQueued : State :=
  run sampleSDK 1 [.prod, .prod] (init sampleNodes)

/-- The consumer about to enter its first critical section, the queue empty and
`isCompleted` already true. -/
def completedEmpty : State :=
  { init sampleNodes with isCompleted := true }

end ArenaCpp

namespace ArenaC

/-- A device, factory and writer whose calls all succeed: the `k`-th image is handle
`100 + k`, its copy `200 + k`, the converted copy `1200 + k`. -/
def sampleSDK : SDK :=
  { malloc := fun _ => true, acDeviceGetNodeMap := true, acDeviceGetTLStreamNodeMap := true,
    acNodeMapGetNodeAndAccessMode := fun _ => some .RW, acValueToString := fun _ => true,
    acValueFromString := fun _ _ => true, acNodeMapSetBooleanValue := fun _ _ => true,
    acDeviceStartStream := true, acDeviceStopStream := true,
    acDeviceGetBuffer := fun k _ => some (100 + k),
    acImageFactoryCopy := fun h => some (h + 100), acDeviceRequeueBuffer := fun _ => true,
    acImageFactoryConvert := fun h _ => some (h + 1000), acImageGetWidth := fun _ => 640,
    acImageGetHeight := fun _ => 480, acImageGetBitsPerPixel := fun _ => 24,
    acImageGetData := fun h => [h], saveWriterCreate := fun _ _ _ => true,
    saveWriterSetFileNamePattern := fun _ => true, saveWriterSave := fun _ _ => true,
    saveWriterDestroy := true, acImageFactoryDestroy := fun _ => true }

/-- The same, but the third `acDeviceGetBuffer` (call number 2) times out. -/
def failingSDK : SDK :=
  { sampleSDK with acDeviceGetBuffer := fun k _ => if k = 2 then none else some (100 + k) }

/-- The same as `sampleSDK`, but no queue node can be allocated. -/
def noMemorySDK : SDK :=
  { sampleSDK with malloc := fun _ => false }

/-- An interleaving of a run with three images in which the consumer is never woken
on an empty queue. -/
def sampleSchedule : List Tick :=
  [.prod, .prod, .cons, .prod, .cons, .prod, .prod, .cons, .cons, .prod, .prod, .prod,
    .cons, .cons]

/-- The state `sampleSchedule` leads to with three images on `sampleSDK`. -/
def sampleRun : State :=
  run sampleSDK 3 sampleSchedule (init sampleNodes)

/-- A run of one image: the producer has queued the only copy and set `isCompleted`,
the consumer has not started. -/
def lastQueued : State :=
  run sampleSDK 1 [.prod, .prod] (init sampleNodes)

/-- A run of one image in which the queue node could not be allocated: the producer
has set `isCompleted`, the queue is empty, the consumer has not started. -/
def completedEmpty : State :=
  run noMemorySDK 1 [.prod, .prod] (init sampleNodes)

end ArenaC


namespace ArenaCpp

/-- A system with one device, all of whose calls succeed. -/
def sampleSystem : System :=
  { OpenSystem := true, UpdateDevices := fun _ => true, GetDevices := some 1,
    CreateDevice := fun _ => true, DestroyDevice := true, CloseSystem := true }

/-- The same, but no device is found. -/
def noDeviceSystem : System :=
  { sampleSystem with GetDevices := some 0 }

/-- The same as `sampleSDK`, but the writer fails on the second file. -/
def writerFailsSDK : SDK :=
  { sampleSDK with Save := fun path _ => path != fileName 1 }

/-- The same as `sampleSDK`, but the copy of the second image cannot be converted. -/
def convertFailsSDK : SDK :=
  { sampleSDK with Convert := fun h _ => if h = 201 then none else some (h + 1000) }

end ArenaCpp

namespace ArenaC

/-- A system with one device, all of whose calls succeed. -/
def sampleSystem : System :=
  { acOpenSystem := true, acSystemUpdateDevices := fun _ => true,
    acSystemGetNumDevices := some 1, acSystemCreateDevice := fun _ => true,
    acSystemDestroyDevice := true, acCloseSystem := true }

/-- The same, but no device is found. -/
def noDeviceSystem : System :=
  { sampleSystem with acSystemGetNumDevices := some 0 }

/-- The same as `sampleSDK`, but the writer fails on the second file. -/
def writerFailsSDK : SDK :=
  { sampleSDK with saveWriterSave := fun path _ => path != some (fileName 1) }

/-- The same as `sampleSDK`, but the copy of the second image cannot be converted. -/
def convertFailsSDK : SDK :=
  { sampleSDK with
    acImageFactoryConvert := fun h _ => if h = 201 then none else some (h + 1000) }

/-- The same as `sampleSDK`, but `AcquisitionMode` cannot be set back to
`"SingleFrame"`. -/
def restoreFailsSDK : SDK :=
  { sampleSDK with acValueFromString := fun _ v => v != "SingleFrame" }

/-- An interleaving of a run with two images in which the wake-up of the producer
reaches the consumer after it has taken the first image and gone to sleep. -/
def lateWakeSchedule : List Tick :=
  [.prod, .prod, .cons, .cons, .cons, .prod, .cons, .cons, .prod, .prod, .prod, .cons, .cons,
    .cons, .cons]

end ArenaC

namespace ArenaCpp

/-- The producer runs to its end, then the consumer runs. -/
def sequentialSchedule : List Tick :=
  List.replicate 10 .prod ++ List.replicate 10 .cons

/-- A run of four images in which the consumer is about to process the copy of the
second image, the one that cannot be converted. -/
def beforeConvertFails : State :=
  run convertFailsSDK 4 (List.replicate 10 .prod ++ List.replicate 3 .cons) (init sampleNodes)

/-- A run of four images in which the consumer is about to process the copy of the
second image, the one whose file cannot be written. -/
def beforeWriterFails : State :=
  run writerFailsSDK 4 (List.replicate 10 .prod ++ List.replicate 3 .cons) (init sampleNodes)

end ArenaCpp

namespace ArenaC

/-- The producer runs to its end, then the consumer runs. -/
def sequentialSchedule : List Tick :=
  List.replicate 10 .prod ++ List.replicate 10 .cons

end ArenaC
theorem attempt_of_not_failed (l : List Event) (h : l.any Event.failed = false) :
    attempt l = l := by
  induction l with
  | nil => rfl
  | cons e es ih =>
    simp only [List.any_cons, Bool.or_eq_false_iff] at h
    simp [attempt, h.1, ih h.2]

theorem attempt_initial (l : List Event) : attempt l <+: l := by
  induction l with
  | nil => exact List.prefix_refl _
  | cons e es ih =>
    unfold attempt
    split
    · exact ⟨es, rfl⟩
    · exact (List.prefix_cons_inj e).mpr ih

theorem attempt_getLast_failed (l : List Event) (h : l.any Event.failed = true) :
    (attempt l).getLast?.map Event.failed = some true := by
  induction l with
  | nil => simp at h
  | cons e es ih =>
    unfold attempt
    cases he : e.failed with
    | true => simp [he]
    | false =>
      simp only [Bool.false_eq_true, ↓reduceIte]
      simp only [List.any_cons, he, Bool.false_or] at h
      have h1 := ih h
      cases hq : attempt es with
      | nil => simp [hq] at h1
      | cons a as => rw [List.getLast?_cons_cons]; rw [hq] at h1; exact h1

theorem getLast?_append_of_getLast? (l m : List Event) (b : Bool)
    (h : m.getLast?.map Event.failed = some b) :
    (l ++ m).getLast?.map Event.failed = some b := by
  cases m with
  | nil => simp at h
  | cons a as => rw [List.getLast?_append_of_ne_nil _ (by simp)]; exact h

theorem isLast_iff (i N : Nat) : isLast i N = true ↔ i + 1 = N := by
  unfold isLast
  simp only [beq_iff_eq]
  omega

theorem isLast_eq (i N : Nat) : isLast i N = decide (i + 1 = N) := by
  rw [Bool.eq_iff_iff, isLast_iff]; simp

theorem filterMap_attempt_nil {β : Type} (f : Event → Option β) (l : List Event)
    (h : l.filterMap f = []) : (attempt l).filterMap f = [] := by
  have := (attempt_initial l).filterMap f
  rw [h] at this
  exact List.prefix_nil.mp this

theorem queue_pop {f : Nat → Option Handle} {h : Handle} {rest : List Handle} {a b : Nat}
    (hq : (h :: rest).map some = (List.range' a b).map f) :
    0 < b ∧ f a = some h ∧ rest.map some = (List.range' (a + 1) (b - 1)).map f := by
  cases b with
  | zero => simp at hq
  | succ b =>
    rw [List.range'_succ] at hq
    simp only [List.map_cons, List.cons.injEq] at hq
    exact ⟨Nat.succ_pos _, hq.1.symm, by simpa using hq.2⟩

theorem queue_push {f : Nat → Option Handle} {q : List Handle} {h : Handle} {a b : Nat}
    (hq : q.map some = (List.range' a b).map f) (hf : f (a + b) = some h) :
    (q ++ [h]).map some = (List.range' a (b + 1)).map f := by
  rw [List.range'_concat]
  simp [hq, hf]

theorem queue_nil_iff {f : Nat → Option Handle} {q : List Handle} {a b : Nat}
    (hq : q.map some = (List.range' a b).map f) : q = [] ↔ b = 0 := by
  have := congrArg List.length hq
  simp only [List.length_map, List.length_range'] at this
  rw [← this]
  exact List.length_eq_zero.symm

theorem noFailure_eq (l : List Event) : noFailure l = !l.any Event.failed := by
  induction l with
  | nil => rfl
  | cons e es ih =>
    unfold noFailure at ih ⊢
    simp only [List.all_cons, List.any_cons, ih, Bool.not_or]

theorem noFailure_append (l m : List Event) :
    noFailure (l ++ m) = (noFailure l && noFailure m) := by
  simp [noFailure]

theorem attempt_append_of_noFailure (l m : List Event) (h : noFailure l = true) :
    attempt (l ++ m) = l ++ attempt m := by
  induction l with
  | nil => rfl
  | cons e es ih =>
    simp only [noFailure, List.all_cons, Bool.and_eq_true, Bool.not_eq_true'] at h
    simp only [List.cons_append, attempt, h.1, Bool.false_eq_true, ↓reduceIte, List.cons.injEq,
      true_and]
    exact ih (by simpa [noFailure] using h.2)

theorem attempt_append_of_failed (l m : List Event) (h : l.any Event.failed = true) :
    attempt (l ++ m) = attempt l := by
  induction l with
  | nil => simp at h
  | cons e es ih =>
    cases he : e.failed with
    | true => simp [attempt, he]
    | false =>
      simp only [List.any_cons, he, Bool.false_or] at h
      simp [attempt, he, ih h]

theorem range_split {i N : Nat} (h : i < N) :
    List.range N = List.range i ++ i :: List.range' (i + 1) (N - (i + 1)) := by
  have e : N = (N - (i + 1)) + 1 + i := by omega
  conv_lhs => rw [e, List.range_eq_range', ← List.range'_append 0 i ((N - (i + 1)) + 1) 1]
  simp [List.range_eq_range', List.range'_succ]

theorem noFailure_flatMap_range {f : Nat → List Event} {N i : Nat}
    (h : noFailure ((List.range N).flatMap f) = true) (hi : i < N) : noFailure (f i) = true := by
  rw [range_split hi] at h
  simp only [List.flatMap_append, List.flatMap_cons, noFailure_append, Bool.and_eq_true] at h
  exact h.2.1

theorem noWait_attempt (l : List Event) (h : noWait l = l) : noWait (attempt l) = attempt l := by
  unfold noWait at h ⊢
  rw [List.filter_eq_self] at h ⊢
  intro a ha
  exact h a ((attempt_initial l).subset ha)

theorem noWait_append (l m : List Event) : noWait (l ++ m) = noWait l ++ noWait m := by
  simp [noWait]

theorem popped_append (l m : List Event) : popped (l ++ m) = popped l ++ popped m := by
  simp [popped]

theorem pushed_append (l m : List Event) : pushed (l ++ m) = pushed l ++ pushed m := by
  simp [pushed]

theorem pushed_append_of_nil (l m : List Event) (h : pushed m = []) :
    pushed (l ++ m) = pushed l := by
  rw [pushed_append, h, List.append_nil]

theorem popped_append_of_nil (l m : List Event) (h : popped m = []) :
    popped (l ++ m) = popped l := by
  rw [popped_append, h, List.append_nil]

theorem prefix_map_range {β : Type} {f : Nat → β} {l : List β} {n : Nat}
    (h : l <+: (List.range n).map f) : l = (List.range l.length).map f ∧ l.length ≤ n := by
  have hlen : l.length ≤ n := by simpa using h.length_le
  refine ⟨?_, hlen⟩
  have := List.prefix_iff_eq_take.mp h
  rw [← List.map_take, List.take_range, Nat.min_eq_left hlen] at this
  exact this

theorem filter_isSome_eq_self {l : List (Option Handle)} (h : ∀ x ∈ l, x.isSome = true) :
    l.filter Option.isSome = l :=
  List.filter_eq_self.mpr h

theorem filterMap_filter_of {β : Type} (f : Event → Option β) (p : Event → Bool)
    (h : ∀ e, p e = false → f e = none) (l : List Event) :
    (l.filter p).filterMap f = l.filterMap f := by
  induction l with
  | nil => rfl
  | cons e es ih =>
    cases hp : p e with
    | true => simp [List.filter_cons, hp, List.filterMap_cons, ih]
    | false => simp [List.filter_cons, hp, List.filterMap_cons, h e hp, ih]

theorem saves_calls (l : List Event) : saves (calls l) = saves l := by
  refine filterMap_filter_of _ _ (fun e he => ?_) l
  cases e <;> simp [Event.isSync] at he <;> rfl

theorem noFailure_calls (l : List Event) (h : noFailure l = true) :
    noFailure (calls l) = true := by
  unfold noFailure calls at *
  rw [List.all_eq_true] at h ⊢
  intro x hx
  exact h x (List.mem_filter.mp hx).1

theorem getElem?_map_range {β : Type} {f : Nat → β} {m i : Nat} {x : β}
    (h : ((List.range m).map f)[i]? = some x) : i < m ∧ x = f i := by
  rw [List.getElem?_map] at h
  cases hr : (List.range m)[i]? with
  | none => rw [hr] at h; cases h
  | some j =>
    have hi : i < m := by
      have := (List.getElem?_eq_some_iff.mp hr).1
      simpa using this
    rw [List.getElem?_range hi] at hr
    rw [List.getElem?_range hi] at h
    exact ⟨hi, (Option.some.inj h).symm⟩
namespace ArenaCpp

/-! ## Cpp variant: the invariant holds in every reachable state -/

theorem Inv.init (sdk : SDK) (N : Nat) (nodes0 : Nodes) : Inv sdk N nodes0 (init nodes0) := by
  refine ⟨?_, ?_, ?_, ?_, ?_, ?_, ?_, ?_, ?_⟩ <;>
    simp [ProdInv, ConsInv, ArenaCpp.init, pushed, popped, noWait]
  omega

theorem Inv.spurious_step {sdk : SDK} {N : Nat} {nodes0 : Nodes} {s : State}
    (h : Inv sdk N nodes0 s) : Inv sdk N nodes0 (step sdk N .spurious s) := by
  unfold step
  simp only
  split
  · rename_i hw
    obtain ⟨hp, hc, hle, hpl, hcomp, hq, hld, hdone, hpo⟩ := h
    refine ⟨?_, ?_, hle, hpl, hcomp, hq, hld, hdone, hpo⟩
    · exact hp
    · simp only [ConsInv, hw] at hc ⊢
      exact ⟨hc.1, hc.2.1, hc.2.2.1⟩
  · exact h

theorem popped_processCalls (sdk : SDK) (i : Nat) (h : Handle) :
    popped (processCalls sdk i h) = [] := by
  unfold processCalls popped
  split <;> simp [Event.popped?]

theorem noWait_processCalls (sdk : SDK) (i : Nat) (h : Handle) :
    noWait (processCalls sdk i h) = processCalls sdk i h := by
  unfold processCalls noWait
  split <;> simp

theorem Inv.critical {sdk : SDK} {N : Nat} {nodes0 : Nodes} {s : State}
    (h : Inv sdk N nodes0 s) (pre : List Event) (hpre : popped pre = [])
    (hi : (popped s.clog).length = s.i) (hl : s.localComplete = false)
    (hlog : noWait (s.clog ++ pre) = (List.range s.i).flatMap (citerLog sdk N) ++ [.lock])
    (hne : s.m_queue.length > 0) : Inv sdk N nodes0 (SaveImages.critical pre s) := by
  obtain ⟨hp, hc, hle, hpl, hcomp, hq, hld, hdone, hpo⟩ := h
  unfold SaveImages.critical
  cases hqq : s.m_queue with
  | nil => simp [hqq] at hne
  | cons pCopy rest =>
    rw [hqq] at hq
    obtain ⟨hb, hf, hrest⟩ := queue_pop hq
    have hnil := queue_nil_iff hrest
    have hcond : (rest.length == 0 && s.isCompleted) = true ↔ s.i + 1 = N := by
      rw [Bool.and_eq_true, hcomp, beq_iff_eq, List.length_eq_zero, hnil]
      omega
    have hpop : popped (s.clog ++ pre ++ [Event.dequeue (some pCopy)] ++
        (if (rest.length == 0 && s.isCompleted) = true then [Event.setLocalComplete] else []) ++
        [Event.unlock]) = popped s.clog ++ [some pCopy] := by
      unfold popped at hpre ⊢
      split <;> simp [Event.popped?, hpre]
    simp only
    refine ⟨hp, ?_, hle, ?_, hcomp, ?_, ?_, hdone, hpo⟩
    · simp only [ConsInv]
      rw [hpop]
      refine ⟨by simp [hi], by rw [← hi]; exact hf, ?_⟩
      unfold noWait at hlog ⊢
      simp only [List.filter_append] at hlog ⊢
      rw [hlog]
      unfold critLog
      rw [← hi, hf]
      by_cases hc2 : s.i + 1 = N
      · simp [hcond.mpr hc2, hi, hc2]
      · have : ¬ ((rest.length == 0 && s.isCompleted) = true) := fun hh => hc2 (hcond.mp hh)
        simp [this, hi, hc2]
    · rw [hpop]; simp; omega
    · rw [hpop]
      simp only [List.length_append, List.length_singleton]
      rw [hrest, Nat.sub_sub]
    · by_cases hc2 : (rest.length == 0 && s.isCompleted) = true
      · simp only [hc2, ↓reduceIte]
        rw [Bool.and_eq_true, beq_iff_eq, List.length_eq_zero] at hc2
        simp [hc2.1, hc2.2]
      · simp only [hc2, ↓reduceIte, hl]
        rw [Bool.and_eq_true, beq_iff_eq, List.length_eq_zero] at hc2
        simpa using hc2

theorem Inv.process {sdk : SDK} {N : Nat} {nodes0 : Nodes} {s : State}
    (h : Inv sdk N nodes0 s) (pCopy : Handle) (hcc : s.cpc = .process pCopy) :
    Inv sdk N nodes0 (SaveImages.process sdk pCopy s) := by
  obtain ⟨hp, hc, hle, hpl, hcomp, hq, hld, hdone, hpo⟩ := h
  simp only [ConsInv, hcc] at hc
  obtain ⟨hi, hcopy, hlog⟩ := hc
  have hpop : popped (s.clog ++ attempt (processCalls sdk s.i pCopy)) = popped s.clog :=
    popped_append_of_nil _ _ (filterMap_attempt_nil _ _ (popped_processCalls sdk s.i pCopy))
  unfold SaveImages.process
  cases hf : (processCalls sdk s.i pCopy).any Event.failed with
  | true =>
    simp only [↓reduceIte]
    refine ⟨hp, ?_, hle, ?_, hcomp, ?_, hld, hdone, hpo⟩
    · simp only [ConsInv]
      rw [hpop]
      refine ⟨hi, getLast?_append_of_getLast? _ _ _ (attempt_getLast_failed _ hf), pCopy, hcopy,
        hf, ?_⟩
      rw [noWait_append, hlog, noWait_attempt _ (noWait_processCalls sdk s.i pCopy)]
    · rw [hpop]; exact hpl
    · rw [hpop]; exact hq
  | false =>
    have hnw : noWait (s.clog ++ attempt (processCalls sdk s.i pCopy)) =
        (List.range (s.i + 1)).flatMap (citerLog sdk N) := by
      rw [attempt_of_not_failed _ hf, List.range_succ, List.flatMap_append, noWait_append,
        noWait_processCalls, hlog]
      simp [citerLog, processLog, hcopy]
    have hdone2 : ∀ j, j < s.i + 1 → IterOk sdk j := by
      intro j hj
      rcases Nat.lt_succ_iff_lt_or_eq.mp hj with h1 | h1
      · exact hdone j h1
      · subst h1; exact ⟨pCopy, hcopy, hf⟩
    simp only [Bool.false_eq_true, ↓reduceIte]
    refine ⟨hp, ?_, hle, ?_, hcomp, ?_, hld, hdone2, hpo⟩
    · cases hlc : s.localComplete with
      | true => simp only [ConsInv, ↓reduceIte]; rw [hpop]; exact ⟨hi, trivial, hnw⟩
      | false =>
        simp only [ConsInv, Bool.false_eq_true, ↓reduceIte]; rw [hpop]; exact ⟨hi, trivial, hnw⟩
    · rw [hpop]; exact hpl
    · rw [hpop]; exact hq

theorem Inv.block {sdk : SDK} {N : Nat} {nodes0 : Nodes} {s : State}
    (h : Inv sdk N nodes0 s) (pre : List Event) (hpre : popped pre = [])
    (hi : (popped s.clog).length = s.i) (hl : s.localComplete = false)
    (hlog : noWait (s.clog ++ pre) = (List.range s.i).flatMap (citerLog sdk N) ++ [.lock])
    (hne : ¬ s.m_queue.length > 0) :
    Inv sdk N nodes0 { s with cpc := .waiting, clog := s.clog ++ pre } := by
  obtain ⟨hp, -, hle, hpl, hcomp, hq, hld, hdone, hpo⟩ := h
  have hpop : popped (s.clog ++ pre) = popped s.clog := popped_append_of_nil _ _ hpre
  refine ⟨hp, ?_, hle, ?_, hcomp, ?_, hld, hdone, hpo⟩
  · simp only [ConsInv]
    rw [hpop]
    exact ⟨hi, hl, hlog, Or.inl (by simpa using hne)⟩
  · simp only; rw [hpop]; exact hpl
  · simp only; rw [hpop]; exact hq

theorem Inv.cons_step {sdk : SDK} {N : Nat} {nodes0 : Nodes} {s : State}
    (h : Inv sdk N nodes0 s) : Inv sdk N nodes0 (SaveImages sdk s) := by
  unfold SaveImages
  cases hcc : s.cpc with
  | lockWait =>
    have hc := h.cons
    simp only [ConsInv, hcc] at hc
    simp only
    split
    · rename_i hne
      refine Inv.critical h [.lock] (by simp [popped, Event.popped?]) hc.1 hc.2.1 ?_ hne
      rw [noWait_append, hc.2.2]; simp [noWait]
    · rename_i hne
      refine Inv.block h [.lock, .wait] (by simp [popped, Event.popped?]) hc.1 hc.2.1 ?_ hne
      rw [noWait_append, hc.2.2]; simp [noWait]
  | woken =>
    have hc := h.cons
    simp only [ConsInv, hcc] at hc
    simp only
    split
    · rename_i hne
      exact Inv.critical h [] (by simp [popped]) hc.1 hc.2.1 (by simpa using hc.2.2) hne
    · rename_i hne
      refine Inv.block h [.wait] (by simp [popped, Event.popped?]) hc.1 hc.2.1 ?_ hne
      rw [noWait_append, hc.2.2]; simp [noWait]
  | process pCopy => exact Inv.process h pCopy hcc
  | waiting => exact h
  | returned => exact h
  | threw => exact h

theorem ConsInv.transfer {sdk : SDK} {N : Nat} {s t : State} (h : ConsInv sdk N s)
    (h1 : t.cpc = s.cpc) (h2 : t.clog = s.clog) (h3 : t.i = s.i)
    (h4 : t.localComplete = s.localComplete)
    (h5 : s.cpc = .waiting → (t.m_queue = [] ∨ ∃ i pImage, t.ppc = .release i pImage)) :
    ConsInv sdk N t := by
  unfold ConsInv at h ⊢
  rw [h1, h2, h3, h4]
  cases hc : s.cpc <;> simp only [hc] at h ⊢ <;> try exact h
  exact ⟨h.1, h.2.1, h.2.2.1, h5 hc⟩

theorem ConsInv.queue_of_not_release {sdk : SDK} {N : Nat} {s : State} (h : ConsInv sdk N s)
    (hp : ∀ i pImage, s.ppc ≠ .release i pImage) (hw : s.cpc = .waiting) : s.m_queue = [] := by
  simp only [ConsInv, hw] at h
  rcases h.2.2.2 with h1 | ⟨i, p, h1⟩
  · exact h1
  · exact absurd h1 (hp i p)

theorem pushed_setupCalls (sdk : SDK) (nd : Nodes) : pushed (setupCalls sdk nd) = [] := by
  simp [pushed, setupCalls, Event.pushed?]

theorem pushed_teardownCalls (sdk : SDK) (v : String) : pushed (teardownCalls sdk v) = [] := by
  simp [pushed, teardownCalls, Event.pushed?]

theorem producerLog_split (sdk : SDK) (N : Nat) (nodes0 : Nodes) {i : Nat} (h : i < N) :
    producerLog sdk N nodes0 = loopLog sdk N nodes0 i ++ (acquireLog sdk N i ++
      (releaseLog sdk i ++ ((List.range' (i + 1) (N - (i + 1))).flatMap (iterLog sdk N) ++
        teardownCalls sdk nodes0.AcquisitionMode))) := by
  unfold producerLog loopLog
  rw [range_split h]
  simp [iterLog]

theorem Inv.setup {sdk : SDK} {N : Nat} {nodes0 : Nodes} {s : State}
    (h : Inv sdk N nodes0 s) (hpc : s.ppc = .setup) :
    Inv sdk N nodes0 (AcquireImages.setup sdk N s) := by
  obtain ⟨hp, hc, hle, hpl, hcomp, hq, hld, hdone, hpo⟩ := h
  simp only [ProdInv, hpc] at hp
  obtain ⟨hlog, hnodes⟩ := hp
  have hpush : pushed (s.plog ++ attempt (setupCalls sdk s.nodes)) = pushed s.plog :=
    pushed_append_of_nil _ _ (filterMap_attempt_nil _ _ (pushed_setupCalls sdk s.nodes))
  have hpush0 : pushed s.plog = [] := by rw [hlog]; rfl
  have hqnil : s.m_queue = [] := by
    rw [queue_nil_iff hq, hpush0]; simp
  unfold AcquireImages.setup
  refine ⟨?_, ?_, ?_, ?_, ?_, ?_, hld, hdone, ?_⟩
  · cases hf : (setupCalls sdk s.nodes).any Event.failed with
    | true =>
      simp only [ProdInv, ↓reduceIte]
      refine ⟨?_, getLast?_append_of_getLast? _ _ _ (attempt_getLast_failed _ hf)⟩
      rw [hlog, hnodes, List.nil_append, producerLog, loopLog, List.append_assoc,
        attempt_append_of_failed _ _ (by rw [← hnodes]; exact hf)]
    | false =>
      rw [attempt_of_not_failed _ hf]
      have hf2 := hf
      simp only [setupCalls, List.any_cons, List.any_nil, Event.failed, Bool.or_false,
        Bool.or_eq_false_iff, Bool.not_eq_false', Option.isNone_eq_false_iff] at hf2
      obtain ⟨-, h2, h3, h4, h5, h6⟩ := hf2
      have hn : List.foldl Nodes.apply s.nodes (setupCalls sdk s.nodes) = configured := by
        simp [setupCalls, h2, h3, h4, h5, h6, Nodes.apply, configured]
      have hnf : noFailure (s.plog ++ setupCalls sdk s.nodes) = true := by
        rw [hlog, List.nil_append, noFailure_eq, hf]; rfl
      by_cases hN : 0 < N
      · simp only [ProdInv, Bool.false_eq_true, ↓reduceIte, hN, hn]
        refine ⟨trivial, ?_, ?_, hnf, trivial, by rw [hnodes]⟩
        · rw [pushed_append_of_nil _ _ (pushed_setupCalls sdk s.nodes), hpush0]; rfl
        · simp [hlog, loopLog, hnodes]
      · simp only [ProdInv, Bool.false_eq_true, ↓reduceIte, hN, hn]
        have hN0 : N = 0 := by omega
        refine ⟨?_, ?_, hnf, trivial, by rw [hnodes]⟩
        · rw [pushed_append_of_nil _ _ (pushed_setupCalls sdk s.nodes), hpush0, hN0]; rfl
        · simp [hlog, loopLog, hnodes, hN0]
  · exact ConsInv.transfer hc rfl rfl rfl rfl (fun _ => Or.inl hqnil)
  · simp only; rw [hpush]; exact hle
  · simp only; rw [hpush]; exact hpl
  · simp only; rw [hpush]; exact hcomp
  · simp only; rw [hpush]; exact hq
  · simp only; rw [hpush]; exact hpo

theorem Inv.teardown {sdk : SDK} {N : Nat} {nodes0 : Nodes} {s : State}
    (h : Inv sdk N nodes0 s) (hpc : s.ppc = .teardown) :
    Inv sdk N nodes0 (AcquireImages.teardown sdk s) := by
  obtain ⟨hp, hc, hle, hpl, hcomp, hq, hld, hdone, hpo⟩ := h
  simp only [ProdInv, hpc] at hp
  obtain ⟨hlen, hlog, hnf, hnodes, hinit⟩ := hp
  have hpush : pushed (s.plog ++ attempt (teardownCalls sdk s.acquisitionModeInitial)) =
      pushed s.plog :=
    pushed_append_of_nil _ _ (filterMap_attempt_nil _ _ (pushed_teardownCalls sdk _))
  unfold AcquireImages.teardown
  refine ⟨?_, ?_, ?_, ?_, ?_, ?_, hld, hdone, ?_⟩
  · cases hf : (teardownCalls sdk s.acquisitionModeInitial).any Event.failed with
    | true =>
      simp only [ProdInv, ↓reduceIte]
      refine ⟨?_, getLast?_append_of_getLast? _ _ _ (attempt_getLast_failed _ hf)⟩
      rw [producerLog, ← hlog, attempt_append_of_noFailure _ _ hnf, hinit]
    | false =>
      rw [attempt_of_not_failed _ hf]
      have hf2 := hf
      simp only [teardownCalls, List.any_cons, List.any_nil, Event.failed, Bool.or_false,
        Bool.or_eq_false_iff, Bool.not_eq_false'] at hf2
      simp only [ProdInv, Bool.false_eq_true, ↓reduceIte]
      refine ⟨?_, ?_, ?_, ?_⟩
      · rw [pushed_append_of_nil _ _ (pushed_teardownCalls sdk _)]; exact hlen
      · rw [producerLog, hlog, hinit]
      · rw [noFailure_append, hnf, noFailure_eq, hf]; rfl
      · rw [hinit] at hf2
        simp [teardownCalls, hf2.1, hf2.2, Nodes.apply, hnodes, restored, hinit]
  · exact ConsInv.transfer hc rfl rfl rfl rfl (fun hw =>
      Or.inl (hc.queue_of_not_release (fun i p => by rw [hpc]; simp) hw))
  · simp only; rw [hpush]; exact hle
  · simp only; rw [hpush]; exact hpl
  · simp only; rw [hpush]; exact hcomp
  · simp only; rw [hpush]; exact hq
  · simp only; rw [hpush]; exact hpo

theorem Inv.acquire {sdk : SDK} {N : Nat} {nodes0 : Nodes} {s : State}
    (h : Inv sdk N nodes0 s) (i : Nat) (hpc : s.ppc = .acquire i) :
    Inv sdk N nodes0 (AcquireImages.acquire sdk N i s) := by
  obtain ⟨hp, hc, hle, hpl, hcomp, hq, hld, hdone, hpo⟩ := h
  simp only [ProdInv, hpc] at hp
  obtain ⟨hiN, hlen, hlog, hnf, hnodes, hinit⟩ := hp
  have hnc : s.isCompleted = false := by
    cases hb : s.isCompleted with
    | false => rfl
    | true => have := hcomp.mp hb; omega
  have hnl : s.localComplete = false := by
    cases hb : s.localComplete with
    | false => rfl
    | true => have := (hld.mp hb).2; rw [hnc] at this; cases this
  have hkeep : ∀ t : State, t.cpc = s.cpc → t.clog = s.clog → t.i = s.i →
      t.localComplete = s.localComplete → t.m_queue = s.m_queue → ConsInv sdk N t :=
    fun t h1 h2 h3 h4 h5 => ConsInv.transfer hc h1 h2 h3 h4 (fun hw =>
      Or.inl (by rw [h5]; exact hc.queue_of_not_release (fun i p => by rw [hpc]; simp) hw))
  unfold AcquireImages.acquire
  cases hg : sdk.GetImage i TIMEOUT with
  | none =>
    have hpush : pushed (s.plog ++ [Event.getImage i TIMEOUT none]) = pushed s.plog :=
      pushed_append_of_nil _ _ (by simp [pushed, Event.pushed?])
    simp only
    refine ⟨?_, hkeep _ rfl rfl rfl rfl rfl, ?_, ?_, ?_, ?_, hld, hdone, ?_⟩
    · simp only [ProdInv]
      refine ⟨?_, by simp [Event.failed]⟩
      rw [producerLog_split sdk N nodes0 hiN, ← hlog, attempt_append_of_noFailure _ _ hnf]
      simp [acquireLog, hg, attempt, Event.failed]
    · rw [hpush]; exact hle
    · rw [hpush]; exact hpl
    · rw [hpush]; exact hcomp
    · rw [hpush]; exact hq
    · rw [hpush]; exact hpo
  | some pImage =>
    dsimp only
    cases hcp : sdk.Copy pImage with
    | none =>
      have hpush : pushed (s.plog ++ [Event.getImage i TIMEOUT (some pImage),
          Event.copy (some pImage) none]) = pushed s.plog :=
        pushed_append_of_nil _ _ (by simp [pushed, Event.pushed?])
      simp only
      refine ⟨?_, hkeep _ rfl rfl rfl rfl rfl, ?_, ?_, ?_, ?_, hld, hdone, ?_⟩
      · simp only [ProdInv]
        refine ⟨?_, by simp [Event.failed]⟩
        rw [producerLog_split sdk N nodes0 hiN, ← hlog, attempt_append_of_noFailure _ _ hnf]
        simp [acquireLog, hg, attempt, Event.failed, copyOf, hcp]
      · rw [hpush]; exact hle
      · rw [hpush]; exact hpl
      · rw [hpush]; exact hcomp
      · rw [hpush]; exact hq
      · rw [hpush]; exact hpo
    | some pCopy =>
      have hco : copyOf sdk i = some pCopy := by simp [copyOf, hg, hcp]
      have hpush : pushed (s.plog ++ [Event.getImage i TIMEOUT (some pImage),
          Event.copy (some pImage) (some pCopy), Event.lock, Event.enqueue (some pCopy) true] ++
          (if isLast i N = true then [Event.setCompleted] else []) ++ [Event.unlock]) =
          pushed s.plog ++ [some pCopy] := by
        unfold pushed
        split <;> simp [Event.pushed?]
      have hlog2 : s.plog ++ [Event.getImage i TIMEOUT (some pImage),
          Event.copy (some pImage) (some pCopy), Event.lock, Event.enqueue (some pCopy) true] ++
          (if isLast i N = true then [Event.setCompleted] else []) ++ [Event.unlock] =
          loopLog sdk N nodes0 i ++ acquireLog sdk N i := by
        rw [hlog, acquireLog, hg, hco, isLast_eq]
        by_cases hl : i + 1 = N <;> simp [hl]
      simp only
      refine ⟨?_, ?_, ?_, ?_, ?_, ?_, ?_, hdone, ?_⟩
      · simp only [ProdInv]
        rw [hpush]
        refine ⟨hiN, by simp [hlen], hg, hlog2, ?_, hnodes, hinit⟩
        rw [List.append_assoc, List.append_assoc, noFailure_append, hnf]
        by_cases hl : isLast i N = true <;> simp [hl, noFailure, Event.failed]
      · exact ConsInv.transfer hc rfl rfl rfl rfl (fun _ => Or.inr ⟨i, pImage, rfl⟩)
      · rw [hpush]; simp; omega
      · rw [hpush]; simp; omega
      · rw [hpush, isLast_eq]
        simp only [List.length_append, List.length_singleton, hlen, hnc]
        by_cases hl : i + 1 = N
        · simp [hl]; omega
        · simp [hl]
      · rw [hpush]
        simp only [List.length_append, List.length_singleton]
        have e1 : (pushed s.plog).length + 1 - (popped s.clog).length =
            ((pushed s.plog).length - (popped s.clog).length) + 1 := by omega
        rw [e1]
        refine queue_push hq ?_
        have e2 : (popped s.clog).length + ((pushed s.plog).length - (popped s.clog).length) = i := by
          omega
        rw [e2]; exact hco
      · simp [hnl]
      · rw [hpush]
        intro j hj
        simp only [List.length_append, List.length_singleton] at hj
        rcases Nat.lt_succ_iff_lt_or_eq.mp hj with h1 | h1
        · exact hpo j h1
        · rw [h1, hlen, hco]; rfl

theorem Inv.release {sdk : SDK} {N : Nat} {nodes0 : Nodes} {s : State}
    (h : Inv sdk N nodes0 s) (i : Nat) (pImage : Handle) (hpc : s.ppc = .release i pImage) :
    Inv sdk N nodes0 (AcquireImages.release sdk N i pImage s) := by
  obtain ⟨hp, hc, hle, hpl, hcomp, hq, hld, hdone, hpo⟩ := h
  simp only [ProdInv, hpc] at hp
  obtain ⟨hiN, hlen, hg, hlog, hnf, hnodes, hinit⟩ := hp
  have hpush : pushed (s.plog ++ [Event.notify,
      Event.requeue (some pImage) (sdk.RequeueBuffer pImage)]) = pushed s.plog :=
    pushed_append_of_nil _ _ (by simp [pushed, Event.pushed?])
  have hrel : releaseLog sdk i =
      [Event.notify, Event.requeue (some pImage) (sdk.RequeueBuffer pImage)] := by
    simp [releaseLog, hg]
  unfold AcquireImages.release
  refine ⟨?_, ?_, ?_, ?_, ?_, ?_, hld, hdone, ?_⟩
  · cases hr : sdk.RequeueBuffer pImage with
    | false =>
      simp only [ProdInv, Bool.not_false, ↓reduceIte]
      refine ⟨?_, by simp [Event.failed]⟩
      rw [producerLog_split sdk N nodes0 hiN, ← List.append_assoc, ← hlog,
        attempt_append_of_noFailure _ _ hnf, hrel, hr]
      simp [attempt, Event.failed]
    | true =>
      have hnf2 : noFailure (s.plog ++ [Event.notify, Event.requeue (some pImage) true]) =
          true := by
        rw [noFailure_append, hnf]; simp [noFailure, Event.failed]
      rw [hr] at hrel
      by_cases hN : i + 1 < N
      · simp only [ProdInv, Bool.not_true, Bool.false_eq_true, ↓reduceIte, hN]
        rw [← hr, hpush]
        refine ⟨trivial, hlen, ?_, by rw [hr]; exact hnf2, hnodes, hinit⟩
        rw [hlog, hr, ← hrel]
        simp [loopLog, List.range_succ, iterLog]
      · simp only [ProdInv, Bool.not_true, Bool.false_eq_true, ↓reduceIte, hN]
        have hN2 : i + 1 = N := by omega
        subst hN2
        rw [← hr, hpush]
        refine ⟨hlen, ?_, by rw [hr]; exact hnf2, hnodes, hinit⟩
        rw [hlog, hr, ← hrel]
        simp [loopLog, List.range_succ, iterLog]
  · unfold ConsInv at hc ⊢
    cases hcc : s.cpc <;> simp only [hcc, reduceCtorEq, ↓reduceIte] at hc ⊢ <;>
      first | exact hc | exact ⟨hc.1, hc.2.1, hc.2.2.1⟩
  · simp only; rw [hpush]; exact hle
  · simp only; rw [hpush]; exact hpl
  · simp only; rw [hpush]; exact hcomp
  · simp only; rw [hpush]; exact hq
  · simp only; rw [hpush]; exact hpo

theorem Inv.prod_step {sdk : SDK} {N : Nat} {nodes0 : Nodes} {s : State}
    (h : Inv sdk N nodes0 s) : Inv sdk N nodes0 (AcquireImages sdk N s) := by
  unfold AcquireImages
  cases hpc : s.ppc with
  | setup => exact Inv.setup h hpc
  | acquire i => exact Inv.acquire h i hpc
  | release i pImage => exact Inv.release h i pImage hpc
  | teardown => exact Inv.teardown h hpc
  | returned => exact h
  | threw => exact h

theorem Inv.step {sdk : SDK} {N : Nat} {nodes0 : Nodes} {s : State}
    (h : Inv sdk N nodes0 s) (t : Tick) : Inv sdk N nodes0 (step sdk N t s) := by
  cases t with
  | prod => exact Inv.prod_step h
  | cons => exact Inv.cons_step h
  | spurious => exact Inv.spurious_step h

theorem Inv.run {sdk : SDK} {N : Nat} {nodes0 : Nodes} (sched : List Tick) {s : State}
    (h : Inv sdk N nodes0 s) : Inv sdk N nodes0 (run sdk N sched s) := by
  induction sched generalizing s with
  | nil => exact h
  | cons t ts ih => exact ih (Inv.step h t)

theorem inv_reachable (sdk : SDK) (N : Nat) (nodes0 : Nodes) (sched : List Tick) :
    Inv sdk N nodes0 (run sdk N sched (init nodes0)) :=
  Inv.run sched (Inv.init sdk N nodes0)

end ArenaCpp

namespace ArenaCpp

/-! ## Cpp variant: when no call fails, every run can be completed -/

theorem Reliable.setup_ok {sdk : SDK} {N : Nat} {nodes0 : Nodes} (h : Reliable sdk N nodes0) :
    (setupCalls sdk nodes0).any Event.failed = false := by
  have := h.1
  simp only [producerLog, loopLog, noFailure_append, Bool.and_eq_true] at this
  have h1 := this.1.1
  rw [noFailure_eq] at h1
  simpa using h1

theorem Reliable.teardown_ok {sdk : SDK} {N : Nat} {nodes0 : Nodes} (h : Reliable sdk N nodes0) :
    (teardownCalls sdk nodes0.AcquisitionMode).any Event.failed = false := by
  have := h.1
  simp only [producerLog, loopLog, noFailure_append, Bool.and_eq_true] at this
  have h1 := this.2
  rw [noFailure_eq] at h1
  simpa using h1

theorem Reliable.iter {sdk : SDK} {N : Nat} {nodes0 : Nodes} (h : Reliable sdk N nodes0)
    {i : Nat} (hi : i < N) :
    ∃ pImage pCopy, sdk.GetImage i TIMEOUT = some pImage ∧ sdk.Copy pImage = some pCopy ∧
      sdk.RequeueBuffer pImage = true ∧
      (processCalls sdk i pCopy).any Event.failed = false := by
  have h1 := h.1
  simp only [producerLog, loopLog, noFailure_append, Bool.and_eq_true] at h1
  have h2 := noFailure_flatMap_range h1.1.2 hi
  have h3 := noFailure_flatMap_range h.2 hi
  cases hg : sdk.GetImage i TIMEOUT with
  | none => simp [iterLog, acquireLog, releaseLog, noFailure, Event.failed, hg] at h2
  | some pImage =>
    cases hc : sdk.Copy pImage with
    | none => simp [iterLog, acquireLog, releaseLog, noFailure, Event.failed, hg, copyOf, hc] at h2
    | some pCopy =>
      refine ⟨pImage, pCopy, rfl, hc, ?_, ?_⟩
      · simp only [iterLog, acquireLog, releaseLog, noFailure_append, hg, Bool.and_eq_true] at h2
        simpa [noFailure, Event.failed] using h2.2
      · have hco : copyOf sdk i = some pCopy := by simp [copyOf, hg, hc]
        simp only [citerLog, processLog, hco, noFailure_append, Bool.and_eq_true] at h3
        have := h3.2
        rw [noFailure_eq] at this
        simpa using this

theorem Inv.ppc_ne_threw {sdk : SDK} {N : Nat} {nodes0 : Nodes} {s : State}
    (h : Inv sdk N nodes0 s) (hr : Reliable sdk N nodes0) : s.ppc ≠ .threw := by
  intro hpc
  have hp := h.prod
  simp only [ProdInv, hpc] at hp
  have h1 := hr.1
  rw [noFailure_eq] at h1
  have h2 : (producerLog sdk N nodes0).any Event.failed = false := by simpa using h1
  rw [attempt_of_not_failed _ h2] at hp
  rw [hp.1] at hp
  have h3 := hp.2
  cases hl : (producerLog sdk N nodes0).getLast? with
  | none => simp [hl] at h3
  | some e =>
    simp only [hl, Option.map_some', Option.some.injEq] at h3
    have hm : e ∈ producerLog sdk N nodes0 := List.mem_of_getLast?_eq_some hl
    have := List.any_eq_false.mp h2 e hm
    simp [h3] at this

theorem Inv.i_lt_of_process {sdk : SDK} {N : Nat} {nodes0 : Nodes} {s : State}
    (h : Inv sdk N nodes0 s) {pCopy : Handle} (hcc : s.cpc = .process pCopy) : s.i < N := by
  have hc := h.cons
  simp only [ConsInv, hcc] at hc
  have := h.popped_le
  have := h.pushed_le
  omega

theorem Inv.process_ok {sdk : SDK} {N : Nat} {nodes0 : Nodes} {s : State}
    (h : Inv sdk N nodes0 s) (hr : Reliable sdk N nodes0) {pCopy : Handle}
    (hcc : s.cpc = .process pCopy) : (processCalls sdk s.i pCopy).any Event.failed = false := by
  obtain ⟨p, c, hg, hcp, -, hok⟩ := hr.iter (h.i_lt_of_process hcc)
  have hc := h.cons
  simp only [ConsInv, hcc] at hc
  have hco : copyOf sdk s.i = some c := by simp [copyOf, hg, hcp]
  have : pCopy = c := by
    have := hc.2.1
    rw [hco] at this
    exact (Option.some.inj this).symm
  rw [this]; exact hok

theorem Inv.cpc_ne_threw {sdk : SDK} {N : Nat} {nodes0 : Nodes} {s : State}
    (h : Inv sdk N nodes0 s) (hr : Reliable sdk N nodes0) : s.cpc ≠ .threw := by
  intro hcc
  have hc := h.cons
  simp only [ConsInv, hcc] at hc
  obtain ⟨hlen, -, pCopy, hco, hf, -⟩ := hc
  have hi : s.i < N := by
    have := h.popped_le
    have := h.pushed_le
    omega
  obtain ⟨p, c, hg, hcp, -, hok⟩ := hr.iter hi
  have hco2 : copyOf sdk s.i = some c := by simp [copyOf, hg, hcp]
  rw [hco2] at hco
  rw [← Option.some.inj hco, hok] at hf
  cases hf

/-- When no call fails the producer reaches its return in `remaining` steps of its
own, whatever the consumer has done so far. -/
theorem producer_returns {sdk : SDK} {N : Nat} {nodes0 : Nodes}
    (hr : Reliable sdk N nodes0) (n : Nat) (s : State) (h : Inv sdk N nodes0 s)
    (hn : s.ppc.remaining N = n) :
    (run sdk N (List.replicate n .prod) s).ppc = .returned := by
  induction n generalizing s with
  | zero =>
    have hp := h.prod
    have hne := h.ppc_ne_threw hr
    cases hpc : s.ppc <;> simp only [hpc, PPc.remaining, ProdInv] at hn hp hne <;>
      first | rfl | omega | exact absurd rfl hne | skip
    · simpa [run] using hpc
  | succ n ih =>
    have hstep : (step sdk N .prod s).ppc.remaining N = n := by
      have hp := h.prod
      have hne := (h.step .prod).ppc_ne_threw hr
      simp only [step, AcquireImages] at hne ⊢
      cases hpc : s.ppc with
      | setup =>
        simp only [hpc, PPc.remaining] at hn hne ⊢
        simp only [AcquireImages.setup] at hne ⊢
        by_cases hf : (setupCalls sdk s.nodes).any Event.failed = true
        · simp [hf] at hne
        · by_cases hN : 0 < N
          · simp only [hf, Bool.false_eq_true, ↓reduceIte, hN, PPc.remaining]; omega
          · simp only [hf, Bool.false_eq_true, ↓reduceIte, hN, PPc.remaining]; omega
      | acquire i =>
        simp only [hpc, PPc.remaining] at hn hne ⊢
        simp only [AcquireImages.acquire] at hne ⊢
        cases hg : sdk.GetImage i TIMEOUT with
        | none => simp [hg] at hne
        | some pImage =>
          simp only [hg] at hne
          dsimp only
          cases hcp : sdk.Copy pImage with
          | none => simp [hcp] at hne
          | some pCopy => simp only [PPc.remaining]; omega
      | release i pImage =>
        simp only [hpc, ProdInv] at hp
        simp only [hpc, PPc.remaining] at hn hne ⊢
        simp only [AcquireImages.release] at hne ⊢
        by_cases hf : sdk.RequeueBuffer pImage = true
        · by_cases hN : i + 1 < N
          · simp only [hf, Bool.not_true, Bool.false_eq_true, ↓reduceIte, hN, PPc.remaining]
            omega
          · simp only [hf, Bool.not_true, Bool.false_eq_true, ↓reduceIte, hN, PPc.remaining]
            omega
        · simp [hf] at hne
      | teardown =>
        simp only [hpc, PPc.remaining] at hn hne ⊢
        simp only [AcquireImages.teardown] at hne ⊢
        by_cases hf : (teardownCalls sdk s.acquisitionModeInitial).any Event.failed = true
        · simp [hf] at hne
        · simp only [hf, Bool.false_eq_true, ↓reduceIte, PPc.remaining]; omega
      | returned => simp [hpc, PPc.remaining] at hn
      | threw => simp [hpc, PPc.remaining] at hn
    simpa [run, List.replicate_succ] using ih (step sdk N .prod s) (h.step .prod) hstep

theorem SaveImages_ppc (sdk : SDK) (s : State) : (SaveImages sdk s).ppc = s.ppc := by
  unfold SaveImages SaveImages.critical SaveImages.process
  cases s.cpc <;> simp only <;> try rfl
  all_goals (split <;> try rfl)
  all_goals (split <;> rfl)

theorem Inv.queue_ne_nil {sdk : SDK} {N : Nat} {nodes0 : Nodes} {s : State}
    (h : Inv sdk N nodes0 s) (hN : 0 < N) (hpc : s.ppc = .returned)
    (hl : s.localComplete = false) : s.m_queue.length > 0 ∧ (popped s.clog).length < N := by
  have hp := h.prod
  simp only [ProdInv, hpc] at hp
  have hcomp : s.isCompleted = true := h.completed.mpr ⟨hp.1, hN⟩
  have hq : s.m_queue ≠ [] := by
    intro hq
    have := h.localDone.mpr ⟨hq, hcomp⟩
    rw [hl] at this; cases this
  have h1 := (queue_nil_iff h.queue).not.mp hq
  exact ⟨List.length_pos.mpr hq, by omega⟩

/-- When no call fails and the producer has returned, the consumer reaches its return
in `remaining` steps of its own. -/
theorem consumer_returns {sdk : SDK} {N : Nat} {nodes0 : Nodes}
    (hr : Reliable sdk N nodes0) (hN : 0 < N) (n : Nat) (s : State) (h : Inv sdk N nodes0 s)
    (hpc : s.ppc = .returned) (hn : s.cpc.remaining N s.i = n) :
    (run sdk N (List.replicate n .cons) s).cpc = .returned ∧
      (run sdk N (List.replicate n .cons) s).ppc = .returned := by
  induction n generalizing s with
  | zero =>
    have hc := h.cons
    have hne := h.cpc_ne_threw hr
    cases hcc : s.cpc with
    | returned => exact ⟨by simpa [run] using hcc, by simpa [run] using hpc⟩
    | threw => exact absurd hcc hne
    | waiting =>
      simp only [ConsInv, hcc] at hc
      have := (h.queue_ne_nil hN hpc hc.2.1).2
      simp only [hcc, CPc.remaining] at hn
      omega
    | lockWait =>
      simp only [ConsInv, hcc] at hc
      have := (h.queue_ne_nil hN hpc hc.2.1).2
      simp only [hcc, CPc.remaining] at hn
      omega
    | woken =>
      simp only [ConsInv, hcc] at hc
      have := (h.queue_ne_nil hN hpc hc.2.1).2
      simp only [hcc, CPc.remaining] at hn
      omega
    | process pCopy =>
      have := h.i_lt_of_process hcc
      simp only [hcc, CPc.remaining] at hn
      omega
  | succ n ih =>
    have hstep : (step sdk N .cons s).cpc.remaining N (step sdk N .cons s).i = n := by
      have hc := h.cons
      simp only [step, SaveImages]
      cases hcc : s.cpc with
      | returned => simp [hcc, CPc.remaining] at hn
      | threw => simp [hcc, CPc.remaining] at hn
      | waiting =>
        have hq := h.cons.queue_of_not_release (fun i p => by rw [hpc]; simp) hcc
        simp only [ConsInv, hcc] at hc
        have := (h.queue_ne_nil hN hpc hc.2.1).1
        rw [hq] at this
        simp at this
      | lockWait =>
        simp only [ConsInv, hcc] at hc
        have hq := (h.queue_ne_nil hN hpc hc.2.1).1
        simp only [hcc, CPc.remaining] at hn
        simp only [hq, ↓reduceIte, SaveImages.critical]
        cases hqq : s.m_queue with
        | nil => simp [hqq] at hq
        | cons a rest => simp only [CPc.remaining]; omega
      | woken =>
        simp only [ConsInv, hcc] at hc
        have hq := (h.queue_ne_nil hN hpc hc.2.1).1
        simp only [hcc, CPc.remaining] at hn
        simp only [hq, ↓reduceIte, SaveImages.critical]
        cases hqq : s.m_queue with
        | nil => simp [hqq] at hq
        | cons a rest => simp only [CPc.remaining]; omega
      | process pCopy =>
        have hok := h.process_ok hr hcc
        have hi := h.i_lt_of_process hcc
        simp only [ConsInv, hcc] at hc
        simp only [hcc, CPc.remaining] at hn
        simp only [SaveImages.process, hok, Bool.false_eq_true, ↓reduceIte]
        cases hl : s.localComplete with
        | false => simp only [Bool.false_eq_true, ↓reduceIte, CPc.remaining]; omega
        | true =>
          simp only [↓reduceIte, CPc.remaining]
          have hq := (h.localDone.mp hl).1
          have hz := (queue_nil_iff h.queue).mp hq
          have hp := h.prod
          simp only [ProdInv, hpc] at hp
          omega
    have hpc2 : (step sdk N .cons s).ppc = .returned := by
      simp only [step]; rw [SaveImages_ppc]; exact hpc
    simpa [run, List.replicate_succ] using ih (step sdk N .cons s) (h.step .cons) hpc2 hstep

theorem run_append (sdk : SDK) (N : Nat) (a b : List Tick) (s : State) :
    run sdk N (a ++ b) s = run sdk N b (run sdk N a s) := by
  simp [run, List.foldl_append]

/-- When no call fails and `NUM_IMAGES >= 1`, every run can be completed: from the
state an interleaving has led to, steps of the producer followed by steps of the
consumer lead to the state in which both have returned. -/
theorem can_finish {sdk : SDK} {N : Nat} {nodes0 : Nodes} (hr : Reliable sdk N nodes0)
    (hN : 0 < N) (sched : List Tick) :
    ∃ a b, (run sdk N (sched ++ (List.replicate a .prod ++ List.replicate b .cons))
      (init nodes0)).finished = true := by
  have h0 := inv_reachable sdk N nodes0 sched
  obtain ⟨a, ha⟩ : ∃ a, (run sdk N (List.replicate a .prod)
      (run sdk N sched (init nodes0))).ppc = .returned := ⟨_, producer_returns hr _ _ h0 rfl⟩
  obtain ⟨b, hb⟩ : ∃ b, (run sdk N (List.replicate b .cons) (run sdk N (List.replicate a .prod)
      (run sdk N sched (init nodes0)))).cpc = .returned ∧
      (run sdk N (List.replicate b .cons) (run sdk N (List.replicate a .prod)
      (run sdk N sched (init nodes0)))).ppc = .returned :=
    ⟨_, consumer_returns hr hN _ _ (h0.run (List.replicate a .prod)) ha rfl⟩
  refine ⟨a, b, ?_⟩
  rw [run_append, run_append]
  simp only [State.finished, Bool.and_eq_true, decide_eq_true_eq]
  exact ⟨hb.2, hb.1⟩

end ArenaCpp

namespace ArenaCpp

/-! ## Cpp variant: what the logs of a run contain -/

theorem saves_noWait (l : List Event) : saves (noWait l) = saves l := by
  induction l with
  | nil => rfl
  | cons e es ih =>
    unfold saves noWait at ih ⊢
    cases e <;> simp [List.filter_cons, Event.saved?, ih]

theorem saves_append (l m : List Event) : saves (l ++ m) = saves l ++ saves m := by
  simp [saves]

theorem saves_critLog (sdk : SDK) (N j : Nat) : saves (critLog sdk N j) = [] := by
  unfold critLog saves
  split <;> simp [Event.saved?]

theorem saves_processCalls (sdk : SDK) (j : Nat) (pCopy : Handle) :
    saves (processCalls sdk j pCopy) =
      match sdk.Convert pCopy PIXEL_FORMAT with
      | some pConverted => [(some (fileName j), some (sdk.GetData pConverted))]
      | none => [] := by
  unfold processCalls saves
  cases hcv : sdk.Convert pCopy PIXEL_FORMAT <;> simp [Event.saved?]

theorem convert_of_not_failed {sdk : SDK} {j : Nat} {pCopy : Handle}
    (h : (processCalls sdk j pCopy).any Event.failed = false) :
    ∃ pConverted, sdk.Convert pCopy PIXEL_FORMAT = some pConverted := by
  cases hc : sdk.Convert pCopy PIXEL_FORMAT with
  | some c => exact ⟨c, rfl⟩
  | none => simp [processCalls, hc, Event.failed] at h

theorem IterOk.iter_saves {sdk : SDK} {j : Nat} (h : IterOk sdk j) (N : Nat) :
    saves (citerLog sdk N j) = [saveOf sdk j] ∧ (convertedOf sdk j).isSome = true := by
  obtain ⟨pCopy, hco, hok⟩ := h
  obtain ⟨pConverted, hcv⟩ := convert_of_not_failed hok
  have hcc : convertedOf sdk j = some pConverted := by simp [convertedOf, hco, hcv]
  refine ⟨?_, by rw [hcc]; rfl⟩
  rw [citerLog, saves_append, saves_critLog, processLog, hco, saves_processCalls, hcv,
    saveOf, hcc]
  rfl

theorem saves_flatMap {sdk : SDK} (N m : Nat) (h : ∀ j, j < m → IterOk sdk j) :
    saves ((List.range m).flatMap (citerLog sdk N)) = (List.range m).map (saveOf sdk) := by
  induction m with
  | zero => rfl
  | succ m ih =>
    rw [List.range_succ, List.flatMap_append, saves_append, ih (fun j hj => h j (by omega)),
      List.map_append]
    simp [(h m (by omega)).iter_saves N |>.1]

theorem saves_attempt_processCalls (sdk : SDK) (j : Nat) (pCopy : Handle)
    (hco : copyOf sdk j = some pCopy) :
    saves (attempt (processCalls sdk j pCopy)) = [] ∨
      (saves (attempt (processCalls sdk j pCopy)) = [saveOf sdk j] ∧
        (convertedOf sdk j).isSome = true) := by
  have hp : saves (attempt (processCalls sdk j pCopy)) <+: saves (processCalls sdk j pCopy) :=
    (attempt_initial _).filterMap _
  rw [saves_processCalls] at hp
  cases hcv : sdk.Convert pCopy PIXEL_FORMAT with
  | none =>
    rw [hcv] at hp
    exact Or.inl (List.prefix_nil.mp hp)
  | some pConverted =>
    rw [hcv] at hp
    have hcc : convertedOf sdk j = some pConverted := by simp [convertedOf, hco, hcv]
    cases hs : saves (attempt (processCalls sdk j pCopy)) with
    | nil => exact Or.inl rfl
    | cons a as =>
      rw [hs] at hp
      have hlen := hp.length_le
      obtain ⟨t, ht⟩ := hp
      simp only [List.cons_append, List.cons.injEq] at ht
      have has : as = [] := by
        simp only [List.length_cons, List.length_singleton, List.length_nil] at hlen
        exact List.length_eq_zero.mp (by omega)
      right
      refine ⟨?_, by rw [hcc]; rfl⟩
      rw [has, ht.1, saveOf, hcc]
      rfl

/-- In every reachable state the writer calls made so far are those for the images
`0 .. m-1`, in this order, each on the converted copy of its image; `m` is
`NUM_IMAGES` once the consumer has returned. -/
theorem Inv.saves_eq {sdk : SDK} {N : Nat} {nodes0 : Nodes} {s : State}
    (h : Inv sdk N nodes0 s) :
    ∃ m, saves s.clog = (List.range m).map (saveOf sdk) ∧
      (∀ j, j < m → (convertedOf sdk j).isSome = true) ∧ m ≤ N ∧
      (s.cpc = .returned → m = N) := by
  have hc := h.cons
  have hle := h.popped_le
  have hle2 := h.pushed_le
  have hconv : ∀ j, j < s.i → (convertedOf sdk j).isSome = true :=
    fun j hj => (h.done j hj).iter_saves N |>.2
  rw [← saves_noWait]
  cases hcc : s.cpc with
  | lockWait =>
    simp only [ConsInv, hcc] at hc
    exact ⟨s.i, by rw [hc.2.2, saves_flatMap N s.i h.done], hconv, by omega, by simp⟩
  | waiting =>
    simp only [ConsInv, hcc] at hc
    refine ⟨s.i, ?_, hconv, by omega, by simp⟩
    rw [hc.2.2.1, saves_append, saves_flatMap N s.i h.done]; simp [saves, Event.saved?]
  | woken =>
    simp only [ConsInv, hcc] at hc
    refine ⟨s.i, ?_, hconv, by omega, by simp⟩
    rw [hc.2.2, saves_append, saves_flatMap N s.i h.done]; simp [saves, Event.saved?]
  | process pCopy =>
    simp only [ConsInv, hcc] at hc
    refine ⟨s.i, ?_, hconv, by omega, by simp⟩
    rw [hc.2.2, saves_append, saves_flatMap N s.i h.done, saves_critLog]; simp
  | returned =>
    simp only [ConsInv, hcc] at hc
    refine ⟨s.i, by rw [hc.2.2, saves_flatMap N s.i h.done], hconv, by omega, fun _ => ?_⟩
    have hd := h.localDone.mp hc.2.1
    have hz := (queue_nil_iff h.queue).mp hd.1
    have hn := (h.completed.mp hd.2).1
    omega
  | threw =>
    simp only [ConsInv, hcc] at hc
    obtain ⟨hlen, -, pCopy, hco, -, hlog⟩ := hc
    rw [hlog, saves_append, saves_append, saves_flatMap N s.i h.done, saves_critLog]
    rcases saves_attempt_processCalls sdk s.i pCopy hco with h1 | ⟨h1, h2⟩
    · exact ⟨s.i, by rw [h1]; simp, hconv, by omega, by simp⟩
    · refine ⟨s.i + 1, by rw [h1, List.range_succ]; simp, fun j hj => ?_, by omega, by simp⟩
      rcases Nat.lt_succ_iff_lt_or_eq.mp hj with h3 | h3
      · exact hconv j h3
      · rw [h3]; exact h2

end ArenaCpp

namespace ArenaCpp

theorem pushed_iterLog (sdk : SDK) (N j : Nat) : pushed (iterLog sdk N j) = [copyOf sdk j] := by
  unfold iterLog acquireLog releaseLog pushed
  split <;> simp [Event.pushed?]

theorem pushed_loopLog (sdk : SDK) (N : Nat) (nodes0 : Nodes) (k : Nat) :
    pushed (loopLog sdk N nodes0 k) = (List.range k).map (copyOf sdk) := by
  induction k with
  | zero => simp [loopLog, pushed_setupCalls]
  | succ k ih =>
    have e : loopLog sdk N nodes0 (k + 1) = loopLog sdk N nodes0 k ++ iterLog sdk N k := by
      simp [loopLog, List.range_succ]
    rw [e, pushed_append, ih, pushed_iterLog, List.range_succ, List.map_append]
    rfl

theorem acquisitions_append (l m : List Event) :
    acquisitions (l ++ m) = acquisitions l ++ acquisitions m := by
  simp [acquisitions]

theorem acquisitions_iterLog (sdk : SDK) (N j : Nat) :
    acquisitions (iterLog sdk N j) = [(j, sdk.GetImage j TIMEOUT)] := by
  unfold iterLog acquireLog releaseLog acquisitions
  split <;> simp [Event.acquired?]

theorem acquisitions_loopLog (sdk : SDK) (N : Nat) (nodes0 : Nodes) (k : Nat) :
    acquisitions (loopLog sdk N nodes0 k) =
      (List.range k).map (fun i => (i, sdk.GetImage i TIMEOUT)) := by
  induction k with
  | zero => simp [loopLog, acquisitions, setupCalls, Event.acquired?]
  | succ k ih =>
    have e : loopLog sdk N nodes0 (k + 1) = loopLog sdk N nodes0 k ++ iterLog sdk N k := by
      simp [loopLog, List.range_succ]
    rw [e, acquisitions_append, ih, acquisitions_iterLog, List.range_succ, List.map_append]
    rfl

/-- What the producer's log holds once it has returned. -/
theorem Inv.producer_done {sdk : SDK} {N : Nat} {nodes0 : Nodes} {s : State}
    (h : Inv sdk N nodes0 s) (hpc : s.ppc = .returned) :
    s.plog = producerLog sdk N nodes0 ∧
      acquisitions s.plog = (List.range N).map (fun i => (i, sdk.GetImage i TIMEOUT)) ∧
      pushed s.plog = (List.range N).map (copyOf sdk) ∧
      (∀ i, i < N → (copyOf sdk i).isSome = true) ∧ (0 < N → s.isCompleted = true) := by
  have hp := h.prod
  simp only [ProdInv, hpc] at hp
  obtain ⟨hlen, hlog, -, -⟩ := hp
  refine ⟨hlog, ?_, ?_, fun i hi => h.pushedOk i (by omega), fun hN => h.completed.mpr ⟨hlen, hN⟩⟩
  · rw [hlog, producerLog, acquisitions_append, acquisitions_loopLog]
    simp [acquisitions, teardownCalls, Event.acquired?]
  · rw [hlog, producerLog, pushed_append, pushed_loopLog, pushed_teardownCalls]
    simp

theorem step_isCompleted (sdk : SDK) (N : Nat) (t : Tick) (s : State)
    (h : s.isCompleted = true) : (step sdk N t s).isCompleted = true := by
  cases t with
  | prod =>
    simp only [step, AcquireImages]
    cases s.ppc with
    | setup => exact h
    | acquire i =>
      simp only [AcquireImages.acquire]
      cases sdk.GetImage i TIMEOUT with
      | none => exact h
      | some pImage =>
        dsimp only
        cases sdk.Copy pImage with
        | none => exact h
        | some pCopy =>
          dsimp only
          split
          · rfl
          · exact h
    | release i pImage => exact h
    | teardown => exact h
    | returned => exact h
    | threw => exact h
  | cons =>
    simp only [step, SaveImages]
    cases s.cpc with
    | lockWait =>
      dsimp only
      split
      · unfold SaveImages.critical
        cases s.m_queue <;> exact h
      · exact h
    | woken =>
      dsimp only
      split
      · unfold SaveImages.critical
        cases s.m_queue <;> exact h
      · exact h
    | process pCopy => exact h
    | waiting => exact h
    | returned => exact h
    | threw => exact h
  | spurious =>
    simp only [step]
    split <;> exact h

theorem setCompleted_not_mem_iterLog (sdk : SDK) (N j : Nat) (h : j + 1 ≠ N) :
    Event.setCompleted ∉ iterLog sdk N j := by
  simp [iterLog, acquireLog, releaseLog, h]

/-- With `NUM_IMAGES >= 1` the log of a producer that has returned holds the write of
`isCompleted` once: after the enqueue of the last copy, between the same lock and
unlock. -/
theorem producerLog_completion (sdk : SDK) (N : Nat) (nodes0 : Nodes) (hN : 0 < N) :
    ∃ pre post, producerLog sdk N nodes0 =
        pre ++ [.lock, .enqueue (copyOf sdk (N - 1)) true, .setCompleted, .unlock] ++ post ∧
      Event.setCompleted ∉ pre ∧ Event.setCompleted ∉ post ∧
      acquisitions pre = (List.range N).map (fun i => (i, sdk.GetImage i TIMEOUT)) ∧
      acquisitions post = [] ∧ pushed pre = (List.range (N - 1)).map (copyOf sdk) ∧
      pushed post = [] := by
  obtain ⟨k, rfl⟩ : ∃ k, N = k + 1 := ⟨N - 1, by omega⟩
  refine ⟨loopLog sdk (k + 1) nodes0 k ++
      [.getImage k TIMEOUT (sdk.GetImage k TIMEOUT), .copy (sdk.GetImage k TIMEOUT) (copyOf sdk k)],
    releaseLog sdk k ++ teardownCalls sdk nodes0.AcquisitionMode, ?_, ?_, ?_, ?_, ?_, ?_, ?_⟩
  · simp [producerLog, loopLog, List.range_succ, iterLog, acquireLog]
  · simp only [loopLog, List.mem_append, List.mem_flatMap, List.mem_range, not_or, not_exists,
      not_and]
    refine ⟨⟨by simp [setupCalls], fun j hj => setCompleted_not_mem_iterLog sdk _ j (by omega)⟩,
      by simp⟩
  · simp [releaseLog, teardownCalls]
  · rw [acquisitions_append, acquisitions_loopLog, List.range_succ, List.map_append]
    simp [acquisitions, Event.acquired?]
  · simp [acquisitions, releaseLog, teardownCalls, Event.acquired?]
  · rw [pushed_append, pushed_loopLog]
    simp [pushed, Event.pushed?]
  · simp [pushed, releaseLog, teardownCalls, Event.pushed?]

theorem run_isCompleted (sdk : SDK) (N : Nat) (sched : List Tick) :
    ∀ s : State, s.isCompleted = true → (run sdk N sched s).isCompleted = true := by
  induction sched with
  | nil => intro s h; exact h
  | cons t ts ih => intro s h; exact ih _ (step_isCompleted sdk N t s h)

end ArenaCpp

namespace ArenaC

/-! ## C variant: the queue is first-in first-out -/

theorem dequeue_append_singleton (q : node_t) (x : acBuffer) :
    dequeue (q ++ [x]) = (x, q) := by
  induction q with
  | nil => rfl
  | cons a q ih =>
    cases q with
    | nil => rfl
    | cons b q => simp only [List.cons_append] at ih ⊢; simp [dequeue, ih]

theorem enqueueAll_eq (head : node_t) (xs : List acBuffer) :
    enqueueAll head xs = xs.reverse ++ head := by
  induction xs generalizing head with
  | nil => rfl
  | cons x xs ih =>
    have h := ih (x :: head)
    simp only [enqueueAll, List.foldl_cons, enqueue] at h ⊢
    simp [h]

theorem dequeueN_append_reverse (xs : List acBuffer) (q : node_t) :
    dequeueN xs.length (q ++ xs.reverse) = (xs, q) := by
  induction xs generalizing q with
  | nil => simp [dequeueN]
  | cons x xs ih =>
    have h : q ++ (x :: xs).reverse = (q ++ xs.reverse) ++ [x] := by simp
    rw [h, List.length_cons, dequeueN, dequeue_append_singleton]
    simp [ih]

theorem dequeue_of_ne_nil {head : node_t} (h : head ≠ []) :
    ∃ x q, head = q ++ [x] ∧ dequeue head = (x, q) := by
  obtain ⟨q, x, hq⟩ := (List.eq_nil_or_concat head).resolve_left h
  rw [List.concat_eq_append] at hq
  exact ⟨x, q, hq, by rw [hq]; exact dequeue_append_singleton q x⟩

/-! ## C variant: the invariant holds in every reachable state -/

theorem filterMap_checked {β : Type} (f : Event → Option β) (hf : f .exitThreads = none)
    (e : Event) : (checked e).filterMap f = [e].filterMap f := by
  unfold checked
  split
  · simp [List.filterMap_cons, hf]
  · rfl

theorem filterMap_flatMap_checked {β : Type} (f : Event → Option β)
    (hf : f .exitThreads = none) (l : List Event) :
    (l.flatMap checked).filterMap f = l.filterMap f := by
  induction l with
  | nil => rfl
  | cons e es ih =>
    rw [List.flatMap_cons, List.filterMap_append, ih, filterMap_checked f hf]
    cases hfe : f e <;> simp [List.filterMap_cons, hfe]

theorem pushed_checked (e : Event) : pushed (checked e) = pushed [e] :=
  filterMap_checked _ rfl e

theorem pushed_setup (sdk : SDK) (nd : Nodes) :
    pushed ((setupCalls sdk nd).flatMap checked) = [] := by
  unfold pushed
  rw [filterMap_flatMap_checked _ rfl]
  simp [setupCalls, Event.pushed?]

theorem pushed_acquireCalls (sdk : SDK) (N i : Nat) :
    pushed (acquireCalls sdk N i) = if sdk.malloc i then [copyOf sdk i] else [] := by
  unfold acquireCalls
  simp only [pushed_append, pushed_checked]
  cases hm : sdk.malloc i <;> cases hl : isLast i N <;> simp [pushed, Event.pushed?, copyOf]

theorem pushed_releaseLog (sdk : SDK) (i : Nat) : pushed (releaseLog sdk i) = [] := by
  unfold releaseLog
  simp only [pushed_append, pushed_checked]
  simp [pushed, Event.pushed?]

theorem enqueued_succ (sdk : SDK) (k : Nat) :
    enqueued sdk (k + 1) = enqueued sdk k ++ if sdk.malloc k then [copyOf sdk k] else [] := by
  unfold enqueued
  rw [List.range_succ, List.filterMap_append]
  cases hm : sdk.malloc k <;> simp [List.filterMap_cons, hm]

theorem callsFrom_append (sdk : SDK) (k : Nat) (hs : List acBuffer) (h : acBuffer) :
    callsFrom sdk k (hs ++ [h]) = callsFrom sdk k hs ++ processCalls sdk (k + hs.length) h := by
  induction hs generalizing k with
  | nil => simp [callsFrom]
  | cons a hs ih =>
    have e : k + 1 + hs.length = k + (hs.length + 1) := by omega
    rw [List.cons_append, callsFrom, callsFrom, ih, e, List.append_assoc, List.length_cons]

theorem calls_checked (e : Event) (he : e.isSync = false) : calls (checked e) = checked e := by
  have hx : Event.isSync .exitThreads = false := rfl
  unfold checked calls
  split <;> simp [List.filter_cons, he, hx]

theorem calls_append (l m : List Event) : calls (l ++ m) = calls l ++ calls m := by
  simp [calls]

theorem conversions_append (l m : List Event) :
    conversions (l ++ m) = conversions l ++ conversions m := by
  simp [conversions]

theorem conversions_checked (e : Event) : conversions (checked e) = conversions [e] :=
  filterMap_checked _ rfl e

theorem popped_checked (e : Event) : popped (checked e) = popped [e] :=
  filterMap_checked _ rfl e

theorem calls_processCalls (sdk : SDK) (i : Nat) (h : acBuffer) :
    calls (processCalls sdk i h) = processCalls sdk i h := by
  unfold processCalls
  simp [calls_append, calls_checked, Event.isSync]

theorem conversions_processCalls (sdk : SDK) (i : Nat) (h : acBuffer) :
    conversions (processCalls sdk i h) = [h] := by
  unfold processCalls
  simp only [conversions_append, conversions_checked]
  simp [conversions]

theorem popped_processCallsC (sdk : SDK) (i : Nat) (h : acBuffer) :
    popped (processCalls sdk i h) = [] := by
  unfold processCalls
  simp only [popped_append, popped_checked]
  simp [popped, Event.popped?]

theorem Inv.initC (sdk : SDK) (N : Nat) (nodes0 : Nodes) : Inv sdk N nodes0 (init nodes0) := by
  refine ⟨?_, ?_, ?_, ?_, ?_, ?_, ?_, ?_, ?_, ?_, ?_⟩ <;>
    simp [ProdInv, ConsInv, ArenaC.init, pushed, popped, conversions, calls, callsFrom,
      PPc.crit, enqueued, CPc.pending]
  omega

theorem pending_wake (c : CPc) : (wake c).pending = c.pending := by
  unfold wake
  split
  · rename_i h; rw [h]; rfl
  · rfl

theorem ConsInv.transferC {sdk : SDK} {N : Nat} {s t : State} (h : ConsInv sdk N s)
    (h1 : t.cpc = s.cpc ∨ t.cpc = wake s.cpc) (h2 : t.isComplete = s.isComplete)
    (h3 : t.cpc = .sleeping → ((∃ i hBuffer, t.ppc = .release i hBuffer) ∨
      (t.head = [] ∧ (t.isCompleted = true → sdk.malloc (N - 1) = false)))) :
    ConsInv sdk N t := by
  have hw : t.cpc = s.cpc ∨ (s.cpc = .sleeping ∧ t.cpc = .woken) := by
    rcases h1 with h1 | h1
    · exact Or.inl h1
    · unfold wake at h1
      split at h1
      · rename_i hs; exact Or.inr ⟨hs, h1⟩
      · exact Or.inl h1
  unfold ConsInv at h ⊢
  rcases hw with hw | ⟨hs, hw⟩
  · rw [h2]
    cases hc : s.cpc <;> rw [hc] at hw <;> simp only [hc, hw] at h h3 ⊢ <;>
      first | exact h | exact ⟨h.1, h3 trivial⟩
  · rw [h2]
    simp only [hs, hw] at h ⊢
    exact h.1

theorem Inv.spurious_stepC {sdk : SDK} {N : Nat} {nodes0 : Nodes} {s : State}
    (h : Inv sdk N nodes0 s) : Inv sdk N nodes0 (step sdk N .spurious s) := by
  obtain ⟨hp, hc, hcl, hpe, hcomp, hq, hld, hdr, hcnt, hcalls, hh⟩ := h
  unfold step
  refine ⟨hp, ?_, hcl, hpe, hcomp, hq, hld, hdr, hcnt, hcalls, ?_⟩
  · refine ConsInv.transferC hc (Or.inr rfl) rfl (fun hs => ?_)
    simp only [wake] at hs
    split at hs <;> simp_all
  · simp only; rw [pending_wake]; exact hh


theorem isEmpty_iff (head : node_t) : isEmpty head = true ↔ head = [] := by
  unfold isEmpty; exact List.isEmpty_iff

theorem Inv.criticalC {sdk : SDK} {N : Nat} {nodes0 : Nodes} {s : State}
    (h : Inv sdk N nodes0 s) (pre : List Event) (hsync : calls pre = [])
    (hpop : popped pre = []) (hconv : conversions pre = [])
    (hpend : s.cpc.pending = []) (hic : s.isComplete = false) :
    Inv sdk N nodes0 (SaveImage.critical pre s) := by
  obtain ⟨hp, hc, hcl, hpe, hcomp, hq, hld, hdr, hcnt, hcalls, hh⟩ := h
  rw [hpend, List.append_nil] at hh
  unfold SaveImage.critical
  by_cases hhead : s.head = []
  · have he : isEmpty s.head = true := (isEmpty_iff _).mpr hhead
    simp only [he, Bool.not_true, Bool.false_eq_true, ↓reduceIte, Bool.true_and,
      List.append_nil]
    have hpop2 : popped (s.clog ++ pre ++ [Event.lock] ++
        (if s.isCompleted = true then [Event.setLocalComplete] else []) ++ [Event.unlock]) =
        popped s.clog := by
      simp only [popped_append, hpop]
      split <;> simp [popped, Event.popped?]
    have hconv2 : conversions (s.clog ++ pre ++ [Event.lock] ++
        (if s.isCompleted = true then [Event.setLocalComplete] else []) ++ [Event.unlock]) =
        conversions s.clog := by
      simp only [conversions_append, hconv]
      split <;> simp [conversions]
    have hcalls2 : calls (s.clog ++ pre ++ [Event.lock] ++
        (if s.isCompleted = true then [Event.setLocalComplete] else []) ++ [Event.unlock]) =
        calls s.clog := by
      simp only [calls_append, hsync]
      split <;> simp [calls, Event.isSync]
    refine ⟨hp, trivial, hcl, hpe, hcomp, ?_, ?_, ?_, ?_, ?_, ?_⟩
    · rw [hpop2]; exact hq
    · intro hx
      cases hcm : s.isCompleted with
      | true => exact ⟨hhead, rfl⟩
      | false => simp [hcm, hic] at hx
    · intro hx _
      simp only at hx
      exact Or.inl (by simp [hx])
    · rw [hconv2]; exact hcnt
    · rw [hcalls2, hconv2]; exact hcalls
    · rw [hconv2, hpop2]
      simp [CPc.pending, NULL, hh]
  · have he : isEmpty s.head = false := by
      cases hb : isEmpty s.head with
      | false => rfl
      | true => exact absurd ((isEmpty_iff _).mp hb) hhead
    obtain ⟨x, q, hxq, hdq⟩ := dequeue_of_ne_nil hhead
    simp only [he, Bool.not_false, ↓reduceIte, hdq]
    have hpop2 : popped (s.clog ++ pre ++ [Event.lock] ++ [Event.dequeue x] ++
        (if (isEmpty q && s.isCompleted) = true then [Event.setLocalComplete] else []) ++
        [Event.unlock]) = popped s.clog ++ [x] := by
      simp only [popped_append, hpop]
      split <;> simp [popped, Event.popped?]
    have hconv2 : conversions (s.clog ++ pre ++ [Event.lock] ++ [Event.dequeue x] ++
        (if (isEmpty q && s.isCompleted) = true then [Event.setLocalComplete] else []) ++
        [Event.unlock]) = conversions s.clog := by
      simp only [conversions_append, hconv]
      split <;> simp [conversions]
    have hcalls2 : calls (s.clog ++ pre ++ [Event.lock] ++ [Event.dequeue x] ++
        (if (isEmpty q && s.isCompleted) = true then [Event.setLocalComplete] else []) ++
        [Event.unlock]) = calls s.clog := by
      simp only [calls_append, hsync]
      split <;> simp [calls, Event.isSync]
    refine ⟨hp, trivial, hcl, hpe, hcomp, ?_, ?_, ?_, ?_, ?_, ?_⟩
    · rw [hpop2, hq, hxq]; simp
    · intro hx
      by_cases hcnd : (isEmpty q && s.isCompleted) = true
      · rw [Bool.and_eq_true, isEmpty_iff] at hcnd
        exact hcnd
      · simp [hcnd, hic] at hx
    · intro hx hq0
      simp only at hx hq0
      exact Or.inl (by simp [hq0, hx, isEmpty])
    · rw [hconv2]; exact hcnt
    · rw [hcalls2, hconv2]; exact hcalls
    · rw [hconv2, hpop2]
      simp [CPc.pending, hh, List.filter_append]

theorem Inv.processC {sdk : SDK} {N : Nat} {nodes0 : Nodes} {s : State}
    (h : Inv sdk N nodes0 s) (hCopyBuffer : acBuffer) (hcc : s.cpc = .process hCopyBuffer) :
    Inv sdk N nodes0 (SaveImage.process sdk hCopyBuffer s) := by
  obtain ⟨hp, hc, hcl, hpe, hcomp, hq, hld, hdr, hcnt, hcalls, hh⟩ := h
  unfold SaveImage.process
  have hpop2 : popped (s.clog ++ processCalls sdk s.i hCopyBuffer) = popped s.clog :=
    popped_append_of_nil _ _ (popped_processCallsC sdk s.i hCopyBuffer)
  refine ⟨hp, ?_, hcl, hpe, hcomp, ?_, hld, hdr, ?_, ?_, ?_⟩
  · cases hic : s.isComplete <;> simp [ConsInv, hic]
  · simp only; rw [hpop2]; exact hq
  · simp only
    rw [conversions_append, conversions_processCalls]
    simp [hcnt]
  · simp only
    rw [calls_append, calls_processCalls, conversions_append, conversions_processCalls,
      callsFrom_append, hcalls, hcnt, Nat.zero_add]
  · simp only
    rw [hpop2, conversions_append, conversions_processCalls, ← hh, hcc]
    cases hic : s.isComplete <;> simp [CPc.pending]

theorem Inv.cons_stepC {sdk : SDK} {N : Nat} {nodes0 : Nodes} {s : State}
    (h : Inv sdk N nodes0 s) : Inv sdk N nodes0 (SaveImage sdk s) := by
  unfold SaveImage
  cases hcc : s.cpc with
  | top =>
    have hc := h.cons
    simp only [ConsInv, hcc] at hc
    simp only
    split
    · rename_i he
      obtain ⟨hp, -, hcl, hpe, hcomp, hq, hld, hdr, hcnt, hcalls, hh⟩ := h
      have hhead := (isEmpty_iff _).mp he
      refine ⟨hp, ?_, hcl, hpe, hcomp, ?_, hld, hdr, ?_, ?_, ?_⟩
      · simp only [ConsInv]
        refine ⟨hc, Or.inr ⟨hhead, fun hx => ?_⟩⟩
        rcases hdr hx hhead with h1 | h1
        · rw [hc] at h1; cases h1
        · exact h1
      · simp only; rw [popped_append_of_nil _ _ (by simp [popped, Event.popped?])]; exact hq
      · simp only [conversions_append]; simpa [conversions] using hcnt
      · simp only [calls_append, conversions_append]
        simpa [calls, conversions, Event.isSync] using hcalls
      · simp only [conversions_append, popped_append]
        rw [hcc] at hh
        simpa [conversions, popped, Event.popped?, CPc.pending] using hh
    · exact Inv.criticalC h [.lock, .unlock] (by simp [calls, Event.isSync])
        (by simp [popped, Event.popped?]) (by simp [conversions]) (by rw [hcc]; rfl) hc
  | woken =>
    have hc := h.cons
    simp only [ConsInv, hcc] at hc
    exact Inv.criticalC h [.unlock] (by simp [calls, Event.isSync])
      (by simp [popped, Event.popped?]) (by simp [conversions]) (by rw [hcc]; rfl) hc
  | process hCopyBuffer => exact Inv.processC h hCopyBuffer hcc
  | sleeping => exact h
  | returned => exact h



theorem wake_ne_sleeping (c : CPc) : wake c ≠ .sleeping := by
  unfold wake
  split
  · simp
  · assumption

theorem Inv.setupC {sdk : SDK} {N : Nat} {nodes0 : Nodes} {s : State}
    (h : Inv sdk N nodes0 s) (hpc : s.ppc = .setup) :
    Inv sdk N nodes0 (AcquireImages.setup sdk N s) := by
  obtain ⟨hp, hc, hcl, hpe, hcomp, hq, hld, hdr, hcnt, hcalls, hh⟩ := h
  simp only [ProdInv, hpc] at hp
  obtain ⟨hlog, hnodes, hinit⟩ := hp
  simp only [hpc, PPc.crit] at hcl hpe hcomp
  have hpush : pushed (s.plog ++ (setupCalls sdk s.nodes).flatMap checked) = pushed s.plog :=
    pushed_append_of_nil _ _ (pushed_setup sdk s.nodes)
  have hnc : s.isCompleted = false := by
    cases hb : s.isCompleted with
    | false => rfl
    | true => have := hcomp.mp hb; omega
  have hhead : s.head = [] := by
    have h1 : pushed s.plog = [] := by rw [hlog]; rfl
    rw [h1] at hq
    have := List.append_eq_nil.mp hq.symm
    simpa using this.2
  unfold AcquireImages.setup
  by_cases hN : 0 < N
  · simp only [hN, ↓reduceIte]
    refine ⟨?_, ?_, ?_, ?_, ?_, ?_, hld, hdr, hcnt, hcalls, ?_⟩
    · simp only [ProdInv]
      refine ⟨hN, ?_, by rw [hnodes]; rfl, by rw [hnodes, hinit]; rfl⟩
      simp [hlog, loopLog, hnodes]
    · refine ConsInv.transferC hc ?_ rfl (fun _ => Or.inr ⟨hhead, fun hx => ?_⟩)
      · simp only; split <;> simp
      · simp only at hx; rw [hnc] at hx; cases hx
    · simp [PPc.crit]
    · simp only [PPc.crit]; rw [hpush]; exact hpe
    · simp only [PPc.crit]; rw [hnc]; simp; omega
    · simp only; rw [hpush]; exact hq
    · simp only; split
      · rw [pending_wake]; exact hh
      · exact hh
  · have hN0 : N = 0 := by omega
    simp only [hN, ↓reduceIte]
    refine ⟨?_, ?_, ?_, ?_, ?_, ?_, hld, hdr, hcnt, hcalls, ?_⟩
    · simp only [ProdInv]
      refine ⟨?_, by rw [hnodes]; rfl, by rw [hnodes, hinit]; rfl⟩
      simp [hlog, loopLog, hnodes, hN0]
    · refine ConsInv.transferC hc ?_ rfl (fun _ => Or.inr ⟨hhead, fun hx => ?_⟩)
      · simp only; split <;> simp
      · simp only at hx; rw [hnc] at hx; cases hx
    · simp [PPc.crit]
    · simp only [PPc.crit]; rw [hpush, hN0]; exact hpe
    · simp only [PPc.crit]; rw [hnc]; simp; omega
    · simp only; rw [hpush]; exact hq
    · simp only; split
      · rw [pending_wake]; exact hh
      · exact hh

theorem Inv.acquireC {sdk : SDK} {N : Nat} {nodes0 : Nodes} {s : State}
    (h : Inv sdk N nodes0 s) (i : Nat) (hpc : s.ppc = .acquire i) :
    Inv sdk N nodes0 (AcquireImages.acquire sdk N i s) := by
  obtain ⟨hp, hc, hcl, hpe, hcomp, hq, hld, hdr, hcnt, hcalls, hh⟩ := h
  simp only [ProdInv, hpc] at hp
  obtain ⟨hiN, hlog, hnodes, hinit⟩ := hp
  simp only [hpc, PPc.crit] at hcl hpe hcomp
  have hnc : s.isCompleted = false := by
    cases hb : s.isCompleted with
    | false => rfl
    | true => have := hcomp.mp hb; omega
  have hnl : s.isComplete = false := by
    cases hb : s.isComplete with
    | false => rfl
    | true => have := (hld hb).2; rw [hnc] at this; cases this
  have hpush : pushed (s.plog ++ acquireCalls sdk N i) =
      pushed s.plog ++ if sdk.malloc i then [copyOf sdk i] else [] := by
    rw [pushed_append, pushed_acquireCalls]
  unfold AcquireImages.acquire
  refine ⟨?_, ?_, ?_, ?_, ?_, ?_, ?_, ?_, hcnt, hcalls, ?_⟩
  · simp only [ProdInv]
    exact ⟨hiN, trivial, by rw [hlog], hnodes, hinit⟩
  · refine ConsInv.transferC hc ?_ rfl (fun _ => Or.inl ⟨i, _, rfl⟩)
    simp only; split <;> simp
  · simp only [PPc.crit]; omega
  · simp only [PPc.crit]; rw [hpush, hpe, enqueued_succ]
  · simp only [PPc.crit]
    rw [hnc, isLast_eq]
    by_cases hl : i + 1 = N
    · simp [hl]; omega
    · simp [hl]
  · simp only
    rw [hpush, hq, copyOf, enqueue]
    cases hm : sdk.malloc i <;> simp
  · simp only; intro hx; rw [hnl] at hx; cases hx
  · simp only
    intro hx hhd
    right
    rw [hnc] at hx
    have hl : i + 1 = N := by
      by_cases hl : isLast i N = true
      · exact (isLast_iff i N).mp hl
      · simp [hl] at hx
    have hi : N - 1 = i := by omega
    rw [hi]
    cases hm : sdk.malloc i with
    | false => rfl
    | true => simp [enqueue, hm] at hhd
  · simp only; split
    · rw [pending_wake]; exact hh
    · exact hh

theorem Inv.releaseC {sdk : SDK} {N : Nat} {nodes0 : Nodes} {s : State}
    (h : Inv sdk N nodes0 s) (i : Nat) (hBuffer : acBuffer) (hpc : s.ppc = .release i hBuffer) :
    Inv sdk N nodes0 (AcquireImages.release sdk N i hBuffer s) := by
  obtain ⟨hp, hc, hcl, hpe, hcomp, hq, hld, hdr, hcnt, hcalls, hh⟩ := h
  simp only [ProdInv, hpc] at hp
  obtain ⟨hiN, hbuf, hlog, hnodes, hinit⟩ := hp
  simp only [hpc, PPc.crit] at hcl hpe hcomp
  have hpush : pushed (s.plog ++ [Event.notify] ++
      checked (Event.requeue hBuffer (hBuffer.any sdk.acDeviceRequeueBuffer))) =
      pushed s.plog := by
    rw [List.append_assoc]
    refine pushed_append_of_nil _ _ ?_
    rw [pushed_append, pushed_checked]; simp [pushed, Event.pushed?]
  have hlog2 : s.plog ++ [Event.notify] ++
      checked (Event.requeue hBuffer (hBuffer.any sdk.acDeviceRequeueBuffer)) =
      loopLog sdk N nodes0 (i + 1) := by
    rw [hlog, hbuf]
    simp [loopLog, List.range_succ, iterLog, releaseLog]
  have hcrit : PPc.crit N (if i + 1 < N then PPc.acquire (i + 1) else PPc.teardown) = i + 1 := by
    by_cases hN : i + 1 < N
    · simp [hN, PPc.crit]
    · simp only [hN, ↓reduceIte, PPc.crit]; omega
  unfold AcquireImages.release
  refine ⟨?_, ?_, ?_, ?_, ?_, ?_, hld, hdr, hcnt, hcalls, ?_⟩
  · by_cases hN : i + 1 < N
    · simp only [ProdInv, hN, ↓reduceIte]
      exact ⟨trivial, hlog2, hnodes, hinit⟩
    · have hN2 : i + 1 = N := by omega
      simp only [ProdInv, hN, ↓reduceIte]
      exact ⟨by rw [hlog2, hN2], hnodes, hinit⟩
  · exact ConsInv.transferC hc (Or.inr rfl) rfl (fun hs => absurd hs (wake_ne_sleeping _))
  · simp only; rw [hcrit]; exact hcl
  · simp only; rw [hcrit, hpush]; exact hpe
  · simp only; rw [hcrit]; exact hcomp
  · simp only; rw [hpush]; exact hq
  · simp only; rw [pending_wake]; exact hh

theorem Inv.teardownC {sdk : SDK} {N : Nat} {nodes0 : Nodes} {s : State}
    (h : Inv sdk N nodes0 s) (hpc : s.ppc = .teardown) :
    Inv sdk N nodes0 (AcquireImages.teardown sdk s) := by
  obtain ⟨hp, hc, hcl, hpe, hcomp, hq, hld, hdr, hcnt, hcalls, hh⟩ := h
  simp only [ProdInv, hpc] at hp
  obtain ⟨hlog, hnodes, hinit⟩ := hp
  simp only [hpc, PPc.crit] at hcl hpe hcomp
  have hpush : pushed (s.plog ++ checked (Event.stopStream sdk.acDeviceStopStream) ++
      [Event.setNode Node.AcquisitionMode s.pAcquisitionModeInitial
        (SetNodeValue sdk sdk.acDeviceGetNodeMap Node.AcquisitionMode
          s.pAcquisitionModeInitial)]) = pushed s.plog := by
    rw [List.append_assoc]
    refine pushed_append_of_nil _ _ ?_
    rw [pushed_append, pushed_checked]; simp [pushed, Event.pushed?]
  unfold AcquireImages.teardown
  refine ⟨?_, ?_, ?_, ?_, ?_, ?_, hld, hdr, hcnt, hcalls, ?_⟩
  · simp only [ProdInv]
    refine ⟨?_, ?_⟩
    · rw [hlog, hinit, producerLog, teardownLog, List.append_assoc]
    · rw [hnodes, hinit, restored]
  · refine ConsInv.transferC hc ?_ rfl (fun hs => ?_)
    · simp only; split <;> simp
    · simp only at hs ⊢
      have hs2 : s.cpc = .sleeping := by
        split at hs
        · exact hs
        · exact absurd hs (wake_ne_sleeping _)
      have := hc
      simp only [ConsInv, hs2] at this
      rcases this.2 with ⟨i, b, h1⟩ | h1
      · rw [hpc] at h1; cases h1
      · exact Or.inr h1
  · simp [PPc.crit]
  · simp only [PPc.crit]; rw [hpush]; exact hpe
  · simp only [PPc.crit]; exact hcomp
  · simp only; rw [hpush]; exact hq
  · simp only; split
    · exact hh
    · rw [pending_wake]; exact hh

theorem Inv.prod_stepC {sdk : SDK} {N : Nat} {nodes0 : Nodes} {s : State}
    (h : Inv sdk N nodes0 s) : Inv sdk N nodes0 (AcquireImages sdk N s) := by
  unfold AcquireImages
  cases hpc : s.ppc with
  | setup => exact Inv.setupC h hpc
  | acquire i => exact Inv.acquireC h i hpc
  | release i hBuffer => exact Inv.releaseC h i hBuffer hpc
  | teardown => exact Inv.teardownC h hpc
  | returned => exact h

theorem Inv.stepC {sdk : SDK} {N : Nat} {nodes0 : Nodes} {s : State}
    (h : Inv sdk N nodes0 s) (t : Tick) : Inv sdk N nodes0 (step sdk N t s) := by
  cases t with
  | prod => exact Inv.prod_stepC h
  | cons => exact Inv.cons_stepC h
  | spurious => exact Inv.spurious_stepC h

theorem Inv.runC {sdk : SDK} {N : Nat} {nodes0 : Nodes} (sched : List Tick) {s : State}
    (h : Inv sdk N nodes0 s) : Inv sdk N nodes0 (run sdk N sched s) := by
  induction sched generalizing s with
  | nil => exact h
  | cons t ts ih => exact ih (Inv.stepC h t)

theorem inv_reachableC (sdk : SDK) (N : Nat) (nodes0 : Nodes) (sched : List Tick) :
    Inv sdk N nodes0 (run sdk N sched (init nodes0)) :=
  Inv.runC sched (Inv.initC sdk N nodes0)


end ArenaC
namespace ArenaC

/-! ## C variant: the workers return -/

/-- The producer reaches its return in `remaining` steps of its own, whatever its
calls return and whatever the consumer has done so far. -/
theorem producer_returnsC (sdk : SDK) (N : Nat) (n : Nat) (s : State)
    (hn : s.ppc.remaining N = n) (hi : ∀ i b, s.ppc = .release i b → i < N)
    (hi2 : ∀ i, s.ppc = .acquire i → i < N) :
    (run sdk N (List.replicate n .prod) s).ppc = .returned := by
  induction n generalizing s with
  | zero =>
    cases hpc : s.ppc with
    | returned => simpa [run] using hpc
    | setup => simp [hpc, PPc.remaining] at hn
    | teardown => simp [hpc, PPc.remaining] at hn
    | acquire i => simp [hpc, PPc.remaining] at hn
    | release i b =>
      have := hi i b hpc
      simp only [hpc, PPc.remaining] at hn
      omega
  | succ n ih =>
    have hstep : (step sdk N .prod s).ppc.remaining N = n ∧
        (∀ i b, (step sdk N .prod s).ppc = .release i b → i < N) ∧
        (∀ i, (step sdk N .prod s).ppc = .acquire i → i < N) := by
      simp only [step, AcquireImages]
      cases hpc : s.ppc with
      | setup =>
        simp only [hpc, PPc.remaining] at hn
        simp only [AcquireImages.setup]
        by_cases hN : 0 < N
        · simp only [hN, ↓reduceIte, PPc.remaining]
          exact ⟨by omega, by simp, fun i hi => by cases hi; exact hN⟩
        · simp only [hN, ↓reduceIte, PPc.remaining]
          exact ⟨by omega, by simp, by simp⟩
      | acquire i =>
        have := hi2 i hpc
        simp only [hpc, PPc.remaining] at hn
        simp only [AcquireImages.acquire, PPc.remaining]
        exact ⟨by omega, fun j b hj => by cases hj; exact this, by simp⟩
      | release i b =>
        have := hi i b hpc
        simp only [hpc, PPc.remaining] at hn
        simp only [AcquireImages.release]
        by_cases hN : i + 1 < N
        · simp only [hN, ↓reduceIte, PPc.remaining]
          exact ⟨by omega, by simp, fun j hj => by cases hj; exact hN⟩
        · simp only [hN, ↓reduceIte, PPc.remaining]
          exact ⟨by omega, by simp, by simp⟩
      | teardown =>
        simp only [hpc, PPc.remaining] at hn
        simp only [AcquireImages.teardown, PPc.remaining]
        exact ⟨by omega, by simp, by simp⟩
      | returned => simp [hpc, PPc.remaining] at hn
    simpa [run, List.replicate_succ] using
      ih (step sdk N .prod s) hstep.1 hstep.2.1 hstep.2.2

theorem Inv.release_lt {sdk : SDK} {N : Nat} {nodes0 : Nodes} {s : State}
    (h : Inv sdk N nodes0 s) : (∀ i b, s.ppc = .release i b → i < N) ∧
      (∀ i, s.ppc = .acquire i → i < N) := by
  have hp := h.prod
  constructor
  · intro i b hpc
    simp only [ProdInv, hpc] at hp
    exact hp.1
  · intro i hpc
    simp only [ProdInv, hpc] at hp
    exact hp.1

theorem Reliable.malloc {sdk : SDK} {N : Nat} {nodes0 : Nodes} (h : Reliable sdk N nodes0)
    {i : Nat} (hi : i < N) : sdk.malloc i = true ∧ (copyOf sdk i).isSome = true := by
  have h1 := h.1
  simp only [producerLog, loopLog, noFailure_append, Bool.and_eq_true] at h1
  have h2 := noFailure_flatMap_range h1.1.2 hi
  simp only [iterLog, acquireCalls, noFailure_append, Bool.and_eq_true] at h2
  have h3 := h2.1.1.1.2
  have h4 := h2.1.1.1.1.2
  constructor
  · simpa [noFailure, Event.failed] using h3
  · cases hc : copyOf sdk i with
    | some c => rfl
    | none =>
      rw [copyOf] at hc
      simp [checked, Event.failed, hc, noFailure] at h4

theorem SaveImage_ppc (sdk : SDK) (s : State) :
    (SaveImage sdk s).ppc = s.ppc ∧ (SaveImage sdk s).isCompleted = s.isCompleted ∧
      (SaveImage sdk s).plog = s.plog := by
  unfold SaveImage SaveImage.critical SaveImage.process
  cases s.cpc <;> simp only <;>
    first
      | exact ⟨trivial, trivial, trivial⟩
      | exact ⟨rfl, rfl, rfl⟩
      | (split <;> exact ⟨rfl, rfl, rfl⟩)

theorem Reliable.enqueued {sdk : SDK} {N : Nat} {nodes0 : Nodes} (h : Reliable sdk N nodes0)
    {k : Nat} (hk : k ≤ N) : enqueued sdk k = (List.range k).map (copyOf sdk) := by
  induction k with
  | zero => rfl
  | succ k ih =>
    rw [enqueued_succ, ih (by omega), (h.malloc (show k < N by omega)).1, List.range_succ]
    simp

theorem Inv.returned_facts {sdk : SDK} {N : Nat} {nodes0 : Nodes} {s : State}
    (h : Inv sdk N nodes0 s) (hr : Reliable sdk N nodes0) (hN : 0 < N)
    (hpc : s.ppc = .returned) :
    s.isCompleted = true ∧ (s.head = [] → s.isComplete = true) ∧
      popped s.clog ++ s.head.reverse = (List.range N).map (copyOf sdk) := by
  have hcomp : s.isCompleted = true := h.completed.mpr ⟨by rw [hpc]; rfl, hN⟩
  refine ⟨hcomp, fun hh => ?_, ?_⟩
  · rcases h.drained hcomp hh with h1 | h1
    · exact h1
    · rw [(hr.malloc (show N - 1 < N by omega)).1] at h1; cases h1
  · rw [← h.queue, h.pushedEq, hpc]
    exact hr.enqueued (le_refl N)

theorem Inv.cpc_ne_sleeping {sdk : SDK} {N : Nat} {nodes0 : Nodes} {s : State}
    (h : Inv sdk N nodes0 s) (hr : Reliable sdk N nodes0) (hN : 0 < N)
    (hpc : s.ppc = .returned) : s.cpc ≠ .sleeping := by
  intro hcc
  have hc := h.cons
  simp only [ConsInv, hcc] at hc
  rcases hc.2 with ⟨i, b, h1⟩ | h1
  · rw [hpc] at h1; cases h1
  · have := h1.2 (h.returned_facts hr hN hpc).1
    rw [(hr.malloc (show N - 1 < N by omega)).1] at this; cases this

theorem Inv.head_ne_nil {sdk : SDK} {N : Nat} {nodes0 : Nodes} {s : State}
    (h : Inv sdk N nodes0 s) (hr : Reliable sdk N nodes0) (hN : 0 < N)
    (hpc : s.ppc = .returned) (hic : s.isComplete = false) : s.head ≠ [] := by
  intro hh
  have := (h.returned_facts hr hN hpc).2.1 hh
  rw [hic] at this; cases this

theorem critical_cpc (pre : List Event) (s : State) {x : acBuffer} {q : node_t}
    (hxq : s.head = q ++ [x]) :
    (SaveImage.critical pre s).cpc = .process x ∧ (SaveImage.critical pre s).head = q := by
  have hne : s.head ≠ [] := by rw [hxq]; simp
  have he : isEmpty s.head = false := by
    cases hb : isEmpty s.head with
    | false => rfl
    | true => exact absurd ((isEmpty_iff _).mp hb) hne
  unfold SaveImage.critical
  simp only [he, Bool.not_false, ↓reduceIte]
  rw [hxq, dequeue_append_singleton]
  exact ⟨rfl, rfl⟩

/-- When no call fails and the producer has returned, the consumer reaches its return
in `remaining` steps of its own. -/
theorem consumer_returnsC {sdk : SDK} {N : Nat} {nodes0 : Nodes}
    (hr : Reliable sdk N nodes0) (hN : 0 < N) (n : Nat) (s : State) (h : Inv sdk N nodes0 s)
    (hpc : s.ppc = .returned) (hn : s.cpc.remaining s.head.length = n) :
    (run sdk N (List.replicate n .cons) s).cpc = .returned ∧
      (run sdk N (List.replicate n .cons) s).ppc = .returned := by
  induction n generalizing s with
  | zero =>
    have hc := h.cons
    cases hcc : s.cpc with
    | returned => exact ⟨by simpa [run] using hcc, by simpa [run] using hpc⟩
    | sleeping => exact absurd hcc (h.cpc_ne_sleeping hr hN hpc)
    | top =>
      simp only [ConsInv, hcc] at hc
      have := h.head_ne_nil hr hN hpc hc
      simp only [hcc, CPc.remaining] at hn
      have : s.head.length ≠ 0 := fun h0 => this (List.length_eq_zero.mp h0)
      omega
    | woken =>
      simp only [ConsInv, hcc] at hc
      have := h.head_ne_nil hr hN hpc hc
      simp only [hcc, CPc.remaining] at hn
      have : s.head.length ≠ 0 := fun h0 => this (List.length_eq_zero.mp h0)
      omega
    | process hCopyBuffer => simp [hcc, CPc.remaining] at hn
  | succ n ih =>
    have hstep : (step sdk N .cons s).cpc.remaining (step sdk N .cons s).head.length = n := by
      have hc := h.cons
      simp only [step, SaveImage]
      cases hcc : s.cpc with
      | returned => simp [hcc, CPc.remaining] at hn
      | sleeping => exact absurd hcc (h.cpc_ne_sleeping hr hN hpc)
      | top =>
        simp only [ConsInv, hcc] at hc
        have hne := h.head_ne_nil hr hN hpc hc
        obtain ⟨x, q, hxq, -⟩ := dequeue_of_ne_nil hne
        have he : isEmpty s.head = false := by
          cases hb : isEmpty s.head with
          | false => rfl
          | true => exact absurd ((isEmpty_iff _).mp hb) hne
        simp only [he, Bool.false_eq_true, ↓reduceIte]
        obtain ⟨h1, h2⟩ := critical_cpc [.lock, .unlock] s hxq
        rw [h1, h2]
        simp only [hcc, CPc.remaining, hxq, List.length_append, List.length_singleton] at hn ⊢
        omega
      | woken =>
        simp only [ConsInv, hcc] at hc
        have hne := h.head_ne_nil hr hN hpc hc
        obtain ⟨x, q, hxq, -⟩ := dequeue_of_ne_nil hne
        obtain ⟨h1, h2⟩ := critical_cpc [.unlock] s hxq
        simp only
        rw [h1, h2]
        simp only [hcc, CPc.remaining, hxq, List.length_append, List.length_singleton] at hn ⊢
        omega
      | process hCopyBuffer =>
        simp only [hcc, CPc.remaining] at hn
        simp only [SaveImage.process]
        cases hic : s.isComplete with
        | false => simp only [Bool.false_eq_true, ↓reduceIte, CPc.remaining]; omega
        | true =>
          have := (h.localDone hic).1
          rw [this] at hn
          simp only [↓reduceIte, CPc.remaining]
          simp at hn
          omega
    have hpc2 : (step sdk N .cons s).ppc = .returned := by
      simp only [step]; rw [(SaveImage_ppc sdk s).1]; exact hpc
    simpa [run, List.replicate_succ] using ih (step sdk N .cons s) (h.stepC .cons) hpc2 hstep

theorem run_appendC (sdk : SDK) (N : Nat) (a b : List Tick) (s : State) :
    run sdk N (a ++ b) s = run sdk N b (run sdk N a s) := by
  simp [run, List.foldl_append]

end ArenaC

namespace ArenaC

/-! ## C variant: what the logs of a run without failed call contain -/

theorem saves_appendC (l m : List Event) : saves (l ++ m) = saves l ++ saves m := by
  simp [saves]

theorem saves_checked (e : Event) : saves (checked e) = saves [e] :=
  filterMap_checked _ rfl e

theorem noFailure_checked (e : Event) : noFailure (checked e) = !e.failed := by
  have hx : Event.failed .exitThreads = false := rfl
  unfold checked noFailure
  cases h : e.failed <;> simp [h, hx]

/-- When none of the consumer's calls for an image fails, the handle it works on is
not `NULL`, the conversion gives a handle, and the writer is given the file name of
this iteration and the data of the converted image. -/
theorem processCalls_ok {sdk : SDK} {j : Nat} {h : acBuffer}
    (hok : noFailure (processCalls sdk j h) = true) :
    h.isSome = true ∧ (h.bind (sdk.acImageFactoryConvert · PIXEL_FORMAT)).isSome = true ∧
      saves (processCalls sdk j h) = [(some (fileName j),
        (h.bind (sdk.acImageFactoryConvert · PIXEL_FORMAT)).map sdk.acImageGetData)] := by
  unfold processCalls at hok ⊢
  dsimp only at hok ⊢
  have hnull : h = none → (h.bind (sdk.acImageFactoryConvert · PIXEL_FORMAT)) = none := by
    intro h0; rw [h0]; rfl
  generalize (h.bind (sdk.acImageFactoryConvert · PIXEL_FORMAT)) = hConverted at hok hnull ⊢
  simp only [noFailure_append, noFailure_checked, Bool.and_eq_true, Bool.not_eq_true',
    Event.failed, Option.isNone_eq_false_iff, Bool.not_eq_false'] at hok
  obtain ⟨⟨⟨⟨⟨⟨⟨⟨⟨⟨h1, -⟩, -⟩, -⟩, -⟩, h6⟩, -⟩, -⟩, -⟩, -⟩, -⟩ := hok
  refine ⟨?_, h1, ?_⟩
  · cases h with
    | none => rw [hnull rfl] at h1; cases h1
    | some c => rfl
  · simp only [saves_appendC, saves_checked]
    simp [saves, Event.saved?, h6.1, h6.2]

theorem callsFrom_ok {sdk : SDK} (m k : Nat)
    (hok : noFailure (callsFrom sdk k ((List.range' k m).map (copyOf sdk))) = true) :
    saves (callsFrom sdk k ((List.range' k m).map (copyOf sdk))) =
        (List.range' k m).map (saveOf sdk) ∧
      ∀ j, k ≤ j → j < k + m → (convertedOf sdk j).isSome = true := by
  induction m generalizing k with
  | zero => exact ⟨rfl, fun j h1 h2 => by omega⟩
  | succ m ih =>
    rw [List.range'_succ, List.map_cons, callsFrom, noFailure_append, Bool.and_eq_true] at hok
    obtain ⟨h1, h2, h3⟩ := processCalls_ok hok.1
    obtain ⟨h4, h5⟩ := ih (k + 1) hok.2
    rw [List.range'_succ, List.map_cons, callsFrom, saves_appendC, h3, h4]
    refine ⟨rfl, fun j hj1 hj2 => ?_⟩
    rcases Nat.eq_or_lt_of_le hj1 with h6 | h6
    · rw [← h6]; exact h2
    · exact h5 j h6 (by omega)

theorem callsFrom_isSome {sdk : SDK} (hs : List acBuffer) (k : Nat)
    (hok : noFailure (callsFrom sdk k hs) = true) : ∀ h ∈ hs, h.isSome = true := by
  induction hs generalizing k with
  | nil => simp
  | cons a hs ih =>
    rw [callsFrom, noFailure_append, Bool.and_eq_true] at hok
    intro h hh
    rcases List.mem_cons.mp hh with h1 | h1
    · rw [h1]; exact (processCalls_ok hok.1).1
    · exact ih (k + 1) hok.2 h h1

theorem acquireCalls_ok {sdk : SDK} {N j : Nat}
    (h : noFailure (acquireCalls sdk N j) = true) :
    sdk.malloc j = true ∧ (copyOf sdk j).isSome = true := by
  simp only [acquireCalls, noFailure_append, noFailure_checked, Bool.and_eq_true] at h
  have h3 := h.1.1.2
  have h4 := h.1.1.1.2
  constructor
  · simpa [noFailure, Event.failed] using h3
  · simpa [Event.failed, copyOf] using h4

theorem loopLog_ok {sdk : SDK} {N : Nat} {nodes0 : Nodes} {k : Nat}
    (h : noFailure (loopLog sdk N nodes0 k) = true) :
    ∀ j, j < k → sdk.malloc j = true ∧ (copyOf sdk j).isSome = true := by
  intro j hj
  simp only [loopLog, noFailure_append, Bool.and_eq_true] at h
  have h2 := noFailure_flatMap_range h.2 hj
  simp only [iterLog, noFailure_append, Bool.and_eq_true] at h2
  exact acquireCalls_ok h2.1

theorem Inv.crit_ok {sdk : SDK} {N : Nat} {nodes0 : Nodes} {s : State}
    (h : Inv sdk N nodes0 s) (hp : noFailure s.plog = true) :
    ∀ j, j < s.ppc.crit N → sdk.malloc j = true ∧ (copyOf sdk j).isSome = true := by
  have hpi := h.prod
  cases hpc : s.ppc with
  | setup => intro j hj; simp [PPc.crit] at hj
  | acquire i =>
    simp only [ProdInv, hpc] at hpi
    rw [hpi.2.1] at hp
    exact loopLog_ok hp
  | release i hBuffer =>
    simp only [ProdInv, hpc] at hpi
    rw [hpi.2.2.1, noFailure_append, Bool.and_eq_true] at hp
    intro j hj
    simp only [PPc.crit] at hj
    rcases Nat.lt_succ_iff_lt_or_eq.mp hj with h1 | h1
    · exact loopLog_ok hp.1 j h1
    · rw [h1]; exact acquireCalls_ok hp.2
  | teardown =>
    simp only [ProdInv, hpc] at hpi
    rw [hpi.1] at hp
    exact loopLog_ok hp
  | returned =>
    simp only [ProdInv, hpc] at hpi
    rw [hpi.1, producerLog, noFailure_append, Bool.and_eq_true] at hp
    exact loopLog_ok hp.1

theorem enqueued_eq_map {sdk : SDK} {k : Nat} (h : ∀ j, j < k → sdk.malloc j = true) :
    enqueued sdk k = (List.range k).map (copyOf sdk) := by
  induction k with
  | zero => rfl
  | succ k ih =>
    rw [enqueued_succ, ih (fun j hj => h j (by omega)), h k (by omega), List.range_succ]
    simp

/-- In a reachable state whose logs have no failed call, the consumer has worked on
the copies of the images `0 .. i-1`, in this order. -/
theorem Inv.conversions_eq {sdk : SDK} {N : Nat} {nodes0 : Nodes} {s : State}
    (h : Inv sdk N nodes0 s) (hp : noFailure s.plog = true) (hc : noFailure s.clog = true) :
    conversions s.clog = (List.range s.i).map (copyOf sdk) ∧ s.i ≤ s.ppc.crit N ∧
      (s.cpc = .returned → s.i = N) := by
  have hcrit := h.crit_ok hp
  have hpush : pushed s.plog = (List.range (s.ppc.crit N)).map (copyOf sdk) := by
    rw [h.pushedEq]; exact enqueued_eq_map (fun j hj => (hcrit j hj).1)
  have hall : ∀ x ∈ pushed s.plog, x.isSome = true := by
    rw [hpush]
    intro x hx
    obtain ⟨j, hj, rfl⟩ := List.mem_map.mp hx
    exact (hcrit j (List.mem_range.mp hj)).2
  have hpop : (popped s.clog).filter Option.isSome = popped s.clog :=
    filter_isSome_eq_self (fun x hx => hall x (by rw [h.queue]; exact List.mem_append_left _ hx))
  have hconv : ∀ x ∈ conversions s.clog, x.isSome = true := by
    have := noFailure_calls _ hc
    rw [h.callsEq] at this
    exact callsFrom_isSome _ 0 this
  have hh := h.handled
  rw [List.filter_append, filter_isSome_eq_self hconv, hpop] at hh
  have hpre : conversions s.clog <+: (List.range (s.ppc.crit N)).map (copyOf sdk) := by
    rw [← hpush, h.queue, ← hh, List.append_assoc]
    exact List.prefix_append _ _
  obtain ⟨h1, h2⟩ := prefix_map_range hpre
  rw [h.count] at h1 h2
  refine ⟨h1, h2, fun hcc => ?_⟩
  have hcons := h.cons
  simp only [ConsInv, hcc] at hcons
  obtain ⟨hhead, hcomp⟩ := h.localDone hcons
  have hN := (h.completed.mp hcomp).1
  have hq := h.queue
  rw [hhead, List.reverse_nil, List.append_nil, ← hh, hcc] at hq
  simp only [CPc.pending, List.filter_nil, List.append_nil] at hq
  have := congrArg List.length hq
  rw [hpush, List.length_map, List.length_range, h.count, hN] at this
  exact this.symm

/-- In a reachable state whose logs have no failed call, the writer calls made so
far are those for the images `0 .. i-1`, in this order, each on the converted copy of
its image; `i` is `NUM_IMAGES` once the consumer has returned. -/
theorem Inv.saves_eqC {sdk : SDK} {N : Nat} {nodes0 : Nodes} {s : State}
    (h : Inv sdk N nodes0 s) (hp : noFailure s.plog = true) (hc : noFailure s.clog = true) :
    saves s.clog = (List.range s.i).map (saveOf sdk) ∧
      (∀ j, j < s.i → (convertedOf sdk j).isSome = true) ∧ s.i ≤ N ∧
      (s.cpc = .returned → s.i = N) := by
  obtain ⟨h1, h2, h3⟩ := h.conversions_eq hp hc
  have hok := noFailure_calls _ hc
  rw [h.callsEq, h1, List.range_eq_range'] at hok
  obtain ⟨h4, h5⟩ := callsFrom_ok s.i 0 hok
  refine ⟨?_, fun j hj => h5 j (Nat.zero_le j) (by omega), le_trans h2 h.crit_le, h3⟩
  rw [← saves_calls, h.callsEq, h1, List.range_eq_range', h4]

theorem AcquireImages_cons (sdk : SDK) (N : Nat) (s : State) :
    (AcquireImages sdk N s).clog = s.clog ∧ (AcquireImages sdk N s).i = s.i ∧
      (s.cpc = .top → (AcquireImages sdk N s).cpc = .top) := by
  have hw : wake CPc.top = CPc.top := rfl
  unfold AcquireImages AcquireImages.setup AcquireImages.acquire AcquireImages.release
    AcquireImages.teardown
  cases s.ppc <;> simp only <;> refine ⟨trivial, trivial, fun h => ?_⟩ <;> rw [h] <;>
    first | rfl | (split <;> rfl)

theorem producer_phase (sdk : SDK) (N : Nat) (n : Nat) (s : State) (hc : s.cpc = .top) :
    (run sdk N (List.replicate n .prod) s).clog = s.clog ∧
      (run sdk N (List.replicate n .prod) s).cpc = .top := by
  induction n generalizing s with
  | zero => exact ⟨rfl, hc⟩
  | succ n ih =>
    have h1 := AcquireImages_cons sdk N s
    have h2 := ih (AcquireImages sdk N s) (h1.2.2 hc)
    have e : run sdk N (List.replicate (n + 1) .prod) s =
        run sdk N (List.replicate n .prod) (AcquireImages sdk N s) := rfl
    rw [e]
    exact ⟨h2.1.trans h1.1, h2.2⟩

theorem Clean.step_cons {sdk : SDK} {N : Nat} {nodes0 : Nodes} {s : State}
    (hr : Reliable sdk N nodes0) (hN : 0 < N) (h : Inv sdk N nodes0 s)
    (hpc : s.ppc = .returned) (hcl : Clean s) : Clean (ArenaC.step sdk N .cons s) := by
  obtain ⟨hp, hc, hcc⟩ := hcl
  have hfacts := h.returned_facts hr hN hpc
  simp only [ArenaC.step]
  refine ⟨by rw [(SaveImage_ppc sdk s).2.2]; exact hp, ?_⟩
  unfold SaveImage
  rcases hcc with hcc | ⟨x, hcc, hx⟩ | hcc
  · have hcons := h.cons
    simp only [ConsInv, hcc] at hcons
    have hne := h.head_ne_nil hr hN hpc hcons
    obtain ⟨x, q, hxq, hdq⟩ := dequeue_of_ne_nil hne
    have he : isEmpty s.head = false := by
      cases hb : isEmpty s.head with
      | false => rfl
      | true => exact absurd ((isEmpty_iff _).mp hb) hne
    have hx : x.isSome = true := by
      have hmem : x ∈ (List.range N).map (copyOf sdk) := by
        rw [← hfacts.2.2, hxq]; simp
      obtain ⟨j, hj, rfl⟩ := List.mem_map.mp hmem
      exact (hr.malloc (List.mem_range.mp hj)).2
    simp only [hcc, he, Bool.false_eq_true, ↓reduceIte]
    unfold SaveImage.critical
    simp only [he, Bool.not_false, ↓reduceIte, hdq]
    refine ⟨?_, Or.inr (Or.inl ⟨x, rfl, hx⟩)⟩
    simp only [noFailure_append, hc, Bool.true_and, Bool.and_eq_true]
    refine ⟨⟨⟨⟨?_, ?_⟩, ?_⟩, ?_⟩, ?_⟩ <;> first | rfl | (split <;> rfl)
  · simp only [hcc, SaveImage.process]
    have hconv := (h.conversions_eq hp hc).1
    have hh := h.handled
    have hall : ∀ y ∈ popped s.clog, y.isSome = true := by
      intro y hy
      have hmem : y ∈ (List.range N).map (copyOf sdk) := by
        rw [← hfacts.2.2]; exact List.mem_append_left _ hy
      obtain ⟨j, hj, rfl⟩ := List.mem_map.mp hmem
      exact (hr.malloc (List.mem_range.mp hj)).2
    have hall2 : ∀ y ∈ conversions s.clog ++ s.cpc.pending, y.isSome = true := by
      intro y hy
      rcases List.mem_append.mp hy with h1 | h1
      · rw [hconv] at h1
        obtain ⟨j, hj, rfl⟩ := List.mem_map.mp h1
        have := (h.conversions_eq hp hc).2.1
        rw [hpc] at this
        exact (hr.malloc (lt_of_lt_of_le (List.mem_range.mp hj) this)).2
      · rw [hcc] at h1
        simp only [CPc.pending, List.mem_singleton] at h1
        rw [h1]; exact hx
    rw [filter_isSome_eq_self hall, filter_isSome_eq_self hall2, hcc] at hh
    have hpre : conversions s.clog ++ [x] <+: (List.range N).map (copyOf sdk) := by
      rw [← hfacts.2.2]
      simp only [CPc.pending] at hh
      rw [hh]
      exact List.prefix_append _ _
    obtain ⟨h1, h2⟩ := prefix_map_range hpre
    simp only [List.length_append, List.length_singleton, h.count] at h1 h2
    rw [hconv, List.range_succ, List.map_append, List.map_singleton] at h1
    have hxe : x = copyOf sdk s.i := by
      have := List.append_cancel_left h1
      simpa using this
    refine ⟨?_, ?_⟩
    · rw [noFailure_append, hc, hxe, hr.2 s.i (by omega)]; rfl
    · cases s.isComplete
      · exact Or.inl rfl
      · exact Or.inr (Or.inr rfl)
  · simp only [hcc]
    exact ⟨hc, Or.inr (Or.inr trivial)⟩

theorem Clean.run_cons {sdk : SDK} {N : Nat} {nodes0 : Nodes}
    (hr : Reliable sdk N nodes0) (hN : 0 < N) (n : Nat) (s : State) (h : Inv sdk N nodes0 s)
    (hpc : s.ppc = .returned) (hcl : Clean s) :
    Clean (run sdk N (List.replicate n .cons) s) := by
  induction n generalizing s with
  | zero => exact hcl
  | succ n ih =>
    have hpc2 : (ArenaC.step sdk N .cons s).ppc = .returned := by
      simp only [ArenaC.step]; rw [(SaveImage_ppc sdk s).1]; exact hpc
    simpa [run, List.replicate_succ] using
      ih (ArenaC.step sdk N .cons s) (h.stepC .cons) hpc2 (hcl.step_cons hr hN h hpc)

/-- When no call fails and `NUM_IMAGES >= 1`, the run in which the producer takes all
its steps and then the consumer takes all its steps ends with both returned and
without a failed call in either log. -/
theorem sequential_ok {sdk : SDK} {N : Nat} {nodes0 : Nodes} (hr : Reliable sdk N nodes0)
    (hN : 0 < N) :
    ∃ a b, (run sdk N (List.replicate a .prod ++ List.replicate b .cons)
        (init nodes0)).finished = true ∧
      noFailure (run sdk N (List.replicate a .prod ++ List.replicate b .cons)
        (init nodes0)).plog = true ∧
      noFailure (run sdk N (List.replicate a .prod ++ List.replicate b .cons)
        (init nodes0)).clog = true := by
  have h0 := Inv.initC sdk N nodes0
  have ha := producer_returnsC sdk N (2 * N + 2) (init nodes0) rfl (by simp [init])
    (by simp [init])
  have h1 := Inv.runC (List.replicate (2 * N + 2) .prod) h0
  have hph := producer_phase sdk N (2 * N + 2) (init nodes0) rfl
  have hplog : noFailure (run sdk N (List.replicate (2 * N + 2) .prod) (init nodes0)).plog =
      true := by
    have := h1.prod
    simp only [ProdInv, ha] at this
    rw [this.1]; exact hr.1
  have hclean : Clean (run sdk N (List.replicate (2 * N + 2) .prod) (init nodes0)) :=
    ⟨hplog, by rw [hph.1]; rfl, Or.inl hph.2⟩
  obtain ⟨b, hb⟩ : ∃ b, (run sdk N (List.replicate b .cons)
      (run sdk N (List.replicate (2 * N + 2) .prod) (init nodes0))).cpc = .returned ∧
      (run sdk N (List.replicate b .cons)
      (run sdk N (List.replicate (2 * N + 2) .prod) (init nodes0))).ppc = .returned :=
    ⟨_, consumer_returnsC hr hN _ _ h1 ha rfl⟩
  have hc2 := hclean.run_cons hr hN b _ h1 ha
  refine ⟨2 * N + 2, b, ?_⟩
  rw [run_appendC]
  refine ⟨?_, hc2.1, hc2.2.1⟩
  simp only [State.finished, Bool.and_eq_true, decide_eq_true_eq]
  exact ⟨hb.2, hb.1⟩

end ArenaC

namespace ArenaC

theorem acquisitions_appendC (l m : List Event) :
    acquisitions (l ++ m) = acquisitions l ++ acquisitions m := by
  simp [acquisitions]

theorem acquisitions_checked (e : Event) : acquisitions (checked e) = acquisitions [e] :=
  filterMap_checked _ rfl e

theorem acquisitions_iterLogC (sdk : SDK) (N j : Nat) :
    acquisitions (iterLog sdk N j) = [(j, sdk.acDeviceGetBuffer j IMAGE_TIMEOUT)] := by
  unfold iterLog acquireCalls releaseLog
  simp only [acquisitions_appendC, acquisitions_checked]
  cases isLast j N <;> simp [acquisitions, Event.acquired?]

theorem acquisitions_loopLogC (sdk : SDK) (N : Nat) (nodes0 : Nodes) (k : Nat) :
    acquisitions (loopLog sdk N nodes0 k) =
      (List.range k).map (fun i => (i, sdk.acDeviceGetBuffer i IMAGE_TIMEOUT)) := by
  induction k with
  | zero =>
    simp only [loopLog, List.range_zero, List.flatMap_nil, List.append_nil, List.map_nil]
    unfold acquisitions
    rw [filterMap_flatMap_checked _ rfl]
    simp [setupCalls, Event.acquired?]
  | succ k ih =>
    have e : loopLog sdk N nodes0 (k + 1) = loopLog sdk N nodes0 k ++ iterLog sdk N k := by
      simp [loopLog, List.range_succ]
    rw [e, acquisitions_appendC, ih, acquisitions_iterLogC, List.range_succ, List.map_append]
    rfl

/-- What the producer's log holds once it has returned. -/
theorem Inv.producer_doneC {sdk : SDK} {N : Nat} {nodes0 : Nodes} {s : State}
    (h : Inv sdk N nodes0 s) (hpc : s.ppc = .returned) :
    s.plog = producerLog sdk N nodes0 ∧
      acquisitions s.plog =
        (List.range N).map (fun i => (i, sdk.acDeviceGetBuffer i IMAGE_TIMEOUT)) ∧
      (noFailure s.plog = true → pushed s.plog = (List.range N).map (copyOf sdk) ∧
        ∀ i, i < N → (copyOf sdk i).isSome = true) ∧
      (0 < N → s.isCompleted = true) := by
  have hp := h.prod
  simp only [ProdInv, hpc] at hp
  refine ⟨hp.1, ?_, fun hnf => ?_, fun hN => h.completed.mpr ⟨by rw [hpc]; rfl, hN⟩⟩
  · rw [hp.1, producerLog, acquisitions_appendC, acquisitions_loopLogC, teardownLog,
      acquisitions_appendC, acquisitions_checked]
    simp [acquisitions, Event.acquired?]
  · have hc := h.crit_ok hnf
    rw [hpc] at hc
    refine ⟨?_, fun i hi => (hc i hi).2⟩
    rw [h.pushedEq, hpc]
    exact enqueued_eq_map (fun j hj => (hc j hj).1)

theorem step_isCompletedC (sdk : SDK) (N : Nat) (t : Tick) (s : State)
    (h : s.isCompleted = true) : (step sdk N t s).isCompleted = true := by
  cases t with
  | prod =>
    simp only [step, AcquireImages]
    cases s.ppc with
    | setup => exact h
    | acquire i =>
      simp only [AcquireImages.acquire]
      split
      · rfl
      · exact h
    | release i hBuffer => exact h
    | teardown => exact h
    | returned => exact h
  | cons => rw [step, (SaveImage_ppc sdk s).2.1]; exact h
  | spurious => exact h

theorem exitThreads_ne_setCompleted : Event.exitThreads ≠ Event.setCompleted := by simp

theorem setCompleted_not_mem_checked (e : Event) (h : e ≠ .setCompleted) :
    Event.setCompleted ∉ checked e := by
  unfold checked
  split
  · simp [h.symm]
  · simp [h.symm]

theorem setCompleted_not_mem_iterLogC (sdk : SDK) (N j : Nat) (h : j + 1 ≠ N) :
    Event.setCompleted ∉ iterLog sdk N j := by
  have hl : isLast j N = false := by rw [isLast_eq]; simp [h]
  simp only [iterLog, acquireCalls, releaseLog, hl, List.mem_append, not_or]
  refine ⟨⟨⟨⟨⟨?_, ?_⟩, ?_⟩, ?_⟩, ?_⟩, ?_, ?_⟩ <;>
    first
      | exact setCompleted_not_mem_checked _ (by simp)
      | simp

theorem pushed_iterLogC (sdk : SDK) (N j : Nat) :
    pushed (iterLog sdk N j) = if sdk.malloc j then [copyOf sdk j] else [] := by
  rw [iterLog, pushed_append, pushed_acquireCalls, pushed_releaseLog, List.append_nil]

theorem pushed_loopLogC (sdk : SDK) (N : Nat) (nodes0 : Nodes) (k : Nat) :
    pushed (loopLog sdk N nodes0 k) = enqueued sdk k := by
  induction k with
  | zero => simp [loopLog, pushed_setup, enqueued]
  | succ k ih =>
    have e : loopLog sdk N nodes0 (k + 1) = loopLog sdk N nodes0 k ++ iterLog sdk N k := by
      simp [loopLog, List.range_succ]
    rw [e, pushed_append, ih, pushed_iterLogC, enqueued_succ]

/-- With `NUM_IMAGES >= 1` the log of a producer that has returned holds the write of
`isCompleted` once: after the enqueue of the last copy, between the same lock and
unlock. -/
theorem producerLog_completionC (sdk : SDK) (N : Nat) (nodes0 : Nodes) (hN : 0 < N) :
    ∃ pre post, producerLog sdk N nodes0 =
        pre ++ [.lock, .enqueue (copyOf sdk (N - 1)) (sdk.malloc (N - 1)), .setCompleted,
          .unlock] ++ post ∧
      Event.setCompleted ∉ pre ∧ Event.setCompleted ∉ post ∧
      acquisitions pre =
        (List.range N).map (fun i => (i, sdk.acDeviceGetBuffer i IMAGE_TIMEOUT)) ∧
      acquisitions post = [] ∧ pushed pre = enqueued sdk (N - 1) ∧ pushed post = [] := by
  obtain ⟨k, rfl⟩ : ∃ k, N = k + 1 := ⟨N - 1, by omega⟩
  have hl : isLast k (k + 1) = true := (isLast_iff k (k + 1)).mpr rfl
  refine ⟨loopLog sdk (k + 1) nodes0 k ++
      (checked (.getImage k IMAGE_TIMEOUT (sdk.acDeviceGetBuffer k IMAGE_TIMEOUT)) ++
        checked (.copy (sdk.acDeviceGetBuffer k IMAGE_TIMEOUT) (copyOf sdk k))),
    releaseLog sdk k ++ teardownLog sdk nodes0, ?_, ?_, ?_, ?_, ?_, ?_, ?_⟩
  · simp [producerLog, loopLog, List.range_succ, iterLog, acquireCalls, hl, copyOf]
  · simp only [loopLog, List.mem_append, List.mem_flatMap, List.mem_range, not_or, not_exists,
      not_and]
    refine ⟨⟨?_, fun j hj => setCompleted_not_mem_iterLogC sdk _ j (by omega)⟩,
      setCompleted_not_mem_checked _ (by simp), setCompleted_not_mem_checked _ (by simp)⟩
    intro e he
    refine setCompleted_not_mem_checked e (fun h0 => ?_)
    rw [h0] at he
    simp [setupCalls] at he
  · simp only [releaseLog, teardownLog, List.mem_append, not_or]
    refine ⟨⟨by simp, setCompleted_not_mem_checked _ (by simp)⟩,
      setCompleted_not_mem_checked _ (by simp), by simp⟩
  · rw [acquisitions_appendC, acquisitions_loopLogC, acquisitions_appendC, acquisitions_checked,
      acquisitions_checked, List.range_succ, List.map_append]
    simp [acquisitions, Event.acquired?]
  · rw [teardownLog, acquisitions_appendC, acquisitions_appendC, releaseLog,
      acquisitions_appendC, acquisitions_checked, acquisitions_checked]
    simp [acquisitions, Event.acquired?]
  · rw [pushed_append, pushed_append, pushed_checked, pushed_checked, pushed_loopLogC]
    simp [pushed, Event.pushed?]
  · rw [pushed_append, pushed_releaseLog, teardownLog, pushed_append, pushed_checked]
    simp [pushed, Event.pushed?]

theorem acquisitions_acquireCalls (sdk : SDK) (N i : Nat) :
    acquisitions (acquireCalls sdk N i) = [(i, sdk.acDeviceGetBuffer i IMAGE_TIMEOUT)] := by
  unfold acquireCalls
  simp only [acquisitions_appendC, acquisitions_checked]
  cases isLast i N <;> simp [acquisitions, Event.acquired?]

/-- The producer has made as many `acDeviceGetBuffer` calls as critical sections. -/
theorem Inv.acquisitions_length {sdk : SDK} {N : Nat} {nodes0 : Nodes} {s : State}
    (h : Inv sdk N nodes0 s) : (acquisitions s.plog).length = s.ppc.crit N := by
  have hp := h.prod
  cases hpc : s.ppc with
  | setup =>
    simp only [ProdInv, hpc] at hp
    rw [hp.1]
    rfl
  | acquire i =>
    simp only [ProdInv, hpc] at hp
    rw [hp.2.1, acquisitions_loopLogC]
    simp [PPc.crit]
  | release i b =>
    simp only [ProdInv, hpc] at hp
    rw [hp.2.2.1, acquisitions_appendC, acquisitions_loopLogC, acquisitions_acquireCalls]
    simp [PPc.crit]
  | teardown =>
    simp only [ProdInv, hpc] at hp
    rw [hp.1, acquisitions_loopLogC]
    simp [PPc.crit]
  | returned =>
    rw [(h.producer_doneC hpc).2.1]
    simp [PPc.crit]

theorem run_isCompletedC (sdk : SDK) (N : Nat) (sched : List Tick) :
    ∀ s : State, s.isCompleted = true → (run sdk N sched s).isCompleted = true := by
  induction sched with
  | nil => intro s h; exact h
  | cons t ts ih => intro s h; exact ih _ (step_isCompletedC sdk N t s h)

end ArenaC


/-! ## The calls of a consumer that has returned -/

theorem filterMap_calls {β : Type} (f : Event → Option β)
    (hf : ∀ e, e.isSync = true → f e = none) (l : List Event) :
    (calls l).filterMap f = l.filterMap f := by
  refine filterMap_filter_of f _ (fun e he => hf e ?_) l
  simpa using he

theorem calls_noWait (l : List Event) : calls (noWait l) = calls l := by
  unfold calls noWait
  rw [List.filter_filter]
  apply List.filter_congr
  intro e _
  cases e <;> rfl

theorem calls_append_log (l m : List Event) : calls (l ++ m) = calls l ++ calls m := by
  simp [calls]

theorem map_some_flatMap_toList {β : Type} (g : Nat → Option β) (l : List Nat)
    (h : ∀ j ∈ l, (g j).isSome = true) :
    (l.flatMap (fun j => (g j).toList)).map some = l.map g := by
  induction l with
  | nil => rfl
  | cons a as ih =>
    have ha := h a (List.mem_cons_self _ _)
    obtain ⟨x, hx⟩ := Option.isSome_iff_exists.mp ha
    rw [List.flatMap_cons, List.map_append, ih (fun j hj => h j (List.mem_cons_of_mem _ hj)),
      List.map_cons, hx]
    rfl

namespace ArenaCpp

theorem calls_critLog (sdk : SDK) (N j : Nat) : calls (critLog sdk N j) = [] := by
  unfold critLog calls
  split <;> simp [Event.isSync]

theorem calls_processCalls_cpp (sdk : SDK) (j : Nat) (pCopy : Handle) :
    calls (processCalls sdk j pCopy) = processCalls sdk j pCopy := by
  unfold processCalls calls
  cases sdk.Convert pCopy PIXEL_FORMAT <;> simp [Event.isSync]

theorem calls_citerLog (sdk : SDK) (N j : Nat) : calls (citerLog sdk N j) = processLog sdk j := by
  rw [citerLog, calls_append_log, calls_critLog, List.nil_append, processLog]
  cases copyOf sdk j with
  | none => rfl
  | some pCopy => exact calls_processCalls_cpp sdk j pCopy

theorem calls_flatMap_citerLog (sdk : SDK) (N m : Nat) :
    calls ((List.range m).flatMap (citerLog sdk N)) = (List.range m).flatMap (processLog sdk) := by
  induction m with
  | zero => rfl
  | succ m ih =>
    rw [List.range_succ, List.flatMap_append, List.flatMap_append, calls_append_log, ih]
    simp [calls_citerLog]

/-- The calls of a consumer that has returned: those of the iterations
`0 .. NUM_IMAGES-1`, each made on the copy of its image, none failing. -/
theorem Inv.calls_returned {sdk : SDK} {N : Nat} {nodes0 : Nodes} {s : State}
    (h : Inv sdk N nodes0 s) (hr : s.cpc = .returned) :
    calls s.clog = (List.range N).flatMap (processLog sdk) ∧ s.i = N ∧
      ∀ j, j < N → IterOk sdk j := by
  have hc := h.cons
  simp only [ConsInv, hr] at hc
  have hd := h.localDone.mp hc.2.1
  have hz := (queue_nil_iff h.queue).mp hd.1
  have hn := (h.completed.mp hd.2).1
  have hle := h.popped_le
  have hi : s.i = N := by omega
  refine ⟨?_, hi, fun j hj => h.done j (by omega)⟩
  rw [← calls_noWait, hc.2.2, calls_flatMap_citerLog, hi]

/-- The calls of an iteration none of whose calls fails. -/
theorem IterOk.processLog_eq {sdk : SDK} {j : Nat} (h : IterOk sdk j) :
    ∃ pCopy pConverted, copyOf sdk j = some pCopy ∧ convertedOf sdk j = some pConverted ∧
      noFailure (processLog sdk j) = true ∧
      created (processLog sdk j) = [pConverted] ∧
      destroyed (processLog sdk j) = [some pConverted, some pCopy] ∧
      disposals (processLog sdk j) =
        [.save (some (fileName j)) (some (sdk.GetData pConverted)) true,
          .destroy (some pConverted) true, .destroy (some pCopy) true] := by
  obtain ⟨pCopy, hco, hok⟩ := h
  obtain ⟨pConverted, hcv⟩ := convert_of_not_failed hok
  have hcc : convertedOf sdk j = some pConverted := by simp [convertedOf, hco, hcv]
  have hnf : noFailure (processCalls sdk j pCopy) = true := by
    rw [noFailure_eq]; simpa using hok
  refine ⟨pCopy, pConverted, hco, hcc, ?_, ?_, ?_, ?_⟩
  · rw [processLog, hco]; exact hnf
  · simp [processLog, hco, processCalls, hcv, created, Event.created?]
  · simp [processLog, hco, processCalls, hcv, destroyed, Event.destroyed?]
  · simp only [processCalls, hcv, noFailure, List.all_cons, Event.failed, Bool.not_not,
      Bool.and_eq_true, List.all_nil, Bool.and_true] at hnf
    simp [processLog, hco, processCalls, hcv, disposals, Event.disposal?, hnf]

theorem processLog_flatMap {sdk : SDK} (m : Nat) (h : ∀ j, j < m → IterOk sdk j) :
    noFailure ((List.range m).flatMap (processLog sdk)) = true ∧
      (created ((List.range m).flatMap (processLog sdk))).map some =
        (List.range m).map (convertedOf sdk) ∧
      destroyed ((List.range m).flatMap (processLog sdk)) =
        (List.range m).flatMap (fun i => [convertedOf sdk i, copyOf sdk i]) ∧
      disposals ((List.range m).flatMap (processLog sdk)) =
        (List.range m).flatMap (disposalsOf sdk) := by
  induction m with
  | zero => exact ⟨rfl, rfl, rfl, rfl⟩
  | succ m ih =>
    obtain ⟨i1, i2, i3, i4⟩ := ih (fun j hj => h j (by omega))
    obtain ⟨pCopy, pConverted, hco, hcc, h1, h2, h3, h4⟩ := (h m (by omega)).processLog_eq
    simp only [List.range_succ, List.flatMap_append, List.flatMap_cons, List.flatMap_nil,
      List.append_nil, List.map_append, List.map_cons, List.map_nil]
    refine ⟨?_, ?_, ?_, ?_⟩
    · rw [noFailure_append, i1, h1]; rfl
    · unfold created at i2 h2 ⊢
      rw [List.filterMap_append, List.map_append, i2, h2, hcc]
      rfl
    · unfold destroyed at i3 h3 ⊢
      rw [List.filterMap_append, i3, h3, hcc, hco]
    · unfold disposals at i4 h4 ⊢
      rw [List.filterMap_append, i4, h4, disposalsOf, hcc, hco]
      rfl

theorem created_iterLog (sdk : SDK) (N j : Nat) :
    created (iterLog sdk N j) = (copyOf sdk j).toList := by
  unfold iterLog acquireLog releaseLog created
  cases copyOf sdk j <;> split <;> simp [Event.created?]

theorem destroyed_iterLog (sdk : SDK) (N j : Nat) : destroyed (iterLog sdk N j) = [] := by
  unfold iterLog acquireLog releaseLog destroyed
  split <;> simp [Event.destroyed?]

theorem created_producerLog (sdk : SDK) (N : Nat) (nodes0 : Nodes) :
    created (producerLog sdk N nodes0) =
      (List.range N).flatMap (fun j => (copyOf sdk j).toList) := by
  have e : (fun j => (iterLog sdk N j).filterMap Event.created?) =
      fun j => (copyOf sdk j).toList := funext (created_iterLog sdk N)
  unfold created producerLog loopLog
  rw [List.filterMap_append, List.filterMap_append, List.filterMap_flatMap, e]
  simp [setupCalls, teardownCalls, Event.created?]

theorem destroyed_producerLog (sdk : SDK) (N : Nat) (nodes0 : Nodes) :
    destroyed (producerLog sdk N nodes0) = [] := by
  have e : (fun j => (iterLog sdk N j).filterMap Event.destroyed?) = fun _ => [] :=
    funext (destroyed_iterLog sdk N)
  unfold destroyed producerLog loopLog
  rw [List.filterMap_append, List.filterMap_append, List.filterMap_flatMap, e]
  simp [setupCalls, teardownCalls, Event.destroyed?]

/-- Once both workers have returned: the producer has destroyed nothing, the handles
it got from `Copy` and the handles the consumer got from `Convert` are those of the
images `0 .. NUM_IMAGES-1`, and the consumer has made, image after image, the writer
call, `Destroy` of the converted image and `Destroy` of the copy, none failing. -/
theorem Inv.handles_finished {sdk : SDK} {N : Nat} {nodes0 : Nodes} {s : State}
    (h : Inv sdk N nodes0 s) (hp : s.ppc = .returned) (hc : s.cpc = .returned) :
    destroyed s.plog = [] ∧
      (created s.plog).map some = (List.range N).map (copyOf sdk) ∧
      (created s.clog).map some = (List.range N).map (convertedOf sdk) ∧
      destroyed s.clog = (List.range N).flatMap (fun i => [convertedOf sdk i, copyOf sdk i]) ∧
      disposals s.clog = (List.range N).flatMap (disposalsOf sdk) ∧
      noFailure (calls s.clog) = true := by
  obtain ⟨hcalls, -, hok⟩ := h.calls_returned hc
  obtain ⟨h1, h2, h3, h4⟩ := processLog_flatMap N hok
  have hlog := (h.producer_done hp).1
  have hsome := (h.producer_done hp).2.2.2.1
  refine ⟨by rw [hlog, destroyed_producerLog], ?_, ?_, ?_, ?_, by rw [hcalls]; exact h1⟩
  · rw [hlog, created_producerLog]
    exact map_some_flatMap_toList _ _ (fun j hj => hsome j (List.mem_range.mp hj))
  · unfold created at h2 ⊢
    rw [← filterMap_calls Event.created? (fun e he => by cases e <;> simp_all [Event.isSync] <;> rfl),
      hcalls]
    exact h2
  · unfold destroyed at h3 ⊢
    rw [← filterMap_calls Event.destroyed?
      (fun e he => by cases e <;> simp_all [Event.isSync] <;> rfl), hcalls]
    exact h3
  · unfold disposals at h4 ⊢
    rw [← filterMap_calls Event.disposal?
      (fun e he => by cases e <;> simp_all [Event.isSync] <;> rfl), hcalls]
    exact h4

end ArenaCpp

namespace ArenaC

theorem callsFrom_range (sdk : SDK) (n : Nat) :
    callsFrom sdk 0 ((List.range n).map (copyOf sdk)) = (List.range n).flatMap (processLog sdk) := by
  induction n with
  | zero => rfl
  | succ n ih =>
    rw [List.range_succ, List.map_append, List.map_cons, List.map_nil, callsFrom_append, ih,
      List.flatMap_append]
    simp [processLog]

theorem created_processCalls (sdk : SDK) (i : Nat) (h : acBuffer) :
    created (processCalls sdk i h) =
      (h.bind (sdk.acImageFactoryConvert · PIXEL_FORMAT)).toList := by
  unfold processCalls created
  simp only [List.filterMap_append, filterMap_checked Event.created? rfl]
  cases h.bind (sdk.acImageFactoryConvert · PIXEL_FORMAT) <;> simp [Event.created?]

theorem destroyed_processCalls (sdk : SDK) (i : Nat) (h : acBuffer) :
    destroyed (processCalls sdk i h) = [h, h.bind (sdk.acImageFactoryConvert · PIXEL_FORMAT)] := by
  unfold processCalls destroyed
  simp only [List.filterMap_append, filterMap_checked Event.destroyed? rfl]
  simp [Event.destroyed?]

/-- In every iteration the consumer calls the writer, then `Destroy` on the copy,
then `Destroy` on the converted image, whatever the results of its calls. -/
theorem disposals_processCalls (sdk : SDK) (i : Nat) (h : acBuffer) :
    ∃ path data ok ok1 ok2, disposals (processCalls sdk i h) =
      [.save path data ok, .destroy h ok1,
        .destroy (h.bind (sdk.acImageFactoryConvert · PIXEL_FORMAT)) ok2] := by
  unfold processCalls disposals
  simp only [List.filterMap_append, filterMap_checked Event.disposal? rfl]
  exact ⟨_, _, _, _, _, rfl⟩

/-- The calls of an iteration none of whose calls fails. -/
theorem processLog_okC {sdk : SDK} {j : Nat} (hok : noFailure (processLog sdk j) = true) :
    ∃ c c', copyOf sdk j = some c ∧ convertedOf sdk j = some c' ∧
      created (processLog sdk j) = [c'] ∧
      destroyed (processLog sdk j) = [some c, some c'] ∧
      disposals (processLog sdk j) = disposalsOf sdk j := by
  obtain ⟨h1, h2, h3⟩ := processCalls_ok hok
  obtain ⟨c, hc⟩ := Option.isSome_iff_exists.mp h1
  obtain ⟨c', hc'⟩ := Option.isSome_iff_exists.mp h2
  have hcc : convertedOf sdk j = some c' := by rw [convertedOf]; exact hc'
  refine ⟨c, c', hc, hcc, ?_, ?_, ?_⟩
  · rw [processLog, created_processCalls, hc']; rfl
  · rw [processLog, destroyed_processCalls, hc', hc]
  · unfold processLog processCalls at hok ⊢
    dsimp only at hok ⊢
    rw [hc] at hc' hok ⊢
    rw [hc'] at hok ⊢
    simp only [noFailure_append, noFailure_checked, Bool.and_eq_true, Bool.not_eq_true',
      Event.failed, Bool.not_eq_false'] at hok
    obtain ⟨⟨⟨⟨⟨⟨⟨⟨⟨⟨-, -⟩, -⟩, -⟩, h5⟩, h6⟩, -⟩, h8⟩, -⟩, h10⟩, h11⟩ := hok
    unfold disposals
    simp only [List.filterMap_append, filterMap_checked Event.disposal? rfl]
    simp only [Option.map_some', Option.getD_some, Option.any_some] at h5 h6 h8 h10 h11
    simp only [h5, h6.2, and_self, if_true, true_and] at h8
    simp [Event.disposal?, disposalsOf, hc, hcc, h5, h6.2, h8, h10, h11]

theorem processLog_flatMapC {sdk : SDK} (m : Nat)
    (h : noFailure ((List.range m).flatMap (processLog sdk)) = true) :
    (created ((List.range m).flatMap (processLog sdk))).map some =
        (List.range m).map (convertedOf sdk) ∧
      destroyed ((List.range m).flatMap (processLog sdk)) =
        (List.range m).flatMap (fun i => [copyOf sdk i, convertedOf sdk i]) ∧
      disposals ((List.range m).flatMap (processLog sdk)) =
        (List.range m).flatMap (disposalsOf sdk) := by
  induction m with
  | zero => exact ⟨rfl, rfl, rfl⟩
  | succ m ih =>
    simp only [List.range_succ, List.flatMap_append, List.flatMap_cons, List.flatMap_nil,
      List.append_nil, List.map_append, List.map_cons, List.map_nil] at h ⊢
    rw [noFailure_append, Bool.and_eq_true] at h
    obtain ⟨i2, i3, i4⟩ := ih h.1
    obtain ⟨c, c', hco, hcc, h2, h3, h4⟩ := processLog_okC h.2
    refine ⟨?_, ?_, ?_⟩
    · unfold created at i2 h2 ⊢
      rw [List.filterMap_append, List.map_append, i2, h2, hcc]
      rfl
    · unfold destroyed at i3 h3 ⊢
      rw [List.filterMap_append, i3, h3, hcc, hco]
    · unfold disposals at i4 h4 ⊢
      rw [List.filterMap_append, i4, h4]

theorem created_iterLogC (sdk : SDK) (N j : Nat) :
    created (iterLog sdk N j) = (copyOf sdk j).toList := by
  unfold iterLog acquireCalls releaseLog created
  simp only [List.filterMap_append, filterMap_checked Event.created? rfl]
  rw [← copyOf]
  cases copyOf sdk j <;> cases isLast j N <;> simp [Event.created?]

theorem destroyed_iterLogC (sdk : SDK) (N j : Nat) : destroyed (iterLog sdk N j) = [] := by
  unfold iterLog acquireCalls releaseLog destroyed
  simp only [List.filterMap_append, filterMap_checked Event.destroyed? rfl]
  cases isLast j N <;> simp [Event.destroyed?]

theorem created_producerLogC (sdk : SDK) (N : Nat) (nodes0 : Nodes) :
    created (producerLog sdk N nodes0) =
      (List.range N).flatMap (fun j => (copyOf sdk j).toList) := by
  have e : (fun j => (iterLog sdk N j).filterMap Event.created?) =
      fun j => (copyOf sdk j).toList := funext (created_iterLogC sdk N)
  unfold created producerLog loopLog teardownLog
  rw [List.filterMap_append, List.filterMap_append, List.filterMap_append,
    filterMap_flatMap_checked Event.created? rfl, List.filterMap_flatMap, e,
    filterMap_checked Event.created? rfl]
  simp [setupCalls, Event.created?]

theorem destroyed_producerLogC (sdk : SDK) (N : Nat) (nodes0 : Nodes) :
    destroyed (producerLog sdk N nodes0) = [] := by
  have e : (fun j => (iterLog sdk N j).filterMap Event.destroyed?) = fun _ => [] :=
    funext (destroyed_iterLogC sdk N)
  unfold destroyed producerLog loopLog teardownLog
  rw [List.filterMap_append, List.filterMap_append, List.filterMap_append,
    filterMap_flatMap_checked Event.destroyed? rfl, List.filterMap_flatMap, e,
    filterMap_checked Event.destroyed? rfl]
  simp [setupCalls, Event.destroyed?]

/-- Once both workers have returned, no call having failed: the producer has
destroyed nothing, the handles it got from `acImageFactoryCopy` and the handles the
consumer got from `acImageFactoryConvert` are those of the images
`0 .. NUM_IMAGES-1`, and the consumer has made, image after image, the writer call,
the destroy of the copy and the destroy of the converted image. -/
theorem Inv.handles_finishedC {sdk : SDK} {N : Nat} {nodes0 : Nodes} {s : State}
    (h : Inv sdk N nodes0 s) (hnp : noFailure s.plog = true) (hnc : noFailure s.clog = true)
    (hp : s.ppc = .returned) (hc : s.cpc = .returned) :
    destroyed s.plog = [] ∧
      (created s.plog).map some = (List.range N).map (copyOf sdk) ∧
      (created s.clog).map some = (List.range N).map (convertedOf sdk) ∧
      destroyed s.clog = (List.range N).flatMap (fun i => [copyOf sdk i, convertedOf sdk i]) ∧
      disposals s.clog = (List.range N).flatMap (disposalsOf sdk) := by
  obtain ⟨hconv, -, hi⟩ := h.conversions_eq hnp hnc
  have hcalls : calls s.clog = (List.range N).flatMap (processLog sdk) := by
    rw [h.callsEq, hconv, hi hc, callsFrom_range]
  have hok : noFailure ((List.range N).flatMap (processLog sdk)) = true := by
    rw [← hcalls]; exact noFailure_calls _ hnc
  obtain ⟨h2, h3, h4⟩ := processLog_flatMapC N hok
  have hd := h.producer_doneC hp
  refine ⟨by rw [hd.1, destroyed_producerLogC], ?_, ?_, ?_, ?_⟩
  · rw [hd.1, created_producerLogC]
    exact map_some_flatMap_toList _ _ (fun j hj => (hd.2.2.1 hnp).2 j (List.mem_range.mp hj))
  · unfold created at h2 ⊢
    rw [← filterMap_calls Event.created? (fun e he => by cases e <;> simp_all [Event.isSync] <;> rfl),
      hcalls]
    exact h2
  · unfold destroyed at h3 ⊢
    rw [← filterMap_calls Event.destroyed?
      (fun e he => by cases e <;> simp_all [Event.isSync] <;> rfl), hcalls]
    exact h3
  · unfold disposals at h4 ⊢
    rw [← filterMap_calls Event.disposal?
      (fun e he => by cases e <;> simp_all [Event.isSync] <;> rfl), hcalls]
    exact h4

end ArenaC

namespace ArenaCpp

/-! ## Cpp variant: a consumer that has thrown, and what goes through the queue -/

theorem AcquireImages_clog (sdk : SDK) (N : Nat) (s : State) :
    (AcquireImages sdk N s).clog = s.clog ∧
      (s.cpc = .threw → (AcquireImages sdk N s).cpc = .threw) := by
  unfold AcquireImages
  cases s.ppc with
  | setup => exact ⟨rfl, id⟩
  | acquire i =>
    simp only [AcquireImages.acquire]
    cases sdk.GetImage i TIMEOUT with
    | none => exact ⟨rfl, id⟩
    | some pImage =>
      dsimp only
      cases sdk.Copy pImage with
      | none => exact ⟨rfl, id⟩
      | some pCopy => exact ⟨rfl, id⟩
  | release i pImage =>
    refine ⟨rfl, fun h => ?_⟩
    simp [AcquireImages.release, h]
  | teardown => exact ⟨rfl, id⟩
  | returned => exact ⟨rfl, id⟩
  | threw => exact ⟨rfl, id⟩

/-- After an exception has left `SaveImages` the consumer takes no step: its log stays
what it was, whatever the producer does. -/
theorem threw_final (sdk : SDK) (N : Nat) (sched : List Tick) :
    ∀ s : State, s.cpc = .threw →
      (run sdk N sched s).clog = s.clog ∧ (run sdk N sched s).cpc = .threw := by
  induction sched with
  | nil => intro s h; exact ⟨rfl, h⟩
  | cons t ts ih =>
    intro s h
    have hstep : (step sdk N t s).clog = s.clog ∧ (step sdk N t s).cpc = .threw := by
      cases t with
      | prod => exact ⟨(AcquireImages_clog sdk N s).1, (AcquireImages_clog sdk N s).2 h⟩
      | cons => simp [step, SaveImages, h]
      | spurious => simp [step, h]
    have h2 := ih (step sdk N t s) hstep.2
    rw [hstep.1] at h2
    exact h2

theorem conversions_append_log (l m : List Event) :
    conversions (l ++ m) = conversions l ++ conversions m := by
  simp [conversions]

theorem conversions_processCalls_cpp (sdk : SDK) (i : Nat) (pCopy : Handle) :
    conversions (processCalls sdk i pCopy) = [some pCopy] := by
  unfold processCalls conversions
  cases sdk.Convert pCopy PIXEL_FORMAT <;> simp

theorem SaveImages_conversions (sdk : SDK) (s : State)
    (h : ∀ x ∈ conversions s.clog, x.isSome = true) :
    ∀ x ∈ conversions (SaveImages sdk s).clog, x.isSome = true := by
  have hcrit : ∀ pre, conversions pre = [] →
      ∀ x ∈ conversions (SaveImages.critical pre s).clog, x.isSome = true := by
    intro pre hpre
    unfold SaveImages.critical
    cases s.m_queue with
    | nil => exact h
    | cons p r =>
      intro x hx
      simp only [conversions_append_log, hpre, List.append_nil] at hx
      have e1 : conversions [Event.dequeue (some p)] = [] := rfl
      have e2 : conversions [Event.unlock] = [] := rfl
      have e3 : conversions (if (r.length == 0 && s.isCompleted) = true
          then [Event.setLocalComplete] else []) = [] := by split <;> rfl
      rw [e1, e2, e3] at hx
      simp only [List.append_nil] at hx
      exact h x hx
  unfold SaveImages
  cases s.cpc with
  | lockWait =>
    dsimp only
    split
    · exact hcrit _ rfl
    · intro x hx
      rw [conversions_append_log] at hx
      simpa [conversions] using h x (by simpa [conversions] using hx)
  | woken =>
    dsimp only
    split
    · exact hcrit _ rfl
    · intro x hx
      rw [conversions_append_log] at hx
      simpa [conversions] using h x (by simpa [conversions] using hx)
  | process pCopy =>
    intro x hx
    simp only [SaveImages.process, conversions_append_log, List.mem_append] at hx
    rcases hx with hx | hx
    · exact h x hx
    · have hp : conversions (attempt (processCalls sdk s.i pCopy)) <+:
          conversions (processCalls sdk s.i pCopy) := (attempt_initial _).filterMap _
      rw [conversions_processCalls_cpp] at hp
      have := hp.subset hx
      simp only [List.mem_singleton] at this
      rw [this]; rfl
  | waiting => exact h
  | returned => exact h
  | threw => exact h

/-- The consumer never passes a null pointer to `Convert`. -/
theorem conversions_isSome (sdk : SDK) (N : Nat) (sched : List Tick) :
    ∀ s : State, (∀ x ∈ conversions s.clog, x.isSome = true) →
      ∀ x ∈ conversions (run sdk N sched s).clog, x.isSome = true := by
  induction sched with
  | nil => intro s h; exact h
  | cons t ts ih =>
    intro s h
    refine ih (step sdk N t s) ?_
    cases t with
    | prod => simp only [step]; rw [(AcquireImages_clog sdk N s).1]; exact h
    | cons => exact SaveImages_conversions sdk s h
    | spurious => simp only [step]; split <;> exact h

theorem popped_noWait (l : List Event) : popped (noWait l) = popped l := by
  refine filterMap_filter_of Event.popped? _ (fun e he => ?_) l
  cases e <;> first | rfl | simp at he

theorem popped_critLog (sdk : SDK) (N j : Nat) : popped (critLog sdk N j) = [copyOf sdk j] := by
  unfold critLog popped
  split <;> simp [Event.popped?]

theorem popped_citerLog (sdk : SDK) (N j : Nat) : popped (citerLog sdk N j) = [copyOf sdk j] := by
  rw [citerLog, popped_append, popped_critLog, processLog]
  cases copyOf sdk j with
  | none => rfl
  | some pCopy => rw [popped_processCalls]; rfl

theorem popped_flatMap_citerLog (sdk : SDK) (N m : Nat) :
    popped ((List.range m).flatMap (citerLog sdk N)) = (List.range m).map (copyOf sdk) := by
  induction m with
  | zero => rfl
  | succ m ih =>
    rw [List.range_succ, List.flatMap_append, popped_append, ih, List.map_append]
    simp [popped_citerLog]

/-- The handles the consumer has taken out of the queue are the copies of the first
images, in order. -/
theorem Inv.popped_eq {sdk : SDK} {N : Nat} {nodes0 : Nodes} {s : State}
    (h : Inv sdk N nodes0 s) :
    popped s.clog = (List.range (popped s.clog).length).map (copyOf sdk) := by
  have hc := h.cons
  have key : ∀ k, popped s.clog = (List.range k).map (copyOf sdk) →
      popped s.clog = (List.range (popped s.clog).length).map (copyOf sdk) := by
    intro k hk
    have : (popped s.clog).length = k := by rw [hk]; simp
    rw [this]; exact hk
  rw [← popped_noWait] at key
  rw [← popped_noWait]
  cases hcc : s.cpc with
  | lockWait =>
    simp only [ConsInv, hcc] at hc
    exact key s.i (by rw [hc.2.2, popped_flatMap_citerLog])
  | waiting =>
    simp only [ConsInv, hcc] at hc
    refine key s.i ?_
    rw [hc.2.2.1, popped_append, popped_flatMap_citerLog]
    simp [popped, Event.popped?]
  | woken =>
    simp only [ConsInv, hcc] at hc
    refine key s.i ?_
    rw [hc.2.2, popped_append, popped_flatMap_citerLog]
    simp [popped, Event.popped?]
  | process pCopy =>
    simp only [ConsInv, hcc] at hc
    refine key (s.i + 1) ?_
    rw [hc.2.2, popped_append, popped_flatMap_citerLog, popped_critLog, List.range_succ,
      List.map_append]
    rfl
  | returned =>
    simp only [ConsInv, hcc] at hc
    exact key s.i (by rw [hc.2.2, popped_flatMap_citerLog])
  | threw =>
    simp only [ConsInv, hcc] at hc
    obtain ⟨-, -, pCopy, -, -, hlog⟩ := hc
    refine key (s.i + 1) ?_
    have hp : popped (attempt (processCalls sdk s.i pCopy)) = [] := by
      have := (attempt_initial (processCalls sdk s.i pCopy)).filterMap Event.popped?
      rw [show List.filterMap Event.popped? (processCalls sdk s.i pCopy) = [] from
        popped_processCalls sdk s.i pCopy] at this
      exact List.prefix_nil.mp this
    rw [hlog, popped_append, popped_append, popped_flatMap_citerLog, popped_critLog, hp,
      List.range_succ, List.map_append]
    simp

theorem pushed_acquireLog (sdk : SDK) (N j : Nat) :
    pushed (acquireLog sdk N j) = [copyOf sdk j] := by
  unfold acquireLog pushed
  split <;> simp [Event.pushed?]

/-- The handles the producer has put into the queue are the copies of the first
images, in order. -/
theorem Inv.pushed_eq {sdk : SDK} {N : Nat} {nodes0 : Nodes} {s : State}
    (h : Inv sdk N nodes0 s) :
    pushed s.plog = (List.range (pushed s.plog).length).map (copyOf sdk) := by
  have hp := h.prod
  have key : ∀ k, pushed s.plog = (List.range k).map (copyOf sdk) →
      pushed s.plog = (List.range (pushed s.plog).length).map (copyOf sdk) := by
    intro k hk
    have : (pushed s.plog).length = k := by rw [hk]; simp
    rw [this]; exact hk
  cases hpc : s.ppc with
  | setup =>
    simp only [ProdInv, hpc] at hp
    exact key 0 (by rw [hp.1]; rfl)
  | acquire i =>
    simp only [ProdInv, hpc] at hp
    exact key i (by rw [hp.2.2.1, pushed_loopLog])
  | release i pImage =>
    simp only [ProdInv, hpc] at hp
    refine key (i + 1) ?_
    rw [hp.2.2.2.1, pushed_append, pushed_loopLog, pushed_acquireLog, List.range_succ,
      List.map_append]
    rfl
  | teardown =>
    simp only [ProdInv, hpc] at hp
    exact key N (by rw [hp.2.1, pushed_loopLog])
  | returned => exact key N (h.producer_done hpc).2.2.1
  | threw =>
    simp only [ProdInv, hpc] at hp
    have hpre : pushed s.plog <+: (List.range N).map (copyOf sdk) := by
      rw [hp.1]
      have := (attempt_initial (producerLog sdk N nodes0)).filterMap Event.pushed?
      rw [show List.filterMap Event.pushed? (producerLog sdk N nodes0) =
        (List.range N).map (copyOf sdk) from by
          rw [← pushed, producerLog, pushed_append, pushed_loopLog, pushed_teardownCalls,
            List.append_nil]] at this
      exact this
    exact (prefix_map_range hpre).1

/-- Every handle in the queue, every handle put into it and every handle taken out
of it is what `Copy` returned for one of the images. -/
theorem Inv.factory_owned {sdk : SDK} {N : Nat} {nodes0 : Nodes} {s : State}
    (h : Inv sdk N nodes0 s) :
    (∀ x ∈ pushed s.plog, ∃ i f c, i < N ∧ sdk.GetImage i TIMEOUT = some f ∧
        sdk.Copy f = some c ∧ x = some c) ∧
      (∀ x ∈ popped s.clog, x ∈ pushed s.plog) ∧
      (∀ c ∈ s.m_queue, some c ∈ pushed s.plog) := by
  have hle := h.popped_le
  have hle2 := h.pushed_le
  refine ⟨fun x hx => ?_, fun x hx => ?_, fun c hc => ?_⟩
  · rw [h.pushed_eq] at hx
    obtain ⟨j, hj, rfl⟩ := List.mem_map.mp hx
    have hj2 := List.mem_range.mp hj
    have hs := h.pushedOk j hj2
    unfold copyOf at hs ⊢
    cases hg : sdk.GetImage j TIMEOUT with
    | none => simp [hg] at hs
    | some f =>
      cases hcp : sdk.Copy f with
      | none => simp [hg, hcp] at hs
      | some c => exact ⟨j, f, c, by omega, hg, hcp, by simp [hg, hcp]⟩
  · rw [h.popped_eq] at hx
    obtain ⟨j, hj, rfl⟩ := List.mem_map.mp hx
    rw [h.pushed_eq]
    exact List.mem_map.mpr ⟨j, List.mem_range.mpr (by have := List.mem_range.mp hj; omega), rfl⟩
  · have hm : some c ∈ s.m_queue.map some := List.mem_map.mpr ⟨c, hc, rfl⟩
    rw [h.queue] at hm
    obtain ⟨j, hj, hjc⟩ := List.mem_map.mp hm
    rw [← hjc, h.pushed_eq]
    have := List.mem_range'_1.mp hj
    exact List.mem_map.mpr ⟨j, List.mem_range.mpr (by omega), rfl⟩

/-- How `main` ends on a system whose calls all succeed. -/
theorem main_sampleSystem (sdk : SDK) (N : Nat) (nodes0 : Nodes) (sched : List Tick) :
    (main sampleSystem sdk N nodes0 sched).exit =
      if (run sdk N sched (init nodes0)).cpc = .threw ∨
          (run sdk N sched (init nodes0)).ppc = .threw then .terminated
      else if (run sdk N sched (init nodes0)).ppc = .returned ∧
          (run sdk N sched (init nodes0)).cpc = .returned then .returned 0
      else .waiting := by
  show (main.example sampleSystem _ (run sdk N sched (init nodes0))).exit = _
  unfold main.example
  by_cases h1 : (run sdk N sched (init nodes0)).cpc = .threw ∨
      (run sdk N sched (init nodes0)).ppc = .threw
  · rw [if_pos h1, if_pos h1]
  · rw [if_neg h1, if_neg h1]
    by_cases h2 : (run sdk N sched (init nodes0)).ppc = .returned ∧
        (run sdk N sched (init nodes0)).cpc = .returned
    · rw [if_pos h2, if_pos h2]
      rfl
    · rw [if_neg h2, if_neg h2]

end ArenaCpp

namespace ArenaC

/-! ## C variant: what goes through the queue, and the nodes at the end -/

/-- Every pointer put into the queue is what `acImageFactoryCopy` left in
`hCopyBuffer` for one of the images; every pointer taken out of the queue and every
pointer in it was put into it. -/
theorem Inv.factory_ownedC {sdk : SDK} {N : Nat} {nodes0 : Nodes} {s : State}
    (h : Inv sdk N nodes0 s) :
    (∀ x ∈ pushed s.plog, ∃ i, i < N ∧ x = copyOf sdk i) ∧
      (∀ x ∈ popped s.clog, x ∈ pushed s.plog) ∧ (∀ x ∈ s.head, x ∈ pushed s.plog) := by
  refine ⟨fun x hx => ?_, fun x hx => ?_, fun x hx => ?_⟩
  · rw [h.pushedEq, enqueued] at hx
    obtain ⟨j, hj, hjx⟩ := List.mem_filterMap.mp hx
    have hj2 := List.mem_range.mp hj
    have hle := h.crit_le
    refine ⟨j, by omega, ?_⟩
    cases hm : sdk.malloc j with
    | false => simp [hm] at hjx
    | true => simpa [hm] using hjx.symm
  · rw [h.queue]; exact List.mem_append_left _ hx
  · rw [h.queue]; exact List.mem_append_right _ (List.mem_reverse.mpr hx)

/-- When no call of the producer has failed, no pointer put into the queue is
`NULL`. -/
theorem Inv.pushed_isSome {sdk : SDK} {N : Nat} {nodes0 : Nodes} {s : State}
    (h : Inv sdk N nodes0 s) (hp : noFailure s.plog = true) :
    ∀ x ∈ pushed s.plog, x.isSome = true := by
  have hcrit := h.crit_ok hp
  have hpush : pushed s.plog = (List.range (s.ppc.crit N)).map (copyOf sdk) := by
    rw [h.pushedEq]; exact enqueued_eq_map (fun j hj => (hcrit j hj).1)
  rw [hpush]
  intro x hx
  obtain ⟨j, hj, rfl⟩ := List.mem_map.mp hx
  exact (hcrit j (List.mem_range.mp hj)).2

theorem GetNodeValue_eq {sdk : SDK} {ok : Bool} {n : Node} {cur v : String}
    (h : GetNodeValue sdk ok n cur = some v) : v = cur := by
  unfold GetNodeValue at h
  split at h
  · cases h
  · split at h
    · cases h
    · split at h
      · cases h
      · split at h
        · exact (Option.some.inj h).symm
        · cases h

/-- When no call of the producer fails, the nodes are left with `AcquisitionMode` at
its first value, the three stream nodes at the values the producer gave them, and the
stream stopped. -/
theorem restored_of_noFailure {sdk : SDK} {N : Nat} {nodes0 : Nodes}
    (h : noFailure (producerLog sdk N nodes0) = true) :
    restored sdk nodes0 =
      { AcquisitionMode := nodes0.AcquisitionMode, StreamBufferHandlingMode := "NewestOnly",
        StreamAutoNegotiatePacketSize := true, StreamPacketResendEnable := true,
        streaming := false } := by
  simp only [producerLog, loopLog, teardownLog, noFailure_append, Bool.and_eq_true,
    noFailure_checked] at h
  obtain ⟨⟨hs, -⟩, ht1, ht2⟩ := h
  have hx : Event.failed .exitThreads = false := rfl
  have hs2 : ∀ e ∈ setupCalls sdk nodes0, e.failed = false := by
    intro e he
    have hall := List.all_eq_true.mp hs
    have := hall e (List.mem_flatMap.mpr ⟨e, he, by unfold checked; split <;> simp⟩)
    simpa using this
  have h2 := hs2 _ (List.mem_cons_of_mem _ (List.mem_cons_self _ _))
  have h3 := hs2 _ (List.mem_cons_of_mem _ (List.mem_cons_of_mem _ (List.mem_cons_self _ _)))
  have h5 := hs2 _ (List.mem_cons_of_mem _ (List.mem_cons_of_mem _ (List.mem_cons_of_mem _
    (List.mem_cons_of_mem _ (List.mem_cons_self _ _)))))
  have h6 := hs2 _ (List.mem_cons_of_mem _ (List.mem_cons_of_mem _ (List.mem_cons_of_mem _
    (List.mem_cons_of_mem _ (List.mem_cons_of_mem _ (List.mem_cons_self _ _))))))
  have h7 := hs2 _ (List.mem_cons_of_mem _ (List.mem_cons_of_mem _ (List.mem_cons_of_mem _
    (List.mem_cons_of_mem _ (List.mem_cons_of_mem _ (List.mem_cons_of_mem _
    (List.mem_cons_self _ _)))))))
  have h8 := hs2 _ (List.mem_cons_of_mem _ (List.mem_cons_of_mem _ (List.mem_cons_of_mem _
    (List.mem_cons_of_mem _ (List.mem_cons_of_mem _ (List.mem_cons_of_mem _
    (List.mem_cons_of_mem _ (List.mem_cons_self _ _))))))))
  simp only [Event.failed, Bool.not_eq_false', Option.isNone_eq_false_iff] at h2 h3 h5 h6 h7 h8
  obtain ⟨v, hv⟩ := Option.isSome_iff_exists.mp h2
  have hsnap : snapshot sdk nodes0 = nodes0.AcquisitionMode := by
    rw [snapshot, hv, GetNodeValue_eq hv]; rfl
  simp only [noFailure, List.all_cons, List.all_nil, Event.failed, Bool.and_true,
    Bool.not_eq_true', Bool.not_eq_false'] at ht1 ht2
  rw [hsnap] at ht2
  unfold restored configured teardownCalls setupCalls
  rw [hsnap, h3, h5, h6, h7, h8, ht1, ht2]
  rfl

end ArenaC

namespace ArenaC

theorem dequeue_length (head : node_t) : (dequeue head).2.length = head.length - 1 := by
  by_cases h : head = []
  · subst h; rfl
  · obtain ⟨x, q, hq, hd⟩ := dequeue_of_ne_nil h
    rw [hd, hq]; simp

theorem queueRun_count (cs : List QueueCall) :
    ∀ head : node_t,
      (queueRun head cs).1.length + removals head cs = head.length + successfulEnqueues cs := by
  induction cs with
  | nil => intro head; rfl
  | cons c cs ih =>
    intro head
    cases c with
    | enqueue val mallocOk =>
      simp only [queueRun, removals, successfulEnqueues]
      rw [ih]
      cases mallocOk
      · simp [enqueue]
      · simp [enqueue]; omega
    | dequeue =>
      simp only [queueRun, removals, successfulEnqueues]
      have h := ih (dequeue head).2
      rw [dequeue_length] at h
      cases head with
      | nil => simp [isEmpty] at h ⊢; omega
      | cons a l => simp [isEmpty] at h ⊢; omega

theorem queueRun_nonNull (cs : List QueueCall) :
    ∀ head : node_t, (∀ v ∈ head, v ≠ NULL) → noNullEnqueued cs = true →
      nonNullDequeues (queueRun head cs).2 = removals head cs := by
  induction cs with
  | nil => intro head _ _; rfl
  | cons c cs ih =>
    intro head hh hc
    cases c with
    | enqueue val mallocOk =>
      simp only [noNullEnqueued, Bool.and_eq_true, bne_iff_ne, ne_eq] at hc
      simp only [queueRun, removals]
      apply ih _ _ hc.2
      intro v hv
      cases mallocOk
      · exact hh v (by simpa [enqueue] using hv)
      · simp only [enqueue, Bool.not_true, Bool.false_eq_true, if_false, List.mem_cons] at hv
        rcases hv with rfl | hv
        · exact hc.1
        · exact hh v hv
    | dequeue =>
      simp only [noNullEnqueued] at hc
      simp only [queueRun, removals]
      by_cases h : head = []
      · subst h
        have := ih [] (by simp) hc
        simp only [nonNullDequeues] at this ⊢
        simp only [dequeue, isEmpty, List.isEmpty_nil, if_true, Nat.zero_add]
        rw [List.filter_cons_of_neg (by simp), this]
      · obtain ⟨x, q, hq, hd⟩ := dequeue_of_ne_nil h
        have hx : x ≠ NULL := hh x (by rw [hq]; simp)
        have hq2 : ∀ v ∈ q, v ≠ NULL := fun v hv => hh v (by rw [hq]; simp [hv])
        have := ih q hq2 hc
        have he : isEmpty head = false := by
          cases hi : isEmpty head
          · rfl
          · exact absurd ((isEmpty_iff head).mp hi) h
        simp only [nonNullDequeues] at this ⊢
        rw [hd, he]
        simp only [Bool.false_eq_true, if_false]
        rw [List.filter_cons_of_pos (by simpa using hx), List.length_cons, this]
        omega

end ArenaC

namespace IpConfigAuto

theorem testBit_not32 (x i : Nat) :
    (not32 x).testBit i = (decide (i < 32) && !x.testBit i) := by
  unfold not32 UINT32
  rw [Nat.testBit_xor, Nat.testBit_two_pow_sub_one, Nat.testBit_mod_two_pow]
  by_cases h : i < 32 <;> simp [h]

theorem testBit_uint32 {x : Nat} (hx : x < 2 ^ 32) (i : Nat) :
    x.testBit i = (decide (i < 32) && x.testBit i) := by
  by_cases h : i < 32
  · simp [h]
  · simp only [h, decide_False, Bool.false_and]
    exact Nat.testBit_lt_two_pow (lt_of_lt_of_le hx (Nat.pow_le_pow_right (by decide) (by omega)))

theorem or_eq_zero_right {x y : Nat} (h : x ||| y = 0) : y = 0 := by
  apply Nat.eq_of_testBit_eq
  intro i
  have hi : (x ||| y).testBit i = false := by rw [h]; exact Nat.zero_testBit i
  rw [Nat.testBit_or] at hi
  rw [Nat.zero_testBit]
  cases hy : y.testBit i
  · rfl
  · rw [hy, Bool.or_true] at hi; exact absurd hi (by decide)

/-- The bits of an address made of the network part of `ifIp` and a host part. -/
theorem newIp_and_subnet (ifSubnet ifIp r : Nat) (hs : ifSubnet < 2 ^ 32) :
    ((ifIp &&& ifSubnet) ||| (r &&& not32 ifSubnet)) &&& ifSubnet = ifIp &&& ifSubnet := by
  apply Nat.eq_of_testBit_eq
  intro i
  simp only [Nat.testBit_and, Nat.testBit_or, testBit_not32]
  rw [testBit_uint32 hs i]
  cases ifIp.testBit i <;> cases ifSubnet.testBit i <;> cases r.testBit i <;>
    cases decide (i < 32) <;> rfl

theorem newIp_and_not32 (ifSubnet ifIp r : Nat) (hs : ifSubnet < 2 ^ 32) :
    ((ifIp &&& ifSubnet) ||| (r &&& not32 ifSubnet)) &&& not32 ifSubnet =
      r &&& not32 ifSubnet := by
  apply Nat.eq_of_testBit_eq
  intro i
  simp only [Nat.testBit_and, Nat.testBit_or, testBit_not32]
  rw [testBit_uint32 hs i]
  cases ifIp.testBit i <;> cases ifSubnet.testBit i <;> cases r.testBit i <;>
    cases decide (i < 32) <;> rfl

theorem newIp_lt (ifSubnet ifIp r : Nat) (hs : ifSubnet < 2 ^ 32) :
    (ifIp &&& ifSubnet) ||| ((r % UINT32) &&& not32 ifSubnet) < 2 ^ 32 := by
  apply Nat.or_lt_two_pow
  · exact Nat.and_lt_two_pow _ hs
  · exact lt_of_le_of_lt Nat.and_le_left (Nat.mod_lt _ (by decide))

/-- What holds of `randNum` and `newIp` whenever the condition of the loop is
evaluated: nothing was assigned to `newIp` yet, or both come from one value of
`rand()`. -/
def LoopInv (ifSubnet ifIp randNum newIp : Nat) : Prop :=
  newIp = 0 ∨ ∃ r, randNum = (r % UINT32) &&& not32 ifSubnet ∧
    newIp = (ifIp &&& ifSubnet) ||| randNum

theorem newIpLoop_some (ifSubnet ifIp : Nat) (rand : Nat → Nat) :
    ∀ (fuel k randNum newIp v : Nat), LoopInv ifSubnet ifIp randNum newIp →
      newIpLoop ifSubnet ifIp rand fuel k randNum newIp = some v →
      v ≠ 0 ∧ v ≠ ifIp ∧ ∃ r, (r % UINT32) &&& not32 ifSubnet ≠ 0 ∧
        v = (ifIp &&& ifSubnet) ||| ((r % UINT32) &&& not32 ifSubnet) := by
  intro fuel
  induction fuel with
  | zero => intro k randNum newIp v _ h; simp [newIpLoop] at h
  | succ fuel ih =>
    intro k randNum newIp v hinv h
    unfold newIpLoop at h
    split at h
    · exact ih _ _ _ _ (Or.inr ⟨rand k, rfl, rfl⟩) h
    · rename_i hc
      simp only [not_or] at hc
      obtain ⟨h1, _, h3, h4⟩ := hc
      injection h with h
      subst h
      rcases hinv with h0 | ⟨r, hr, hn⟩
      · exact absurd h0 h3
      · exact ⟨h3, h4, r, hr ▸ h1, hr ▸ hn⟩

/-- What the loop returns has the four properties of a usable address. -/
theorem newIpLoop_usable (ifSubnet ifIp : Nat) (rand : Nat → Nat) (fuel v : Nat)
    (hs : ifSubnet < 2 ^ 32)
    (h : newIpLoop ifSubnet ifIp rand fuel 1 ((rand 0 % UINT32) &&& not32 ifSubnet) 0 = some v) :
    v ≠ 0 ∧ v ≠ ifIp ∧ v &&& ifSubnet = ifIp &&& ifSubnet ∧ v &&& not32 ifSubnet ≠ 0 ∧
      v < 2 ^ 32 := by
  obtain ⟨h1, h2, r, hr, hv⟩ := newIpLoop_some ifSubnet ifIp rand fuel 1 _ 0 v (Or.inl rfl) h
  subst hv
  refine ⟨h1, h2, newIp_and_subnet _ _ _ hs, ?_, newIp_lt _ _ _ hs⟩
  rw [newIp_and_not32 _ _ _ hs]
  exact hr

/-- The loop ends once `rand()` has given an accepted value. -/
theorem newIpLoop_returns (ifSubnet ifIp : Nat) (rand : Nat → Nat) :
    ∀ (d fuel k randNum newIp : Nat), Accepted ifSubnet ifIp (rand (k + d)) → d + 2 ≤ fuel →
      (newIpLoop ifSubnet ifIp rand fuel k randNum newIp).isSome = true := by
  intro d
  induction d with
  | zero =>
    intro fuel k randNum newIp ha hf
    obtain ⟨f, rfl⟩ : ∃ f, fuel = f + 2 := ⟨fuel - 2, by omega⟩
    obtain ⟨a1, a2, a3⟩ := ha
    unfold newIpLoop
    split
    · unfold newIpLoop
      rw [if_neg]
      · rfl
      · simp only [not_or]
        refine ⟨a1, a2, ?_, a3⟩
        intro h0
        apply a1
        exact or_eq_zero_right h0
    · rfl
  | succ d ih =>
    intro fuel k randNum newIp ha hf
    obtain ⟨f, rfl⟩ : ∃ f, fuel = f + 1 := ⟨fuel - 1, by omega⟩
    unfold newIpLoop
    split
    · apply ih
      · have : k + 1 + d = k + (d + 1) := by omega
        rw [this]; exact ha
      · omega
    · rfl

/-- With the subnet mask of all ones no value of `rand()` is accepted: the loop does
not end. -/
theorem newIpLoop_full_mask (ifIp : Nat) (rand : Nat → Nat) :
    ∀ (fuel k newIp : Nat), newIpLoop 0xFFFFFFFF ifIp rand fuel k 0 newIp = none := by
  intro fuel
  induction fuel with
  | zero => intro k newIp; rfl
  | succ fuel ih =>
    intro k newIp
    unfold newIpLoop
    rw [if_pos (Or.inl rfl)]
    have h0 : ∀ r : Nat, r &&& not32 0xFFFFFFFF = 0 := by
      intro r
      have : not32 0xFFFFFFFF = 0 := by decide
      rw [this]; exact Nat.and_zero r
    rw [h0]
    exact ih _ _

end IpConfigAuto

/-! ## Critical sections of a log -/

theorem lockedAfter_append (b : Bool) (l m : List Event) :
    lockedAfter b (l ++ m) = lockedAfter (lockedAfter b l) m := by
  simp [lockedAfter, List.foldl_append]

theorem underLock_append (l m : List Event) :
    ∀ b : Bool, underLock b (l ++ m) = underLock b l ++ underLock (lockedAfter b l) m := by
  induction l with
  | nil => intro b; rfl
  | cons e es ih =>
    intro b
    have h := ih (e.held b)
    simp only [List.cons_append, underLock, List.append_assoc, lockedAfter, List.foldl_cons] at h ⊢
    exact congrArg _ h

theorem held_of_not_sync {e : Event} (h : e.isSync = false) (b : Bool) : e.held b = b := by
  cases e <;> first | rfl | exact absurd h (by decide)

theorem lockedAfter_of_not_sync {l : List Event} (h : ∀ e ∈ l, e.isSync = false) :
    ∀ b : Bool, lockedAfter b l = b := by
  induction l with
  | nil => intro b; rfl
  | cons e es ih =>
    intro b
    simp only [lockedAfter, List.foldl_cons]
    rw [held_of_not_sync (h e (List.mem_cons_self _ _))]
    exact ih (fun e he => h e (List.mem_cons_of_mem _ he)) b

theorem underLock_of_not_sync {l : List Event} (h : ∀ e ∈ l, e.isSync = false) :
    underLock false l = [] := by
  induction l with
  | nil => rfl
  | cons e es ih =>
    simp only [underLock, Bool.false_and, Bool.false_eq_true, if_false, List.nil_append]
    rw [held_of_not_sync (h e (List.mem_cons_self _ _))]
    exact ih (fun e he => h e (List.mem_cons_of_mem _ he))

theorem not_sync_of_calls {l : List Event} (h : calls l = l) : ∀ e ∈ l, e.isSync = false := by
  unfold calls at h
  rw [List.filter_eq_self] at h
  intro e he
  simpa using h e he

theorem not_sync_attempt {l : List Event} (h : ∀ e ∈ l, e.isSync = false) :
    ∀ e ∈ attempt l, e.isSync = false :=
  fun e he => h e ((attempt_initial l).subset he)

/-- A block of calls appended to a log outside a critical section. -/
theorem underLock_append_calls (log l : List Event) (h : ∀ e ∈ l, e.isSync = false)
    (hl : lockedAfter false log = false) :
    underLock false (log ++ l) = underLock false log ∧ lockedAfter false (log ++ l) = false := by
  rw [underLock_append, lockedAfter_append, hl, underLock_of_not_sync h,
    lockedAfter_of_not_sync h, List.append_nil]
  exact ⟨rfl, rfl⟩

/-- Calls outside a critical section, then a block, appended to a log. -/
theorem underLock_append_block (log pre blk : List Event) (h : ∀ e ∈ pre, e.isSync = false)
    (hl : lockedAfter false log = false) :
    underLock false (log ++ (pre ++ blk)) = underLock false log ++ underLock false blk ∧
      lockedAfter false (log ++ (pre ++ blk)) = lockedAfter false blk := by
  obtain ⟨a, b⟩ := underLock_append_calls log pre h hl
  rw [← List.append_assoc, underLock_append, a, b, lockedAfter_append, b]
  exact ⟨rfl, rfl⟩

theorem isSync_of_producerShared (e : Event) (h : e.isProducerShared = true) :
    e.isSync = true := by
  cases e <;> simp_all [Event.isProducerShared, Event.isSync]

theorem isSync_of_consumerShared (e : Event) (h : e.isConsumerShared = true) :
    e.isSync = true := by
  cases e <;> simp_all [Event.isConsumerShared, Event.isSync]

theorem calls_of_producerShared {l : List Event} (h : l.all Event.isProducerShared = true) :
    calls l = [] := by
  unfold calls
  rw [List.filter_eq_nil_iff]
  intro e he
  simp [isSync_of_producerShared e (List.all_eq_true.mp h e he)]

theorem calls_of_consumerShared {l : List Event} (h : l.all Event.isConsumerShared = true) :
    calls l = [] := by
  unfold calls
  rw [List.filter_eq_nil_iff]
  intro e he
  simp [isSync_of_consumerShared e (List.all_eq_true.mp h e he)]

namespace ArenaCpp

theorem setupCalls_not_sync (sdk : SDK) (nd : Nodes) :
    ∀ e ∈ setupCalls sdk nd, e.isSync = false := by
  intro e he
  simp only [setupCalls, List.mem_cons, List.mem_singleton, List.not_mem_nil, or_false] at he
  rcases he with rfl | rfl | rfl | rfl | rfl | rfl <;> rfl

theorem teardownCalls_not_sync (sdk : SDK) (m : String) :
    ∀ e ∈ teardownCalls sdk m, e.isSync = false := by
  intro e he
  simp only [teardownCalls, List.mem_cons, List.mem_singleton, List.not_mem_nil, or_false] at he
  rcases he with rfl | rfl <;> rfl

theorem LockInv.producer_step {sdk : SDK} {N : Nat} {s : State} (h : LockInv s) :
    LockInv (AcquireImages sdk N s) := by
  obtain ⟨h1, h2, h3, h4⟩ := h
  unfold ArenaCpp.AcquireImages
  split
  · obtain ⟨a, b⟩ := underLock_append_calls s.plog _
      (not_sync_attempt (setupCalls_not_sync sdk s.nodes)) h2
    exact ⟨by simpa [AcquireImages.setup, a] using h1, by simpa [AcquireImages.setup] using b,
      h3, h4⟩
  · rename_i i _
    unfold AcquireImages.acquire
    split
    · obtain ⟨a, b⟩ := underLock_append_calls s.plog [.getImage i TIMEOUT none]
        (by intro e he; simp at he; subst he; rfl) h2
      exact ⟨by simpa [a] using h1, b, h3, h4⟩
    · rename_i pImage _
      split
      · obtain ⟨a, b⟩ := underLock_append_calls s.plog
          [.getImage i TIMEOUT (some pImage), .copy (some pImage) none]
          (by intro e he; simp at he; rcases he with rfl | rfl <;> rfl) h2
        exact ⟨by simpa [a] using h1, b, h3, h4⟩
      · rename_i pCopy _
        refine ⟨?_, ?_, h3, h4⟩
        · simp only [List.append_assoc, underLock_append, h2, List.all_append, h1, Bool.true_and]
          cases isLast i N <;> rfl
        · simp only [List.append_assoc, lockedAfter_append, h2]
          cases isLast i N <;> rfl
  · rename_i i pImage _
    refine ⟨?_, ?_, h3, ?_⟩
    · simp only [AcquireImages.release, underLock_append, h2, List.all_append, h1, Bool.true_and]
      rfl
    · simp only [AcquireImages.release, lockedAfter_append, h2]
      rfl
    · simp only [AcquireImages.release]
      rw [h4]
      by_cases hw : s.cpc = .waiting
      · simp [hw]
      · simp [hw]
  · obtain ⟨a, b⟩ := underLock_append_calls s.plog _
      (not_sync_attempt (teardownCalls_not_sync sdk s.acquisitionModeInitial)) h2
    exact ⟨by simpa [AcquireImages.teardown, a] using h1,
      by simpa [AcquireImages.teardown] using b, h3, h4⟩
  · exact ⟨h1, h2, h3, h4⟩
  · exact ⟨h1, h2, h3, h4⟩

theorem LockInv.consumer_critical {s : State} (pre : List Event) (h : LockInv s)
    (hpre : (underLock false (s.clog ++ pre)).all Event.isConsumerShared = true)
    (hl : lockedAfter false (s.clog ++ pre) = true) :
    LockInv (SaveImages.critical pre s) := by
  obtain ⟨h1, h2, h3, h4⟩ := h
  unfold SaveImages.critical
  split
  · exact ⟨h1, h2, h3, h4⟩
  · rename_i pCopy rest _
    refine ⟨h1, h2, ?_, ?_⟩
    · simp only [underLock_append, List.all_append, lockedAfter_append] at hpre hl ⊢
      simp only [hl, hpre, Bool.true_and]
      cases (rest.length == 0 && s.isCompleted) <;> rfl
    · simp only [lockedAfter_append] at hl ⊢
      simp only [hl]
      cases (rest.length == 0 && s.isCompleted) <;> rfl

theorem LockInv.consumer_step {sdk : SDK} {s : State} (h : LockInv s) :
    LockInv (SaveImages sdk s) := by
  have h' := h
  obtain ⟨h1, h2, h3, h4⟩ := h
  unfold ArenaCpp.SaveImages
  split
  · rename_i hc
    simp only [hc] at h4
    split
    · apply LockInv.consumer_critical _ h'
      · simp only [underLock_append, List.all_append, h3, Bool.true_and]
        rw [h4]; rfl
      · rw [lockedAfter_append, h4]; rfl
    · refine ⟨h1, h2, ?_, ?_⟩
      · simp only [underLock_append, List.all_append, h3, Bool.true_and]
        rw [h4]; rfl
      · simp only [lockedAfter_append]
        rw [h4]; rfl
  · rename_i hc
    simp only [hc] at h4
    split
    · apply LockInv.consumer_critical _ h'
      · simpa using h3
      · simpa using h4
    · refine ⟨h1, h2, ?_, ?_⟩
      · simp only [underLock_append, List.all_append, h3, Bool.true_and]
        rw [h4]; rfl
      · simp only [lockedAfter_append]
        rw [h4]; rfl
  · rename_i pCopy hc
    simp only [hc] at h4
    obtain ⟨a, b⟩ := underLock_append_calls s.clog _
      (not_sync_attempt (not_sync_of_calls (calls_processCalls_cpp sdk s.i pCopy)))
      (by simpa using h4)
    refine ⟨h1, h2, by simpa [SaveImages.process, a] using h3, ?_⟩
    simp only [SaveImages.process]
    rw [b]
    split
    · rfl
    · split <;> rfl
  · exact h'
  · exact h'
  · exact h'

theorem LockInv.tick {sdk : SDK} {N : Nat} {s : State} (t : Tick) (h : LockInv s) :
    LockInv (step sdk N t s) := by
  cases t with
  | prod => exact h.producer_step
  | cons => exact h.consumer_step
  | spurious =>
    unfold ArenaCpp.step
    simp only
    split
    · rename_i hw
      obtain ⟨h1, h2, h3, h4⟩ := h
      refine ⟨h1, h2, h3, ?_⟩
      simp only [h4, hw]
      rfl
    · exact h

theorem LockInv.schedule {sdk : SDK} {N : Nat} (sched : List Tick) :
    ∀ {s : State}, LockInv s → LockInv (run sdk N sched s) := by
  induction sched with
  | nil => intro s h; exact h
  | cons t ts ih => intro s h; exact ih (h.tick t)

theorem lock_reachable (sdk : SDK) (N : Nat) (nodes0 : Nodes) (sched : List Tick) :
    LockInv (run sdk N sched (init nodes0)) :=
  LockInv.schedule sched ⟨rfl, rfl, rfl, rfl⟩

end ArenaCpp

namespace ArenaC

theorem not_sync_checked {e : Event} (he : e.isSync = false) :
    ∀ x ∈ checked e, x.isSync = false :=
  not_sync_of_calls (calls_checked e he)

theorem not_sync_flatMap_checked {l : List Event} (h : ∀ e ∈ l, e.isSync = false) :
    ∀ x ∈ l.flatMap checked, x.isSync = false := by
  intro x hx
  obtain ⟨e, he, hxe⟩ := List.mem_flatMap.mp hx
  exact not_sync_checked (h e he) x hxe

theorem setupCalls_not_syncC (sdk : SDK) (nd : Nodes) :
    ∀ e ∈ setupCalls sdk nd, e.isSync = false := by
  intro e he
  simp only [setupCalls, List.mem_cons, List.mem_singleton, List.not_mem_nil, or_false] at he
  rcases he with rfl | rfl | rfl | rfl | rfl | rfl | rfl | rfl <;> rfl

theorem wake_in_section (c : CPc) :
    decide (wake c = .sleeping ∨ wake c = .woken) = decide (c = .sleeping ∨ c = .woken) := by
  cases c <;> simp [wake]

theorem LockInv.wakeC {s : State} (h : LockInv s) (c : CPc)
    (hc : c = s.cpc ∨ c = wake s.cpc) : LockInv { s with cpc := c } := by
  obtain ⟨h1, h2, h3, h4⟩ := h
  refine ⟨h1, h2, h3, ?_⟩
  rcases hc with rfl | rfl
  · exact h4
  · simp only [wake_in_section]; exact h4

theorem LockInv.producer_stepC {sdk : SDK} {N : Nat} {s : State} (h : LockInv s) :
    LockInv (AcquireImages sdk N s) := by
  have h' := h
  obtain ⟨h1, h2, h3, h4⟩ := h
  unfold ArenaC.AcquireImages
  split
  · obtain ⟨a, b⟩ := underLock_append_calls s.plog _
      (not_sync_flatMap_checked (setupCalls_not_syncC sdk s.nodes)) h2
    refine ⟨by simpa [AcquireImages.setup, a] using h1,
      by simpa [AcquireImages.setup] using b, h3, ?_⟩
    simp only [AcquireImages.setup]
    split
    · simp only [wake_in_section]; exact h4
    · exact h4
  · rename_i i _
    have hsplit : acquireCalls sdk N i =
        (checked (.getImage i IMAGE_TIMEOUT (sdk.acDeviceGetBuffer i IMAGE_TIMEOUT)) ++
          checked (.copy (sdk.acDeviceGetBuffer i IMAGE_TIMEOUT)
            ((sdk.acDeviceGetBuffer i IMAGE_TIMEOUT).bind sdk.acImageFactoryCopy))) ++
        ([.lock, .enqueue ((sdk.acDeviceGetBuffer i IMAGE_TIMEOUT).bind sdk.acImageFactoryCopy)
            (sdk.malloc i)] ++
          (if isLast i N then [.setCompleted] else []) ++ [.unlock]) := by
      simp only [acquireCalls, List.append_assoc]
    obtain ⟨a, b⟩ := underLock_append_block s.plog
      (checked (.getImage i IMAGE_TIMEOUT (sdk.acDeviceGetBuffer i IMAGE_TIMEOUT)) ++
        checked (.copy (sdk.acDeviceGetBuffer i IMAGE_TIMEOUT)
          ((sdk.acDeviceGetBuffer i IMAGE_TIMEOUT).bind sdk.acImageFactoryCopy)))
      ([.lock, .enqueue ((sdk.acDeviceGetBuffer i IMAGE_TIMEOUT).bind sdk.acImageFactoryCopy)
          (sdk.malloc i)] ++
        (if isLast i N then [.setCompleted] else []) ++ [.unlock])
      (by
        intro e he
        rcases List.mem_append.mp he with he | he
        · exact @not_sync_checked (.getImage i IMAGE_TIMEOUT _) rfl e he
        · exact @not_sync_checked (.copy _ _) rfl e he) h2
    refine ⟨?_, ?_, h3, ?_⟩
    · simp only [AcquireImages.acquire]
      rw [hsplit, a, List.all_append, h1]
      cases isLast i N <;> rfl
    · simp only [AcquireImages.acquire]
      rw [hsplit, b]
      cases isLast i N <;> rfl
    · simp only [AcquireImages.acquire]
      split
      · simp only [wake_in_section]; exact h4
      · exact h4
  · rename_i i hBuffer _
    obtain ⟨a, b⟩ := underLock_append_calls (s.plog ++ [.notify])
      (checked (.requeue hBuffer (hBuffer.any sdk.acDeviceRequeueBuffer)))
      (@not_sync_checked (.requeue _ _) rfl)
      (by rw [lockedAfter_append, h2]; rfl)
    refine ⟨?_, ?_, h3, ?_⟩
    · simp only [AcquireImages.release]
      rw [a, underLock_append, h2, List.all_append, h1]
      rfl
    · simp only [AcquireImages.release]
      exact b
    · simp only [AcquireImages.release, wake_in_section]; exact h4
  · obtain ⟨a, b⟩ := underLock_append_calls s.plog
      (checked (.stopStream sdk.acDeviceStopStream) ++
        [.setNode .AcquisitionMode s.pAcquisitionModeInitial
          (SetNodeValue sdk sdk.acDeviceGetNodeMap .AcquisitionMode s.pAcquisitionModeInitial)])
      (by
        intro e he
        rcases List.mem_append.mp he with he | he
        · exact @not_sync_checked (.stopStream _) rfl e he
        · simp at he; subst he; rfl) h2
    refine ⟨?_, ?_, h3, ?_⟩
    · simp only [AcquireImages.teardown, List.append_assoc]
      rw [a]; exact h1
    · simp only [AcquireImages.teardown, List.append_assoc]
      exact b
    · simp only [AcquireImages.teardown]
      split
      · exact h4
      · simp only [wake_in_section]; exact h4
  · exact h'

theorem critical_block (h : acBuffer) (b1 b2 : Bool) :
    (underLock false ([.lock] ++ (if b1 then [.dequeue h] else []) ++
        (if b2 then [.setLocalComplete] else []) ++ [.unlock])).all
      Event.isConsumerShared = true ∧
    lockedAfter false ([.lock] ++ (if b1 then [.dequeue h] else []) ++
        (if b2 then [.setLocalComplete] else []) ++ [.unlock]) = false := by
  cases b1 <;> cases b2 <;> exact ⟨rfl, rfl⟩

theorem LockInv.consumer_criticalC {s : State} (pre : List Event) (h : LockInv s)
    (hpre : (underLock false (s.clog ++ pre)).all Event.isConsumerShared = true)
    (hl : lockedAfter false (s.clog ++ pre) = false) :
    LockInv (SaveImage.critical pre s) := by
  obtain ⟨h1, h2, h3, h4⟩ := h
  have key := critical_block (if !isEmpty s.head then (dequeue s.head).1 else NULL)
    (!isEmpty s.head)
    (isEmpty (if !isEmpty s.head then (dequeue s.head).2 else s.head) && s.isCompleted)
  have hsplit : (SaveImage.critical pre s).clog = (s.clog ++ pre) ++
      ([.lock] ++
        (if !isEmpty s.head then
          [.dequeue (if !isEmpty s.head then (dequeue s.head).1 else NULL)] else []) ++
        (if isEmpty (if !isEmpty s.head then (dequeue s.head).2 else s.head) && s.isCompleted
          then [.setLocalComplete] else []) ++ [.unlock]) := by
    simp only [SaveImage.critical, List.append_assoc]
  refine ⟨h1, h2, ?_, ?_⟩
  · rw [hsplit, underLock_append, hl, List.all_append, hpre, key.1]
    rfl
  · rw [hsplit, lockedAfter_append, hl, key.2]
    rfl

theorem LockInv.consumer_stepC {sdk : SDK} {s : State} (h : LockInv s) :
    LockInv (SaveImage sdk s) := by
  have h' := h
  obtain ⟨h1, h2, h3, h4⟩ := h
  unfold ArenaC.SaveImage
  split
  · rename_i hc
    simp only [hc] at h4
    split
    · refine ⟨h1, h2, ?_, ?_⟩
      · simp only [underLock_append, List.all_append, h3, Bool.true_and]
        rw [h4]; rfl
      · simp only [lockedAfter_append]
        rw [h4]; rfl
    · apply LockInv.consumer_criticalC _ h'
      · simp only [underLock_append, List.all_append, h3, Bool.true_and]
        rw [h4]; rfl
      · rw [lockedAfter_append, h4]; rfl
  · rename_i hc
    simp only [hc] at h4
    apply LockInv.consumer_criticalC _ h'
    · simp only [underLock_append, List.all_append, h3, Bool.true_and]
      rw [h4]; rfl
    · rw [lockedAfter_append, h4]; rfl
  · rename_i hCopyBuffer hc
    simp only [hc] at h4
    obtain ⟨a, b⟩ := underLock_append_calls s.clog _
      (not_sync_of_calls (calls_processCalls sdk s.i hCopyBuffer)) (by simpa using h4)
    refine ⟨h1, h2, by simpa [SaveImage.process, a] using h3, ?_⟩
    simp only [SaveImage.process]
    rw [b]
    split <;> rfl
  · exact h'
  · exact h'

theorem LockInv.tickC {sdk : SDK} {N : Nat} {s : State} (t : Tick) (h : LockInv s) :
    LockInv (step sdk N t s) := by
  cases t with
  | prod => exact h.producer_stepC
  | cons => exact h.consumer_stepC
  | spurious => exact h.wakeC _ (Or.inr rfl)

theorem LockInv.scheduleC {sdk : SDK} {N : Nat} (sched : List Tick) :
    ∀ {s : State}, LockInv s → LockInv (run sdk N sched s) := by
  induction sched with
  | nil => intro s h; exact h
  | cons t ts ih => intro s h; exact ih (h.tickC t)

theorem lock_reachableC (sdk : SDK) (N : Nat) (nodes0 : Nodes) (sched : List Tick) :
    LockInv (run sdk N sched (init nodes0)) :=
  LockInv.scheduleC sched ⟨rfl, rfl, rfl, rfl⟩

end ArenaC

/-! ## The order of the producer's calls -/

theorem transfers_append (l m : List Event) : transfers (l ++ m) = transfers l ++ transfers m := by
  simp [transfers]

namespace ArenaCpp

/-- In every reachable state the producer's log is an initial part of the log of the
run without failure. -/
theorem Inv.plog_initial {sdk : SDK} {N : Nat} {nodes0 : Nodes} {s : State}
    (h : Inv sdk N nodes0 s) : s.plog <+: producerLog sdk N nodes0 := by
  have hp := h.prod
  unfold ProdInv at hp
  split at hp
  · rw [hp.1]; exact List.nil_prefix
  · obtain ⟨hi, _, hl, _⟩ := hp
    rw [hl, producerLog_split sdk N nodes0 hi]
    exact List.prefix_append _ _
  · obtain ⟨hi, _, _, hl, _⟩ := hp
    rw [hl, producerLog_split sdk N nodes0 hi, ← List.append_assoc]
    exact List.prefix_append _ _
  · obtain ⟨_, hl, _⟩ := hp
    rw [hl]
    exact List.prefix_append _ _
  · rw [hp.2.1]
  · rw [hp.1]
    exact attempt_initial _

theorem transfers_iterLog (sdk : SDK) (N i : Nat) :
    transfers (iterLog sdk N i) = transferLog sdk i := by
  unfold iterLog acquireLog releaseLog transfers transferLog
  split <;> simp [Event.isTransfer]

theorem transfers_producerLog (sdk : SDK) (N : Nat) (nodes0 : Nodes) :
    transfers (producerLog sdk N nodes0) = (List.range N).flatMap (transferLog sdk) := by
  have h1 : transfers (setupCalls sdk nodes0) = [] := by
    simp [transfers, setupCalls, Event.isTransfer]
  have h2 : transfers (teardownCalls sdk nodes0.AcquisitionMode) = [] := by
    simp [transfers, teardownCalls, Event.isTransfer]
  rw [producerLog, loopLog, transfers_append, transfers_append, h1, h2, List.nil_append,
    List.append_nil]
  unfold transfers
  rw [List.filter_flatMap]
  congr 1
  funext i
  exact transfers_iterLog sdk N i

end ArenaCpp

namespace ArenaC

theorem filter_checked (p : Event → Bool) (hp : p .exitThreads = false) (e : Event) :
    (checked e).filter p = [e].filter p := by
  unfold checked
  split
  · simp [List.filter_cons, hp]
  · rfl

theorem filter_flatMap_checked (p : Event → Bool) (hp : p .exitThreads = false)
    (l : List Event) : (l.flatMap checked).filter p = l.filter p := by
  induction l with
  | nil => rfl
  | cons e es ih =>
    rw [List.flatMap_cons, List.filter_append, ih, filter_checked p hp]
    cases hpe : p e <;> simp [List.filter_cons, hpe]

theorem producerLog_splitC (sdk : SDK) (N : Nat) (nodes0 : Nodes) {i : Nat} (h : i < N) :
    producerLog sdk N nodes0 = loopLog sdk N nodes0 i ++ (acquireCalls sdk N i ++
      (releaseLog sdk i ++ ((List.range' (i + 1) (N - (i + 1))).flatMap (iterLog sdk N) ++
        teardownLog sdk nodes0))) := by
  unfold producerLog loopLog
  rw [range_split h]
  simp [iterLog]

/-- In every reachable state the producer's log is an initial part of the log it has
when it has returned. -/
theorem Inv.plog_initialC {sdk : SDK} {N : Nat} {nodes0 : Nodes} {s : State}
    (h : Inv sdk N nodes0 s) : s.plog <+: producerLog sdk N nodes0 := by
  have hp := h.prod
  unfold ProdInv at hp
  split at hp
  · rw [hp.1]; exact List.nil_prefix
  · obtain ⟨hi, hl, _⟩ := hp
    rw [hl, producerLog_splitC sdk N nodes0 hi]
    exact List.prefix_append _ _
  · obtain ⟨hi, _, hl, _⟩ := hp
    rw [hl, producerLog_splitC sdk N nodes0 hi, ← List.append_assoc]
    exact List.prefix_append _ _
  · obtain ⟨hl, _⟩ := hp
    rw [hl]
    exact List.prefix_append _ _
  · rw [hp.1]

theorem transfers_iterLogC (sdk : SDK) (N i : Nat) :
    transfers (iterLog sdk N i) = transferLog sdk i := by
  unfold iterLog acquireCalls releaseLog transfers
  simp only [List.filter_append, filter_checked Event.isTransfer rfl]
  unfold transferLog copyOf
  split <;> simp [Event.isTransfer]

theorem transfers_producerLogC (sdk : SDK) (N : Nat) (nodes0 : Nodes) :
    transfers (producerLog sdk N nodes0) = (List.range N).flatMap (transferLog sdk) := by
  have h1 : transfers ((setupCalls sdk nodes0).flatMap checked) = [] := by
    unfold transfers
    rw [filter_flatMap_checked _ rfl]
    simp [setupCalls, Event.isTransfer]
  have h2 : transfers (teardownLog sdk nodes0) = [] := by
    unfold transfers teardownLog
    rw [List.filter_append, filter_checked _ rfl]
    simp [Event.isTransfer]
  rw [producerLog, loopLog, transfers_append, transfers_append, h1, h2, List.nil_append,
    List.append_nil]
  unfold transfers
  rw [List.filter_flatMap]
  congr 1
  funext i
  exact transfers_iterLogC sdk N i

end ArenaC

namespace ArenaCpp

theorem SaveImages_queue_le (sdk : SDK) (s : State) :
    (SaveImages sdk s).m_queue.length ≤ s.m_queue.length := by
  unfold SaveImages SaveImages.critical SaveImages.process
  cases s.cpc <;> simp only <;> try exact Nat.le_refl _
  all_goals (split <;> try exact Nat.le_refl _)
  all_goals (split <;> simp_all)

/-- Once `isCompleted` is true a step does not make the queue longer. -/
theorem Inv.queue_le {sdk : SDK} {N : Nat} {nodes0 : Nodes} {s : State}
    (h : Inv sdk N nodes0 s) (hc : s.isCompleted = true) (t : Tick) :
    (ArenaCpp.step sdk N t s).m_queue.length ≤ s.m_queue.length := by
  cases t with
  | cons => exact SaveImages_queue_le sdk s
  | spurious =>
    simp only [ArenaCpp.step]
    split <;> exact Nat.le_refl _
  | prod =>
    have hp := h.prod
    have hlen := (h.completed.mp hc).1
    simp only [ArenaCpp.step, AcquireImages]
    cases hpc : s.ppc with
    | acquire i =>
      simp only [ProdInv, hpc] at hp
      omega
    | setup => exact Nat.le_refl _
    | release i p => exact Nat.le_refl _
    | teardown => exact Nat.le_refl _
    | returned => exact Nat.le_refl _
    | threw => exact Nat.le_refl _

/-- Once `isCompleted` is true nothing is enqueued any more and the queue only gets
shorter. -/
theorem completed_frozen (sdk : SDK) (N : Nat) (nodes0 : Nodes) (sched : List Tick)
    (hc : (run sdk N sched (init nodes0)).isCompleted = true) :
    ∀ later : List Tick,
      (run sdk N (sched ++ later) (init nodes0)).m_queue.length ≤
        (run sdk N sched (init nodes0)).m_queue.length ∧
      pushed (run sdk N (sched ++ later) (init nodes0)).plog =
        pushed (run sdk N sched (init nodes0)).plog := by
  intro later
  induction later using List.reverseRecOn with
  | nil => simp
  | append_singleton later t ih =>
    have hinv := inv_reachable sdk N nodes0 (sched ++ later)
    have hc1 : (run sdk N (sched ++ later) (init nodes0)).isCompleted = true := by
      rw [run_append]; exact run_isCompleted sdk N later _ hc
    have hstep : run sdk N (sched ++ (later ++ [t])) (init nodes0) =
        step sdk N t (run sdk N (sched ++ later) (init nodes0)) := by
      rw [← List.append_assoc, run_append]; rfl
    have hinv2 := inv_reachable sdk N nodes0 (sched ++ (later ++ [t]))
    have hc2 : (run sdk N (sched ++ (later ++ [t])) (init nodes0)).isCompleted = true := by
      rw [run_append]; exact run_isCompleted sdk N _ _ hc
    refine ⟨?_, ?_⟩
    · rw [hstep]
      exact le_trans (hinv.queue_le hc1 t) ih.1
    · have h0 := inv_reachable sdk N nodes0 sched
      rw [hinv2.pushed_eq, h0.pushed_eq, (hinv2.completed.mp hc2).1, (h0.completed.mp hc).1]

end ArenaCpp

namespace ArenaC

theorem SaveImage_head_le (sdk : SDK) (s : State) :
    (SaveImage sdk s).head.length ≤ s.head.length := by
  have hcrit : ∀ pre, (SaveImage.critical pre s).head.length ≤ s.head.length := by
    intro pre
    simp only [SaveImage.critical]
    split
    · rw [dequeue_length]; omega
    · exact Nat.le_refl _
  unfold SaveImage
  split
  · split
    · exact Nat.le_refl _
    · exact hcrit _
  · exact hcrit _
  · exact Nat.le_refl _
  · exact Nat.le_refl _
  · exact Nat.le_refl _

/-- Once `isCompleted` is true a step does not make the queue longer. -/
theorem Inv.head_le {sdk : SDK} {N : Nat} {nodes0 : Nodes} {s : State}
    (h : Inv sdk N nodes0 s) (hc : s.isCompleted = true) (t : Tick) :
    (ArenaC.step sdk N t s).head.length ≤ s.head.length := by
  cases t with
  | cons => exact SaveImage_head_le sdk s
  | spurious => exact Nat.le_refl _
  | prod =>
    have hp := h.prod
    have hlen := (h.completed.mp hc).1
    simp only [ArenaC.step, AcquireImages]
    cases hpc : s.ppc with
    | acquire i =>
      simp only [ProdInv, hpc] at hp
      simp only [hpc, PPc.crit] at hlen
      omega
    | setup => exact Nat.le_refl _
    | release i p => exact Nat.le_refl _
    | teardown => exact Nat.le_refl _
    | returned => exact Nat.le_refl _

/-- Once `isCompleted` is true nothing is enqueued any more and the queue only gets
shorter. -/
theorem completed_frozenC (sdk : SDK) (N : Nat) (nodes0 : Nodes) (sched : List Tick)
    (hc : (run sdk N sched (init nodes0)).isCompleted = true) :
    ∀ later : List Tick,
      (run sdk N (sched ++ later) (init nodes0)).head.length ≤
        (run sdk N sched (init nodes0)).head.length ∧
      pushed (run sdk N (sched ++ later) (init nodes0)).plog =
        pushed (run sdk N sched (init nodes0)).plog := by
  intro later
  induction later using List.reverseRecOn with
  | nil => simp
  | append_singleton later t ih =>
    have hinv := inv_reachableC sdk N nodes0 (sched ++ later)
    have hc1 : (run sdk N (sched ++ later) (init nodes0)).isCompleted = true := by
      rw [run_appendC]; exact run_isCompletedC sdk N later _ hc
    have hstep : run sdk N (sched ++ (later ++ [t])) (init nodes0) =
        step sdk N t (run sdk N (sched ++ later) (init nodes0)) := by
      rw [← List.append_assoc, run_appendC]; rfl
    have hinv2 := inv_reachableC sdk N nodes0 (sched ++ (later ++ [t]))
    have hc2 : (run sdk N (sched ++ (later ++ [t])) (init nodes0)).isCompleted = true := by
      rw [run_appendC]; exact run_isCompletedC sdk N _ _ hc
    refine ⟨?_, ?_⟩
    · rw [hstep]
      exact le_trans (hinv.head_le hc1 t) ih.1
    · have h0 := inv_reachableC sdk N nodes0 sched
      rw [hinv2.pushedEq, h0.pushedEq, (hinv2.completed.mp hc2).1, (h0.completed.mp hc).1]

end ArenaC

namespace ArenaCpp

theorem SaveImages_nodes (sdk : SDK) (s : State) : (SaveImages sdk s).nodes = s.nodes := by
  unfold SaveImages SaveImages.critical SaveImages.process
  cases s.cpc <;> simp only <;> try rfl
  all_goals (split <;> try rfl)
  all_goals (split <;> rfl)

/-- A producer that has thrown stays where it is, and the nodes with it. -/
theorem producer_threw_final (sdk : SDK) (N : Nat) (sched : List Tick) :
    ∀ s : State, s.ppc = .threw →
      (run sdk N sched s).ppc = .threw ∧ (run sdk N sched s).nodes = s.nodes := by
  induction sched with
  | nil => intro s h; exact ⟨h, rfl⟩
  | cons t ts ih =>
    intro s h
    have hstep : (step sdk N t s).ppc = .threw ∧ (step sdk N t s).nodes = s.nodes := by
      cases t with
      | prod => simp [step, AcquireImages, h]
      | cons => exact ⟨(SaveImages_ppc sdk s).trans h, SaveImages_nodes sdk s⟩
      | spurious =>
        simp only [step]
        split <;> exact ⟨h, rfl⟩
    obtain ⟨a, b⟩ := ih _ hstep.1
    exact ⟨a, b.trans hstep.2⟩

/-- A step of the loop leaves the nodes as they are. -/
theorem loop_nodes (sdk : SDK) (N : Nat) (s : State)
    (hl : (∃ i, s.ppc = .acquire i) ∨ (∃ i pImage, s.ppc = .release i pImage)) :
    (AcquireImages sdk N s).nodes = s.nodes := by
  unfold AcquireImages
  rcases hl with ⟨i, hi⟩ | ⟨i, p, hi⟩
  · rw [hi]
    simp only [AcquireImages.acquire]
    split
    · rfl
    · split <;> rfl
  · rw [hi]
    rfl

/-- In the loop the nodes hold the configuration of lines 88-111. -/
theorem Inv.loop_configured {sdk : SDK} {N : Nat} {nodes0 : Nodes} {s : State}
    (h : Inv sdk N nodes0 s)
    (hl : (∃ i, s.ppc = .acquire i) ∨ (∃ i pImage, s.ppc = .release i pImage)) :
    s.nodes = configured := by
  have hp := h.prod
  rcases hl with ⟨i, hi⟩ | ⟨i, p, hi⟩
  · simp only [ProdInv, hi] at hp
    exact hp.2.2.2.2.1
  · simp only [ProdInv, hi] at hp
    exact hp.2.2.2.2.2.1

end ArenaCpp

namespace ArenaC

/-- The last write of the producer gives `AcquisitionMode` its first value, when the
snapshot could be read and the write is done. -/
theorem restored_AcquisitionMode {sdk : SDK} {nodes0 : Nodes} {v : String}
    (hg : GetNodeValue sdk sdk.acDeviceGetNodeMap .AcquisitionMode nodes0.AcquisitionMode =
      some v)
    (hs : SetNodeValue sdk sdk.acDeviceGetNodeMap .AcquisitionMode (snapshot sdk nodes0) = true) :
    (restored sdk nodes0).AcquisitionMode = nodes0.AcquisitionMode := by
  have hsnap : snapshot sdk nodes0 = nodes0.AcquisitionMode := by
    rw [snapshot, hg, GetNodeValue_eq hg]; rfl
  unfold restored teardownCalls
  rw [hs, hsnap]
  cases sdk.acDeviceStopStream <;> rfl

end ArenaC

namespace ArenaCpp

end ArenaCpp

namespace ArenaC

end ArenaC

/-! ## One image at a time -/

theorem countP_flatMap_range (p : Event → Bool) (f : Nat → List Event)
    (h : ∀ i, (f i).countP p = 1) (N : Nat) :
    ((List.range N).flatMap f).countP p = N := by
  induction N with
  | zero => rfl
  | succ N ih =>
    rw [List.range_succ, List.flatMap_append, List.countP_append, ih]
    simp [h]

/-- A log that is an initial part of a sequence of blocks, each of them
`GetImage, Copy, enqueue, RequeueBuffer`, takes the images one at a time. -/
theorem oneAtATime_of_initial (f : Nat → List Event)
    (hG : ∀ i, (f i).countP Event.isGetImage = 1) (hC : ∀ i, (f i).countP Event.isCopy = 1)
    (hE : ∀ i, (f i).countP Event.isEnqueue = 1) (hR : ∀ i, (f i).countP Event.isRequeue = 1)
    (hp : ∀ i p, p <+: f i → OneAtATime p) :
    ∀ (N : Nat) (l : List Event), l <+: (List.range N).flatMap f → OneAtATime l := by
  intro N
  induction N with
  | zero =>
    intro l hl
    have : l = [] := by simpa using hl
    subst this
    exact ⟨Nat.le_refl _, Nat.le_refl _, Nat.le_refl _, Nat.zero_le _⟩
  | succ N ih =>
    intro l hl
    rw [List.range_succ, List.flatMap_append] at hl
    have hA : (List.range N).flatMap f <+: (List.range N).flatMap f ++ [N].flatMap f :=
      List.prefix_append _ _
    rcases List.prefix_or_prefix_of_prefix hl hA with h | h
    · exact ih l h
    · obtain ⟨p, rfl⟩ := h
      have hpB : p <+: f N := by
        have := (List.prefix_append_right_inj _).mp hl
        simpa using this
      obtain ⟨a, b, c, d⟩ := hp N p hpB
      unfold OneAtATime
      simp only [List.countP_append, countP_flatMap_range _ f hG, countP_flatMap_range _ f hC,
        countP_flatMap_range _ f hE, countP_flatMap_range _ f hR]
      omega

theorem oneAtATime_of_transfers {l : List Event} (h : OneAtATime (transfers l)) :
    OneAtATime l := by
  have hg : (transfers l).countP Event.isGetImage = l.countP Event.isGetImage := by
    unfold transfers
    rw [List.countP_filter]
    apply List.countP_congr
    intro e _
    cases e <;> simp [Event.isGetImage, Event.isTransfer]
  have hc : (transfers l).countP Event.isCopy = l.countP Event.isCopy := by
    unfold transfers
    rw [List.countP_filter]
    apply List.countP_congr
    intro e _
    cases e <;> simp [Event.isCopy, Event.isTransfer]
  have he : (transfers l).countP Event.isEnqueue = l.countP Event.isEnqueue := by
    unfold transfers
    rw [List.countP_filter]
    apply List.countP_congr
    intro e _
    cases e <;> simp [Event.isEnqueue, Event.isTransfer]
  have hr : (transfers l).countP Event.isRequeue = l.countP Event.isRequeue := by
    unfold transfers
    rw [List.countP_filter]
    apply List.countP_congr
    intro e _
    cases e <;> simp [Event.isRequeue, Event.isTransfer]
  unfold OneAtATime at h ⊢
  rw [hg, hc, he, hr] at h
  exact h

/-- The initial parts of one block. -/
theorem oneAtATime_block (g c e r : Event) (hg : g.isGetImage = true ∧ g.isCopy = false ∧
      g.isEnqueue = false ∧ g.isRequeue = false)
    (hc : c.isGetImage = false ∧ c.isCopy = true ∧ c.isEnqueue = false ∧ c.isRequeue = false)
    (he : e.isGetImage = false ∧ e.isCopy = false ∧ e.isEnqueue = true ∧ e.isRequeue = false)
    (hr : r.isGetImage = false ∧ r.isCopy = false ∧ r.isEnqueue = false ∧ r.isRequeue = true)
    (p : List Event) (h : p <+: [g, c, e, r]) : OneAtATime p := by
  rw [List.prefix_iff_eq_take] at h
  have hlen : p.length ≤ 4 := by
    have := congrArg List.length h
    simp at this
    omega
  unfold OneAtATime
  rcases Nat.lt_or_ge p.length 1 with h0 | h0
  · have : p.length = 0 := by omega
    rw [this] at h; rw [h]; simp
  rcases Nat.lt_or_ge p.length 2 with h1 | h1
  · have : p.length = 1 := by omega
    rw [this] at h; rw [h]; simp [List.countP_cons, hg]
  rcases Nat.lt_or_ge p.length 3 with h2 | h2
  · have : p.length = 2 := by omega
    rw [this] at h; rw [h]; simp [List.countP_cons, hg, hc]
  rcases Nat.lt_or_ge p.length 4 with h3 | h3
  · have : p.length = 3 := by omega
    rw [this] at h; rw [h]; simp [List.countP_cons, hg, hc, he]
  · have : p.length = 4 := by omega
    rw [this] at h; rw [h]; simp [List.countP_cons, hg, hc, he, hr]

namespace ArenaCpp

theorem Inv.oneAtATime {sdk : SDK} {N : Nat} {nodes0 : Nodes} {s : State}
    (h : Inv sdk N nodes0 s) : OneAtATime s.plog := by
  apply oneAtATime_of_transfers
  have hpre : transfers s.plog <+: (List.range N).flatMap (transferLog sdk) := by
    rw [← transfers_producerLog sdk N nodes0]
    exact h.plog_initial.filter _
  refine oneAtATime_of_initial (transferLog sdk) (fun i => rfl) (fun i => rfl) (fun i => rfl)
    (fun i => rfl) (fun i p hp => ?_) N _ hpre
  unfold transferLog at hp
  refine oneAtATime_block _ _ _ _ ?_ ?_ ?_ ?_ p hp <;> exact ⟨rfl, rfl, rfl, rfl⟩

end ArenaCpp

namespace ArenaC

theorem Inv.oneAtATimeC {sdk : SDK} {N : Nat} {nodes0 : Nodes} {s : State}
    (h : Inv sdk N nodes0 s) : OneAtATime s.plog := by
  apply oneAtATime_of_transfers
  have hpre : transfers s.plog <+: (List.range N).flatMap (transferLog sdk) := by
    rw [← transfers_producerLogC sdk N nodes0]
    exact h.plog_initialC.filter _
  refine oneAtATime_of_initial (transferLog sdk) (fun i => rfl) (fun i => rfl) (fun i => rfl)
    (fun i => rfl) (fun i p hp => ?_) N _ hpre
  unfold transferLog at hp
  refine oneAtATime_block _ _ _ _ ?_ ?_ ?_ ?_ p hp <;> exact ⟨rfl, rfl, rfl, rfl⟩

end ArenaC

namespace ArenaCpp

end ArenaCpp

namespace ArenaC

end ArenaC

namespace ArenaC

/-- The iteration of the consumer on `NULL`: the writer is called with no data, and no
file is written. -/
theorem saves_processCalls_null (sdk : SDK) (i : Nat) :
    ∃ path, saves (processCalls sdk i NULL) = [(path, none)] ∧
      files (processCalls sdk i NULL) = [] := by
  refine ⟨if sdk.saveWriterCreate 0 0 0 && sdk.saveWriterSetFileNamePattern (fileName i)
    then some (fileName i) else none, ?_, ?_⟩
  · unfold processCalls saves
    simp only [List.filterMap_append, filterMap_checked Event.saved? rfl]
    simp [Event.saved?, NULL]
  · unfold processCalls files
    simp only [List.filterMap_append, filterMap_checked Event.file? rfl]
    simp [Event.file?, NULL]

/-- A consumer woken on the empty queue goes through an iteration on `NULL`. -/
theorem woken_on_empty (sdk : SDK) (s : State) :
    (SaveImage sdk { s with cpc := .woken, head := [] }).cpc = .process NULL := by
  simp [SaveImage, SaveImage.critical, isEmpty]

/-- What the iteration on `NULL` adds to the consumer's log: a writer call without
data, no file, and one more to the file index. -/
theorem process_null (sdk : SDK) (s : State) :
    (∃ path, saves (SaveImage.process sdk NULL s).clog = saves s.clog ++ [(path, none)]) ∧
      files (SaveImage.process sdk NULL s).clog = files s.clog ∧
      (SaveImage.process sdk NULL s).i = s.i + 1 := by
  obtain ⟨path, h1, h2⟩ := saves_processCalls_null sdk s.i
  refine ⟨⟨path, ?_⟩, ?_, rfl⟩
  · simp only [SaveImage.process]
    unfold saves at h1 ⊢
    rw [List.filterMap_append, h1]
  · simp only [SaveImage.process]
    unfold files at h2 ⊢
    rw [List.filterMap_append, h2, List.append_nil]

end ArenaC
/-! ## The properties of the specification -/

/-- C1: the C variant's linked-list queue is first-in first-out. For every sequence of
handles `xs` enqueued onto the empty queue, every node allocation succeeding,
`xs.length` successive `dequeue` calls return exactly `xs`, in this order (so each
item once), and leave the queue empty. -/
theorem C1_queue_is_fifo (xs : List ArenaC.acBuffer) :
    ArenaC.dequeueN xs.length (ArenaC.enqueueAll [] xs) = (xs, []) ∧
      ArenaC.isEmpty (ArenaC.dequeueN xs.length (ArenaC.enqueueAll [] xs)).2 = true := by
  have h : ArenaC.dequeueN xs.length (ArenaC.enqueueAll [] xs) = (xs, []) := by
    rw [ArenaC.enqueueAll_eq, List.append_nil]
    simpa using ArenaC.dequeueN_append_reverse xs []
  exact ⟨h, by rw [h]; rfl⟩

theorem ArenaCpp.chain_of_converted {sdk : ArenaCpp.SDK} {i : Nat}
    (h : (ArenaCpp.convertedOf sdk i).isSome = true) :
    ∃ f c c', sdk.GetImage i ArenaCpp.TIMEOUT = some f ∧ sdk.Copy f = some c ∧
      sdk.Convert c ArenaCpp.PIXEL_FORMAT = some c' ∧
      ArenaCpp.convertedOf sdk i = some c' := by
  unfold ArenaCpp.convertedOf ArenaCpp.copyOf at h ⊢
  cases hg : sdk.GetImage i ArenaCpp.TIMEOUT with
  | none => simp [hg] at h
  | some f =>
    cases hc : sdk.Copy f with
    | none => simp [hg, hc] at h
    | some c =>
      cases hv : sdk.Convert c ArenaCpp.PIXEL_FORMAT with
      | none => simp [hg, hc, hv] at h
      | some c' => exact ⟨f, c, c', rfl, hc, hv, by simp [hc, hv]⟩

/-- C2: in the Cpp variant, in every interleaving, the data handed to the writer in
the consumer's `i`-th save is the data of `Convert(Copy(f_i), PIXEL_FORMAT)`, `f_i`
being the `i`-th image `GetImage` returned: this holds of every save of every run, a
run whose consumer has returned has made a save for every `i < NUM_IMAGES`, and when
no call fails every run can be completed. In the C variant it does not hold in every
interleaving: a consumer woken on the empty queue goes through an iteration on `NULL`,
in which it calls the writer with no data and increments the file index. In the run
evaluated, of two images on a device none of whose calls fails on a valid handle, the
save number 1 has no data, where the data of the converted copy of image 1 is
`[1201]`, and that data is in the save number 2. -/
theorem C2_saved_data_diverges_in_C :
    (∀ (sdk : ArenaCpp.SDK) (N : Nat) (nodes0 : Nodes) (sched : List Tick) (i : Nat)
        (path : Option String) (data : Option Data),
        (saves (ArenaCpp.run sdk N sched (ArenaCpp.init nodes0)).clog)[i]? = some (path, data) →
        i < N ∧ ∃ f c c', sdk.GetImage i ArenaCpp.TIMEOUT = some f ∧ sdk.Copy f = some c ∧
          sdk.Convert c ArenaCpp.PIXEL_FORMAT = some c' ∧ data = some (sdk.GetData c')) ∧
    (∀ (sdk : ArenaCpp.SDK) (N : Nat) (nodes0 : Nodes) (sched : List Tick),
        (ArenaCpp.run sdk N sched (ArenaCpp.init nodes0)).cpc = .returned →
        (saves (ArenaCpp.run sdk N sched (ArenaCpp.init nodes0)).clog).length = N) ∧
    (∀ (sdk : ArenaCpp.SDK) (N : Nat) (nodes0 : Nodes), ArenaCpp.Reliable sdk N nodes0 →
        0 < N → ∀ sched : List Tick, ∃ a b, (ArenaCpp.run sdk N
          (sched ++ (List.replicate a .prod ++ List.replicate b .cons))
          (ArenaCpp.init nodes0)).finished = true) ∧
    (∀ (sdk : ArenaC.SDK) (s : ArenaC.State),
        (ArenaC.SaveImage sdk { s with cpc := .woken, head := [] }).cpc =
          .process ArenaC.NULL) ∧
    (∀ (sdk : ArenaC.SDK) (s : ArenaC.State),
        (∃ path, saves (ArenaC.SaveImage.process sdk ArenaC.NULL s).clog =
          saves s.clog ++ [(path, none)]) ∧
        (ArenaC.SaveImage.process sdk ArenaC.NULL s).i = s.i + 1) ∧
    (ArenaC.Reliable ArenaC.sampleSDK 2 sampleNodes ∧
      (ArenaC.run ArenaC.sampleSDK 2 ArenaC.lateWakeSchedule
        (ArenaC.init sampleNodes)).finished = true ∧
      noFailure (ArenaC.run ArenaC.sampleSDK 2 ArenaC.lateWakeSchedule
        (ArenaC.init sampleNodes)).plog = true ∧
      saves (ArenaC.run ArenaC.sampleSDK 2 ArenaC.lateWakeSchedule
        (ArenaC.init sampleNodes)).clog =
        [(some (ArenaC.fileName 0), some [1200]), (some (ArenaC.fileName 1), none),
          (some (ArenaC.fileName 2), some [1201])] ∧
      (ArenaC.convertedOf ArenaC.sampleSDK 1).map ArenaC.sampleSDK.acImageGetData =
        some [1201]) := by
  refine ⟨?_, ?_, ?_, ArenaC.woken_on_empty, ?_, ?_⟩
  · intro sdk N nodes0 sched i path data hs
    obtain ⟨m, hm, hconv, hle, -⟩ := (ArenaCpp.inv_reachable sdk N nodes0 sched).saves_eq
    rw [hm] at hs
    obtain ⟨hi, hx⟩ := getElem?_map_range hs
    obtain ⟨f, c, c', hf, hc, hv, hcc⟩ := ArenaCpp.chain_of_converted (hconv i hi)
    refine ⟨by omega, f, c, c', hf, hc, hv, ?_⟩
    rw [ArenaCpp.saveOf, hcc] at hx
    exact (Prod.mk.inj hx).2
  · intro sdk N nodes0 sched hr
    obtain ⟨m, hm, -, -, hN⟩ := (ArenaCpp.inv_reachable sdk N nodes0 sched).saves_eq
    rw [hm, List.length_map, List.length_range, hN hr]
  · intro sdk N nodes0 hr hN sched
    exact ArenaCpp.can_finish hr hN sched
  · intro sdk s
    exact ⟨(ArenaC.process_null sdk s).1, (ArenaC.process_null sdk s).2.2⟩
  · exact ⟨by unfold ArenaC.Reliable; decide, by decide, by decide, by decide, by decide⟩

/-- The Cpp run of three images: the save number 2 carries the data of the converted
copy of image 2, the consumer has returned after three saves, and every run can be
completed. -/
theorem C2_witness :
    ((saves ArenaCpp.sampleRun.clog)[2]? = some (some (ArenaCpp.fileName 2), some [1202]) ∧
      (2 < 3 ∧ ∃ f c c', ArenaCpp.sampleSDK.GetImage 2 ArenaCpp.TIMEOUT = some f ∧
        ArenaCpp.sampleSDK.Copy f = some c ∧
        ArenaCpp.sampleSDK.Convert c ArenaCpp.PIXEL_FORMAT = some c' ∧
        some [1202] = some (ArenaCpp.sampleSDK.GetData c'))) ∧
    (ArenaCpp.sampleRun.cpc = .returned ∧ (saves ArenaCpp.sampleRun.clog).length = 3) ∧
    (ArenaCpp.Reliable ArenaCpp.sampleSDK 3 sampleNodes ∧ 0 < 3 ∧
      ∃ a b, (ArenaCpp.run ArenaCpp.sampleSDK 3
        (ArenaCpp.sampleSchedule ++ (List.replicate a .prod ++ List.replicate b .cons))
        (ArenaCpp.init sampleNodes)).finished = true) :=
  ⟨⟨by decide, C2_saved_data_diverges_in_C.1 ArenaCpp.sampleSDK 3 sampleNodes
      ArenaCpp.sampleSchedule 2 (some (ArenaCpp.fileName 2)) (some [1202]) (by decide)⟩,
    ⟨by decide, C2_saved_data_diverges_in_C.2.1 ArenaCpp.sampleSDK 3 sampleNodes
      ArenaCpp.sampleSchedule (by decide)⟩,
    ⟨by unfold ArenaCpp.Reliable; decide, by decide,
      C2_saved_data_diverges_in_C.2.2.1 _ _ _ (by unfold ArenaCpp.Reliable; decide)
        (by decide) _⟩⟩

/-- C3: in the Cpp variant, on a run in which no call fails, the consumer makes exactly
`NUM_IMAGES` saves, the `k`-th (from 0) on the path `FILE_NAME`, the decimal digits of
`k`, `FILE_TYPE`: in every state of every run the saves made so far are those of the
indices `0 .. m-1` in increasing order, with `m <= NUM_IMAGES`, and `m = NUM_IMAGES`
once the consumer has returned; when no call fails every run can be completed. In the
C variant the number of saves is not `NUM_IMAGES` in every interleaving: a consumer
woken on the empty queue goes through an iteration on `NULL`, which makes one more
writer call, writes no file and increments the file index. On a device none of whose
calls fails on a valid handle, the run of two images evaluated makes three writer
calls and writes `image0` and `image2`, and the run of one image evaluated makes two
and writes `image1`. -/
theorem C3_saves_diverge_in_C :
    (∀ (sdk : ArenaCpp.SDK) (N : Nat) (nodes0 : Nodes) (sched : List Tick),
        ∃ m, m ≤ N ∧
          (saves (ArenaCpp.run sdk N sched (ArenaCpp.init nodes0)).clog).map Prod.fst =
            (List.range m).map
              (fun k => some (ArenaCpp.FILE_NAME ++ toString k ++ ArenaCpp.FILE_TYPE)) ∧
          ((ArenaCpp.run sdk N sched (ArenaCpp.init nodes0)).cpc = .returned → m = N)) ∧
    (∀ (sdk : ArenaCpp.SDK) (N : Nat) (nodes0 : Nodes), ArenaCpp.Reliable sdk N nodes0 →
        0 < N → ∀ sched : List Tick, ∃ a b, (ArenaCpp.run sdk N
          (sched ++ (List.replicate a .prod ++ List.replicate b .cons))
          (ArenaCpp.init nodes0)).finished = true) ∧
    (∀ (sdk : ArenaC.SDK) (s : ArenaC.State),
        (saves (ArenaC.SaveImage.process sdk ArenaC.NULL s).clog).length =
          (saves s.clog).length + 1 ∧
        files (ArenaC.SaveImage.process sdk ArenaC.NULL s).clog = files s.clog ∧
        (ArenaC.SaveImage.process sdk ArenaC.NULL s).i = s.i + 1) ∧
    (ArenaC.Reliable ArenaC.sampleSDK 2 sampleNodes ∧
      (ArenaC.run ArenaC.sampleSDK 2 ArenaC.lateWakeSchedule
        (ArenaC.init sampleNodes)).finished = true ∧
      (saves (ArenaC.run ArenaC.sampleSDK 2 ArenaC.lateWakeSchedule
        (ArenaC.init sampleNodes)).clog).map Prod.fst =
        [some (ArenaC.fileName 0), some (ArenaC.fileName 1), some (ArenaC.fileName 2)] ∧
      files (ArenaC.run ArenaC.sampleSDK 2 ArenaC.lateWakeSchedule
        (ArenaC.init sampleNodes)).clog = [ArenaC.fileName 0, ArenaC.fileName 2]) ∧
    (ArenaC.Reliable ArenaC.sampleSDK 1 sampleNodes ∧
      (ArenaC.run ArenaC.sampleSDK 1
        [.cons, .spurious, .cons, .cons, .prod, .prod, .prod, .prod, .cons, .cons]
        (ArenaC.init sampleNodes)).finished = true ∧
      (saves (ArenaC.run ArenaC.sampleSDK 1
        [.cons, .spurious, .cons, .cons, .prod, .prod, .prod, .prod, .cons, .cons]
        (ArenaC.init sampleNodes)).clog).length = 2 ∧
      files (ArenaC.run ArenaC.sampleSDK 1
        [.cons, .spurious, .cons, .cons, .prod, .prod, .prod, .prod, .cons, .cons]
        (ArenaC.init sampleNodes)).clog = [ArenaC.fileName 1]) := by
  refine ⟨?_, ?_, ?_, ?_, ?_⟩
  · intro sdk N nodes0 sched
    obtain ⟨m, hm, -, hle, hN⟩ := (ArenaCpp.inv_reachable sdk N nodes0 sched).saves_eq
    refine ⟨m, hle, ?_, hN⟩
    rw [hm, List.map_map]
    rfl
  · intro sdk N nodes0 hr hN sched
    exact ArenaCpp.can_finish hr hN sched
  · intro sdk s
    obtain ⟨⟨path, h1⟩, h2, h3⟩ := ArenaC.process_null sdk s
    exact ⟨by rw [h1]; simp, h2, h3⟩
  · exact ⟨by unfold ArenaC.Reliable; decide, by decide, by decide, by decide⟩
  · exact ⟨by unfold ArenaC.Reliable; decide, by decide, by decide, by decide⟩

/-- The Cpp device of the example runs: every run of three images can be completed. -/
theorem C3_witness :
    ArenaCpp.Reliable ArenaCpp.sampleSDK 3 sampleNodes ∧ 0 < 3 ∧
      ∃ a b, (ArenaCpp.run ArenaCpp.sampleSDK 3
        ([] ++ (List.replicate a .prod ++ List.replicate b .cons))
        (ArenaCpp.init sampleNodes)).finished = true :=
  ⟨by unfold ArenaCpp.Reliable; decide, by decide,
    C3_saves_diverge_in_C.2.1 _ _ _ (by unfold ArenaCpp.Reliable; decide) (by decide) []⟩

/-- C5: in the consumer the local completion flag becomes true in an iteration if and
only if, right after that iteration's dequeue, the shared queue is empty and
`isCompleted` is true, and the loop ends exactly when the local flag is true. For each
variant: the step through the critical section of an iteration entered with the local
flag false sets it if and only if the queue it leaves is empty and `isCompleted` is
true; the end of the iteration leaves the loop if and only if the local flag is true
(Cpp: when no call of the iteration throws) and otherwise goes back to the top; and in
every state of every run a consumer that has returned has the local flag true, the
local flag true means the queue is empty and `isCompleted` is true (Cpp: if and only
if), and a consumer with the local flag true is past its last critical section. -/
theorem C5_local_flag_iff_drained_and_completed :
    (∀ (sdk : ArenaCpp.SDK) (s : ArenaCpp.State),
        (s.cpc = .lockWait ∨ s.cpc = .woken) → s.m_queue ≠ [] → s.localComplete = false →
        ((ArenaCpp.SaveImages sdk s).localComplete = true ↔
          ((ArenaCpp.SaveImages sdk s).m_queue = [] ∧
            (ArenaCpp.SaveImages sdk s).isCompleted = true))) ∧
    (∀ (sdk : ArenaCpp.SDK) (pCopy : Handle) (s : ArenaCpp.State),
        (ArenaCpp.processCalls sdk s.i pCopy).any Event.failed = false →
        ((ArenaCpp.SaveImages.process sdk pCopy s).cpc = .returned ↔ s.localComplete = true) ∧
          ((ArenaCpp.SaveImages.process sdk pCopy s).cpc = .lockWait ↔
            s.localComplete = false)) ∧
    (∀ (sdk : ArenaCpp.SDK) (N : Nat) (nodes0 : Nodes) (sched : List Tick),
        ((ArenaCpp.run sdk N sched (ArenaCpp.init nodes0)).localComplete = true ↔
          ((ArenaCpp.run sdk N sched (ArenaCpp.init nodes0)).m_queue = [] ∧
            (ArenaCpp.run sdk N sched (ArenaCpp.init nodes0)).isCompleted = true)) ∧
        ((ArenaCpp.run sdk N sched (ArenaCpp.init nodes0)).cpc = .returned →
          (ArenaCpp.run sdk N sched (ArenaCpp.init nodes0)).localComplete = true) ∧
        ((ArenaCpp.run sdk N sched (ArenaCpp.init nodes0)).localComplete = true →
          (ArenaCpp.run sdk N sched (ArenaCpp.init nodes0)).cpc = .returned ∨
          (ArenaCpp.run sdk N sched (ArenaCpp.init nodes0)).cpc = .threw ∨
          ∃ pCopy, (ArenaCpp.run sdk N sched (ArenaCpp.init nodes0)).cpc = .process pCopy)) ∧
    (∀ (sdk : ArenaC.SDK) (s : ArenaC.State),
        ((s.cpc = .top ∧ s.head ≠ []) ∨ s.cpc = .woken) → s.isComplete = false →
        ((ArenaC.SaveImage sdk s).isComplete = true ↔
          ((ArenaC.SaveImage sdk s).head = [] ∧ (ArenaC.SaveImage sdk s).isCompleted = true))) ∧
    (∀ (sdk : ArenaC.SDK) (hCopyBuffer : ArenaC.acBuffer) (s : ArenaC.State),
        ((ArenaC.SaveImage.process sdk hCopyBuffer s).cpc = .returned ↔ s.isComplete = true) ∧
          ((ArenaC.SaveImage.process sdk hCopyBuffer s).cpc = .top ↔ s.isComplete = false)) ∧
    (∀ (sdk : ArenaC.SDK) (N : Nat) (nodes0 : Nodes) (sched : List Tick),
        ((ArenaC.run sdk N sched (ArenaC.init nodes0)).isComplete = true →
          ((ArenaC.run sdk N sched (ArenaC.init nodes0)).head = [] ∧
            (ArenaC.run sdk N sched (ArenaC.init nodes0)).isCompleted = true)) ∧
        ((ArenaC.run sdk N sched (ArenaC.init nodes0)).cpc = .returned →
          (ArenaC.run sdk N sched (ArenaC.init nodes0)).isComplete = true) ∧
        ((ArenaC.run sdk N sched (ArenaC.init nodes0)).isComplete = true →
          (ArenaC.run sdk N sched (ArenaC.init nodes0)).cpc = .returned ∨
          ∃ h, (ArenaC.run sdk N sched (ArenaC.init nodes0)).cpc = .process h)) := by
  refine ⟨?_, ?_, ?_, ?_, ?_, ?_⟩
  · intro sdk s hpc hq hl
    obtain ⟨pCopy, rest, hqe⟩ : ∃ p r, s.m_queue = p :: r := by
      cases hm : s.m_queue with
      | nil => exact absurd hm hq
      | cons p r => exact ⟨p, r, rfl⟩
    have hcrit : ∀ pre, ((ArenaCpp.SaveImages.critical pre s).localComplete = true ↔
        ((ArenaCpp.SaveImages.critical pre s).m_queue = [] ∧
          (ArenaCpp.SaveImages.critical pre s).isCompleted = true)) := by
      intro pre
      simp only [ArenaCpp.SaveImages.critical, hqe, hl]
      cases rest <;> cases s.isCompleted <;> simp
    have hlen : s.m_queue.length > 0 := by rw [hqe]; simp
    rcases hpc with hpc | hpc
    · simp only [ArenaCpp.SaveImages, hpc, hlen, if_true]
      exact hcrit _
    · simp only [ArenaCpp.SaveImages, hpc, hlen, if_true]
      exact hcrit _
  · intro sdk pCopy s hf
    simp only [ArenaCpp.SaveImages.process, hf]
    cases s.localComplete <;> simp
  · intro sdk N nodes0 sched
    have h := ArenaCpp.inv_reachable sdk N nodes0 sched
    refine ⟨h.localDone, fun hr => ?_, fun hl => ?_⟩
    · have hc := h.cons
      simp only [ArenaCpp.ConsInv, hr] at hc
      exact hc.2.1
    · have hc := h.cons
      cases hcc : (ArenaCpp.run sdk N sched (ArenaCpp.init nodes0)).cpc with
      | lockWait => simp only [ArenaCpp.ConsInv, hcc] at hc; rw [hc.2.1] at hl; cases hl
      | waiting => simp only [ArenaCpp.ConsInv, hcc] at hc; rw [hc.2.1] at hl; cases hl
      | woken => simp only [ArenaCpp.ConsInv, hcc] at hc; rw [hc.2.1] at hl; cases hl
      | process p => exact Or.inr (Or.inr ⟨p, rfl⟩)
      | returned => exact Or.inl rfl
      | threw => exact Or.inr (Or.inl rfl)
  · intro sdk s hpc hl
    have hcrit : ∀ pre, ((ArenaC.SaveImage.critical pre s).isComplete = true ↔
        ((ArenaC.SaveImage.critical pre s).head = [] ∧
          (ArenaC.SaveImage.critical pre s).isCompleted = true)) := by
      intro pre
      simp only [ArenaC.SaveImage.critical, hl]
      cases hd : (if (!ArenaC.isEmpty s.head) = true then (ArenaC.dequeue s.head).2
        else s.head) <;> cases s.isCompleted <;> simp [ArenaC.isEmpty]
    rcases hpc with ⟨hpc, hq⟩ | hpc
    · have he : ArenaC.isEmpty s.head = false := by
        cases hb : ArenaC.isEmpty s.head with
        | false => rfl
        | true => exact absurd ((ArenaC.isEmpty_iff _).mp hb) hq
      simp only [ArenaC.SaveImage, hpc, he]
      exact hcrit _
    · simp only [ArenaC.SaveImage, hpc]
      exact hcrit _
  · intro sdk hCopyBuffer s
    simp only [ArenaC.SaveImage.process]
    cases s.isComplete <;> simp
  · intro sdk N nodes0 sched
    have h := ArenaC.inv_reachableC sdk N nodes0 sched
    refine ⟨h.localDone, fun hr => ?_, fun hl => ?_⟩
    · have hc := h.cons
      simp only [ArenaC.ConsInv, hr] at hc
      exact hc
    · have hc := h.cons
      cases hcc : (ArenaC.run sdk N sched (ArenaC.init nodes0)).cpc with
      | top => simp only [ArenaC.ConsInv, hcc] at hc; rw [hc] at hl; cases hl
      | sleeping => simp only [ArenaC.ConsInv, hcc] at hc; rw [hc.1] at hl; cases hl
      | woken => simp only [ArenaC.ConsInv, hcc] at hc; rw [hc] at hl; cases hl
      | process p => exact Or.inr ⟨p, rfl⟩
      | returned => exact Or.inl rfl

theorem C5_witness :
    ((ArenaCpp.lastQueued.cpc = .lockWait ∧ ArenaCpp.lastQueued.m_queue = [200] ∧
        ArenaCpp.lastQueued.localComplete = false) ∧
      (ArenaCpp.SaveImages ArenaCpp.sampleSDK ArenaCpp.lastQueued).m_queue = [] ∧
      (ArenaCpp.SaveImages ArenaCpp.sampleSDK ArenaCpp.lastQueued).isCompleted = true ∧
      (ArenaCpp.SaveImages ArenaCpp.sampleSDK ArenaCpp.lastQueued).localComplete = true) ∧
    ((ArenaCpp.processCalls ArenaCpp.sampleSDK
        (ArenaCpp.SaveImages ArenaCpp.sampleSDK ArenaCpp.lastQueued).i 200).any
          Event.failed = false ∧
      (ArenaCpp.SaveImages.process ArenaCpp.sampleSDK 200
        (ArenaCpp.SaveImages ArenaCpp.sampleSDK ArenaCpp.lastQueued)).cpc = .returned) ∧
    (ArenaCpp.sampleRun.cpc = .returned ∧ ArenaCpp.sampleRun.localComplete = true ∧
      ArenaCpp.sampleRun.m_queue = [] ∧ ArenaCpp.sampleRun.isCompleted = true) ∧
    ((ArenaC.lastQueued.cpc = .top ∧ ArenaC.lastQueued.head = [some 200] ∧
        ArenaC.lastQueued.isComplete = false) ∧
      (ArenaC.SaveImage ArenaC.sampleSDK ArenaC.lastQueued).head = [] ∧
      (ArenaC.SaveImage ArenaC.sampleSDK ArenaC.lastQueued).isCompleted = true ∧
      (ArenaC.SaveImage ArenaC.sampleSDK ArenaC.lastQueued).isComplete = true) ∧
    (ArenaC.sampleRun.cpc = .returned ∧ ArenaC.sampleRun.isComplete = true ∧
      ArenaC.sampleRun.head = [] ∧ ArenaC.sampleRun.isCompleted = true) :=
  have h1 := C5_local_flag_iff_drained_and_completed.1 ArenaCpp.sampleSDK ArenaCpp.lastQueued
    (Or.inl (by decide)) (by decide) (by decide)
  have h2 := C5_local_flag_iff_drained_and_completed.2.1 ArenaCpp.sampleSDK 200
    (ArenaCpp.SaveImages ArenaCpp.sampleSDK ArenaCpp.lastQueued) (by decide)
  have h3 := C5_local_flag_iff_drained_and_completed.2.2.1 ArenaCpp.sampleSDK 3 sampleNodes
    ArenaCpp.sampleSchedule
  have h4 := C5_local_flag_iff_drained_and_completed.2.2.2.1 ArenaC.sampleSDK ArenaC.lastQueued
    (Or.inl ⟨by decide, by decide⟩) (by decide)
  have h6 := C5_local_flag_iff_drained_and_completed.2.2.2.2.2 ArenaC.sampleSDK 3 sampleNodes
    ArenaC.sampleSchedule
  ⟨⟨⟨by decide, by decide, by decide⟩, by decide, by decide, h1.mpr ⟨by decide, by decide⟩⟩,
    ⟨by decide, h2.1.mpr (h1.mpr ⟨by decide, by decide⟩)⟩,
    ⟨by decide, h3.2.1 (by decide), (h3.1.mp (h3.2.1 (by decide))).1,
      (h3.1.mp (h3.2.1 (by decide))).2⟩,
    ⟨⟨by decide, by decide, by decide⟩, by decide, by decide, h4.mpr ⟨by decide, by decide⟩⟩,
    ⟨by decide, h6.2.1 (by decide), (h6.1 (h6.2.1 (by decide))).1,
      (h6.1 (h6.2.1 (by decide))).2⟩⟩

theorem ArenaCpp.stays_blocked (sdk : ArenaCpp.SDK) (N : Nat) (sched : List Tick) :
    ∀ s : ArenaCpp.State, s.m_queue = [] →
      (s.cpc = .lockWait ∨ s.cpc = .waiting ∨ s.cpc = .woken) →
      (∀ t ∈ sched, t ≠ Tick.prod) →
      (ArenaCpp.run sdk N sched s).m_queue = [] ∧
        (ArenaCpp.run sdk N sched s).localComplete = s.localComplete ∧
        ((ArenaCpp.run sdk N sched s).cpc = .lockWait ∨
          (ArenaCpp.run sdk N sched s).cpc = .waiting ∨
          (ArenaCpp.run sdk N sched s).cpc = .woken) := by
  induction sched with
  | nil => intro s hq hc _; exact ⟨hq, rfl, hc⟩
  | cons t ts ih =>
    intro s hq hc ht
    have hstep : (ArenaCpp.step sdk N t s).m_queue = [] ∧
        (ArenaCpp.step sdk N t s).localComplete = s.localComplete ∧
        ((ArenaCpp.step sdk N t s).cpc = .lockWait ∨ (ArenaCpp.step sdk N t s).cpc = .waiting ∨
          (ArenaCpp.step sdk N t s).cpc = .woken) := by
      cases t with
      | prod => exact absurd rfl (ht .prod (List.mem_cons_self _ _))
      | cons => rcases hc with hc | hc | hc <;> simp [ArenaCpp.step, ArenaCpp.SaveImages, hc, hq]
      | spurious =>
        simp only [ArenaCpp.step]
        split
        · exact ⟨hq, rfl, Or.inr (Or.inr rfl)⟩
        · exact ⟨hq, rfl, hc⟩
    obtain ⟨h1, h2, h3⟩ := hstep
    have h := ih (ArenaCpp.step sdk N t s) h1 h3 (fun u hu => ht u (List.mem_cons_of_mem _ hu))
    rw [h2] at h
    exact h

/-- C6 with the wait predicate 'queue non-empty or done' fails in both variants: a
consumer that enters with the queue empty and `isCompleted` already true blocks on
the condition variable and its local flag stays false. Cpp: the state
`completedEmpty`, where further wake-ups put it back to waiting. C: the state a run
of one image reaches when the queue node cannot be allocated. -/
theorem C6_counterexample :
    (ArenaCpp.completedEmpty.m_queue = [] ∧ ArenaCpp.completedEmpty.isCompleted = true ∧
      ArenaCpp.completedEmpty.cpc = .lockWait ∧
      (ArenaCpp.SaveImages ArenaCpp.sampleSDK ArenaCpp.completedEmpty).cpc = .waiting ∧
      (ArenaCpp.SaveImages ArenaCpp.sampleSDK ArenaCpp.completedEmpty).localComplete = false ∧
      (ArenaCpp.run ArenaCpp.sampleSDK 1 [.cons, .spurious, .cons, .spurious, .cons]
        ArenaCpp.completedEmpty).cpc = .waiting) ∧
    (ArenaC.completedEmpty.head = [] ∧ ArenaC.completedEmpty.isCompleted = true ∧
      ArenaC.completedEmpty.cpc = .top ∧
      (ArenaC.SaveImage ArenaC.noMemorySDK ArenaC.completedEmpty).cpc = .sleeping ∧
      (ArenaC.SaveImage ArenaC.noMemorySDK ArenaC.completedEmpty).isComplete = false) := by
  decide

/-- C6, amended: the consumer's wait looks at the queue alone (Cpp: the predicate of
`cv.wait` is `m_queue.size() > 0`; C: `if (isEmpty(&head))` before the sleep), so a
consumer that enters with the queue empty blocks on the condition variable whatever
`isCompleted` is, and one that enters with an item does not block. Cpp: blocked on an
empty queue it stays blocked, its local flag unchanged, through every wake-up until
the producer enqueues; and no run reaches an entry, wait or wake-up with the queue
empty and `isCompleted` true. C: once woken with the queue empty and `isCompleted`
true it finishes its critical section with no item (`NULL`) and the local flag true;
a run reaches such an entry, sleep or wake-up only when the node of the last enqueue
could not be allocated. -/
theorem C6_consumer_waits_on_empty_queue :
    (∀ (sdk : ArenaCpp.SDK) (s : ArenaCpp.State), (s.cpc = .lockWait ∨ s.cpc = .woken) →
        ((ArenaCpp.SaveImages sdk s).cpc = .waiting ↔ s.m_queue = []) ∧
          (s.m_queue = [] → (ArenaCpp.SaveImages sdk s).localComplete = s.localComplete)) ∧
    (∀ (sdk : ArenaCpp.SDK) (N : Nat) (sched : List Tick) (s : ArenaCpp.State),
        s.m_queue = [] → (s.cpc = .lockWait ∨ s.cpc = .waiting ∨ s.cpc = .woken) →
        (∀ t ∈ sched, t ≠ Tick.prod) →
        (ArenaCpp.run sdk N sched s).cpc ≠ .returned ∧
          (∀ pCopy, (ArenaCpp.run sdk N sched s).cpc ≠ .process pCopy) ∧
          (ArenaCpp.run sdk N sched s).localComplete = s.localComplete) ∧
    (∀ (sdk : ArenaCpp.SDK) (N : Nat) (nodes0 : Nodes) (sched : List Tick),
        ((ArenaCpp.run sdk N sched (ArenaCpp.init nodes0)).cpc = .lockWait ∨
          (ArenaCpp.run sdk N sched (ArenaCpp.init nodes0)).cpc = .waiting ∨
          (ArenaCpp.run sdk N sched (ArenaCpp.init nodes0)).cpc = .woken) →
        ¬((ArenaCpp.run sdk N sched (ArenaCpp.init nodes0)).m_queue = [] ∧
          (ArenaCpp.run sdk N sched (ArenaCpp.init nodes0)).isCompleted = true)) ∧
    (∀ (sdk : ArenaC.SDK) (s : ArenaC.State), s.cpc = .top →
        ((ArenaC.SaveImage sdk s).cpc = .sleeping ↔ s.head = []) ∧
          (s.head = [] → (ArenaC.SaveImage sdk s).isComplete = s.isComplete)) ∧
    (∀ (sdk : ArenaC.SDK) (s : ArenaC.State), s.cpc = .woken → s.head = [] →
        s.isCompleted = true →
        (ArenaC.SaveImage sdk s).cpc = .process ArenaC.NULL ∧
          (ArenaC.SaveImage sdk s).head = [] ∧ (ArenaC.SaveImage sdk s).isComplete = true) ∧
    (∀ (sdk : ArenaC.SDK) (N : Nat) (nodes0 : Nodes) (sched : List Tick),
        ((ArenaC.run sdk N sched (ArenaC.init nodes0)).cpc = .top ∨
          (ArenaC.run sdk N sched (ArenaC.init nodes0)).cpc = .sleeping ∨
          (ArenaC.run sdk N sched (ArenaC.init nodes0)).cpc = .woken) →
        (ArenaC.run sdk N sched (ArenaC.init nodes0)).head = [] →
        (ArenaC.run sdk N sched (ArenaC.init nodes0)).isCompleted = true →
        sdk.malloc (N - 1) = false) := by
  refine ⟨?_, ?_, ?_, ?_, ?_, ?_⟩
  · intro sdk s hpc
    cases hq : s.m_queue with
    | nil =>
      rcases hpc with hpc | hpc <;> simp [ArenaCpp.SaveImages, hpc, hq]
    | cons p r =>
      rcases hpc with hpc | hpc <;>
        simp [ArenaCpp.SaveImages, ArenaCpp.SaveImages.critical, hpc, hq]
  · intro sdk N sched s hq hc ht
    obtain ⟨-, h2, h3⟩ := ArenaCpp.stays_blocked sdk N sched s hq hc ht
    refine ⟨?_, ?_, h2⟩
    · rcases h3 with h | h | h <;> rw [h] <;> simp
    · intro pCopy
      rcases h3 with h | h | h <;> rw [h] <;> simp
  · intro sdk N nodes0 sched hpc hqc
    have h := ArenaCpp.inv_reachable sdk N nodes0 sched
    have hl := h.localDone.mpr hqc
    have hc := h.cons
    rcases hpc with hpc | hpc | hpc <;> simp only [ArenaCpp.ConsInv, hpc] at hc <;>
      rw [hc.2.1] at hl <;> cases hl
  · intro sdk s hpc
    cases hq : s.head with
    | nil => simp [ArenaC.SaveImage, hpc, hq, ArenaC.isEmpty]
    | cons p r => simp [ArenaC.SaveImage, ArenaC.SaveImage.critical, hpc, hq, ArenaC.isEmpty]
  · intro sdk s hpc hq hcomp
    simp [ArenaC.SaveImage, ArenaC.SaveImage.critical, hpc, hq, hcomp, ArenaC.isEmpty]
  · intro sdk N nodes0 sched hpc hq hcomp
    have h := ArenaC.inv_reachableC sdk N nodes0 sched
    have hc := h.cons
    rcases h.drained hcomp hq with hl | hm
    · rcases hpc with hpc | hpc | hpc <;> simp only [ArenaC.ConsInv, hpc] at hc
      · rw [hc] at hl; cases hl
      · rw [hc.1] at hl; cases hl
      · rw [hc] at hl; cases hl
    · exact hm

theorem C6_witness :
    (ArenaCpp.completedEmpty.cpc = .lockWait ∧ ArenaCpp.completedEmpty.m_queue = [] ∧
      (ArenaCpp.SaveImages ArenaCpp.sampleSDK ArenaCpp.completedEmpty).cpc = .waiting) ∧
    ((∀ t ∈ [Tick.cons, Tick.spurious, Tick.cons], t ≠ Tick.prod) ∧
      (ArenaCpp.run ArenaCpp.sampleSDK 1 [.cons, .spurious, .cons]
        ArenaCpp.completedEmpty).cpc ≠ .returned ∧
      (ArenaCpp.run ArenaCpp.sampleSDK 1 [.cons, .spurious, .cons]
        ArenaCpp.completedEmpty).localComplete = false) ∧
    ((ArenaCpp.run ArenaCpp.sampleSDK 3 [.cons, .prod]
        (ArenaCpp.init sampleNodes)).cpc = .waiting ∧
      ¬((ArenaCpp.run ArenaCpp.sampleSDK 3 [.cons, .prod]
          (ArenaCpp.init sampleNodes)).m_queue = [] ∧
        (ArenaCpp.run ArenaCpp.sampleSDK 3 [.cons, .prod]
          (ArenaCpp.init sampleNodes)).isCompleted = true)) ∧
    (ArenaC.completedEmpty.cpc = .top ∧ ArenaC.completedEmpty.head = [] ∧
      (ArenaC.SaveImage ArenaC.noMemorySDK ArenaC.completedEmpty).cpc = .sleeping) ∧
    ((ArenaC.run ArenaC.noMemorySDK 1 [.cons, .prod] ArenaC.completedEmpty).cpc = .woken ∧
      (ArenaC.run ArenaC.noMemorySDK 1 [.cons, .prod] ArenaC.completedEmpty).head = [] ∧
      (ArenaC.run ArenaC.noMemorySDK 1 [.cons, .prod] ArenaC.completedEmpty).isCompleted =
        true ∧
      (ArenaC.SaveImage ArenaC.noMemorySDK
        (ArenaC.run ArenaC.noMemorySDK 1 [.cons, .prod] ArenaC.completedEmpty)).cpc =
        .process ArenaC.NULL ∧
      (ArenaC.SaveImage ArenaC.noMemorySDK
        (ArenaC.run ArenaC.noMemorySDK 1 [.cons, .prod] ArenaC.completedEmpty)).isComplete =
        true) ∧
    ((ArenaC.run ArenaC.noMemorySDK 1 [.prod, .prod, .cons, .prod]
        (ArenaC.init sampleNodes)).cpc = .woken ∧
      ArenaC.noMemorySDK.malloc (1 - 1) = false) :=
  have h1 := C6_consumer_waits_on_empty_queue.1 ArenaCpp.sampleSDK ArenaCpp.completedEmpty
    (Or.inl (by decide))
  have h2 := C6_consumer_waits_on_empty_queue.2.1 ArenaCpp.sampleSDK 1
    [.cons, .spurious, .cons] ArenaCpp.completedEmpty (by decide) (Or.inl (by decide))
    (by decide)
  have h3 := C6_consumer_waits_on_empty_queue.2.2.1 ArenaCpp.sampleSDK 3 sampleNodes
    [.cons, .prod] (Or.inr (Or.inl (by decide)))
  have h4 := C6_consumer_waits_on_empty_queue.2.2.2.1 ArenaC.noMemorySDK ArenaC.completedEmpty
    (by decide)
  have h5 := C6_consumer_waits_on_empty_queue.2.2.2.2.1 ArenaC.noMemorySDK
    (ArenaC.run ArenaC.noMemorySDK 1 [.cons, .prod] ArenaC.completedEmpty)
    (by decide) (by decide) (by decide)
  have h6 := C6_consumer_waits_on_empty_queue.2.2.2.2.2 ArenaC.noMemorySDK 1 sampleNodes
    [.prod, .prod, .cons, .prod] (Or.inr (Or.inr (by decide))) (by decide) (by decide)
  ⟨⟨by decide, by decide, h1.1.mpr (by decide)⟩,
    ⟨by decide, h2.1, h2.2.2⟩, ⟨by decide, h3⟩,
    ⟨by decide, by decide, h4.1.mpr (by decide)⟩,
    ⟨by decide, by decide, by decide, h5.1, h5.2.2⟩, ⟨by decide, h6⟩⟩

/-- C7: `isCompleted` is false initially and, for `NUM_IMAGES >= 1` on a run with no
failure, the producer writes true to it exactly once, in loop iteration
`NUM_IMAGES - 1`, inside the same lock acquisition as, and after, the enqueue of the
last copy; it is never set back to false. For each variant: the initial state has the
flag false; the log of a producer that has returned is
`pre ++ [lock, enqueue, setCompleted, unlock] ++ post`, the enqueue being the one of
the copy of image `NUM_IMAGES - 1`, with no other write of the flag in `pre` or `post`,
all `NUM_IMAGES` `GetImage` calls and the other `NUM_IMAGES - 1` enqueues in `pre` and
none in `post` (with `NUM_IMAGES = 1` it is the only enqueue); in every state of every
run the flag is true exactly when the last critical section of the producer is done;
and no step of either worker clears it. In the Cpp variant a producer that has
returned has thrown nowhere; in the C variant the enqueue of the section is logged
with the result of its allocation, which has succeeded when no call of the log
failed. -/
theorem C7_isCompleted_set_once_with_last_enqueue :
    (∀ nodes0 : Nodes, (ArenaCpp.init nodes0).isCompleted = false ∧
        (ArenaC.init nodes0).isCompleted = false) ∧
    (∀ (sdk : ArenaCpp.SDK) (N : Nat) (nodes0 : Nodes) (sched : List Tick), 0 < N →
        (ArenaCpp.run sdk N sched (ArenaCpp.init nodes0)).ppc = .returned →
        ∃ pre post, (ArenaCpp.run sdk N sched (ArenaCpp.init nodes0)).plog =
            pre ++ [.lock,
              .enqueue ((sdk.GetImage (N - 1) ArenaCpp.TIMEOUT).bind sdk.Copy) true,
              .setCompleted, .unlock] ++ post ∧
          Event.setCompleted ∉ pre ∧ Event.setCompleted ∉ post ∧
          acquisitions pre = (List.range N).map (fun i => (i, sdk.GetImage i ArenaCpp.TIMEOUT)) ∧
          acquisitions post = [] ∧ (pushed pre).length = N - 1 ∧ pushed post = []) ∧
    (∀ (sdk : ArenaCpp.SDK) (N : Nat) (nodes0 : Nodes) (sched : List Tick),
        (ArenaCpp.run sdk N sched (ArenaCpp.init nodes0)).isCompleted = true ↔
          ((pushed (ArenaCpp.run sdk N sched (ArenaCpp.init nodes0)).plog).length = N ∧
            0 < N)) ∧
    (∀ (sdk : ArenaCpp.SDK) (N : Nat) (sched : List Tick) (s : ArenaCpp.State),
        s.isCompleted = true → (ArenaCpp.run sdk N sched s).isCompleted = true) ∧
    (∀ (sdk : ArenaC.SDK) (N : Nat) (nodes0 : Nodes) (sched : List Tick), 0 < N →
        (ArenaC.run sdk N sched (ArenaC.init nodes0)).ppc = .returned →
        ∃ pre post, (ArenaC.run sdk N sched (ArenaC.init nodes0)).plog =
            pre ++ [.lock,
              .enqueue ((sdk.acDeviceGetBuffer (N - 1) ArenaC.IMAGE_TIMEOUT).bind
                sdk.acImageFactoryCopy) (sdk.malloc (N - 1)),
              .setCompleted, .unlock] ++ post ∧
          Event.setCompleted ∉ pre ∧ Event.setCompleted ∉ post ∧
          acquisitions pre =
            (List.range N).map (fun i => (i, sdk.acDeviceGetBuffer i ArenaC.IMAGE_TIMEOUT)) ∧
          acquisitions post = [] ∧ pushed post = [] ∧
          (noFailure (ArenaC.run sdk N sched (ArenaC.init nodes0)).plog = true →
            sdk.malloc (N - 1) = true ∧ (pushed pre).length = N - 1)) ∧
    (∀ (sdk : ArenaC.SDK) (N : Nat) (nodes0 : Nodes) (sched : List Tick),
        (ArenaC.run sdk N sched (ArenaC.init nodes0)).isCompleted = true ↔
          ((acquisitions (ArenaC.run sdk N sched (ArenaC.init nodes0)).plog).length = N ∧
            0 < N)) ∧
    (∀ (sdk : ArenaC.SDK) (N : Nat) (sched : List Tick) (s : ArenaC.State),
        s.isCompleted = true → (ArenaC.run sdk N sched s).isCompleted = true) := by
  refine ⟨fun _ => ⟨rfl, rfl⟩, ?_, ?_, ?_, ?_, ?_, ?_⟩
  · intro sdk N nodes0 sched hN hr
    obtain ⟨pre, post, h1, h2, h3, h4, h5, h6, h7⟩ :=
      ArenaCpp.producerLog_completion sdk N nodes0 hN
    refine ⟨pre, post, ?_, h2, h3, h4, h5, by rw [h6]; simp, h7⟩
    rw [((ArenaCpp.inv_reachable sdk N nodes0 sched).producer_done hr).1, h1]
    rfl
  · intro sdk N nodes0 sched
    exact (ArenaCpp.inv_reachable sdk N nodes0 sched).completed
  · intro sdk N sched s h
    exact ArenaCpp.run_isCompleted sdk N sched s h
  · intro sdk N nodes0 sched hN hr
    obtain ⟨pre, post, h1, h2, h3, h4, h5, h6, h7⟩ :=
      ArenaC.producerLog_completionC sdk N nodes0 hN
    have hlog := ((ArenaC.inv_reachableC sdk N nodes0 sched).producer_doneC hr).1
    refine ⟨pre, post, ?_, h2, h3, h4, h5, h7, fun hnf => ?_⟩
    · rw [hlog, h1]
      rfl
    · rw [hlog, h1] at hnf
      have hm : sdk.malloc (N - 1) = true := by
        simp only [noFailure, List.all_append, List.all_cons, Event.failed, Bool.and_eq_true,
          Bool.not_eq_true'] at hnf
        cases hmm : sdk.malloc (N - 1) with
        | true => rfl
        | false => simp [hmm] at hnf
      have hall : ∀ j, j < N → sdk.malloc j = true := by
        have hc := (ArenaC.inv_reachableC sdk N nodes0 sched).crit_ok
          (by rw [hlog, h1]; exact hnf)
        rw [hr] at hc
        exact fun j hj => (hc j hj).1
      refine ⟨hm, ?_⟩
      rw [h6, ArenaC.enqueued_eq_map (fun j hj => hall j (by omega))]
      simp
  · intro sdk N nodes0 sched
    have h := ArenaC.inv_reachableC sdk N nodes0 sched
    rw [h.acquisitions_length]
    exact h.completed
  · intro sdk N sched s h
    exact ArenaC.run_isCompletedC sdk N sched s h

theorem C7_witness :
    (0 < 1 ∧ ArenaCpp.lastQueued.isCompleted = true ∧
      (ArenaCpp.run ArenaCpp.sampleSDK 1 (List.replicate 4 .prod)
        (ArenaCpp.init sampleNodes)).ppc = .returned ∧
      ∃ pre post, (ArenaCpp.run ArenaCpp.sampleSDK 1 (List.replicate 4 .prod)
          (ArenaCpp.init sampleNodes)).plog =
          pre ++ [.lock, .enqueue (some 200) true, .setCompleted, .unlock] ++ post ∧
        Event.setCompleted ∉ pre ∧ Event.setCompleted ∉ post ∧
        acquisitions pre = [(0, some 100)] ∧ acquisitions post = [] ∧
        (pushed pre).length = 0 ∧ pushed post = []) ∧
    (0 < 3 ∧ ArenaCpp.sampleRun.ppc = .returned ∧
      ∃ pre post, ArenaCpp.sampleRun.plog =
          pre ++ [.lock, .enqueue (some 202) true, .setCompleted, .unlock] ++ post ∧
        Event.setCompleted ∉ pre ∧ Event.setCompleted ∉ post ∧
        acquisitions pre = [(0, some 100), (1, some 101), (2, some 102)] ∧
        acquisitions post = [] ∧ (pushed pre).length = 2 ∧ pushed post = []) ∧
    (ArenaCpp.lastQueued.isCompleted = true ∧
      (ArenaCpp.run ArenaCpp.sampleSDK 1 [.cons, .cons, .prod, .spurious, .prod]
        ArenaCpp.lastQueued).isCompleted = true) ∧
    (0 < 3 ∧ ArenaC.sampleRun.ppc = .returned ∧ noFailure ArenaC.sampleRun.plog = true ∧
      ∃ pre post, ArenaC.sampleRun.plog =
          pre ++ [.lock, .enqueue (some 202) true, .setCompleted, .unlock] ++ post ∧
        Event.setCompleted ∉ pre ∧ Event.setCompleted ∉ post ∧
        acquisitions pre = [(0, some 100), (1, some 101), (2, some 102)] ∧
        acquisitions post = [] ∧ pushed post = [] ∧ (pushed pre).length = 2) ∧
    (ArenaC.lastQueued.isCompleted = true ∧
      (ArenaC.run ArenaC.sampleSDK 1 [.cons, .cons, .prod, .spurious, .prod]
        ArenaC.lastQueued).isCompleted = true) :=
  have h1 := C7_isCompleted_set_once_with_last_enqueue.2.1 ArenaCpp.sampleSDK 1 sampleNodes
    (List.replicate 4 .prod) (by decide) (by decide)
  have h2 := C7_isCompleted_set_once_with_last_enqueue.2.1 ArenaCpp.sampleSDK 3 sampleNodes
    ArenaCpp.sampleSchedule (by decide) (by decide)
  have h4 := C7_isCompleted_set_once_with_last_enqueue.2.2.2.1 ArenaCpp.sampleSDK 1
    [.cons, .cons, .prod, .spurious, .prod] ArenaCpp.lastQueued (by decide)
  have h5 := C7_isCompleted_set_once_with_last_enqueue.2.2.2.2.1 ArenaC.sampleSDK 3 sampleNodes
    ArenaC.sampleSchedule (by decide) (by decide)
  have h7 := C7_isCompleted_set_once_with_last_enqueue.2.2.2.2.2.2 ArenaC.sampleSDK 1
    [.cons, .cons, .prod, .spurious, .prod] ArenaC.lastQueued (by decide)
  ⟨⟨by decide, by decide, by decide, h1⟩, ⟨by decide, by decide, h2⟩, ⟨by decide, h4⟩,
    ⟨by decide, by decide, by decide,
      h5.imp fun _ h => h.imp fun _ h =>
        ⟨h.1, h.2.1, h.2.2.1, h.2.2.2.1, h.2.2.2.2.1, h.2.2.2.2.2.1,
          (h.2.2.2.2.2.2 (by decide)).2⟩⟩,
    ⟨by decide, h7⟩⟩

/-- C8: with `NUM_IMAGES = 0` the producer does not set `isCompleted` and the consumer
does not terminate. The loop body, the only place where `isCompleted` is written, is
never entered: in every state of every run of either variant `isCompleted` is false
and the consumer has not returned (Cpp: it has made no save). On a device whose calls
all succeed the producer returns with the flag false and the consumer is left blocked
on the condition variable. -/
theorem C8_zero_images_never_completes :
    (∀ (sdk : ArenaCpp.SDK) (nodes0 : Nodes) (sched : List Tick),
        (ArenaCpp.run sdk 0 sched (ArenaCpp.init nodes0)).isCompleted = false ∧
          (ArenaCpp.run sdk 0 sched (ArenaCpp.init nodes0)).cpc ≠ .returned ∧
          saves (ArenaCpp.run sdk 0 sched (ArenaCpp.init nodes0)).clog = []) ∧
    ((ArenaCpp.run ArenaCpp.sampleSDK 0 [.prod, .prod, .cons, .spurious, .cons]
        (ArenaCpp.init sampleNodes)).ppc = .returned ∧
      (ArenaCpp.run ArenaCpp.sampleSDK 0 [.prod, .prod, .cons, .spurious, .cons]
        (ArenaCpp.init sampleNodes)).cpc = .waiting) ∧
    (∀ (sdk : ArenaC.SDK) (nodes0 : Nodes) (sched : List Tick),
        (ArenaC.run sdk 0 sched (ArenaC.init nodes0)).isCompleted = false ∧
          (ArenaC.run sdk 0 sched (ArenaC.init nodes0)).cpc ≠ .returned) ∧
    ((ArenaC.run ArenaC.sampleSDK 0 [.prod, .prod, .cons] (ArenaC.init sampleNodes)).ppc =
        .returned ∧
      (ArenaC.run ArenaC.sampleSDK 0 [.prod, .prod, .cons] (ArenaC.init sampleNodes)).cpc =
        .sleeping) := by
  refine ⟨?_, by decide, ?_, by decide⟩
  · intro sdk nodes0 sched
    have h := ArenaCpp.inv_reachable sdk 0 nodes0 sched
    have hc : (ArenaCpp.run sdk 0 sched (ArenaCpp.init nodes0)).isCompleted = false := by
      cases hb : (ArenaCpp.run sdk 0 sched (ArenaCpp.init nodes0)).isCompleted with
      | false => rfl
      | true => exact absurd (h.completed.mp hb).2 (by decide)
    refine ⟨hc, fun hr => ?_, ?_⟩
    · have hcons := h.cons
      simp only [ArenaCpp.ConsInv, hr] at hcons
      have := (h.localDone.mp hcons.2.1).2
      rw [hc] at this
      cases this
    · obtain ⟨m, hm, -, hle, -⟩ := h.saves_eq
      obtain rfl : m = 0 := by omega
      simpa using hm
  · intro sdk nodes0 sched
    have h := ArenaC.inv_reachableC sdk 0 nodes0 sched
    have hc : (ArenaC.run sdk 0 sched (ArenaC.init nodes0)).isCompleted = false := by
      cases hb : (ArenaC.run sdk 0 sched (ArenaC.init nodes0)).isCompleted with
      | false => rfl
      | true => exact absurd (h.completed.mp hb).2 (by decide)
    refine ⟨hc, fun hr => ?_⟩
    have hcons := h.cons
    simp only [ArenaC.ConsInv, hr] at hcons
    have := (h.localDone hcons).2
    rw [hc] at this
    cases this

/-- C9: with `NUM_IMAGES = 5` and a failure of the third `GetImage`, `isCompleted` is
not set on the error path and the consumer does not drain two files and exit. Cpp
variant: in every state of every run `isCompleted` is false, the consumer has not
returned and at most two saves were made; in the run evaluated the exception has left
`AcquireImages`, two files are written and the consumer is blocked on the condition
variable. C variant: `exitThreads` returns to the loop, which goes on: in the run
evaluated both workers return, `NULL` went through the queue for the third image and
four files are written. -/
theorem C9_no_completion_on_producer_failure :
    (∀ (nodes0 : Nodes) (sched : List Tick),
        (ArenaCpp.run ArenaCpp.failingSDK 5 sched (ArenaCpp.init nodes0)).isCompleted = false ∧
          (ArenaCpp.run ArenaCpp.failingSDK 5 sched (ArenaCpp.init nodes0)).cpc ≠ .returned ∧
          (saves (ArenaCpp.run ArenaCpp.failingSDK 5 sched
            (ArenaCpp.init nodes0)).clog).length ≤ 2) ∧
    ((ArenaCpp.run ArenaCpp.failingSDK 5
        (List.replicate 6 .prod ++ List.replicate 8 .cons ++ [.spurious, .cons])
        (ArenaCpp.init sampleNodes)).ppc = .threw ∧
      (ArenaCpp.run ArenaCpp.failingSDK 5
        (List.replicate 6 .prod ++ List.replicate 8 .cons ++ [.spurious, .cons])
        (ArenaCpp.init sampleNodes)).cpc = .waiting ∧
      (ArenaCpp.run ArenaCpp.failingSDK 5
        (List.replicate 6 .prod ++ List.replicate 8 .cons ++ [.spurious, .cons])
        (ArenaCpp.init sampleNodes)).isCompleted = false ∧
      files (ArenaCpp.run ArenaCpp.failingSDK 5
        (List.replicate 6 .prod ++ List.replicate 8 .cons ++ [.spurious, .cons])
        (ArenaCpp.init sampleNodes)).clog = [ArenaCpp.fileName 0, ArenaCpp.fileName 1]) ∧
    ((ArenaC.run ArenaC.failingSDK 5 (List.replicate 12 .prod ++ List.replicate 10 .cons)
        (ArenaC.init sampleNodes)).finished = true ∧
      (ArenaC.run ArenaC.failingSDK 5 (List.replicate 12 .prod ++ List.replicate 10 .cons)
        (ArenaC.init sampleNodes)).isCompleted = true ∧
      popped (ArenaC.run ArenaC.failingSDK 5 (List.replicate 12 .prod ++ List.replicate 10 .cons)
        (ArenaC.init sampleNodes)).clog = [some 200, some 201, none, some 203, some 204] ∧
      files (ArenaC.run ArenaC.failingSDK 5 (List.replicate 12 .prod ++ List.replicate 10 .cons)
        (ArenaC.init sampleNodes)).clog =
        [ArenaC.fileName 0, ArenaC.fileName 1, ArenaC.fileName 3, ArenaC.fileName 4]) := by
  refine ⟨?_, by decide, by decide⟩
  intro nodes0 sched
  have h := ArenaCpp.inv_reachable ArenaCpp.failingSDK 5 nodes0 sched
  have hp : (pushed (ArenaCpp.run ArenaCpp.failingSDK 5 sched
      (ArenaCpp.init nodes0)).plog).length ≤ 2 := by
    by_contra hlt
    exact absurd (h.pushedOk 2 (by omega)) (by decide)
  have hc : (ArenaCpp.run ArenaCpp.failingSDK 5 sched (ArenaCpp.init nodes0)).isCompleted =
      false := by
    cases hb : (ArenaCpp.run ArenaCpp.failingSDK 5 sched (ArenaCpp.init nodes0)).isCompleted with
    | false => rfl
    | true =>
      have := (h.completed.mp hb).1
      omega
  refine ⟨hc, fun hr => ?_, ?_⟩
  · have hcons := h.cons
    simp only [ArenaCpp.ConsInv, hr] at hcons
    have := (h.localDone.mp hcons.2.1).2
    rw [hc] at this
    cases this
  · obtain ⟨m, hm, hconv, -, -⟩ := h.saves_eq
    have hm2 : m ≤ 2 := by
      by_contra hlt
      exact absurd (hconv 2 (by omega)) (by decide)
    rw [hm]
    simpa using hm2

/-- C10: in the C variant a failed `acDeviceGetBuffer` does not end the producer. With
`NUM_IMAGES = 5` and a failure of the third call, every run can be continued by steps
of the producer to its return, and the producer has then made all five
`acDeviceGetBuffer` calls and five enqueues, the third one of `NULL`. In the Cpp
variant the exception ends `AcquireImages`: in the run evaluated no call follows the
failed `GetImage`, two copies are enqueued, and no step is taken after the throw. -/
theorem C10_producer_continues_after_failure :
    (∀ (nodes0 : Nodes) (sched : List Tick), ∃ a,
        (ArenaC.run ArenaC.failingSDK 5 (sched ++ List.replicate a .prod)
          (ArenaC.init nodes0)).ppc = .returned ∧
        acquisitions (ArenaC.run ArenaC.failingSDK 5 (sched ++ List.replicate a .prod)
          (ArenaC.init nodes0)).plog =
          [(0, some 100), (1, some 101), (2, none), (3, some 103), (4, some 104)] ∧
        pushed (ArenaC.run ArenaC.failingSDK 5 (sched ++ List.replicate a .prod)
          (ArenaC.init nodes0)).plog = [some 200, some 201, none, some 203, some 204]) ∧
    ((ArenaCpp.run ArenaCpp.failingSDK 5 (List.replicate 12 .prod)
        (ArenaCpp.init sampleNodes)).ppc = .threw ∧
      acquisitions (ArenaCpp.run ArenaCpp.failingSDK 5 (List.replicate 12 .prod)
        (ArenaCpp.init sampleNodes)).plog = [(0, some 100), (1, some 101), (2, none)] ∧
      pushed (ArenaCpp.run ArenaCpp.failingSDK 5 (List.replicate 12 .prod)
        (ArenaCpp.init sampleNodes)).plog = [some 200, some 201]) ∧
    (∀ (sdk : ArenaCpp.SDK) (N : Nat) (s : ArenaCpp.State),
        ArenaCpp.AcquireImages sdk N { s with ppc := .threw } = { s with ppc := .threw }) := by
  refine ⟨?_, by decide, fun _ _ _ => rfl⟩
  intro nodes0 sched
  have h0 := ArenaC.inv_reachableC ArenaC.failingSDK 5 nodes0 sched
  have hret := ArenaC.producer_returnsC ArenaC.failingSDK 5 _ _ rfl h0.release_lt.1
    h0.release_lt.2
  have h1 := ArenaC.inv_reachableC ArenaC.failingSDK 5 nodes0
    (sched ++ List.replicate
      ((ArenaC.run ArenaC.failingSDK 5 sched (ArenaC.init nodes0)).ppc.remaining 5) .prod)
  refine ⟨(ArenaC.run ArenaC.failingSDK 5 sched (ArenaC.init nodes0)).ppc.remaining 5, ?_, ?_, ?_⟩
  · rw [ArenaC.run_appendC]
    exact hret
  · rw [ArenaC.run_appendC] at h1 ⊢
    rw [(h1.producer_doneC hret).2.1]
    decide
  · rw [ArenaC.run_appendC] at h1 ⊢
    rw [h1.pushedEq, hret]
    decide

/-- C12 fails in the Cpp variant: when `Convert` throws for the copy of the second
image the consumer has dequeued the copies `200` and `201` and has destroyed only
the converted image and the copy of the first image; when the writer throws on the
second file the converted image `1201` exists as well and is not destroyed either. -/
theorem C12_counterexample :
    ((ArenaCpp.run ArenaCpp.convertFailsSDK 4 ArenaCpp.sequentialSchedule
        (ArenaCpp.init sampleNodes)).cpc = .threw ∧
      popped (ArenaCpp.run ArenaCpp.convertFailsSDK 4 ArenaCpp.sequentialSchedule
        (ArenaCpp.init sampleNodes)).clog = [some 200, some 201] ∧
      destroyed (ArenaCpp.run ArenaCpp.convertFailsSDK 4 ArenaCpp.sequentialSchedule
        (ArenaCpp.init sampleNodes)).clog = [some 1200, some 200]) ∧
    ((ArenaCpp.run ArenaCpp.writerFailsSDK 4 ArenaCpp.sequentialSchedule
        (ArenaCpp.init sampleNodes)).cpc = .threw ∧
      popped (ArenaCpp.run ArenaCpp.writerFailsSDK 4 ArenaCpp.sequentialSchedule
        (ArenaCpp.init sampleNodes)).clog = [some 200, some 201] ∧
      created (ArenaCpp.run ArenaCpp.writerFailsSDK 4 ArenaCpp.sequentialSchedule
        (ArenaCpp.init sampleNodes)).clog = [1200, 1201] ∧
      destroyed (ArenaCpp.run ArenaCpp.writerFailsSDK 4 ArenaCpp.sequentialSchedule
        (ArenaCpp.init sampleNodes)).clog = [some 1200, some 200]) := by
  decide

/-- C12, amended: if `Convert` or the image writer fails while the consumer processes
a dequeued handle, then in the Cpp variant the exception leaves `SaveImages` at once:
no `Destroy` call is made for the copy, nor for the converted image if it was created,
and the consumer takes no further step; in the C variant the consumer goes through
the rest of the iteration, in which it calls `Destroy` on the copied handle and then
on the converted handle (`NULL` when `Convert` failed), whatever failed before. -/
theorem C12_handles_after_consumer_failure :
    (∀ (sdk : ArenaCpp.SDK) (pCopy : Handle) (s : ArenaCpp.State),
        sdk.Convert pCopy ArenaCpp.PIXEL_FORMAT = none →
        (ArenaCpp.SaveImages.process sdk pCopy s).cpc = .threw ∧
          (ArenaCpp.SaveImages.process sdk pCopy s).clog =
            s.clog ++ [.convert (some pCopy) ArenaCpp.PIXEL_FORMAT none] ∧
          destroyed (ArenaCpp.SaveImages.process sdk pCopy s).clog = destroyed s.clog) ∧
    (∀ (sdk : ArenaCpp.SDK) (pCopy : Handle) (s : ArenaCpp.State) (c : Handle),
        sdk.Convert pCopy ArenaCpp.PIXEL_FORMAT = some c →
        (sdk.ImageWriter (sdk.GetWidth c) (sdk.GetHeight c) (sdk.GetBitsPerPixel c)
            (ArenaCpp.fileName s.i) = false ∨
          sdk.Save (ArenaCpp.fileName s.i) (sdk.GetData c) = false) →
        (ArenaCpp.SaveImages.process sdk pCopy s).cpc = .threw ∧
          created (ArenaCpp.SaveImages.process sdk pCopy s).clog = created s.clog ++ [c] ∧
          destroyed (ArenaCpp.SaveImages.process sdk pCopy s).clog = destroyed s.clog) ∧
    (∀ (sdk : ArenaCpp.SDK) (N : Nat) (sched : List Tick) (s : ArenaCpp.State),
        (ArenaCpp.run sdk N sched { s with cpc := .threw }).clog = s.clog ∧
          (ArenaCpp.run sdk N sched { s with cpc := .threw }).cpc = .threw) ∧
    (∀ (sdk : ArenaC.SDK) (hCopyBuffer : ArenaC.acBuffer) (s : ArenaC.State),
        destroyed (ArenaC.SaveImage.process sdk hCopyBuffer s).clog =
            destroyed s.clog ++
              [hCopyBuffer,
                hCopyBuffer.bind (sdk.acImageFactoryConvert · ArenaC.PIXEL_FORMAT)] ∧
          ((ArenaC.SaveImage.process sdk hCopyBuffer s).cpc = .top ∨
            (ArenaC.SaveImage.process sdk hCopyBuffer s).cpc = .returned)) := by
  refine ⟨?_, ?_, ?_, ?_⟩
  · intro sdk pCopy s hcv
    simp [ArenaCpp.SaveImages.process, ArenaCpp.processCalls, hcv, attempt, Event.failed,
      destroyed, Event.destroyed?]
  · intro sdk pCopy s c hcv hf
    cases hw : sdk.ImageWriter (sdk.GetWidth c) (sdk.GetHeight c) (sdk.GetBitsPerPixel c)
        (ArenaCpp.fileName s.i) <;>
      cases hs : sdk.Save (ArenaCpp.fileName s.i) (sdk.GetData c) <;>
      simp only [hw, hs, or_self, or_false, or_true, Bool.true_eq_false] at hf <;>
      simp [ArenaCpp.SaveImages.process, ArenaCpp.processCalls, hcv, attempt, Event.failed, hw,
        hs, destroyed, Event.destroyed?, created, Event.created?]
  · intro sdk N sched s
    exact ArenaCpp.threw_final sdk N sched { s with cpc := .threw } rfl
  · intro sdk h s
    refine ⟨?_, ?_⟩
    · simp only [ArenaC.SaveImage.process]
      unfold destroyed
      rw [List.filterMap_append]
      exact congrArg (_ ++ ·) (ArenaC.destroyed_processCalls sdk s.i h)
    · simp only [ArenaC.SaveImage.process]
      cases s.isComplete <;> simp

theorem C12_witness :
    (ArenaCpp.convertFailsSDK.Convert 201 ArenaCpp.PIXEL_FORMAT = none ∧
      ArenaCpp.beforeConvertFails.cpc = .process 201 ∧
      (ArenaCpp.SaveImages.process ArenaCpp.convertFailsSDK 201
        ArenaCpp.beforeConvertFails).cpc = .threw ∧
      destroyed (ArenaCpp.SaveImages.process ArenaCpp.convertFailsSDK 201
        ArenaCpp.beforeConvertFails).clog = [some 1200, some 200]) ∧
    (ArenaCpp.writerFailsSDK.Convert 201 ArenaCpp.PIXEL_FORMAT = some 1201 ∧
      ArenaCpp.writerFailsSDK.Save (ArenaCpp.fileName ArenaCpp.beforeWriterFails.i)
        (ArenaCpp.writerFailsSDK.GetData 1201) = false ∧
      ArenaCpp.beforeWriterFails.cpc = .process 201 ∧
      (ArenaCpp.SaveImages.process ArenaCpp.writerFailsSDK 201
        ArenaCpp.beforeWriterFails).cpc = .threw ∧
      created (ArenaCpp.SaveImages.process ArenaCpp.writerFailsSDK 201
        ArenaCpp.beforeWriterFails).clog = [1200, 1201] ∧
      destroyed (ArenaCpp.SaveImages.process ArenaCpp.writerFailsSDK 201
        ArenaCpp.beforeWriterFails).clog = [some 1200, some 200]) :=
  have h1 := C12_handles_after_consumer_failure.1 ArenaCpp.convertFailsSDK 201
    ArenaCpp.beforeConvertFails (by decide)
  have h2 := C12_handles_after_consumer_failure.2.1 ArenaCpp.writerFailsSDK 201
    ArenaCpp.beforeWriterFails 1201 (by decide) (Or.inr (by decide))
  ⟨⟨by decide, by decide, h1.1, h1.2.2.trans (by decide)⟩,
    ⟨by decide, by decide, by decide, h2.1, h2.2.1.trans (by decide),
      h2.2.2.trans (by decide)⟩⟩

/-- C13: in the C variant a failure of the writer does not end the consumer. With
`NUM_IMAGES = 4` and the writer failing on the second file, the run evaluated ends
with both workers returned, the consumer having dequeued and converted all four
copies and written three files; whether the consumer leaves its loop at the end of an
iteration depends on `isComplete` alone, not on the result of any call. In the Cpp
variant the exception ends `SaveImages`: in the run evaluated one file is written,
two copies stay in the queue, and a consumer that has thrown logs nothing more. -/
theorem C13_consumer_goes_on_after_failure :
    ((ArenaC.run ArenaC.writerFailsSDK 4 ArenaC.sequentialSchedule
        (ArenaC.init sampleNodes)).finished = true ∧
      files (ArenaC.run ArenaC.writerFailsSDK 4 ArenaC.sequentialSchedule
        (ArenaC.init sampleNodes)).clog =
        [ArenaC.fileName 0, ArenaC.fileName 2, ArenaC.fileName 3] ∧
      popped (ArenaC.run ArenaC.writerFailsSDK 4 ArenaC.sequentialSchedule
        (ArenaC.init sampleNodes)).clog = [some 200, some 201, some 202, some 203] ∧
      conversions (ArenaC.run ArenaC.writerFailsSDK 4 ArenaC.sequentialSchedule
        (ArenaC.init sampleNodes)).clog = [some 200, some 201, some 202, some 203]) ∧
    (∀ (sdk : ArenaC.SDK) (hCopyBuffer : ArenaC.acBuffer) (s : ArenaC.State),
        (ArenaC.SaveImage.process sdk hCopyBuffer s).cpc =
          if s.isComplete then .returned else .top) ∧
    ((ArenaCpp.run ArenaCpp.writerFailsSDK 4 ArenaCpp.sequentialSchedule
        (ArenaCpp.init sampleNodes)).cpc = .threw ∧
      files (ArenaCpp.run ArenaCpp.writerFailsSDK 4 ArenaCpp.sequentialSchedule
        (ArenaCpp.init sampleNodes)).clog = [ArenaCpp.fileName 0] ∧
      (ArenaCpp.run ArenaCpp.writerFailsSDK 4 ArenaCpp.sequentialSchedule
        (ArenaCpp.init sampleNodes)).m_queue = [202, 203]) ∧
    (∀ (sdk : ArenaCpp.SDK) (N : Nat) (sched : List Tick) (s : ArenaCpp.State),
        files (ArenaCpp.run sdk N sched { s with cpc := .threw }).clog = files s.clog ∧
          popped (ArenaCpp.run sdk N sched { s with cpc := .threw }).clog = popped s.clog ∧
          conversions (ArenaCpp.run sdk N sched { s with cpc := .threw }).clog =
            conversions s.clog) := by
  refine ⟨by decide, fun _ _ _ => rfl, by decide, ?_⟩
  intro sdk N sched s
  have h := (ArenaCpp.threw_final sdk N sched { s with cpc := .threw } rfl).1
  rw [h]
  exact ⟨rfl, rfl, rfl⟩

/-- C14: on a successful run the C variant's `main` returns `-1`, not `0`: every
`return` of the function gives `-1`, the last one (line 522) included, so whatever
the system, the device and the interleaving, `main` returns `-1` or is still waiting
for its workers. In the Cpp variant `main` returns `0` on a successful run: with a
system whose calls succeed it returns `0` once both workers have returned. -/
theorem C14_main_exit_code_on_success :
    (∀ (sys : ArenaC.System) (sdk : ArenaC.SDK) (N : Nat) (nodes0 : Nodes) (sched : List Tick),
        (ArenaC.main sys sdk N nodes0 sched).exit = .returned (-1) ∨
          (ArenaC.main sys sdk N nodes0 sched).exit = .waiting) ∧
    ((ArenaC.main ArenaC.sampleSystem ArenaC.sampleSDK 3 sampleNodes
        ArenaC.sampleSchedule).exit = .returned (-1) ∧
      (ArenaC.main ArenaC.sampleSystem ArenaC.sampleSDK 3 sampleNodes
        ArenaC.sampleSchedule).calls =
        [.openSystem true, .updateDevices 100 true, .getDevices (some 1), .createDevice 0 true,
          .startProducer, .startConsumer, .join, .destroyDevice true, .closeSystem true] ∧
      noFailure ArenaC.sampleRun.plog = true ∧ noFailure ArenaC.sampleRun.clog = true ∧
      files ArenaC.sampleRun.clog = [ArenaC.fileName 0, ArenaC.fileName 1, ArenaC.fileName 2]) ∧
    ((ArenaCpp.main ArenaCpp.sampleSystem ArenaCpp.sampleSDK 3 sampleNodes
        ArenaCpp.sampleSchedule).exit = .returned 0) ∧
    (∀ (sdk : ArenaCpp.SDK) (N : Nat) (nodes0 : Nodes) (sched : List Tick),
        (ArenaCpp.main ArenaCpp.sampleSystem sdk N nodes0 sched).exit =
          if (ArenaCpp.run sdk N sched (ArenaCpp.init nodes0)).cpc = .threw ∨
              (ArenaCpp.run sdk N sched (ArenaCpp.init nodes0)).ppc = .threw then .terminated
          else if (ArenaCpp.run sdk N sched (ArenaCpp.init nodes0)).ppc = .returned ∧
              (ArenaCpp.run sdk N sched (ArenaCpp.init nodes0)).cpc = .returned then .returned 0
          else .waiting) := by
  refine ⟨?_, by decide, by decide, ?_⟩
  · intro sys sdk N nodes0 sched
    unfold ArenaC.main
    split
    · exact Or.inl rfl
    · split
      · exact Or.inl rfl
      · split
        · exact Or.inl rfl
        · exact Or.inl rfl
        · split
          · exact Or.inl rfl
          · split
            · exact Or.inr rfl
            · split
              · exact Or.inl rfl
              · split
                · exact Or.inl rfl
                · split
                  · exact Or.inl rfl
                  · exact Or.inl rfl
  · intro sdk N nodes0 sched
    exact ArenaCpp.main_sampleSystem sdk N nodes0 sched

/-- C15: an error of a worker is not observed by the orchestrator. C variant:
`Threads` never returns an error code, also when the producer returned one (the
restore of `AcquisitionMode` failed) or when calls of the producer failed. Cpp
variant: an exception that leaves `AcquireImages` or `SaveImages` ends the program in
`std::terminate`; with a system whose calls succeed `main` never returns `-1`. -/
theorem C15_worker_errors_not_observed :
    (∀ s : ArenaC.State, ArenaC.Threads s = some true ∨ ArenaC.Threads s = none) ∧
    ((ArenaC.run ArenaC.restoreFailsSDK 3 ArenaC.sampleSchedule
        (ArenaC.init sampleNodes)).finished = true ∧
      ArenaC.AcquireImages.result ArenaC.restoreFailsSDK
        (ArenaC.run ArenaC.restoreFailsSDK 3 ArenaC.sampleSchedule
          (ArenaC.init sampleNodes)) = false ∧
      ArenaC.Threads (ArenaC.run ArenaC.restoreFailsSDK 3 ArenaC.sampleSchedule
        (ArenaC.init sampleNodes)) = some true) ∧
    ((ArenaC.run ArenaC.failingSDK 5 (List.replicate 12 .prod ++ List.replicate 10 .cons)
        (ArenaC.init sampleNodes)).finished = true ∧
      noFailure (ArenaC.run ArenaC.failingSDK 5
        (List.replicate 12 .prod ++ List.replicate 10 .cons)
        (ArenaC.init sampleNodes)).plog = false ∧
      ArenaC.Threads (ArenaC.run ArenaC.failingSDK 5
        (List.replicate 12 .prod ++ List.replicate 10 .cons)
        (ArenaC.init sampleNodes)) = some true) ∧
    ((ArenaCpp.run ArenaCpp.failingSDK 5 ArenaCpp.sequentialSchedule
        (ArenaCpp.init sampleNodes)).ppc = .threw ∧
      (ArenaCpp.main ArenaCpp.sampleSystem ArenaCpp.failingSDK 5 sampleNodes
        ArenaCpp.sequentialSchedule).exit = .terminated) ∧
    ((ArenaCpp.run ArenaCpp.writerFailsSDK 4 ArenaCpp.sequentialSchedule
        (ArenaCpp.init sampleNodes)).cpc = .threw ∧
      (ArenaCpp.main ArenaCpp.sampleSystem ArenaCpp.writerFailsSDK 4 sampleNodes
        ArenaCpp.sequentialSchedule).exit = .terminated) ∧
    (∀ (sdk : ArenaCpp.SDK) (N : Nat) (nodes0 : Nodes) (sched : List Tick),
        (ArenaCpp.main ArenaCpp.sampleSystem sdk N nodes0 sched).exit ≠ .returned (-1)) := by
  refine ⟨?_, by decide, by decide, by decide, by decide, ?_⟩
  · intro s
    unfold ArenaC.Threads
    split
    · exact Or.inl rfl
    · exact Or.inr rfl
  · intro sdk N nodes0 sched
    rw [ArenaCpp.main_sampleSystem]
    split
    · simp
    · split <;> simp

/-- C16 fails in both variants: after a run with no failure the producer has returned
and `StreamBufferHandlingMode`, `StreamAutoNegotiatePacketSize` and
`StreamPacketResendEnable` do not hold the values they held at the start. -/
theorem C16_counterexample :
    (ArenaCpp.sampleRun.ppc = .returned ∧ noFailure ArenaCpp.sampleRun.plog = true ∧
      sampleNodes.StreamBufferHandlingMode = "OldestFirst" ∧
      ArenaCpp.sampleRun.nodes.StreamBufferHandlingMode = "NewestOnly" ∧
      sampleNodes.StreamAutoNegotiatePacketSize = false ∧
      ArenaCpp.sampleRun.nodes.StreamAutoNegotiatePacketSize = true ∧
      sampleNodes.StreamPacketResendEnable = false ∧
      ArenaCpp.sampleRun.nodes.StreamPacketResendEnable = true) ∧
    (ArenaC.sampleRun.ppc = .returned ∧ noFailure ArenaC.sampleRun.plog = true ∧
      ArenaC.sampleRun.nodes.StreamBufferHandlingMode = "NewestOnly" ∧
      ArenaC.sampleRun.nodes.StreamAutoNegotiatePacketSize = true ∧
      ArenaC.sampleRun.nodes.StreamPacketResendEnable = true) := by
  decide

/-- C16, amended: when the producer returns after a run with no failure,
`AcquisitionMode` holds the value it held when the producer was entered, and
`StreamBufferHandlingMode`, `StreamAutoNegotiatePacketSize` and
`StreamPacketResendEnable` hold the values the producer gave them (`"NewestOnly"`,
`true`, `true`); the stream is stopped. Cpp: a producer that has returned has thrown
nowhere. C: for a producer whose log has no failed call. -/
theorem C16_only_AcquisitionMode_restored :
    (∀ (sdk : ArenaCpp.SDK) (N : Nat) (nodes0 : Nodes) (sched : List Tick),
        (ArenaCpp.run sdk N sched (ArenaCpp.init nodes0)).ppc = .returned →
        (ArenaCpp.run sdk N sched (ArenaCpp.init nodes0)).nodes =
          { AcquisitionMode := nodes0.AcquisitionMode, StreamBufferHandlingMode := "NewestOnly",
            StreamAutoNegotiatePacketSize := true, StreamPacketResendEnable := true,
            streaming := false }) ∧
    (∀ (sdk : ArenaC.SDK) (N : Nat) (nodes0 : Nodes) (sched : List Tick),
        (ArenaC.run sdk N sched (ArenaC.init nodes0)).ppc = .returned →
        noFailure (ArenaC.run sdk N sched (ArenaC.init nodes0)).plog = true →
        (ArenaC.run sdk N sched (ArenaC.init nodes0)).nodes =
          { AcquisitionMode := nodes0.AcquisitionMode, StreamBufferHandlingMode := "NewestOnly",
            StreamAutoNegotiatePacketSize := true, StreamPacketResendEnable := true,
            streaming := false }) := by
  refine ⟨?_, ?_⟩
  · intro sdk N nodes0 sched hr
    have hp := (ArenaCpp.inv_reachable sdk N nodes0 sched).prod
    simp only [ArenaCpp.ProdInv, hr] at hp
    rw [hp.2.2.2]
    rfl
  · intro sdk N nodes0 sched hr hnf
    have hp := (ArenaC.inv_reachableC sdk N nodes0 sched).prod
    simp only [ArenaC.ProdInv, hr] at hp
    rw [hp.1] at hnf
    rw [hp.2]
    exact ArenaC.restored_of_noFailure hnf

theorem C16_witness :
    (ArenaCpp.sampleRun.ppc = .returned ∧
      ArenaCpp.sampleRun.nodes =
        { AcquisitionMode := "SingleFrame", StreamBufferHandlingMode := "NewestOnly",
          StreamAutoNegotiatePacketSize := true, StreamPacketResendEnable := true,
          streaming := false }) ∧
    (ArenaC.sampleRun.ppc = .returned ∧ noFailure ArenaC.sampleRun.plog = true ∧
      ArenaC.sampleRun.nodes =
        { AcquisitionMode := "SingleFrame", StreamBufferHandlingMode := "NewestOnly",
          StreamAutoNegotiatePacketSize := true, StreamPacketResendEnable := true,
          streaming := false }) :=
  ⟨⟨by decide, C16_only_AcquisitionMode_restored.1 ArenaCpp.sampleSDK 3 sampleNodes
      ArenaCpp.sampleSchedule (by decide)⟩,
    ⟨by decide, by decide, C16_only_AcquisitionMode_restored.2 ArenaC.sampleSDK 3 sampleNodes
      ArenaC.sampleSchedule (by decide) (by decide)⟩⟩

/-- C17: in the Cpp variant, at every reachable state every handle in the shared queue
is owned by the factory: every value enqueued is the handle `Copy` returned for the
image `GetImage` returned in one of the iterations `i < NUM_IMAGES`, and every handle
dequeued and every handle in the queue was enqueued. In the C variant the producer
goes on after a failed call and enqueues `NULL`, which no `Copy` returned: every value
enqueued is what the `Copy` call of an iteration `i < NUM_IMAGES` left in
`hCopyBuffer`, the handle it returned, or `NULL` when the `GetImage` or the `Copy`
call of the iteration failed, never the buffer `GetImage` returned; every value
dequeued and every value in the queue was enqueued; no value enqueued is `NULL` when
no call of the producer has failed. In the run of three images evaluated the third
`acDeviceGetBuffer` fails: `NULL` is in the queue after the producer's sixth step, and
the consumer dequeues it. -/
theorem C17_null_enqueued_after_failure :
    (∀ (sdk : ArenaCpp.SDK) (N : Nat) (nodes0 : Nodes) (sched : List Tick),
        (∀ x, x ∈ pushed (ArenaCpp.run sdk N sched (ArenaCpp.init nodes0)).plog →
          ∃ i f c, i < N ∧ sdk.GetImage i ArenaCpp.TIMEOUT = some f ∧ sdk.Copy f = some c ∧
            x = some c) ∧
        (∀ x, x ∈ popped (ArenaCpp.run sdk N sched (ArenaCpp.init nodes0)).clog →
          x ∈ pushed (ArenaCpp.run sdk N sched (ArenaCpp.init nodes0)).plog) ∧
        (∀ c, c ∈ (ArenaCpp.run sdk N sched (ArenaCpp.init nodes0)).m_queue →
          some c ∈ pushed (ArenaCpp.run sdk N sched (ArenaCpp.init nodes0)).plog)) ∧
    (∀ (sdk : ArenaC.SDK) (N : Nat) (nodes0 : Nodes) (sched : List Tick),
        (∀ x, x ∈ pushed (ArenaC.run sdk N sched (ArenaC.init nodes0)).plog →
          ∃ i, i < N ∧ x = (sdk.acDeviceGetBuffer i ArenaC.IMAGE_TIMEOUT).bind
              sdk.acImageFactoryCopy ∧
            ∀ c, x = some c → ∃ f, sdk.acDeviceGetBuffer i ArenaC.IMAGE_TIMEOUT = some f ∧
              sdk.acImageFactoryCopy f = some c) ∧
        (∀ x, x ∈ popped (ArenaC.run sdk N sched (ArenaC.init nodes0)).clog →
          x ∈ pushed (ArenaC.run sdk N sched (ArenaC.init nodes0)).plog) ∧
        (∀ x, x ∈ (ArenaC.run sdk N sched (ArenaC.init nodes0)).head →
          x ∈ pushed (ArenaC.run sdk N sched (ArenaC.init nodes0)).plog) ∧
        (noFailure (ArenaC.run sdk N sched (ArenaC.init nodes0)).plog = true →
          ∀ x, x ∈ pushed (ArenaC.run sdk N sched (ArenaC.init nodes0)).plog →
            x.isSome = true)) ∧
    ((ArenaC.run ArenaC.failingSDK 3 (List.replicate 6 .prod)
        (ArenaC.init sampleNodes)).head = [ArenaC.NULL, some 201, some 200] ∧
      ArenaC.failingSDK.acDeviceGetBuffer 2 ArenaC.IMAGE_TIMEOUT = none ∧
      (∀ h : Handle, ArenaC.failingSDK.acImageFactoryCopy h ≠ none) ∧
      (ArenaC.run ArenaC.failingSDK 3 (List.replicate 8 .prod ++ List.replicate 6 .cons)
        (ArenaC.init sampleNodes)).finished = true ∧
      pushed (ArenaC.run ArenaC.failingSDK 3 (List.replicate 8 .prod ++ List.replicate 6 .cons)
        (ArenaC.init sampleNodes)).plog = [some 200, some 201, ArenaC.NULL] ∧
      popped (ArenaC.run ArenaC.failingSDK 3 (List.replicate 8 .prod ++ List.replicate 6 .cons)
        (ArenaC.init sampleNodes)).clog = [some 200, some 201, ArenaC.NULL]) := by
  refine ⟨?_, ?_, ?_⟩
  · intro sdk N nodes0 sched
    exact (ArenaCpp.inv_reachable sdk N nodes0 sched).factory_owned
  · intro sdk N nodes0 sched
    obtain ⟨h1, h2, h3⟩ := (ArenaC.inv_reachableC sdk N nodes0 sched).factory_ownedC
    refine ⟨fun x hx => ?_, h2, h3,
      fun hp => (ArenaC.inv_reachableC sdk N nodes0 sched).pushed_isSome hp⟩
    obtain ⟨i, hi, hxi⟩ := h1 x hx
    refine ⟨i, hi, hxi, fun c hc => ?_⟩
    rw [hxi, ArenaC.copyOf] at hc
    cases hg : sdk.acDeviceGetBuffer i ArenaC.IMAGE_TIMEOUT with
    | none => simp [hg] at hc
    | some f => exact ⟨f, rfl, by simpa [hg] using hc⟩
  · refine ⟨by decide, by decide, ?_, by decide, by decide, by decide⟩
    intro h hc
    cases hc

/-- The Cpp run of three images stopped after five steps of the producer holds the
copies `200` and `201`; the C run with the failing third `acDeviceGetBuffer` has
enqueued `NULL`; the C run without failure has enqueued handles only. -/
theorem C17_witness :
    ((ArenaCpp.run ArenaCpp.sampleSDK 3 (List.replicate 5 .prod)
        (ArenaCpp.init sampleNodes)).m_queue = [200, 201] ∧
      some 201 ∈ pushed (ArenaCpp.run ArenaCpp.sampleSDK 3 (List.replicate 5 .prod)
        (ArenaCpp.init sampleNodes)).plog ∧
      ∃ i f c, i < 3 ∧ ArenaCpp.sampleSDK.GetImage i ArenaCpp.TIMEOUT = some f ∧
        ArenaCpp.sampleSDK.Copy f = some c ∧ some 201 = some c) ∧
    (some 202 ∈ popped ArenaCpp.sampleRun.clog ∧ some 202 ∈ pushed ArenaCpp.sampleRun.plog) ∧
    ((ArenaC.run ArenaC.failingSDK 5 (List.replicate 6 .prod)
        (ArenaC.init sampleNodes)).head = [none, some 201, some 200] ∧
      none ∈ pushed (ArenaC.run ArenaC.failingSDK 5 (List.replicate 6 .prod)
        (ArenaC.init sampleNodes)).plog ∧
      ∃ i, i < 5 ∧ none = (ArenaC.failingSDK.acDeviceGetBuffer i ArenaC.IMAGE_TIMEOUT).bind
        ArenaC.failingSDK.acImageFactoryCopy) ∧
    (some 202 ∈ popped ArenaC.sampleRun.clog ∧ some 202 ∈ pushed ArenaC.sampleRun.plog) ∧
    (noFailure ArenaC.sampleRun.plog = true ∧ (some 202 : Option Handle).isSome = true) :=
  have h1 := C17_null_enqueued_after_failure.1 ArenaCpp.sampleSDK 3 sampleNodes
    (List.replicate 5 .prod)
  have h2 := C17_null_enqueued_after_failure.1 ArenaCpp.sampleSDK 3 sampleNodes
    ArenaCpp.sampleSchedule
  have h3 := C17_null_enqueued_after_failure.2.1 ArenaC.failingSDK 5 sampleNodes
    (List.replicate 6 .prod)
  have h4 := C17_null_enqueued_after_failure.2.1 ArenaC.sampleSDK 3 sampleNodes
    ArenaC.sampleSchedule
  ⟨⟨by decide, h1.2.2 201 (by decide), h1.1 (some 201) (h1.2.2 201 (by decide))⟩,
    ⟨by decide, h2.2.1 (some 202) (by decide)⟩,
    ⟨by decide, h3.2.2.1 none (by decide),
      (h3.1 none (h3.2.2.1 none (by decide))).imp fun _ h => ⟨h.1, h.2.1⟩⟩,
    ⟨by decide, h4.2.1 (some 202) (by decide)⟩,
    ⟨by decide, h4.2.2.2 (by decide) (some 202) (h4.2.1 (some 202) (by decide))⟩⟩

/-- C18 fails in the Cpp variant: when no device is found `main` returns `0`
(line 256), not a nonzero code. -/
theorem C18_counterexample :
    ArenaCpp.noDeviceSystem.GetDevices = some 0 ∧
      (ArenaCpp.main ArenaCpp.noDeviceSystem ArenaCpp.sampleSDK ArenaCpp.NUM_IMAGES sampleNodes
        ArenaCpp.sampleSchedule).exit = .returned 0 := by
  decide

/-- C18, amended: when device enumeration finds no device, `main` ends at once, with
exit status `0` in the Cpp variant and `-1` in the C variant: the calls it has made
are `OpenSystem`, `UpdateDevices` and the enumeration, no device is created, and
neither worker is started, so that the stream is not started either. -/
theorem C18_no_device_ends_main_at_once :
    (∀ (sys : ArenaCpp.System) (sdk : ArenaCpp.SDK) (N : Nat) (nodes0 : Nodes)
        (sched : List Tick),
        sys.OpenSystem = true → sys.UpdateDevices 100 = true → sys.GetDevices = some 0 →
        (ArenaCpp.main sys sdk N nodes0 sched).exit = .returned 0 ∧
          (ArenaCpp.main sys sdk N nodes0 sched).calls =
            [.openSystem true, .updateDevices 100 true, .getDevices (some 0)] ∧
          (ArenaCpp.main sys sdk N nodes0 sched).pipeline = none) ∧
    (∀ (sys : ArenaC.System) (sdk : ArenaC.SDK) (N : Nat) (nodes0 : Nodes) (sched : List Tick),
        sys.acOpenSystem = true → sys.acSystemUpdateDevices 100 = true →
        sys.acSystemGetNumDevices = some 0 →
        (ArenaC.main sys sdk N nodes0 sched).exit = .returned (-1) ∧
          (ArenaC.main sys sdk N nodes0 sched).calls =
            [.openSystem true, .updateDevices 100 true, .getDevices (some 0)] ∧
          (ArenaC.main sys sdk N nodes0 sched).pipeline = none) := by
  refine ⟨?_, ?_⟩
  · intro sys sdk N nodes0 sched h1 h2 h3
    simp [ArenaCpp.main, h1, h2, h3]
  · intro sys sdk N nodes0 sched h1 h2 h3
    simp [ArenaC.main, h1, h2, h3]

theorem C18_witness :
    (ArenaCpp.noDeviceSystem.GetDevices = some 0 ∧
      (ArenaCpp.main ArenaCpp.noDeviceSystem ArenaCpp.sampleSDK 3 sampleNodes
        ArenaCpp.sampleSchedule).exit = .returned 0 ∧
      (ArenaCpp.main ArenaCpp.noDeviceSystem ArenaCpp.sampleSDK 3 sampleNodes
        ArenaCpp.sampleSchedule).pipeline = none) ∧
    (ArenaC.noDeviceSystem.acSystemGetNumDevices = some 0 ∧
      (ArenaC.main ArenaC.noDeviceSystem ArenaC.sampleSDK 3 sampleNodes
        ArenaC.sampleSchedule).exit = .returned (-1) ∧
      (ArenaC.main ArenaC.noDeviceSystem ArenaC.sampleSDK 3 sampleNodes
        ArenaC.sampleSchedule).pipeline = none) :=
  have h1 := C18_no_device_ends_main_at_once.1 ArenaCpp.noDeviceSystem ArenaCpp.sampleSDK 3
    sampleNodes ArenaCpp.sampleSchedule (by decide) (by decide) (by decide)
  have h2 := C18_no_device_ends_main_at_once.2 ArenaC.noDeviceSystem ArenaC.sampleSDK 3
    sampleNodes ArenaC.sampleSchedule (by decide) (by decide) (by decide)
  ⟨⟨by decide, h1.1, h1.2.2⟩, ⟨by decide, h2.1, h2.2.2⟩⟩

/-- C19: in the C variant the consumer passes `NULL` to `acImageFactoryConvert` when
it is woken on an empty queue. A consumer woken with the queue empty leaves its
critical section with `hCopyBuffer = NULL`, and the rest of the iteration converts
`NULL` and increments the file index. In the run evaluated, of two images on a device
none of whose calls fails on a valid handle, the wake-up of the producer reaches the
consumer after it has saved the first image and gone to sleep: it converts `NULL`,
calls `Destroy` on `NULL` twice, and the second image is written to the file of index
2. In the Cpp variant every handle passed to `Convert` is a handle taken from the
queue. -/
theorem C19_null_handle_reaches_convert :
    (∀ (sdk : ArenaC.SDK) (s : ArenaC.State),
        (ArenaC.SaveImage sdk { s with cpc := .woken, head := [] }).cpc =
          .process ArenaC.NULL) ∧
    (∀ (sdk : ArenaC.SDK) (s : ArenaC.State),
        conversions (ArenaC.SaveImage.process sdk ArenaC.NULL s).clog =
            conversions s.clog ++ [none] ∧
          (ArenaC.SaveImage.process sdk ArenaC.NULL s).i = s.i + 1) ∧
    ((ArenaC.run ArenaC.sampleSDK 2 ArenaC.lateWakeSchedule
        (ArenaC.init sampleNodes)).finished = true ∧
      noFailure (ArenaC.run ArenaC.sampleSDK 2 ArenaC.lateWakeSchedule
        (ArenaC.init sampleNodes)).plog = true ∧
      Event.convert none ArenaC.PIXEL_FORMAT none ∈
        (ArenaC.run ArenaC.sampleSDK 2 ArenaC.lateWakeSchedule (ArenaC.init sampleNodes)).clog ∧
      conversions (ArenaC.run ArenaC.sampleSDK 2 ArenaC.lateWakeSchedule
        (ArenaC.init sampleNodes)).clog = [some 200, none, some 201] ∧
      destroyed (ArenaC.run ArenaC.sampleSDK 2 ArenaC.lateWakeSchedule
        (ArenaC.init sampleNodes)).clog =
        [some 200, some 1200, none, none, some 201, some 1201] ∧
      (ArenaC.run ArenaC.sampleSDK 2 ArenaC.lateWakeSchedule (ArenaC.init sampleNodes)).i = 3 ∧
      files (ArenaC.run ArenaC.sampleSDK 2 ArenaC.lateWakeSchedule
        (ArenaC.init sampleNodes)).clog = [ArenaC.fileName 0, ArenaC.fileName 2]) ∧
    (∀ (sdk : ArenaCpp.SDK) (N : Nat) (nodes0 : Nodes) (sched : List Tick),
        (conversions (ArenaCpp.run sdk N sched (ArenaCpp.init nodes0)).clog).all
          Option.isSome = true) := by
  refine ⟨?_, ?_, by decide, ?_⟩
  · intro sdk s
    simp [ArenaC.SaveImage, ArenaC.SaveImage.critical, ArenaC.isEmpty]
  · intro sdk s
    refine ⟨?_, rfl⟩
    simp only [ArenaC.SaveImage.process]
    unfold conversions
    rw [List.filterMap_append]
    exact congrArg (_ ++ ·) (ArenaC.conversions_processCalls sdk s.i ArenaC.NULL)
  · intro sdk N nodes0 sched
    rw [List.all_eq_true]
    exact ArenaCpp.conversions_isSome sdk N sched (ArenaCpp.init nodes0)
      (fun x hx => by simp [ArenaCpp.init, conversions] at hx)

/-- C20 fails in the C variant: in each iteration of the run the consumer destroys
the copy (`200`, `201`, `202`) first and the converted image second. -/
theorem C20_counterexample :
    disposals ArenaC.sampleRun.clog =
      [.save (some (ArenaC.fileName 0)) (some [1200]) true, .destroy (some 200) true,
        .destroy (some 1200) true,
        .save (some (ArenaC.fileName 1)) (some [1201]) true, .destroy (some 201) true,
        .destroy (some 1201) true,
        .save (some (ArenaC.fileName 2)) (some [1202]) true, .destroy (some 202) true,
        .destroy (some 1202) true] := by
  decide

/-- C20, amended: in every consumer iteration both `Destroy` calls come after that
iteration's writer call; in the Cpp variant the converted handle is destroyed first
and the copied handle second, in the C variant the copied handle is destroyed first
and the converted handle second. For an iteration: the writer and `Destroy` calls it
makes are these three, in this order (Cpp: of an iteration whose `Convert` succeeded).
For a run in which both workers have returned (C: the logs without failed call): the
writer and `Destroy` calls of the consumer are those of the images
`0 .. NUM_IMAGES-1`, image after image in this order. -/
theorem C20_destroy_order :
    (∀ (sdk : ArenaCpp.SDK) (i : Nat) (pCopy c : Handle),
        sdk.Convert pCopy ArenaCpp.PIXEL_FORMAT = some c →
        ∃ ok ok1 ok2, disposals (ArenaCpp.processCalls sdk i pCopy) =
          [.save (some (ArenaCpp.fileName i)) (some (sdk.GetData c)) ok,
            .destroy (some c) ok1, .destroy (some pCopy) ok2]) ∧
    (∀ (sdk : ArenaCpp.SDK) (N : Nat) (nodes0 : Nodes) (sched : List Tick),
        (ArenaCpp.run sdk N sched (ArenaCpp.init nodes0)).finished = true →
        disposals (ArenaCpp.run sdk N sched (ArenaCpp.init nodes0)).clog =
          (List.range N).flatMap (fun j =>
            [.save (some (ArenaCpp.fileName j))
                ((ArenaCpp.convertedOf sdk j).map sdk.GetData) true,
              .destroy (ArenaCpp.convertedOf sdk j) true,
              .destroy (ArenaCpp.copyOf sdk j) true])) ∧
    (∀ (sdk : ArenaC.SDK) (i : Nat) (hCopyBuffer : ArenaC.acBuffer),
        ∃ path data ok ok1 ok2, disposals (ArenaC.processCalls sdk i hCopyBuffer) =
          [.save path data ok, .destroy hCopyBuffer ok1,
            .destroy (hCopyBuffer.bind (sdk.acImageFactoryConvert · ArenaC.PIXEL_FORMAT))
              ok2]) ∧
    (∀ (sdk : ArenaC.SDK) (N : Nat) (nodes0 : Nodes) (sched : List Tick),
        (ArenaC.run sdk N sched (ArenaC.init nodes0)).finished = true →
        noFailure (ArenaC.run sdk N sched (ArenaC.init nodes0)).plog = true →
        noFailure (ArenaC.run sdk N sched (ArenaC.init nodes0)).clog = true →
        disposals (ArenaC.run sdk N sched (ArenaC.init nodes0)).clog =
          (List.range N).flatMap (fun j =>
            [.save (some (ArenaC.fileName j))
                ((ArenaC.convertedOf sdk j).map sdk.acImageGetData) true,
              .destroy (ArenaC.copyOf sdk j) true,
              .destroy (ArenaC.convertedOf sdk j) true])) := by
  refine ⟨?_, ?_, ?_, ?_⟩
  · intro sdk i pCopy c hcv
    refine ⟨sdk.Save (ArenaCpp.fileName i) (sdk.GetData c), sdk.Destroy c, sdk.Destroy pCopy, ?_⟩
    simp [ArenaCpp.processCalls, hcv, disposals, Event.disposal?]
  · intro sdk N nodes0 sched hf
    simp only [ArenaCpp.State.finished, Bool.and_eq_true, decide_eq_true_eq] at hf
    exact ((ArenaCpp.inv_reachable sdk N nodes0 sched).handles_finished hf.1 hf.2).2.2.2.2.1
  · intro sdk i h
    exact ArenaC.disposals_processCalls sdk i h
  · intro sdk N nodes0 sched hf hnp hnc
    simp only [ArenaC.State.finished, Bool.and_eq_true, decide_eq_true_eq] at hf
    exact ((ArenaC.inv_reachableC sdk N nodes0 sched).handles_finishedC hnp hnc hf.1
      hf.2).2.2.2.2

theorem C20_witness :
    (ArenaCpp.sampleSDK.Convert 200 ArenaCpp.PIXEL_FORMAT = some 1200 ∧
      ∃ ok ok1 ok2, disposals (ArenaCpp.processCalls ArenaCpp.sampleSDK 0 200) =
        [.save (some (ArenaCpp.fileName 0)) (some (ArenaCpp.sampleSDK.GetData 1200)) ok,
          .destroy (some 1200) ok1, .destroy (some 200) ok2]) ∧
    (ArenaCpp.sampleRun.finished = true ∧
      disposals ArenaCpp.sampleRun.clog =
        [.save (some (ArenaCpp.fileName 0)) (some [1200]) true, .destroy (some 1200) true,
          .destroy (some 200) true,
          .save (some (ArenaCpp.fileName 1)) (some [1201]) true, .destroy (some 1201) true,
          .destroy (some 201) true,
          .save (some (ArenaCpp.fileName 2)) (some [1202]) true, .destroy (some 1202) true,
          .destroy (some 202) true]) ∧
    (ArenaC.sampleRun.finished = true ∧ noFailure ArenaC.sampleRun.plog = true ∧
      noFailure ArenaC.sampleRun.clog = true ∧
      disposals ArenaC.sampleRun.clog =
        (List.range 3).flatMap (fun j =>
          [.save (some (ArenaC.fileName j))
              ((ArenaC.convertedOf ArenaC.sampleSDK j).map ArenaC.sampleSDK.acImageGetData) true,
            .destroy (ArenaC.copyOf ArenaC.sampleSDK j) true,
            .destroy (ArenaC.convertedOf ArenaC.sampleSDK j) true])) :=
  have h1 := C20_destroy_order.1 ArenaCpp.sampleSDK 0 200 1200 (by decide)
  have h2 := C20_destroy_order.2.1 ArenaCpp.sampleSDK 3 sampleNodes ArenaCpp.sampleSchedule
    (by decide)
  have h4 := C20_destroy_order.2.2.2 ArenaC.sampleSDK 3 sampleNodes ArenaC.sampleSchedule
    (by decide) (by decide) (by decide)
  ⟨⟨by decide, h1⟩, ⟨by decide, h2.trans (by decide)⟩, ⟨by decide, by decide, by decide, h4⟩⟩

/-- C21: in the producer's sequence of actions every iteration `i` fetches the image
`D_i`, copies it, enqueues the copy and only then requeues `D_i`, and the `GetImage`
of iteration `i + 1` comes after that. In every reachable state of either variant
the `GetImage`, `Copy`, enqueue and `RequeueBuffer` entries of the producer's log are
an initial part of the sequence made of these four entries for image 0, then for
image 1, and so on; once the producer has returned they are the whole sequence for
the `N` images. So in every reachable state no more images were requeued than copies
enqueued, no more copies enqueued than made, and at most one image fetched is not
yet requeued. -/
theorem C21_copy_and_enqueue_before_requeue :
    (∀ (sdk : ArenaCpp.SDK) (N : Nat) (nodes0 : Nodes) (sched : List Tick),
        transfers (ArenaCpp.run sdk N sched (ArenaCpp.init nodes0)).plog <+:
          (List.range N).flatMap (ArenaCpp.transferLog sdk)) ∧
    (∀ (sdk : ArenaCpp.SDK) (N : Nat) (nodes0 : Nodes) (sched : List Tick),
        (ArenaCpp.run sdk N sched (ArenaCpp.init nodes0)).ppc = .returned →
        transfers (ArenaCpp.run sdk N sched (ArenaCpp.init nodes0)).plog =
          (List.range N).flatMap (ArenaCpp.transferLog sdk)) ∧
    (∀ (sdk : ArenaC.SDK) (N : Nat) (nodes0 : Nodes) (sched : List Tick),
        transfers (ArenaC.run sdk N sched (ArenaC.init nodes0)).plog <+:
          (List.range N).flatMap (ArenaC.transferLog sdk)) ∧
    (∀ (sdk : ArenaC.SDK) (N : Nat) (nodes0 : Nodes) (sched : List Tick),
        (ArenaC.run sdk N sched (ArenaC.init nodes0)).ppc = .returned →
        transfers (ArenaC.run sdk N sched (ArenaC.init nodes0)).plog =
          (List.range N).flatMap (ArenaC.transferLog sdk)) ∧
    (∀ (sdk : ArenaCpp.SDK) (N : Nat) (nodes0 : Nodes) (sched : List Tick),
        OneAtATime (ArenaCpp.run sdk N sched (ArenaCpp.init nodes0)).plog) ∧
    (∀ (sdk : ArenaC.SDK) (N : Nat) (nodes0 : Nodes) (sched : List Tick),
        OneAtATime (ArenaC.run sdk N sched (ArenaC.init nodes0)).plog) := by
  refine ⟨?_, ?_, ?_, ?_, fun sdk N nodes0 sched =>
    (ArenaCpp.inv_reachable sdk N nodes0 sched).oneAtATime, fun sdk N nodes0 sched =>
    (ArenaC.inv_reachableC sdk N nodes0 sched).oneAtATimeC⟩
  · intro sdk N nodes0 sched
    rw [← ArenaCpp.transfers_producerLog sdk N nodes0]
    exact (ArenaCpp.inv_reachable sdk N nodes0 sched).plog_initial.filter _
  · intro sdk N nodes0 sched hr
    have hp := (ArenaCpp.inv_reachable sdk N nodes0 sched).prod
    simp only [ArenaCpp.ProdInv, hr] at hp
    rw [hp.2.1, ArenaCpp.transfers_producerLog]
  · intro sdk N nodes0 sched
    rw [← ArenaC.transfers_producerLogC sdk N nodes0]
    exact (ArenaC.inv_reachableC sdk N nodes0 sched).plog_initialC.filter _
  · intro sdk N nodes0 sched hr
    have hp := (ArenaC.inv_reachableC sdk N nodes0 sched).prod
    simp only [ArenaC.ProdInv, hr] at hp
    rw [hp.1, ArenaC.transfers_producerLogC]

/-- The runs of three images: each image is fetched, copied, its copy enqueued, and
the image requeued before the next one is fetched. -/
theorem C21_witness :
    (ArenaCpp.run ArenaCpp.sampleSDK 3 ArenaCpp.sampleSchedule
      (ArenaCpp.init sampleNodes)).ppc = .returned ∧
    transfers (ArenaCpp.run ArenaCpp.sampleSDK 3 ArenaCpp.sampleSchedule
      (ArenaCpp.init sampleNodes)).plog =
      [.getImage 0 2000 (some 100), .copy (some 100) (some 200), .enqueue (some 200) true,
        .requeue (some 100) true,
        .getImage 1 2000 (some 101), .copy (some 101) (some 201), .enqueue (some 201) true,
        .requeue (some 101) true,
        .getImage 2 2000 (some 102), .copy (some 102) (some 202), .enqueue (some 202) true,
        .requeue (some 102) true] ∧
    (ArenaC.run ArenaC.sampleSDK 3 ArenaC.sampleSchedule
      (ArenaC.init sampleNodes)).ppc = .returned ∧
    transfers (ArenaC.run ArenaC.sampleSDK 3 ArenaC.sampleSchedule
      (ArenaC.init sampleNodes)).plog =
      [.getImage 0 5000 (some 100), .copy (some 100) (some 200), .enqueue (some 200) true,
        .requeue (some 100) true,
        .getImage 1 5000 (some 101), .copy (some 101) (some 201), .enqueue (some 201) true,
        .requeue (some 101) true,
        .getImage 2 5000 (some 102), .copy (some 102) (some 202), .enqueue (some 202) true,
        .requeue (some 102) true] := by
  have h1 := C21_copy_and_enqueue_before_requeue.2.1 ArenaCpp.sampleSDK 3 sampleNodes
    ArenaCpp.sampleSchedule (by decide)
  have h2 := C21_copy_and_enqueue_before_requeue.2.2.2.1 ArenaC.sampleSDK 3 sampleNodes
    ArenaC.sampleSchedule (by decide)
  exact ⟨by decide, h1.trans (by decide), by decide, h2.trans (by decide)⟩

/-- C22: no device, factory or writer call is made while the queue mutex is held. In
every reachable state of either variant, what the producer has done between a lock
and the next unlock is only enqueue and set `isCompleted`, and what the consumer has
done there is only wait on the condition variable, dequeue and read `isCompleted`;
none of these entries is a call of the SDK. In the run of three images the 17 and
27 calls of the Cpp workers, and the 19 and 33 calls of the C workers, are all made
outside the critical sections. -/
theorem C22_no_call_under_lock :
    (∀ (sdk : ArenaCpp.SDK) (N : Nat) (nodes0 : Nodes) (sched : List Tick),
        (underLock false (ArenaCpp.run sdk N sched (ArenaCpp.init nodes0)).plog).all
          Event.isProducerShared = true ∧
        (underLock false (ArenaCpp.run sdk N sched (ArenaCpp.init nodes0)).clog).all
          Event.isConsumerShared = true ∧
        calls (underLock false (ArenaCpp.run sdk N sched (ArenaCpp.init nodes0)).plog) = [] ∧
        calls (underLock false (ArenaCpp.run sdk N sched (ArenaCpp.init nodes0)).clog) = []) ∧
    (∀ (sdk : ArenaC.SDK) (N : Nat) (nodes0 : Nodes) (sched : List Tick),
        (underLock false (ArenaC.run sdk N sched (ArenaC.init nodes0)).plog).all
          Event.isProducerShared = true ∧
        (underLock false (ArenaC.run sdk N sched (ArenaC.init nodes0)).clog).all
          Event.isConsumerShared = true ∧
        calls (underLock false (ArenaC.run sdk N sched (ArenaC.init nodes0)).plog) = [] ∧
        calls (underLock false (ArenaC.run sdk N sched (ArenaC.init nodes0)).clog) = []) ∧
    (underLock false ArenaCpp.sampleRun.plog =
        [.enqueue (some 200) true, .enqueue (some 201) true, .enqueue (some 202) true,
          .setCompleted] ∧
      underLock false ArenaCpp.sampleRun.clog =
        [.wait, .dequeue (some 200), .wait, .dequeue (some 201), .dequeue (some 202),
          .setLocalComplete] ∧
      (calls ArenaCpp.sampleRun.plog).length = 17 ∧
      (calls ArenaCpp.sampleRun.clog).length = 27) ∧
    (underLock false ArenaC.sampleRun.plog =
        [.enqueue (some 200) true, .enqueue (some 201) true, .enqueue (some 202) true,
          .setCompleted] ∧
      underLock false ArenaC.sampleRun.clog =
        [.dequeue (some 200), .dequeue (some 201), .dequeue (some 202), .setLocalComplete] ∧
      (calls ArenaC.sampleRun.plog).length = 19 ∧
      (calls ArenaC.sampleRun.clog).length = 33) := by
  refine ⟨?_, ?_, ?_, ?_⟩
  · intro sdk N nodes0 sched
    obtain ⟨h1, _, h3, _⟩ := ArenaCpp.lock_reachable sdk N nodes0 sched
    exact ⟨h1, h3, calls_of_producerShared h1, calls_of_consumerShared h3⟩
  · intro sdk N nodes0 sched
    obtain ⟨h1, _, h3, _⟩ := ArenaC.lock_reachableC sdk N nodes0 sched
    exact ⟨h1, h3, calls_of_producerShared h1, calls_of_consumerShared h3⟩
  · decide
  · decide

/-- C23: once `isCompleted` is true no further enqueue happens. In every reachable
state of either variant in which `isCompleted` is true, every step of the producer,
of the consumer or of a spurious wake-up leaves the queue as long as it was or
shorter; and in every state reached later the queue is no longer than it was and
the handles enqueued are the same. -/
theorem C23_no_enqueue_after_completion :
    (∀ (sdk : ArenaCpp.SDK) (N : Nat) (nodes0 : Nodes) (sched : List Tick) (t : Tick),
        (ArenaCpp.run sdk N sched (ArenaCpp.init nodes0)).isCompleted = true →
        (ArenaCpp.step sdk N t (ArenaCpp.run sdk N sched (ArenaCpp.init nodes0))).m_queue.length ≤
          (ArenaCpp.run sdk N sched (ArenaCpp.init nodes0)).m_queue.length) ∧
    (∀ (sdk : ArenaCpp.SDK) (N : Nat) (nodes0 : Nodes) (sched later : List Tick),
        (ArenaCpp.run sdk N sched (ArenaCpp.init nodes0)).isCompleted = true →
        (ArenaCpp.run sdk N (sched ++ later) (ArenaCpp.init nodes0)).m_queue.length ≤
          (ArenaCpp.run sdk N sched (ArenaCpp.init nodes0)).m_queue.length ∧
        pushed (ArenaCpp.run sdk N (sched ++ later) (ArenaCpp.init nodes0)).plog =
          pushed (ArenaCpp.run sdk N sched (ArenaCpp.init nodes0)).plog) ∧
    (∀ (sdk : ArenaC.SDK) (N : Nat) (nodes0 : Nodes) (sched : List Tick) (t : Tick),
        (ArenaC.run sdk N sched (ArenaC.init nodes0)).isCompleted = true →
        (ArenaC.step sdk N t (ArenaC.run sdk N sched (ArenaC.init nodes0))).head.length ≤
          (ArenaC.run sdk N sched (ArenaC.init nodes0)).head.length) ∧
    (∀ (sdk : ArenaC.SDK) (N : Nat) (nodes0 : Nodes) (sched later : List Tick),
        (ArenaC.run sdk N sched (ArenaC.init nodes0)).isCompleted = true →
        (ArenaC.run sdk N (sched ++ later) (ArenaC.init nodes0)).head.length ≤
          (ArenaC.run sdk N sched (ArenaC.init nodes0)).head.length ∧
        pushed (ArenaC.run sdk N (sched ++ later) (ArenaC.init nodes0)).plog =
          pushed (ArenaC.run sdk N sched (ArenaC.init nodes0)).plog) := by
  refine ⟨?_, ?_, ?_, ?_⟩
  · intro sdk N nodes0 sched t hc
    exact (ArenaCpp.inv_reachable sdk N nodes0 sched).queue_le hc t
  · intro sdk N nodes0 sched later hc
    exact ArenaCpp.completed_frozen sdk N nodes0 sched hc later
  · intro sdk N nodes0 sched t hc
    exact (ArenaC.inv_reachableC sdk N nodes0 sched).head_le hc t
  · intro sdk N nodes0 sched later hc
    exact ArenaC.completed_frozenC sdk N nodes0 sched hc later

/-- Runs of two images: after the producer's fourth step both copies are queued and
`isCompleted` is true; whatever the producer does then, the queue does not grow, and
the consumer's steps empty it. -/
theorem C23_witness :
    (ArenaCpp.run ArenaCpp.sampleSDK 2 [.prod, .prod, .prod, .prod]
      (ArenaCpp.init sampleNodes)).isCompleted = true ∧
    (ArenaCpp.run ArenaCpp.sampleSDK 2 [.prod, .prod, .prod, .prod]
      (ArenaCpp.init sampleNodes)).m_queue = [200, 201] ∧
    (ArenaCpp.step ArenaCpp.sampleSDK 2 .prod
      (ArenaCpp.run ArenaCpp.sampleSDK 2 [.prod, .prod, .prod, .prod]
        (ArenaCpp.init sampleNodes))).m_queue.length ≤ 2 ∧
    (ArenaCpp.run ArenaCpp.sampleSDK 2
      ([.prod, .prod, .prod, .prod] ++ [.prod, .cons, .prod, .cons, .cons])
      (ArenaCpp.init sampleNodes)).m_queue.length ≤ 2 ∧
    (ArenaCpp.run ArenaCpp.sampleSDK 2
      ([.prod, .prod, .prod, .prod] ++ [.prod, .cons, .prod, .cons, .cons])
      (ArenaCpp.init sampleNodes)).m_queue = [] ∧
    (ArenaC.run ArenaC.sampleSDK 2 [.prod, .prod, .prod, .prod]
      (ArenaC.init sampleNodes)).isCompleted = true ∧
    (ArenaC.step ArenaC.sampleSDK 2 .cons
      (ArenaC.run ArenaC.sampleSDK 2 [.prod, .prod, .prod, .prod]
        (ArenaC.init sampleNodes))).head.length ≤ 2 ∧
    (ArenaC.run ArenaC.sampleSDK 2
      ([.prod, .prod, .prod, .prod] ++ [.prod, .cons, .prod, .cons, .cons])
      (ArenaC.init sampleNodes)).head.length ≤ 2 := by
  have h1 := C23_no_enqueue_after_completion.1 ArenaCpp.sampleSDK 2 sampleNodes
    [.prod, .prod, .prod, .prod] .prod (by decide)
  have h2 := C23_no_enqueue_after_completion.2.1 ArenaCpp.sampleSDK 2 sampleNodes
    [.prod, .prod, .prod, .prod] [.prod, .cons, .prod, .cons, .cons] (by decide)
  have h3 := C23_no_enqueue_after_completion.2.2.1 ArenaC.sampleSDK 2 sampleNodes
    [.prod, .prod, .prod, .prod] .cons (by decide)
  have h4 := C23_no_enqueue_after_completion.2.2.2 ArenaC.sampleSDK 2 sampleNodes
    [.prod, .prod, .prod, .prod] [.prod, .cons, .prod, .cons, .cons] (by decide)
  have e1 : (ArenaCpp.run ArenaCpp.sampleSDK 2 [.prod, .prod, .prod, .prod]
      (ArenaCpp.init sampleNodes)).m_queue.length = 2 := by decide
  have e2 : (ArenaC.run ArenaC.sampleSDK 2 [.prod, .prod, .prod, .prod]
      (ArenaC.init sampleNodes)).head.length = 2 := by decide
  exact ⟨by decide, by decide, e1 ▸ h1, e1 ▸ h2.1, by decide, by decide, e2 ▸ h3, e2 ▸ h4.1⟩

/-- C24 fails in the Cpp variant: when the third `GetImage` times out the
producer ends by the exception, and `AcquisitionMode`, which was `SingleFrame` when
the producer was entered, is `Continuous` then and stays so. -/
theorem C24_counterexample :
    (ArenaCpp.run ArenaCpp.failingSDK 3 [.prod, .prod, .prod, .prod, .prod, .prod]
      (ArenaCpp.init sampleNodes)).ppc = .threw ∧
    sampleNodes.AcquisitionMode = "SingleFrame" ∧
    (ArenaCpp.run ArenaCpp.failingSDK 3 [.prod, .prod, .prod, .prod, .prod, .prod]
      (ArenaCpp.init sampleNodes)).nodes.AcquisitionMode = "Continuous" ∧
    (ArenaCpp.run ArenaCpp.failingSDK 3
      [.prod, .prod, .prod, .prod, .prod, .prod, .cons, .cons, .prod, .cons, .cons, .prod]
      (ArenaCpp.init sampleNodes)).nodes.AcquisitionMode = "Continuous" := by
  decide

/-- C24, amended: the producer restores `AcquisitionMode` when it reaches the end of
its function. In the Cpp variant a producer that has returned leaves
`AcquisitionMode` at the value it held on entry; a failure inside the acquisition
loop ends the producer by an exception, nothing is restored, and `AcquisitionMode`
stays `Continuous` in every later state. In the C variant a failure inside the loop
does not end the producer: from every reachable state its own steps take it to its
end, and there `AcquisitionMode` holds the value it held on entry, provided the
snapshot was read and the last write succeeds. -/
theorem C24_restore_at_end_of_function :
    (∀ (sdk : ArenaCpp.SDK) (N : Nat) (nodes0 : Nodes) (sched : List Tick),
        (ArenaCpp.run sdk N sched (ArenaCpp.init nodes0)).ppc = .returned →
        (ArenaCpp.run sdk N sched (ArenaCpp.init nodes0)).nodes.AcquisitionMode =
          nodes0.AcquisitionMode) ∧
    (∀ (sdk : ArenaCpp.SDK) (N : Nat) (nodes0 : Nodes) (sched later : List Tick),
        ((∃ i, (ArenaCpp.run sdk N sched (ArenaCpp.init nodes0)).ppc = .acquire i) ∨
          (∃ i pImage,
            (ArenaCpp.run sdk N sched (ArenaCpp.init nodes0)).ppc = .release i pImage)) →
        (ArenaCpp.step sdk N .prod
          (ArenaCpp.run sdk N sched (ArenaCpp.init nodes0))).ppc = .threw →
        (ArenaCpp.run sdk N (sched ++ .prod :: later) (ArenaCpp.init nodes0)).ppc = .threw ∧
        (ArenaCpp.run sdk N (sched ++ .prod :: later)
          (ArenaCpp.init nodes0)).nodes.AcquisitionMode = "Continuous") ∧
    (∀ (sdk : ArenaC.SDK) (N : Nat) (nodes0 : Nodes) (sched : List Tick),
        ∃ n, (ArenaC.run sdk N (sched ++ List.replicate n .prod)
          (ArenaC.init nodes0)).ppc = .returned) ∧
    (∀ (sdk : ArenaC.SDK) (N : Nat) (nodes0 : Nodes) (sched : List Tick) (v : String),
        (ArenaC.run sdk N sched (ArenaC.init nodes0)).ppc = .returned →
        ArenaC.GetNodeValue sdk sdk.acDeviceGetNodeMap .AcquisitionMode
          nodes0.AcquisitionMode = some v →
        ArenaC.SetNodeValue sdk sdk.acDeviceGetNodeMap .AcquisitionMode
          (ArenaC.snapshot sdk nodes0) = true →
        (ArenaC.run sdk N sched (ArenaC.init nodes0)).nodes.AcquisitionMode =
          nodes0.AcquisitionMode) := by
  refine ⟨?_, ?_, ?_, ?_⟩
  · intro sdk N nodes0 sched hr
    have hp := (ArenaCpp.inv_reachable sdk N nodes0 sched).prod
    simp only [ArenaCpp.ProdInv, hr] at hp
    rw [hp.2.2.2]
    rfl
  · intro sdk N nodes0 sched later hl ht
    have hinv := ArenaCpp.inv_reachable sdk N nodes0 sched
    have hrun : ArenaCpp.run sdk N (sched ++ .prod :: later) (ArenaCpp.init nodes0) =
        ArenaCpp.run sdk N later
          (ArenaCpp.step sdk N .prod (ArenaCpp.run sdk N sched (ArenaCpp.init nodes0))) := by
      rw [ArenaCpp.run_append]; rfl
    obtain ⟨a, b⟩ := ArenaCpp.producer_threw_final sdk N later _ ht
    rw [hrun]
    refine ⟨a, ?_⟩
    rw [b]
    have hn : (ArenaCpp.step sdk N .prod
        (ArenaCpp.run sdk N sched (ArenaCpp.init nodes0))).nodes =
        (ArenaCpp.run sdk N sched (ArenaCpp.init nodes0)).nodes :=
      ArenaCpp.loop_nodes sdk N _ hl
    rw [hn, hinv.loop_configured hl]
    rfl
  · intro sdk N nodes0 sched
    have hinv := ArenaC.inv_reachableC sdk N nodes0 sched
    refine ⟨(ArenaC.run sdk N sched (ArenaC.init nodes0)).ppc.remaining N, ?_⟩
    rw [ArenaC.run_appendC]
    apply ArenaC.producer_returnsC sdk N _ _ rfl
    · intro i b hb
      have hp := hinv.prod
      simp only [ArenaC.ProdInv, hb] at hp
      exact hp.1
    · intro i hb
      have hp := hinv.prod
      simp only [ArenaC.ProdInv, hb] at hp
      exact hp.1
  · intro sdk N nodes0 sched v hr hg hs
    have hp := (ArenaC.inv_reachableC sdk N nodes0 sched).prod
    simp only [ArenaC.ProdInv, hr] at hp
    rw [hp.2]
    exact ArenaC.restored_AcquisitionMode hg hs

/-- The run of three images returns with `AcquisitionMode` back at `SingleFrame` (Cpp);
with the third `GetImage` timing out the Cpp producer, in its loop after five steps,
throws at the sixth and leaves `Continuous`; the C producer goes on after the same
failure, returns at its eighth step and leaves `SingleFrame`. -/
theorem C24_witness :
    (ArenaCpp.run ArenaCpp.sampleSDK 3 ArenaCpp.sampleSchedule
      (ArenaCpp.init sampleNodes)).nodes.AcquisitionMode = "SingleFrame" ∧
    ((ArenaCpp.run ArenaCpp.failingSDK 3 ([.prod, .prod, .prod, .prod, .prod] ++
        .prod :: [.cons, .prod]) (ArenaCpp.init sampleNodes)).ppc = .threw ∧
      (ArenaCpp.run ArenaCpp.failingSDK 3 ([.prod, .prod, .prod, .prod, .prod] ++
        .prod :: [.cons, .prod]) (ArenaCpp.init sampleNodes)).nodes.AcquisitionMode =
        "Continuous") ∧
    noFailure (ArenaC.run ArenaC.failingSDK 3
      [.prod, .prod, .prod, .prod, .prod, .prod, .prod, .prod]
      (ArenaC.init sampleNodes)).plog = false ∧
    (ArenaC.run ArenaC.failingSDK 3 [.prod, .prod, .prod, .prod, .prod, .prod, .prod, .prod]
      (ArenaC.init sampleNodes)).nodes.AcquisitionMode = "SingleFrame" := by
  have h1 := C24_restore_at_end_of_function.1 ArenaCpp.sampleSDK 3 sampleNodes
    ArenaCpp.sampleSchedule (by decide)
  have h2 := C24_restore_at_end_of_function.2.1 ArenaCpp.failingSDK 3 sampleNodes
    [.prod, .prod, .prod, .prod, .prod] [.cons, .prod] (Or.inl ⟨2, by decide⟩) (by decide)
  have h4 := C24_restore_at_end_of_function.2.2.2 ArenaC.failingSDK 3 sampleNodes
    [.prod, .prod, .prod, .prod, .prod, .prod, .prod, .prod] "SingleFrame"
    (by decide) (by decide) (by decide)
  exact ⟨h1.trans (by decide), h2, by decide, h4.trans (by decide)⟩

/-- C27: in the Cpp variant the consumer never calls `front()` or `pop()` on an empty
queue. Whenever the consumer enters or re-enters its critical section, in any state,
it either finds the queue empty, then blocks (again, after a spurious wake-up) and
touches neither the queue nor its log of dequeues, or it finds an element `pCopy` at
the head of the queue, takes it and leaves the rest. In every reachable state the
consumer has dequeued no more handles than the producer has enqueued, and the queue
holds the difference. -/
theorem C27_front_only_on_nonempty_queue :
    (∀ (sdk : ArenaCpp.SDK) (s : ArenaCpp.State),
        s.cpc = .lockWait ∨ s.cpc = .woken →
        (s.m_queue = [] ∧ (ArenaCpp.SaveImages sdk s).cpc = .waiting ∧
          (ArenaCpp.SaveImages sdk s).m_queue = [] ∧
          popped (ArenaCpp.SaveImages sdk s).clog = popped s.clog) ∨
        (∃ pCopy rest, s.m_queue = pCopy :: rest ∧
          (ArenaCpp.SaveImages sdk s).cpc = .process pCopy ∧
          (ArenaCpp.SaveImages sdk s).m_queue = rest ∧
          popped (ArenaCpp.SaveImages sdk s).clog = popped s.clog ++ [some pCopy])) ∧
    (∀ (sdk : ArenaCpp.SDK) (N : Nat) (nodes0 : Nodes) (sched : List Tick),
        (popped (ArenaCpp.run sdk N sched (ArenaCpp.init nodes0)).clog).length ≤
          (pushed (ArenaCpp.run sdk N sched (ArenaCpp.init nodes0)).plog).length ∧
        (ArenaCpp.run sdk N sched (ArenaCpp.init nodes0)).m_queue.length =
          (pushed (ArenaCpp.run sdk N sched (ArenaCpp.init nodes0)).plog).length -
            (popped (ArenaCpp.run sdk N sched (ArenaCpp.init nodes0)).clog).length) := by
  refine ⟨?_, ?_⟩
  · intro sdk s hc
    cases hq : s.m_queue with
    | nil =>
      left
      rcases hc with hc | hc
      · simp [ArenaCpp.SaveImages, hc, hq, popped_append, popped]
        exact ⟨rfl, rfl⟩
      · simp [ArenaCpp.SaveImages, hc, hq, popped_append, popped]
        rfl
    | cons pCopy rest =>
      right
      refine ⟨pCopy, rest, rfl, ?_⟩
      rcases hc with hc | hc <;>
        simp [ArenaCpp.SaveImages, ArenaCpp.SaveImages.critical, hc, hq, popped,
          List.filterMap_append, Event.popped?] <;>
        (intro a _ _ ha; subst ha; rfl)
  · intro sdk N nodes0 sched
    have hinv := ArenaCpp.inv_reachable sdk N nodes0 sched
    refine ⟨hinv.popped_le, ?_⟩
    have h := congrArg List.length hinv.queue
    simpa using h

/-- A run of two images with a spurious wake-up: the consumer, woken on an empty
queue, blocks again; woken after the first enqueue, it takes the copy `200` from the
head of the queue. -/
theorem C27_witness :
    ((ArenaCpp.run ArenaCpp.sampleSDK 2 [.cons, .spurious]
        (ArenaCpp.init sampleNodes)).cpc = .woken ∧
      (ArenaCpp.run ArenaCpp.sampleSDK 2 [.cons, .spurious]
        (ArenaCpp.init sampleNodes)).m_queue = [] ∧
      (ArenaCpp.SaveImages ArenaCpp.sampleSDK
        (ArenaCpp.run ArenaCpp.sampleSDK 2 [.cons, .spurious]
          (ArenaCpp.init sampleNodes))).cpc = .waiting) ∧
    ((ArenaCpp.run ArenaCpp.sampleSDK 2 [.cons, .prod, .prod, .prod]
        (ArenaCpp.init sampleNodes)).cpc = .woken ∧
      (ArenaCpp.run ArenaCpp.sampleSDK 2 [.cons, .prod, .prod, .prod]
        (ArenaCpp.init sampleNodes)).m_queue = [200] ∧
      (ArenaCpp.SaveImages ArenaCpp.sampleSDK
        (ArenaCpp.run ArenaCpp.sampleSDK 2 [.cons, .prod, .prod, .prod]
          (ArenaCpp.init sampleNodes))).cpc = .process 200) ∧
    ((ArenaCpp.run ArenaCpp.sampleSDK 2 [.cons, .spurious]
        (ArenaCpp.init sampleNodes)).m_queue = [] ∧
      (ArenaCpp.SaveImages ArenaCpp.sampleSDK
        (ArenaCpp.run ArenaCpp.sampleSDK 2 [.cons, .spurious]
          (ArenaCpp.init sampleNodes))).cpc = .waiting ∧
      (ArenaCpp.SaveImages ArenaCpp.sampleSDK
        (ArenaCpp.run ArenaCpp.sampleSDK 2 [.cons, .spurious]
          (ArenaCpp.init sampleNodes))).m_queue = [] ∧
      popped (ArenaCpp.SaveImages ArenaCpp.sampleSDK
        (ArenaCpp.run ArenaCpp.sampleSDK 2 [.cons, .spurious]
          (ArenaCpp.init sampleNodes))).clog =
        popped (ArenaCpp.run ArenaCpp.sampleSDK 2 [.cons, .spurious]
          (ArenaCpp.init sampleNodes)).clog) := by
  have h1 := C27_front_only_on_nonempty_queue.1 ArenaCpp.sampleSDK
    (ArenaCpp.run ArenaCpp.sampleSDK 2 [.cons, .spurious] (ArenaCpp.init sampleNodes))
    (Or.inr (by decide))
  have hq : ¬ ∃ pCopy rest,
      (ArenaCpp.run ArenaCpp.sampleSDK 2 [.cons, .spurious]
        (ArenaCpp.init sampleNodes)).m_queue = pCopy :: rest ∧
      (ArenaCpp.SaveImages ArenaCpp.sampleSDK
        (ArenaCpp.run ArenaCpp.sampleSDK 2 [.cons, .spurious]
          (ArenaCpp.init sampleNodes))).cpc = .process pCopy ∧
      (ArenaCpp.SaveImages ArenaCpp.sampleSDK
        (ArenaCpp.run ArenaCpp.sampleSDK 2 [.cons, .spurious]
          (ArenaCpp.init sampleNodes))).m_queue = rest ∧
      popped (ArenaCpp.SaveImages ArenaCpp.sampleSDK
        (ArenaCpp.run ArenaCpp.sampleSDK 2 [.cons, .spurious]
          (ArenaCpp.init sampleNodes))).clog =
        popped (ArenaCpp.run ArenaCpp.sampleSDK 2 [.cons, .spurious]
          (ArenaCpp.init sampleNodes)).clog ++ [some pCopy] := by
    rintro ⟨p, rest, h, -⟩
    have h0 : (ArenaCpp.run ArenaCpp.sampleSDK 2 [.cons, .spurious]
        (ArenaCpp.init sampleNodes)).m_queue = [] := by decide
    rw [h0] at h
    cases h
  exact ⟨⟨by decide, by decide, by decide⟩, ⟨by decide, by decide, by decide⟩,
    h1.resolve_right hq⟩

/-- C28 fails when `NULL` is a value of the queue: after `enqueue` of
`NULL` and one `dequeue` the queue is empty, one `enqueue` has succeeded, and no
`dequeue` has returned a value other than `NULL`. -/
theorem C28_counterexample :
    ArenaC.isEmpty
      (ArenaC.queueRun [] [.enqueue ArenaC.NULL true, .dequeue]).1 = true ∧
    ArenaC.successfulEnqueues [.enqueue ArenaC.NULL true, .dequeue] = 1 ∧
    ArenaC.nonNullDequeues
      (ArenaC.queueRun [] [.enqueue ArenaC.NULL true, .dequeue]).2 = 0 ∧
    ¬ (ArenaC.isEmpty
        (ArenaC.queueRun [] [.enqueue ArenaC.NULL true, .dequeue]).1 = true ↔
      ArenaC.successfulEnqueues [.enqueue ArenaC.NULL true, .dequeue] =
        ArenaC.nonNullDequeues
          (ArenaC.queueRun [] [.enqueue ArenaC.NULL true, .dequeue]).2) := by
  decide

/-- C28, amended: in the C variant `dequeue` on an empty queue returns `NULL` and
leaves the queue empty; `dequeue` on a queue of `n >= 1` items returns the oldest
item and leaves the other `n - 1` items in their order; after any sequence of calls
on the empty queue `isEmpty` is true exactly when the number of successful
`enqueue` calls equals the number of `dequeue` calls made on a non-empty queue, which
is the number of `dequeue` calls that returned a value other than `NULL` when no
`NULL` was enqueued. -/
theorem C28_queue_contract :
    (ArenaC.dequeue [] = (ArenaC.NULL, []) ∧ ArenaC.isEmpty (ArenaC.dequeue []).2 = true) ∧
    (∀ (x : ArenaC.acBuffer) (xs : List ArenaC.acBuffer),
        ArenaC.dequeue (ArenaC.enqueueAll [] (x :: xs)) = (x, ArenaC.enqueueAll [] xs)) ∧
    (∀ (q : ArenaC.node_t) (x : ArenaC.acBuffer), ArenaC.dequeue (q ++ [x]) = (x, q)) ∧
    (∀ cs : List ArenaC.QueueCall,
        ArenaC.isEmpty (ArenaC.queueRun [] cs).1 = true ↔
          ArenaC.successfulEnqueues cs = ArenaC.removals [] cs) ∧
    (∀ cs : List ArenaC.QueueCall, ArenaC.noNullEnqueued cs = true →
        (ArenaC.isEmpty (ArenaC.queueRun [] cs).1 = true ↔
          ArenaC.successfulEnqueues cs = ArenaC.nonNullDequeues (ArenaC.queueRun [] cs).2)) := by
  have hcount : ∀ cs : List ArenaC.QueueCall,
      ArenaC.isEmpty (ArenaC.queueRun [] cs).1 = true ↔
        ArenaC.successfulEnqueues cs = ArenaC.removals [] cs := by
    intro cs
    have h := ArenaC.queueRun_count cs []
    rw [ArenaC.isEmpty_iff, ← List.length_eq_zero]
    simp only [List.length_nil, Nat.zero_add] at h
    omega
  refine ⟨⟨rfl, rfl⟩, ?_, ArenaC.dequeue_append_singleton, hcount, ?_⟩
  · intro x xs
    rw [ArenaC.enqueueAll_eq, ArenaC.enqueueAll_eq, List.reverse_cons, List.append_nil,
      List.append_nil]
    exact ArenaC.dequeue_append_singleton _ _
  · intro cs hc
    rw [ArenaC.queueRun_nonNull cs [] (by simp) hc]
    exact hcount cs

/-- Two values enqueued, the second without memory for its node, and two `dequeue`
calls: the queue is empty, one `enqueue` succeeded and one `dequeue` returned a
value. -/
theorem C28_witness :
    ArenaC.noNullEnqueued
      [.enqueue (some 1) true, .enqueue (some 2) false, .dequeue, .dequeue] = true ∧
    (ArenaC.queueRun []
      [.enqueue (some 1) true, .enqueue (some 2) false, .dequeue, .dequeue]).2 =
        [some 1, ArenaC.NULL] ∧
    (ArenaC.isEmpty (ArenaC.queueRun []
        [.enqueue (some 1) true, .enqueue (some 2) false, .dequeue, .dequeue]).1 = true ↔
      ArenaC.successfulEnqueues
        [.enqueue (some 1) true, .enqueue (some 2) false, .dequeue, .dequeue] =
      ArenaC.nonNullDequeues (ArenaC.queueRun []
        [.enqueue (some 1) true, .enqueue (some 2) false, .dequeue, .dequeue]).2) ∧
    ArenaC.isEmpty (ArenaC.queueRun []
        [.enqueue (some 1) true, .enqueue (some 2) false, .dequeue, .dequeue]).1 = true :=
  ⟨by decide, by decide,
    C28_queue_contract.2.2.2.2
      [.enqueue (some 1) true, .enqueue (some 2) false, .dequeue, .dequeue] (by decide),
    by decide⟩

/-- C29: whenever `generateNewIp` (C variant) returns a value `newIp`, and whenever
the `devNet != ifNet` branch of `checkConnection` (Cpp variant) does, whatever
`rand()` gave: `newIp` is not zero, is not `ifIp`, lies in the subnet of the interface
(`newIp & ifSubnet = ifIp & ifSubnet`), has a host part `newIp & ~ifSubnet` that is
not zero, and is a 32-bit word. Both functions return as soon as `rand()` has given
an accepted value after its first call; with the subnet mask of all ones no value
is accepted and the function does not return. -/
theorem C29_new_ip_is_usable :
    (∀ (ifSubnet ifIp : Nat) (rand : Nat → Nat) (fuel newIp : Nat),
        ifSubnet < 2 ^ 32 → ifIp < 2 ^ 32 →
        IpConfigAuto.generateNewIp ifSubnet ifIp rand fuel = some newIp →
        newIp ≠ 0 ∧ newIp ≠ ifIp ∧ newIp &&& ifSubnet = ifIp &&& ifSubnet ∧
          newIp &&& IpConfigAuto.not32 ifSubnet ≠ 0 ∧ newIp < 2 ^ 32) ∧
    (∀ (ifSubnet ifIp ifNet devNet : Nat) (rand : Nat → Nat) (fuel newIp : Nat),
        ifSubnet < 2 ^ 32 → ifIp < 2 ^ 32 → devNet ≠ ifNet →
        IpConfigAuto.checkConnection ifSubnet ifIp ifNet devNet rand fuel = some newIp →
        newIp ≠ 0 ∧ newIp ≠ ifIp ∧ newIp &&& ifSubnet = ifIp &&& ifSubnet ∧
          newIp &&& IpConfigAuto.not32 ifSubnet ≠ 0 ∧ newIp < 2 ^ 32) ∧
    (∀ (ifSubnet ifIp ifNet devNet : Nat) (rand : Nat → Nat) (k : Nat),
        IpConfigAuto.Accepted ifSubnet ifIp (rand (k + 1)) →
        (IpConfigAuto.generateNewIp ifSubnet ifIp rand (k + 3)).isSome = true ∧
        (IpConfigAuto.checkConnection ifSubnet ifIp ifNet devNet rand (k + 3)).isSome = true) ∧
    (∀ (ifIp : Nat) (rand : Nat → Nat) (fuel : Nat),
        IpConfigAuto.generateNewIp 0xFFFFFFFF ifIp rand fuel = none) := by
  refine ⟨?_, ?_, ?_, ?_⟩
  · intro ifSubnet ifIp rand fuel newIp hs _ h
    exact IpConfigAuto.newIpLoop_usable ifSubnet ifIp rand fuel newIp hs h
  · intro ifSubnet ifIp ifNet devNet rand fuel newIp hs _ hne h
    unfold IpConfigAuto.checkConnection at h
    rw [if_pos hne] at h
    exact IpConfigAuto.newIpLoop_usable ifSubnet ifIp rand fuel newIp hs h
  · intro ifSubnet ifIp ifNet devNet rand k ha
    have h1 : 1 + k = k + 1 := by omega
    have hl := IpConfigAuto.newIpLoop_returns ifSubnet ifIp rand k (k + 3) 1
      ((rand 0 % IpConfigAuto.UINT32) &&& IpConfigAuto.not32 ifSubnet) 0 (h1 ▸ ha) (by omega)
    refine ⟨hl, ?_⟩
    unfold IpConfigAuto.checkConnection
    split
    · exact hl
    · rfl
  · intro ifIp rand fuel
    unfold IpConfigAuto.generateNewIp
    have h0 : (rand 0 % IpConfigAuto.UINT32) &&& IpConfigAuto.not32 0xFFFFFFFF = 0 := by
      have : IpConfigAuto.not32 0xFFFFFFFF = 0 := by decide
      rw [this]; exact Nat.and_zero _
    rw [h0]
    exact IpConfigAuto.newIpLoop_full_mask ifIp rand fuel 1 0

/-- The mask 255.255.255.0, the interface 192.168.0.1, a device on 192.168.1.0 and
`rand()` giving `5` every time: the address returned is 192.168.0.5. -/
theorem C29_witness :
    IpConfigAuto.generateNewIp 0xFFFFFF00 0xC0A80001 (fun _ => 5) 3 = some 0xC0A80005 ∧
    IpConfigAuto.checkConnection 0xFFFFFF00 0xC0A80001 0xC0A80000 0xC0A80100 (fun _ => 5) 3 =
      some 0xC0A80005 ∧
    (0xC0A80005 ≠ 0 ∧ 0xC0A80005 ≠ 0xC0A80001 ∧
      0xC0A80005 &&& 0xFFFFFF00 = 0xC0A80001 &&& 0xFFFFFF00 ∧
      0xC0A80005 &&& IpConfigAuto.not32 0xFFFFFF00 ≠ 0 ∧ 0xC0A80005 < 2 ^ 32) ∧
    (IpConfigAuto.generateNewIp 0xFFFFFF00 0xC0A80001 (fun _ => 5) 3).isSome = true := by
  have hg : IpConfigAuto.generateNewIp 0xFFFFFF00 0xC0A80001 (fun _ => 5) 3 =
      some 0xC0A80005 := by decide
  have hc : IpConfigAuto.checkConnection 0xFFFFFF00 0xC0A80001 0xC0A80000 0xC0A80100
      (fun _ => 5) 3 = some 0xC0A80005 := by decide
  have h1 := C29_new_ip_is_usable.1 0xFFFFFF00 0xC0A80001 (fun _ => 5) 3 0xC0A80005
    (by decide) (by decide) hg
  have h2 := C29_new_ip_is_usable.2.1 0xFFFFFF00 0xC0A80001 0xC0A80000 0xC0A80100
    (fun _ => 5) 3 0xC0A80005 (by decide) (by decide) (by decide) hc
  have h3 := C29_new_ip_is_usable.2.2.1 0xFFFFFF00 0xC0A80001 0xC0A80000 0xC0A80100
    (fun _ => 5) 0 (by decide)
  exact ⟨hg, hc, h1, h3.1⟩

/-- C30: the integer and the boolean view of `CValuePolyContainer` do not agree.
`GetBool()` of an integer container holding `v` is `v == 0` (line 113): it is true if
and only if `v` is zero. So for every boolean `b` the integer container built from the
value `GetInt()` gives for a boolean container holding `b` returns `!b` from
`GetBool()`: `true` gives `1`, which gives `false`. -/
theorem C30_int_view_negates_bool_view :
    (∀ (D : Type) (cv : GenApi.Conversions D) (name : String) (v : Int) (d : D) (b0 : Bool),
        (GenApi.CValuePolyContainer.GetBool cv
          (GenApi.CValuePolyContainer.ofInt name v d b0)).1 = decide (v = 0)) ∧
    (∀ (D : Type) (cv : GenApi.Conversions D) (name : String) (b : Bool) (i0 : Int) (d : D),
        (GenApi.CValuePolyContainer.GetInt cv
          (GenApi.CValuePolyContainer.ofBool name b i0 d)).1 = if b then 1 else 0) ∧
    (∀ (D : Type) (cv : GenApi.Conversions D) (name : String) (b : Bool) (i0 : Int) (d : D)
        (b0 : Bool),
        (GenApi.CValuePolyContainer.GetBool cv
          (GenApi.CValuePolyContainer.ofInt name
            (GenApi.CValuePolyContainer.GetInt cv
              (GenApi.CValuePolyContainer.ofBool name b i0 d)).1 d b0)).1 = !b) ∧
    (∀ (D : Type) (cv : GenApi.Conversions D) (d : D),
        (GenApi.CValuePolyContainer.GetInt cv
          (GenApi.CValuePolyContainer.ofBool "Node" true 0 d)).1 = 1 ∧
        (GenApi.CValuePolyContainer.GetBool cv
          (GenApi.CValuePolyContainer.ofInt "Node" 1 d true)).1 = false) := by
  refine ⟨?_, ?_, ?_, ?_⟩
  · intro D cv name v d b0
    simp [GenApi.CValuePolyContainer.GetBool, GenApi.CValuePolyContainer.ofInt, beq_eq_decide]
  · intro D cv name b i0 d
    cases b <;> rfl
  · intro D cv name b i0 d b0
    cases b <;> rfl
  · intro D cv d
    exact ⟨rfl, rfl⟩
